import Mathlib


/-!
# SolveSpace: sketch modification and the banded linear solve

A shallow embedding of `src/util.cpp` (`BandedMatrix::Solve`) and
`src/gw/modify.cpp` (constraint repair, splitting, tangent arcs), with the
properties proved about them.

Numbers: a C++ `double` is modelled in exact arithmetic.  The linear solve is
written once, over any type with `-`, `*` and `/`, and is used at `ℚ` and at
`Dbl`, the rationals extended by one value for the result of a division by zero.
-/

namespace SolveSpace

/-! ## Numbers -/

/-- A `double` in exact arithmetic: a rational number, or `nonfinite` for the
result of a division by zero (an IEEE infinity or NaN) and for everything
computed from such a result. -/
inductive Dbl where
  | fin (q : ℚ)
  | nonfinite
deriving DecidableEq

namespace Dbl

/-- Subtraction of doubles; a non-finite operand gives a non-finite result. -/
def sub : Dbl → Dbl → Dbl
  | fin a, fin b => fin (a - b)
  | _, _ => nonfinite

/-- Multiplication of doubles; a non-finite operand gives a non-finite result. -/
def mul : Dbl → Dbl → Dbl
  | fin a, fin b => fin (a * b)
  | _, _ => nonfinite

/-- Division of doubles; the quotient by zero is not finite. -/
def div : Dbl → Dbl → Dbl
  | fin a, fin b => if b = 0 then nonfinite else fin (a / b)
  | _, _ => nonfinite

instance : Sub Dbl := ⟨sub⟩
instance : Mul Dbl := ⟨mul⟩
instance : Div Dbl := ⟨div⟩

end Dbl

/-! ## Loops -/

/-- The loop `for (k = start; cond(k); k++) body(k)`, run for at most `fuel`
iterations. -/
def forUp {σ : Type} (cond : Nat → Bool) (body : Nat → σ → σ) : Nat → Nat → σ → σ
  | 0, _, s => s
  | fuel + 1, k, s => if cond k then forUp cond body fuel (k + 1) (body k s) else s

/-- The loop `for (k = top - 1; k >= 0; k--) body(k)`. -/
def forDown {σ : Type} (body : Nat → σ → σ) : Nat → σ → σ
  | 0, s => s
  | k + 1, s => forDown body k (body k s)

/-- The loop `for (j = i + c; j > i; j--) body(j)`: it runs `c` times. -/
def forDownTo {σ : Type} (i : Nat) (body : Nat → σ → σ) : Nat → σ → σ
  | 0, s => s
  | c + 1, s => forDownTo i body c (body (i + c + 1) s)

/-! ## BandedMatrix (util.cpp) -/

/-- The class `BandedMatrix`: the system `A·X = B` of `n` unknowns.  The arrays
are total functions of the index; only indices below `n` are ever used. -/
structure BandedMatrix (α : Type) where
  n : Nat
  A : Nat → Nat → α
  B : Nat → α
  X : Nat → α

namespace BandedMatrix

variable {α : Type}

/-- The assignment `A[r][c] = v`. -/
def setA (m : BandedMatrix α) (r c : Nat) (v : α) : BandedMatrix α :=
  { m with A := fun r' c' => if r' = r ∧ c' = c then v else m.A r' c' }

/-- The assignment `B[r] = v`. -/
def setB (m : BandedMatrix α) (r : Nat) (v : α) : BandedMatrix α :=
  { m with B := fun r' => if r' = r then v else m.B r' }

/-- The assignment `X[r] = v`. -/
def setX (m : BandedMatrix α) (r : Nat) (v : α) : BandedMatrix α :=
  { m with X := fun r' => if r' = r then v else m.X r' }

variable [Sub α] [Mul α] [Div α]

/-- The `jp` loop of `Solve`: subtract `temp` times row `i` from row `ip` in the
band columns `i .. i+RIGHT_OF_DIAG` below `n-2`.  The C test `jp < (n - 2)` on
`int`s is `jp + 2 < n`. -/
def rowOpBand (RIGHT_OF_DIAG i ip : Nat) (temp : α) (m : BandedMatrix α) : BandedMatrix α :=
  forUp (fun jp => decide (jp + 2 < m.n) && decide (jp ≤ i + RIGHT_OF_DIAG))
    (fun jp s => s.setA ip jp (s.A ip jp - temp * s.A i jp)) m.n i m

/-- The body of the `ip` loop of `Solve`: subtract `temp` times row `i` from
row `ip`, in the band columns, in the last two columns, and in `B`. -/
def rowOp (RIGHT_OF_DIAG i ip : Nat) (m : BandedMatrix α) : BandedMatrix α :=
  let temp := m.A ip i / m.A i i
  let m1 := rowOpBand RIGHT_OF_DIAG i ip temp m
  let m2 := m1.setA ip (m.n - 2) (m1.A ip (m.n - 2) - temp * m1.A i (m.n - 2))
  let m3 := m2.setA ip (m.n - 1) (m2.A ip (m.n - 1) - temp * m2.A i (m.n - 1))
  m3.setB ip (m3.B ip - temp * m3.B i)

/-- The body of the outer loop of the reduction: the `ip` loop for column `i`. -/
def elimCol (LEFT_OF_DIAG RIGHT_OF_DIAG i : Nat) (m : BandedMatrix α) : BandedMatrix α :=
  forUp (fun ip => decide (ip < m.n) && decide (ip ≤ i + LEFT_OF_DIAG))
    (fun ip s => rowOp RIGHT_OF_DIAG i ip s) m.n (i + 1) m

/-- The first loop nest of `Solve`: reduce the matrix to upper triangular form. -/
def Reduce (LEFT_OF_DIAG RIGHT_OF_DIAG : Nat) (m : BandedMatrix α) : BandedMatrix α :=
  forUp (fun i => decide (i < m.n)) (fun i s => elimCol LEFT_OF_DIAG RIGHT_OF_DIAG i s) m.n 0 m

/-- The start value of `j` in the back-substitution, `min(n - 3, i + RIGHT_OF_DIAG)`,
as the number of iterations `j = start, start-1, .., i+1` it gives; the `int` is
negative when `n < 3`, and then the loop does not run. -/
def backCount (RIGHT_OF_DIAG n i : Nat) : Nat :=
  (min ((n : Int) - 3) ((i : Int) + (RIGHT_OF_DIAG : Int)) - (i : Int)).toNat

/-- The body of the back-substitution loop of `Solve`, for row `i`. -/
def backStep (RIGHT_OF_DIAG i : Nat) (m : BandedMatrix α) : BandedMatrix α :=
  let temp := m.B i
  let temp := if i + 1 < m.n then temp - m.X (m.n - 1) * m.A i (m.n - 1) else temp
  let temp := if i + 2 < m.n then temp - m.X (m.n - 2) * m.A i (m.n - 2) else temp
  let temp := forDownTo i (fun j t => t - m.X j * m.A i j) (backCount RIGHT_OF_DIAG m.n i) temp
  m.setX i (temp / m.A i i)

/-- The second loop of `Solve`: back-substitute, `i = n-1` down to `0`. -/
def BackSubstitute (RIGHT_OF_DIAG : Nat) (m : BandedMatrix α) : BandedMatrix α :=
  forDown (fun i s => backStep RIGHT_OF_DIAG i s) m.n m

/-- `BandedMatrix::Solve`, with the class constants `LEFT_OF_DIAG` and
`RIGHT_OF_DIAG` as parameters. -/
def Solve (LEFT_OF_DIAG RIGHT_OF_DIAG : Nat) (m : BandedMatrix α) : BandedMatrix α :=
  BackSubstitute RIGHT_OF_DIAG (Reduce LEFT_OF_DIAG RIGHT_OF_DIAG m)

/-- A matrix of rationals as a matrix of doubles. -/
def toDbl (m : BandedMatrix ℚ) : BandedMatrix Dbl :=
  { n := m.n, A := fun r c => Dbl.fin (m.A r c), B := fun r => Dbl.fin (m.B r),
    X := fun r => Dbl.fin (m.X r) }

/-! ### Specification-level definitions for the solve -/

/-- The columns of row `ip` that `rowOp` writes. -/
def touched (RIGHT_OF_DIAG n i c : Nat) : Prop :=
  (i ≤ c ∧ c + 2 < n ∧ c ≤ i + RIGHT_OF_DIAG) ∨ c = n - 2 ∨ c = n - 1

instance (R n i c : Nat) : Decidable (touched R n i c) := by unfold touched; infer_instance

/-- What `rowOp` computes, as one assignment to row `ip`. -/
def rowOpSpec [Sub α] [Mul α] [Div α] (R i ip : Nat) (m : BandedMatrix α) : BandedMatrix α :=
  { n := m.n
    A := fun r c => if r = ip ∧ touched R m.n i c
      then m.A r c - (m.A ip i / m.A i i) * m.A i c else m.A r c
    B := fun r => if r = ip then m.B r - (m.A ip i / m.A i i) * m.B i else m.B r
    X := m.X }

/-- What `elimCol` computes: every row `i < r ≤ i + LEFT_OF_DIAG` below `n` gets
the row operation against row `i`. -/
def elimColSpec [Sub α] [Mul α] [Div α] (L R i : Nat) (m : BandedMatrix α) : BandedMatrix α :=
  { n := m.n
    A := fun r c => if (i < r ∧ r < m.n ∧ r ≤ i + L) ∧ touched R m.n i c
      then m.A r c - (m.A r i / m.A i i) * m.A i c else m.A r c
    B := fun r => if i < r ∧ r < m.n ∧ r ≤ i + L
      then m.B r - (m.A r i / m.A i i) * m.B i else m.B r
    X := m.X }

/-- The matrix after the outer iterations `i = 0 .. k-1` of the reduction. -/
def reduceUpTo [Sub α] [Mul α] [Div α] (L R : Nat) : Nat → BandedMatrix α → BandedMatrix α
  | 0, m => m
  | k + 1, m => elimColSpec L R k (reduceUpTo L R k m)

/-- Row `r` of the product `A·x`. -/
def rowDot (m : BandedMatrix ℚ) (x : Nat → ℚ) (r : Nat) : ℚ :=
  Finset.sum (Finset.range m.n) fun c => m.A r c * x c

/-- The band structure: row `r` is zero outside the columns
`r - LEFT_OF_DIAG .. r + RIGHT_OF_DIAG` and the last two columns. -/
def Banded (L R : Nat) (m : BandedMatrix ℚ) : Prop :=
  ∀ r c, r < m.n → c < m.n → (c + L < r ∨ r + R < c) → c ≠ m.n - 2 → c ≠ m.n - 1 →
    m.A r c = 0

/-- The first `k` columns are zero below the diagonal. -/
def LowerZero (k : Nat) (m : BandedMatrix ℚ) : Prop :=
  ∀ r c, c < k → c < r → r < m.n → m.A r c = 0

/-- Every solution of `s` is a solution of `m`. -/
def SolImp (s m : BandedMatrix ℚ) : Prop :=
  ∀ x : Nat → ℚ, (∀ r, r < s.n → rowDot s x r = s.B r) → ∀ r, r < m.n → rowDot m x r = m.B r

/-- The value `temp` that `backStep` divides by the pivot. -/
def backTemp (R i : Nat) (m : BandedMatrix ℚ) : ℚ :=
  forDownTo i (fun j t => t - m.X j * m.A i j) (backCount R m.n i)
    (if i + 2 < m.n then
      (if i + 1 < m.n then m.B i - m.X (m.n - 1) * m.A i (m.n - 1) else m.B i)
        - m.X (m.n - 2) * m.A i (m.n - 2)
     else (if i + 1 < m.n then m.B i - m.X (m.n - 1) * m.A i (m.n - 1) else m.B i))

/-- The matrix is upper triangular inside the band: what the reduction leaves. -/
def UpperBanded (L R : Nat) (m : BandedMatrix ℚ) : Prop :=
  Banded L R m ∧ LowerZero m.n m ∧ ∀ i, i < m.n → m.A i i ≠ 0

/-- Rows `k ..` of the system hold for the current `X`. -/
def RowsHold (k : Nat) (m : BandedMatrix ℚ) : Prop :=
  ∀ i, k ≤ i → i < m.n → rowDot m m.X i = m.B i

end BandedMatrix

end SolveSpace

namespace SolveSpace

namespace BandedMatrix

/-! ### Example systems -/

/-- A tridiagonal system of three unknowns. -/
def exampleSystem : BandedMatrix ℚ :=
  { n := 3
    A := fun r c => if r = c then 2 else if r + 1 = c ∨ c + 1 = r then 1 else 0
    B := fun r => r + 1
    X := fun _ => 0 }

/-- A system of one unknown whose only pivot is zero. -/
def zeroPivot : BandedMatrix Dbl :=
  { n := 1, A := fun _ _ => Dbl.fin 0, B := fun _ => Dbl.fin 1, X := fun _ => Dbl.fin 0 }

/-- A system of two unknowns whose first pivot is zero: `0·x + y = 1`, `x + y = 2`. -/
def zeroFirstPivot : BandedMatrix Dbl :=
  { n := 2
    A := fun r c => if r = 0 ∧ c = 0 then Dbl.fin 0 else Dbl.fin 1
    B := fun r => if r = 0 then Dbl.fin 1 else Dbl.fin 2
    X := fun _ => Dbl.fin 0 }

end BandedMatrix

end SolveSpace

namespace SolveSpace

namespace BandedMatrix

/-! ### Diagonal dominance -/

/-- The sum of the absolute values of row `r` off the diagonal. -/
def offDiag (m : BandedMatrix ℚ) (r : Nat) : ℚ :=
  Finset.sum (Finset.range m.n) fun c => if c = r then 0 else |m.A r c|

/-- Strict diagonal dominance by rows: in every row the absolute value of the
diagonal entry exceeds the sum of the absolute values of the other entries. -/
def DiagDominant (m : BandedMatrix ℚ) : Prop :=
  ∀ r, r < m.n → offDiag m r < |m.A r r|

/-- The rows `k ..` are strictly diagonally dominant. -/
def DominantFrom (k : Nat) (m : BandedMatrix ℚ) : Prop :=
  ∀ r, k ≤ r → r < m.n → offDiag m r < |m.A r r|

/-- A strictly diagonally dominant tridiagonal system of three unknowns. -/
def dominantSystem : BandedMatrix ℚ :=
  { n := 3
    A := fun r c => if r = c then 4 else if r + 1 = c ∨ c + 1 = r then 1 else 0
    B := fun r => r + 1
    X := fun _ => 0 }

end BandedMatrix

end SolveSpace

/-! # The sketch (modify.cpp)

`modify.cpp` works on the global sketch `SK` (requests, entities, constraints),
the settings `SS` and the graphics window `SS.GW`.  They are one value
`Sketch` here, passed explicitly.  A function that can hit an `ssassert` (a
handle that is not in its list) returns an `Option`.

The handle classes, the lists with identifiers, `Entity`, `Request` and the
`Constraint::Constrain` helpers are not in the sources at hand; their
definitions below are modelled from the specification and are marked so. -/

namespace SolveSpace

/-! ## Vectors -/

/-- The class `Vector`, with exact coordinates. -/
structure Vector where
  x : ℚ
  y : ℚ
  z : ℚ
deriving DecidableEq

namespace Vector

/-- `Vector::From`. -/
def From (x y z : ℚ) : Vector := ⟨x, y, z⟩

/-- `Vector::Plus`. -/
def Plus (a b : Vector) : Vector := ⟨a.x + b.x, a.y + b.y, a.z + b.z⟩

/-- `Vector::Minus`. -/
def Minus (a b : Vector) : Vector := ⟨a.x - b.x, a.y - b.y, a.z - b.z⟩

/-- `Vector::ScaledBy`. -/
def ScaledBy (a : Vector) (s : ℚ) : Vector := ⟨a.x * s, a.y * s, a.z * s⟩

/-- `Vector::Dot`. -/
def Dot (a b : Vector) : ℚ := a.x * b.x + a.y * b.y + a.z * b.z

/-- `Vector::Cross`. -/
def Cross (a b : Vector) : Vector :=
  ⟨a.y * b.z - a.z * b.y, a.z * b.x - a.x * b.z, a.x * b.y - a.y * b.x⟩

/-- `Vector::MagSquared`. -/
def MagSquared (a : Vector) : ℚ := a.x * a.x + a.y * a.y + a.z * a.z

/-- `Vector::DivProjected`, the three-dimensional form of `Point2d::DivProjected`. -/
def DivProjected (a delta : Vector) : ℚ :=
  (a.x * delta.x + a.y * delta.y + a.z * delta.z)
    / (delta.x * delta.x + delta.y * delta.y + delta.z * delta.z)

/-- `Vector::Equals`, the three-dimensional form of `Point2d::Equals`: the
coordinate tests first, then the squared distance against `tol²`. -/
def Equals (a v : Vector) (tol : ℚ) : Bool :=
  let dx := v.x - a.x
  if dx < -tol ∨ dx > tol then false else
  let dy := v.y - a.y
  if dy < -tol ∨ dy > tol then false else
  let dz := v.z - a.z
  if dz < -tol ∨ dz > tol then false else
  decide ((a.Minus v).MagSquared < tol * tol)

end Vector

/-! ## Handles -/

/-- The handle of a group. -/
structure hGroup where
  v : Nat
deriving DecidableEq

/-- The handle of a request. -/
structure hRequest where
  v : Nat
deriving DecidableEq

/-- The handle of an entity. -/
structure hEntity where
  v : Nat
deriving DecidableEq

/-- The handle of a constraint. -/
structure hConstraint where
  v : Nat
deriving DecidableEq

/-- The handle of a parameter. -/
structure hParam where
  v : Nat
deriving DecidableEq

/-- Modelled from the spec: `hRequest::entity(i)`, the handle of the `i`-th entity
that a request generates; the handle carries its owning request and a local
index below 65536 (`(v << 16) | i`). -/
def hRequest.entity (r : hRequest) (i : Nat) : hEntity := ⟨r.v * 65536 + i⟩

/-- Modelled from the spec: `hEntity::request()`, the request that owns an entity
(`v >> 16`). -/
def hEntity.request (e : hEntity) : hRequest := ⟨e.v / 65536⟩

/-! ## Entities, requests, constraints -/

/-- The kinds of entity (`Entity::Type`) that `modify.cpp` tells apart; every
other kind is `OTHER`. -/
inductive EntityType where
  | POINT_IN_3D
  | POINT_IN_2D
  | NORMAL
  | WORKPLANE
  | LINE_SEGMENT
  | CUBIC
  | CUBIC_PERIODIC
  | CIRCLE
  | ARC_OF_CIRCLE
  | OTHER
deriving DecidableEq

/-- The kinds of request (`Request::Type`). -/
inductive RequestType where
  | WORKPLANE
  | DATUM_POINT
  | LINE_SEGMENT
  | CUBIC
  | CUBIC_PERIODIC
  | CIRCLE
  | ARC_OF_CIRCLE
  | TTF_TEXT
  | IMAGE
deriving DecidableEq

/-- The enumeration `Constraint::Type` of `constraint.h`. -/
inductive ConstraintType where
  | POINTS_COINCIDENT
  | PT_PT_DISTANCE
  | PT_PLANE_DISTANCE
  | PT_LINE_DISTANCE
  | PT_FACE_DISTANCE
  | PROJ_PT_DISTANCE
  | PT_IN_PLANE
  | PT_ON_LINE
  | PT_ON_FACE
  | EQUAL_LENGTH_LINES
  | LENGTH_RATIO
  | EQ_LEN_PT_LINE_D
  | EQ_PT_LN_DISTANCES
  | EQUAL_ANGLE
  | EQUAL_LINE_ARC_LEN
  | LENGTH_DIFFERENCE
  | SYMMETRIC
  | SYMMETRIC_HORIZ
  | SYMMETRIC_VERT
  | SYMMETRIC_LINE
  | AT_MIDPOINT
  | HORIZONTAL
  | VERTICAL
  | DIAMETER
  | PT_ON_CIRCLE
  | SAME_ORIENTATION
  | ANGLE
  | PARALLEL
  | PERPENDICULAR
  | ARC_LINE_TANGENT
  | CUBIC_LINE_TANGENT
  | CURVE_CURVE_TANGENT
  | EQUAL_RADIUS
  | WHERE_DRAGGED
  | ARC_ARC_LEN_RATIO
  | ARC_LINE_LEN_RATIO
  | ARC_ARC_DIFFERENCE
  | ARC_LINE_DIFFERENCE
  | COMMENT
deriving DecidableEq

/-- `Entity::NO_ENTITY`. -/
def NO_ENTITY : hEntity := ⟨0⟩

/-- Modelled from the spec: an entity.  It refers to other entities by handle
(`point[]`, `normal`, `workplane`); a point holds its numeric position and a
normal its numeric axes, which stand for the parameters behind them. -/
structure Entity where
  h : hEntity
  type : EntityType
  group : hGroup
  workplane : hEntity
  point : List hEntity
  normal : hEntity
  numPoint : Vector
  numU : Vector
  numV : Vector
  numN : Vector
deriving DecidableEq

/-- Modelled from the spec: a request, the user-level instruction that a group
expands into entities. -/
structure Request where
  tag : Int
  h : hRequest
  type : RequestType
  group : hGroup
  workplane : hEntity
  construction : Bool
deriving DecidableEq

/-- The class `Constraint` of `constraint.h`, without the display data. -/
structure Constraint where
  tag : Int
  h : hConstraint
  type : ConstraintType
  group : hGroup
  workplane : hEntity
  valA : ℚ
  valP : hParam
  ptA : hEntity
  ptB : hEntity
  entityA : hEntity
  entityB : hEntity
  entityC : hEntity
  entityD : hEntity
  other : Bool
  other2 : Bool
  reference : Bool
  comment : String
deriving DecidableEq

/-- The selection `gs` that `GroupSelection` fills in. -/
structure Selection where
  point : List hEntity
  entity : List hEntity
  points : Nat
  lineSegments : Nat
  circlesOrArcs : Nat
  cubics : Nat
  periodicCubics : Nat
deriving DecidableEq

/-- The state that `modify.cpp` reads and writes: the lists of `SK`, the
settings of `SS` and the fields of the graphics window, with the messages
given to `Error` and the number of calls of `SS.UndoRemember`. -/
structure Sketch where
  request : List Request
  entity : List Entity
  constraint : List Constraint
  activeGroup : hGroup
  activeWorkplane : hEntity
  gs : Selection
  tangentArcManual : Bool
  tangentArcRadius : ℚ
  tangentArcModify : Bool
  scale : ℚ
  deletedConstraints : Nat
  deletedNonTrivialConstraints : Nat
  deletedRequests : Nat
  undoCount : Nat
  errors : List String

/-- `Entity::FREE_IN_3D`, the workplane handle of an entity outside any workplane. -/
def FREE_IN_3D : hEntity := ⟨0⟩

namespace Entity

/-- `point[i]`; an index outside the array gives `NO_ENTITY`. -/
def pointAt (e : Entity) (i : Nat) : hEntity := e.point.getD i NO_ENTITY

/-- `Entity::IsPoint`. -/
def IsPoint (e : Entity) : Bool :=
  decide (e.type = EntityType.POINT_IN_3D) || decide (e.type = EntityType.POINT_IN_2D)

/-- `Entity::IsCircle`. -/
def IsCircle (e : Entity) : Bool :=
  decide (e.type = EntityType.CIRCLE) || decide (e.type = EntityType.ARC_OF_CIRCLE)

/-- Modelled from the spec: `Entity::PointGetNum`, the numeric position of a point. -/
def PointGetNum (e : Entity) : Vector := e.numPoint

end Entity

namespace Sketch

/-! ## The lists of `SK` -/

/-- Modelled from the spec: `SK.GetEntity`, the entity with the given handle;
`none` is the failed assertion for a handle that is not in the list. -/
def GetEntity (sk : Sketch) (h : hEntity) : Option Entity :=
  sk.entity.find? fun e => decide (e.h = h)

/-- Modelled from the spec: `SK.GetRequest`. -/
def GetRequest (sk : Sketch) (h : hRequest) : Option Request :=
  sk.request.find? fun r => decide (r.h = h)

/-- Replace the first element that satisfies `p` by its image under `f`: an
assignment through the pointer that a lookup by handle returns. -/
def modifyFirst {α : Type} (p : α → Bool) (f : α → α) : List α → List α
  | [] => []
  | a :: as => if p a then f a :: as else a :: modifyFirst p f as

/-- Modelled from the spec: `SK.GetEntity(h)->PointForceTo(p)`, which sets the
numeric position of the point `h`. -/
def PointForceTo (sk : Sketch) (h : hEntity) (p : Vector) : Option Sketch :=
  match sk.GetEntity h with
  | none => none
  | some _ =>
    some { sk with entity := modifyFirst (fun e => decide (e.h = h))
                     (fun e => { e with numPoint := p }) sk.entity }

/-- Modelled from the spec: `IdList::MaximumId` on the constraint list. -/
def constraintMaximumId (l : List Constraint) : Nat :=
  l.foldl (fun mx c => max mx c.h.v) 0

/-- Modelled from the spec: `IdList::MaximumId` on the request list. -/
def requestMaximumId (l : List Request) : Nat :=
  l.foldl (fun mx r => max mx r.h.v) 0

/-- Modelled from the spec: `SK.constraint.ClearTags`. -/
def clearConstraintTags (l : List Constraint) : List Constraint :=
  l.map fun c => { c with tag := 0 }

/-- Modelled from the spec: `SK.constraint.RemoveTagged`, which drops the elements
whose tag is set and keeps the order of the others. -/
def removeTaggedConstraints (l : List Constraint) : List Constraint :=
  l.filter fun c => decide (c.tag = 0)

/-- Modelled from the spec: the constraint that `Constraint::Constrain` builds: of
the active group and workplane, under the next free identifier. -/
def newConstraint (sk : Sketch) (type : ConstraintType) (ptA ptB entityA entityB : hEntity)
    (other other2 : Bool) : Constraint :=
  { tag := 0
    h := ⟨constraintMaximumId sk.constraint + 1⟩
    type := type
    group := sk.activeGroup
    workplane := sk.activeWorkplane
    valA := 0
    valP := ⟨0⟩
    ptA := ptA
    ptB := ptB
    entityA := entityA
    entityB := entityB
    entityC := NO_ENTITY
    entityD := NO_ENTITY
    other := other
    other2 := other2
    reference := false
    comment := "" }

/-- Modelled from the spec: `Constraint::Constrain`, which appends the new
constraint to the list. -/
def Constrain (sk : Sketch) (type : ConstraintType) (ptA ptB entityA entityB : hEntity)
    (other other2 : Bool) : Sketch :=
  { sk with constraint :=
      sk.constraint ++ [sk.newConstraint type ptA ptB entityA entityB other other2] }

/-- Modelled from the spec: `Constraint::ConstrainCoincident`. -/
def ConstrainCoincident (sk : Sketch) (ptA ptB : hEntity) : Sketch :=
  sk.Constrain ConstraintType.POINTS_COINCIDENT ptA ptB NO_ENTITY NO_ENTITY false false

/-- `Error(msg)`: the message is recorded. -/
def Error (sk : Sketch) (msg : String) : Sketch :=
  { sk with errors := sk.errors ++ [msg] }

/-- `SS.UndoRemember()`: the snapshot is counted. -/
def UndoRemember (sk : Sketch) : Sketch :=
  { sk with undoCount := sk.undoCount + 1 }

/-- `ClearSelection()`. -/
def ClearSelection (sk : Sketch) : Sketch :=
  { sk with gs := ⟨[], [], 0, 0, 0, 0, 0⟩ }

/-- Modelled from the spec: the number of points of the entity that a request
of the given kind generates. -/
def requestPoints : RequestType → Nat
  | RequestType.LINE_SEGMENT => 2
  | RequestType.CUBIC => 4
  | RequestType.CUBIC_PERIODIC => 3
  | RequestType.CIRCLE => 1
  | RequestType.ARC_OF_CIRCLE => 3
  | _ => 0

/-- Modelled from the spec: the kind of the entity `entity(0)` of a request. -/
def requestEntityType (inWorkplane : Bool) : RequestType → EntityType
  | RequestType.WORKPLANE => EntityType.WORKPLANE
  | RequestType.DATUM_POINT =>
      if inWorkplane then EntityType.POINT_IN_2D else EntityType.POINT_IN_3D
  | RequestType.LINE_SEGMENT => EntityType.LINE_SEGMENT
  | RequestType.CUBIC => EntityType.CUBIC
  | RequestType.CUBIC_PERIODIC => EntityType.CUBIC_PERIODIC
  | RequestType.CIRCLE => EntityType.CIRCLE
  | RequestType.ARC_OF_CIRCLE => EntityType.ARC_OF_CIRCLE
  | _ => EntityType.OTHER

/-- Modelled from the spec: the entity `entity(0)` that a request generates; its
points are `entity(1)`, `entity(2)`, .. -/
def generatedEntity (r : Request) : Entity :=
  { h := r.h.entity 0
    type := requestEntityType (decide (r.workplane ≠ FREE_IN_3D)) r.type
    group := r.group
    workplane := r.workplane
    point := (List.range (requestPoints r.type)).map fun i => r.h.entity (i + 1)
    normal := NO_ENTITY
    numPoint := ⟨0, 0, 0⟩, numU := ⟨0, 0, 0⟩, numV := ⟨0, 0, 0⟩, numN := ⟨0, 0, 0⟩ }

/-- Modelled from the spec: the point `entity(i)` that a request generates, at
the position `p`. -/
def generatedPoint (r : Request) (i : Nat) (p : Vector) : Entity :=
  { h := r.h.entity i
    type := if r.workplane ≠ FREE_IN_3D then EntityType.POINT_IN_2D else EntityType.POINT_IN_3D
    group := r.group
    workplane := r.workplane
    point := []
    normal := NO_ENTITY
    numPoint := p, numU := ⟨0, 0, 0⟩, numV := ⟨0, 0, 0⟩, numN := ⟨0, 0, 0⟩ }

/-- Modelled from the spec: `Request::Generate`, the entities that a request
expands into: `entity(0)`, then its points at the origin. -/
def Generate (r : Request) : List Entity :=
  generatedEntity r
    :: (List.range (requestPoints r.type)).map fun i => generatedPoint r (i + 1) ⟨0, 0, 0⟩

/-- Modelled from the spec: the request that `AddRequest` appends: of the active
group and workplane, not construction, under the next free identifier. -/
def newRequest (sk : Sketch) (type : RequestType) : Request :=
  { tag := 0, h := ⟨requestMaximumId sk.request + 1⟩, type := type, group := sk.activeGroup,
    workplane := sk.activeWorkplane, construction := false }

/-- Modelled from the spec: `GraphicsWindow::AddRequest(type, false)`, which
appends the new request, generates its entities, and returns its handle. -/
def AddRequest (sk : Sketch) (type : RequestType) : hRequest × Sketch :=
  ((sk.newRequest type).h,
    { sk with request := sk.request ++ [sk.newRequest type],
              entity := sk.entity ++ Generate (sk.newRequest type) })

/-! ## modify.cpp -/

/-- `GraphicsWindow::ReplacePointInConstraints`. -/
def ReplacePointInConstraints (sk : Sketch) (oldpt newpt : hEntity) : Sketch :=
  { sk with constraint := sk.constraint.map fun c =>
      let c := if c.ptA = oldpt then { c with ptA := newpt } else c
      if c.ptB = oldpt then { c with ptB := newpt } else c }

/-- The loop of `FixConstraintsForPointBeingDeleted` over the constraints: it
tags the coincidence constraints of the active group on `hpt` and collects
the other point of each in `ld`. -/
def fixLoop (activeGroup : hGroup) (hpt : hEntity) :
    List Constraint → List hEntity → List Constraint × List hEntity
  | [], ld => ([], ld)
  | c :: cs, ld =>
    if c.type ≠ ConstraintType.POINTS_COINCIDENT then
      let (cs', ld') := fixLoop activeGroup hpt cs ld
      (c :: cs', ld')
    else if c.group ≠ activeGroup then
      let (cs', ld') := fixLoop activeGroup hpt cs ld
      (c :: cs', ld')
    else
      let (c1, ld1) := if c.ptA = hpt then ({ c with tag := 1 }, ld ++ [c.ptB]) else (c, ld)
      let (c2, ld2) := if c1.ptB = hpt then ({ c1 with tag := 1 }, ld1 ++ [c1.ptA]) else (c1, ld1)
      let (cs', ld') := fixLoop activeGroup hpt cs ld2
      (c2 :: cs', ld')

/-- The loop `for (i = 1; i < ld.n; i++) ConstrainCoincident(ld[i-1], ld[i])`. -/
def constrainChain (sk : Sketch) : List hEntity → Sketch
  | a :: b :: rest => constrainChain (sk.ConstrainCoincident a b) (b :: rest)
  | _ => sk

/-- `GraphicsWindow::FixConstraintsForPointBeingDeleted`. -/
def FixConstraintsForPointBeingDeleted (sk : Sketch) (hpt : hEntity) : Sketch :=
  let (cs, ld) := fixLoop sk.activeGroup hpt (clearConstraintTags sk.constraint) []
  let sk1 := { sk with constraint := removeTaggedConstraints cs }
  constrainChain sk1 ld

/-- `GraphicsWindow::SplitLine`. -/
def SplitLine (sk : Sketch) (he : hEntity) (pinter : Vector) : Option (hEntity × Sketch) := do
  let e01 ← sk.GetEntity he
  let hep0 := e01.pointAt 0
  let hep1 := e01.pointAt 1
  let p0 := (← sk.GetEntity hep0).PointGetNum
  let p1 := (← sk.GetEntity hep1).PointGetNum
  let (r0i, sk) := sk.AddRequest RequestType.LINE_SEGMENT
  let (ri1, sk) := sk.AddRequest RequestType.LINE_SEGMENT
  let e0i ← sk.GetEntity (r0i.entity 0)
  let ei1 ← sk.GetEntity (ri1.entity 0)
  let sk ← sk.PointForceTo (e0i.pointAt 0) p0
  let sk ← sk.PointForceTo (e0i.pointAt 1) pinter
  let sk ← sk.PointForceTo (ei1.pointAt 0) pinter
  let sk ← sk.PointForceTo (ei1.pointAt 1) p1
  let sk := sk.ReplacePointInConstraints hep0 (e0i.pointAt 0)
  let sk := sk.ReplacePointInConstraints hep1 (ei1.pointAt 1)
  let sk := sk.ConstrainCoincident (e0i.pointAt 1) (ei1.pointAt 0)
  return (e0i.pointAt 1, sk)

/-- `GraphicsWindow::SplitCircle`. -/
def SplitCircle (sk : Sketch) (he : hEntity) (pinter : Vector) : Option (hEntity × Sketch) := do
  let circle ← sk.GetEntity he
  if circle.type = EntityType.CIRCLE then
    let center := (← sk.GetEntity (circle.pointAt 0)).PointGetNum
    let (hr, sk) := sk.AddRequest RequestType.ARC_OF_CIRCLE
    let arc ← sk.GetEntity (hr.entity 0)
    let sk ← sk.PointForceTo (arc.pointAt 0) center
    let sk ← sk.PointForceTo (arc.pointAt 1) pinter
    let sk ← sk.PointForceTo (arc.pointAt 2) pinter
    let sk := sk.ConstrainCoincident (arc.pointAt 1) (arc.pointAt 2)
    return (arc.pointAt 1, sk)
  else
    let hc := circle.pointAt 0
    let hs := circle.pointAt 1
    let hf := circle.pointAt 2
    let center := (← sk.GetEntity hc).PointGetNum
    let start := (← sk.GetEntity hs).PointGetNum
    let finish := (← sk.GetEntity hf).PointGetNum
    let (hr0, sk) := sk.AddRequest RequestType.ARC_OF_CIRCLE
    let (hr1, sk) := sk.AddRequest RequestType.ARC_OF_CIRCLE
    let arc0 ← sk.GetEntity (hr0.entity 0)
    let arc1 ← sk.GetEntity (hr1.entity 0)
    let sk ← sk.PointForceTo (arc0.pointAt 0) center
    let sk ← sk.PointForceTo (arc0.pointAt 1) start
    let sk ← sk.PointForceTo (arc0.pointAt 2) pinter
    let sk ← sk.PointForceTo (arc1.pointAt 0) center
    let sk ← sk.PointForceTo (arc1.pointAt 1) pinter
    let sk ← sk.PointForceTo (arc1.pointAt 2) finish
    let sk := sk.ReplacePointInConstraints hs (arc0.pointAt 1)
    let sk := sk.ReplacePointInConstraints hf (arc1.pointAt 2)
    let sk := sk.ConstrainCoincident (arc0.pointAt 2) (arc1.pointAt 1)
    return (arc0.pointAt 2, sk)

end Sketch

end SolveSpace

namespace SolveSpace

/-- What the claims say of a constraint: its kind, group, workplane and two points. -/
def Constraint.summary (c : Constraint) : ConstraintType × hGroup × hEntity × hEntity × hEntity :=
  (c.type, c.group, c.workplane, c.ptA, c.ptB)

namespace Sketch

/-! ### Specification-level definitions for the constraint repair -/

/-- The test of `FixConstraintsForPointBeingDeleted` for a constraint that it
removes: a coincidence constraint of the active group with `hpt` as `ptA` or `ptB`. -/
def isFixed (activeGroup : hGroup) (hpt : hEntity) (c : Constraint) : Bool :=
  decide (c.type = ConstraintType.POINTS_COINCIDENT) && decide (c.group = activeGroup)
    && (decide (c.ptA = hpt) || decide (c.ptB = hpt))

/-- The points that a constraint on `hpt` names beside it: `ptB` if `ptA` is
`hpt`, then `ptA` if `ptB` is `hpt`. -/
def partners (hpt : hEntity) (c : Constraint) : List hEntity :=
  (if c.ptA = hpt then [c.ptB] else []) ++ (if c.ptB = hpt then [c.ptA] else [])

/-- The partner points `q1 .. qk` of `hpt`, in list order. -/
def partnerPoints (activeGroup : hGroup) (hpt : hEntity) (cs : List Constraint) : List hEntity :=
  ((cs.filter (isFixed activeGroup hpt)).map (partners hpt)).flatten

/-- A sketch without requests, entities or constraints, in group 1 and workplane 9. -/
def emptySketch : Sketch :=
  { request := [], entity := [], constraint := [], activeGroup := ⟨1⟩, activeWorkplane := ⟨9⟩,
    gs := ⟨[], [], 0, 0, 0, 0, 0⟩, tangentArcManual := false, tangentArcRadius := 0,
    tangentArcModify := false, scale := 1, deletedConstraints := 0,
    deletedNonTrivialConstraints := 0, deletedRequests := 0, undoCount := 0, errors := [] }

/-- A coincidence constraint `a ≡ b` of group 1 with identifier `h`. -/
def coincident (h a b : Nat) : Constraint :=
  { tag := 0, h := ⟨h⟩, type := ConstraintType.POINTS_COINCIDENT, group := ⟨1⟩,
    workplane := ⟨9⟩, valA := 0, valP := ⟨0⟩, ptA := ⟨a⟩, ptB := ⟨b⟩, entityA := NO_ENTITY,
    entityB := NO_ENTITY, entityC := NO_ENTITY, entityD := NO_ENTITY, other := false,
    other2 := false, reference := false, comment := "" }

/-- The sketch with the two constraints `10 ≡ 20` and `20 ≡ 30`. -/
def chainSketch : Sketch :=
  { emptySketch with constraint := [coincident 1 10 20, coincident 2 20 30] }

end Sketch

end SolveSpace

namespace SolveSpace

namespace Sketch

/-! ### Specification-level definitions for the splitting functions -/

/-- Every entity of the sketch is owned by a request identifier that the request
list has reached, so that the identifiers `AddRequest` gives next are free. -/
def EntitiesOwned (sk : Sketch) : Prop :=
  ∀ e ∈ sk.entity, e.h.request.v ≤ requestMaximumId sk.request

instance (sk : Sketch) : Decidable sk.EntitiesOwned := by
  unfold EntitiesOwned
  infer_instance

/-- The request that the `k`-th call of `AddRequest` (counted from 0) on `sk` appends. -/
def requestNo (sk : Sketch) (k : Nat) (type : RequestType) : Request :=
  { tag := 0, h := ⟨requestMaximumId sk.request + 1 + k⟩, type := type, group := sk.activeGroup,
    workplane := sk.activeWorkplane, construction := false }

/-- The sketch with further requests and entities appended. -/
def withAdded (sk : Sketch) (rs : List Request) (es : List Entity) : Sketch :=
  { sk with request := sk.request ++ rs, entity := sk.entity ++ es }

/-- The point that a constraint refers to after `SplitLine` or `SplitCircle`:
`hep0` becomes `new0`, `hep1` becomes `new1`, every other point stays. -/
def repoint (hep0 new0 hep1 new1 : hEntity) (h : hEntity) : hEntity :=
  if h = hep0 then new0 else if h = hep1 then new1 else h

end Sketch

end SolveSpace

namespace SolveSpace

namespace Sketch

/-! ### Example sketches -/

/-- The request of the example sketch with a segment: a line segment under identifier 1. -/
def lineRequest : Request := requestNo emptySketch 0 RequestType.LINE_SEGMENT

/-- A distance constraint between the two endpoints of the example segment. -/
def lineDistance : Constraint :=
  { coincident 1 65537 65538 with type := ConstraintType.PT_PT_DISTANCE, valA := 4 }

/-- The sketch with one line segment from the origin to `(4, 0, 0)` and a
distance constraint between its endpoints. -/
def lineSketch : Sketch :=
  { emptySketch with
    request := [lineRequest]
    entity := [generatedEntity lineRequest, generatedPoint lineRequest 1 ⟨0, 0, 0⟩,
      generatedPoint lineRequest 2 ⟨4, 0, 0⟩]
    constraint := [lineDistance] }

/-- The request of the example sketch with a circle: a circle under identifier 1. -/
def circleRequest : Request := requestNo emptySketch 0 RequestType.CIRCLE

/-- The sketch with one circle centred at `(1, 1, 0)`. -/
def circleSketch : Sketch :=
  { emptySketch with
    request := [circleRequest]
    entity := [generatedEntity circleRequest, generatedPoint circleRequest 1 ⟨1, 1, 0⟩] }

end Sketch

end SolveSpace

/-! # Tangent arcs (modify.cpp)

`MakeTangentArc` and the class `ParametricCurve`.  The functions of `<cmath>`
and the few declarations of `solvespace.h` that the code uses but the sources
at hand do not define are the fields of `Math`; every definition takes them
as a parameter. -/

namespace SolveSpace

/-- The functions and constants that `modify.cpp` uses and that are defined
elsewhere: `sqrt`, `acos`, `tan`, `cos`, `sin` of the C library, `IsReasonable`
and `LENGTH_EPS` of `solvespace.h`, and `Entity::ArcGetAngles` (which gives
`theta0`, `theta1`, `dtheta` of an arc from the entity list). -/
structure Math where
  sqrt : ℚ → ℚ
  acos : ℚ → ℚ
  tan : ℚ → ℚ
  cos : ℚ → ℚ
  sin : ℚ → ℚ
  IsReasonable : ℚ → Bool
  LENGTH_EPS : ℚ
  ArcGetAngles : List Entity → Entity → ℚ × ℚ × ℚ

namespace Vector

/-- `Vector::Magnitude`. -/
def Magnitude (M : Math) (a : Vector) : ℚ := M.sqrt a.MagSquared

/-- Modelled from the spec: `Vector::WithMagnitude`, the vector scaled to the
length `v`; the zero vector stays zero. -/
def WithMagnitude (M : Math) (a : Vector) (v : ℚ) : Vector :=
  let m := a.Magnitude M
  if m = 0 then ⟨0, 0, 0⟩ else a.ScaledBy (v / m)

/-- Modelled from the spec: `VectorAtIntersectionOfLines(a0, a1, b0, b1, false)`,
the point of the line through `a0`, `a1` that is nearest to the line through
`b0`, `b1`: their intersection when they meet. -/
def AtIntersectionOfLines (a0 a1 b0 b1 : Vector) : Vector :=
  let da := a1.Minus a0
  let db := b1.Minus b0
  let dn := da.Cross db
  let dnb := dn.Cross db
  let pa := -((a0.Minus b0).Dot dnb) / (da.Dot dnb)
  a0.Plus (da.ScaledBy pa)

end Vector

/-- The class `GraphicsWindow::ParametricCurve`. -/
structure ParametricCurve where
  isLine : Bool
  p0 : Vector
  p1 : Vector
  u : Vector
  v : Vector
  r : ℚ
  theta0 : ℚ
  theta1 : ℚ
  dtheta : ℚ

namespace Sketch

/-- `LockedInWorkplane()`. -/
def LockedInWorkplane (sk : Sketch) : Bool := decide (sk.activeWorkplane ≠ FREE_IN_3D)

/-- Modelled from the spec: `Entity::EndpointStart`, for a line segment and an arc. -/
def EndpointStart (sk : Sketch) (e : Entity) : Option Vector :=
  if e.type = EntityType.LINE_SEGMENT then (sk.GetEntity (e.pointAt 0)).map Entity.PointGetNum
  else if e.type = EntityType.ARC_OF_CIRCLE then
    (sk.GetEntity (e.pointAt 1)).map Entity.PointGetNum
  else none

/-- Modelled from the spec: `Entity::EndpointFinish`, for a line segment and an arc. -/
def EndpointFinish (sk : Sketch) (e : Entity) : Option Vector :=
  if e.type = EntityType.LINE_SEGMENT then (sk.GetEntity (e.pointAt 1)).map Entity.PointGetNum
  else if e.type = EntityType.ARC_OF_CIRCLE then
    (sk.GetEntity (e.pointAt 2)).map Entity.PointGetNum
  else none

end Sketch

namespace ParametricCurve

/-- `ParametricCurve::MakeFromEntity`. -/
def MakeFromEntity (M : Math) (sk : Sketch) (he : hEntity) (reverse : Bool) :
    Option ParametricCurve := do
  let e ← sk.GetEntity he
  let zero : Vector := ⟨0, 0, 0⟩
  if e.type = EntityType.LINE_SEGMENT then
    let p0 ← sk.EndpointStart e
    let p1 ← sk.EndpointFinish e
    let (p0, p1) := if reverse then (p1, p0) else (p0, p1)
    return { isLine := true, p0 := p0, p1 := p1, u := zero, v := zero, r := 0,
             theta0 := 0, theta1 := 0, dtheta := 0 }
  else if e.type = EntityType.ARC_OF_CIRCLE then
    let p0 := (← sk.GetEntity (e.pointAt 0)).PointGetNum
    let pe := (← sk.GetEntity (e.pointAt 1)).PointGetNum
    let r := (pe.Minus p0).Magnitude M
    let (theta0, theta1, dtheta) := M.ArcGetAngles sk.entity e
    let (theta0, theta1, dtheta) :=
      if reverse then (theta1, theta0, -dtheta) else (theta0, theta1, dtheta)
    let wrkpln ← sk.GetEntity (← sk.GetEntity e.workplane).normal
    return { isLine := false, p0 := p0, p1 := zero, u := wrkpln.numU, v := wrkpln.numV, r := r,
             theta0 := theta0, theta1 := theta1, dtheta := dtheta }
  else none

/-- `ParametricCurve::LengthForAuto`. -/
def LengthForAuto (M : Math) (pc : ParametricCurve) : ℚ :=
  if pc.isLine then ((pc.p1.Minus pc.p0).Magnitude M) / 3
  else (|pc.dtheta| * pc.r) / 20

/-- `ParametricCurve::PointAt`. -/
def PointAt (M : Math) (pc : ParametricCurve) (t : ℚ) : Vector :=
  if pc.isLine then pc.p0.Plus ((pc.p1.Minus pc.p0).ScaledBy t)
  else
    let theta := pc.theta0 + pc.dtheta * t
    pc.p0.Plus ((pc.u.ScaledBy (pc.r * M.cos theta)).Plus (pc.v.ScaledBy (pc.r * M.sin theta)))

/-- `ParametricCurve::TangentAt`. -/
def TangentAt (M : Math) (pc : ParametricCurve) (t : ℚ) : Vector :=
  if pc.isLine then pc.p1.Minus pc.p0
  else
    let theta := pc.theta0 + pc.dtheta * t
    let t' := (pc.u.ScaledBy (-pc.r * M.sin theta)).Plus (pc.v.ScaledBy (pc.r * M.cos theta))
    t'.ScaledBy pc.dtheta

end ParametricCurve

namespace Sketch

/-- `ParametricCurve::ConstrainPointIfCoincident`: the loop over the entities
stops at the first point other than `hpt` of the same group and workplane that
is numerically equal to it. -/
def ConstrainPointIfCoincident (M : Math) (sk : Sketch) (hpt : hEntity) : Option Sketch := do
  let pt ← sk.GetEntity hpt
  let ptv := pt.PointGetNum
  match sk.entity.find? (fun e =>
      !decide (e.h = pt.h) && e.IsPoint && decide (e.group = pt.group) &&
        decide (e.workplane = pt.workplane) && e.PointGetNum.Equals ptv M.LENGTH_EPS) with
  | some e => return sk.ConstrainCoincident hpt e.h
  | none => return sk

/-- `ParametricCurve::CreateRequestTrimmedTo`. -/
def CreateRequestTrimmedTo (M : Math) (pc : ParametricCurve) (sk : Sketch) (t : ℚ)
    (reuseOrig : Bool) (orig arc : hEntity) (arcFinish pointf : Bool) : Option Sketch := do
  if pc.isLine then
    if reuseOrig then
      let e ← sk.GetEntity orig
      let i := if pointf then 1 else 0
      let sk ← sk.PointForceTo (e.pointAt i) (pc.PointAt M t)
      let sk ← sk.ConstrainPointIfCoincident M (e.pointAt i)
      return sk.Constrain ConstraintType.ARC_LINE_TANGENT NO_ENTITY NO_ENTITY arc e.h
        arcFinish false
    else
      let (hr, sk) := sk.AddRequest RequestType.LINE_SEGMENT
      let e ← sk.GetEntity (hr.entity 0)
      let sk ← sk.PointForceTo (e.pointAt 0) (pc.PointAt M t)
      let sk ← sk.PointForceTo (e.pointAt 1) (pc.PointAt M 1)
      let sk ← sk.ConstrainPointIfCoincident M (e.pointAt 0)
      let sk ← sk.ConstrainPointIfCoincident M (e.pointAt 1)
      let sk := sk.Constrain ConstraintType.PT_ON_LINE (hr.entity 1) NO_ENTITY orig NO_ENTITY
        false false
      return sk.Constrain ConstraintType.ARC_LINE_TANGENT NO_ENTITY NO_ENTITY arc e.h
        arcFinish false
  else
    if reuseOrig then
      let e ← sk.GetEntity orig
      let i := if pointf then 2 else 1
      let sk ← sk.PointForceTo (e.pointAt i) (pc.PointAt M t)
      let sk ← sk.ConstrainPointIfCoincident M (e.pointAt i)
      return sk.Constrain ConstraintType.CURVE_CURVE_TANGENT NO_ENTITY NO_ENTITY arc e.h
        arcFinish (decide (pc.dtheta < 0))
    else
      let (hr, sk) := sk.AddRequest RequestType.ARC_OF_CIRCLE
      let e ← sk.GetEntity (hr.entity 0)
      let sk ← sk.PointForceTo (e.pointAt 0) pc.p0
      let sk ←
        if pc.dtheta > 0 then do
          let sk ← sk.PointForceTo (e.pointAt 1) (pc.PointAt M t)
          sk.PointForceTo (e.pointAt 2) (pc.PointAt M 1)
        else do
          let sk ← sk.PointForceTo (e.pointAt 2) (pc.PointAt M t)
          sk.PointForceTo (e.pointAt 1) (pc.PointAt M 1)
      let sk ← sk.ConstrainPointIfCoincident M (e.pointAt 0)
      let sk ← sk.ConstrainPointIfCoincident M (e.pointAt 1)
      let sk ← sk.ConstrainPointIfCoincident M (e.pointAt 2)
      return sk.Constrain ConstraintType.CURVE_CURVE_TANGENT NO_ENTITY NO_ENTITY arc e.h
        arcFinish (decide (pc.dtheta < 0))

/-- What `MakeTangentArc` records of a request that ends at the vertex:
`hent[c]`, `hreq[c]` and `pointf[c]`. -/
structure Operand where
  hent : hEntity
  hreq : hRequest
  pointf : Bool
deriving DecidableEq

/-- The first loop of `MakeTangentArc`, over the requests: it counts in `c` the
non-construction line segments and arcs of the active group and workplane that
have an endpoint at `pshared`, and records the first two. -/
def findOperands (M : Math) (sk : Sketch) (pshared : Vector) :
    List Request → Nat × List Operand → Option (Nat × List Operand)
  | [], acc => some acc
  | r :: rs, (c, ops) =>
    if r.group ≠ sk.activeGroup then findOperands M sk pshared rs (c, ops)
    else if r.workplane ≠ sk.activeWorkplane then findOperands M sk pshared rs (c, ops)
    else if r.construction then findOperands M sk pshared rs (c, ops)
    else if r.type ≠ RequestType.LINE_SEGMENT ∧ r.type ≠ RequestType.ARC_OF_CIRCLE then
      findOperands M sk pshared rs (c, ops)
    else do
      let e ← sk.GetEntity (r.h.entity 0)
      let ps ← sk.EndpointStart e
      let pf ← sk.EndpointFinish e
      if ps.Equals pshared M.LENGTH_EPS || pf.Equals pshared M.LENGTH_EPS then
        let ops := if c < 2 then ops ++ [⟨e.h, r.h, pf.Equals pshared M.LENGTH_EPS⟩] else ops
        findOperands M sk pshared rs (c + 1, ops)
      else findOperands M sk pshared rs (c, ops)

/-- The variables of the Newton loop of `MakeTangentArc`. -/
structure ArcFit where
  t0 : ℚ
  t1 : ℚ
  tp0 : ℚ
  tp1 : ℚ
  pinter : Vector
  r : ℚ
  vv : ℚ

/-- The source stepping of the radius in iteration `i`: `r *= 0.1 + 0.9*i/iters`
while `i < iters`. -/
def rampRadius (iters i : Nat) (r : ℚ) : ℚ :=
  if i < iters then r * (0.1 + 0.9 * (i : ℚ) / (iters : ℚ)) else r

/-- The body of the Newton loop of `MakeTangentArc`, for iteration `i`. -/
def arcFitStep (M : Math) (sk : Sketch) (pc0 pc1 : ParametricCurve) (wn : Vector)
    (iters i : Nat) (s : ArcFit) : ArcFit :=
  let p0 := pc0.PointAt M s.t0
  let p1 := pc1.PointAt M s.t1
  let t0 := pc0.TangentAt M s.t0
  let t1 := pc1.TangentAt M s.t1
  let pinter := Vector.AtIntersectionOfLines p0 (p0.Plus t0) p1 (p1.Plus t1)
  let v := (wn.Cross t0).WithMagnitude M 1
  let vv := t1.Dot v
  let dot := (t0.WithMagnitude M 1).Dot (t1.WithMagnitude M 1)
  let theta := M.acos dot
  let r :=
    if sk.tangentArcManual then sk.tangentArcRadius
    else
      min (min (200 / sk.scale) (pc0.LengthForAuto M * M.tan (theta / 2)))
        (pc1.LengthForAuto M * M.tan (theta / 2))
  let r := rampRadius iters i r
  let el := r / M.tan (theta / 2)
  let pa0 := pinter.Plus (t0.WithMagnitude M el)
  let pa1 := pinter.Plus (t1.WithMagnitude M el)
  { t0 := s.t0 + (pa0.Minus p0).DivProjected t0
    t1 := s.t1 + (pa1.Minus p1).DivProjected t1
    tp0 := s.t0
    tp1 := s.t1
    pinter := pinter
    r := r
    vv := vv }

/-- The Newton loop of `MakeTangentArc`: `for (i = 0; i < iters + 20; i++)` with
`iters = 1000`, from `t = {0, 0}`. -/
def arcFit (M : Math) (sk : Sketch) (pc0 pc1 : ParametricCurve) (wn : Vector) : ArcFit :=
  forUp (fun i => decide (i < 1000 + 20)) (arcFitStep M sk pc0 pc1 wn 1000) (1000 + 20) 0
    { t0 := 0, t1 := 0, tp0 := 0, tp1 := 0, pinter := ⟨0, 0, 0⟩, r := 0, vv := 0 }

/-- The test of `MakeTangentArc` that rejects the result of the loop. -/
def arcFitRejected (M : Math) (s : ArcFit) : Bool :=
  decide (|s.tp0 - s.t0| > 1e-3) || decide (|s.tp1 - s.t1| > 1e-3) ||
    decide (s.t0 < 0.01) || decide (s.t1 < 0.01) || decide (s.t0 > 0.99) ||
    decide (s.t1 > 0.99) || M.IsReasonable s.t0 || M.IsReasonable s.t1

/-- The loop of `MakeTangentArc` that tags the coincidence constraints of the
active group and workplane whose `ptA` is at the vertex. -/
def tagCoincidentAt (M : Math) (sk : Sketch) (pshared : Vector) :
    List Constraint → Option (List Constraint)
  | [] => some []
  | cs :: rest =>
    if cs.group ≠ sk.activeGroup then (tagCoincidentAt M sk pshared rest).map (cs :: ·)
    else if cs.workplane ≠ sk.activeWorkplane then
      (tagCoincidentAt M sk pshared rest).map (cs :: ·)
    else if cs.type ≠ ConstraintType.POINTS_COINCIDENT then
      (tagCoincidentAt M sk pshared rest).map (cs :: ·)
    else do
      let pa ← sk.GetEntity cs.ptA
      let cs' := if pa.PointGetNum.Equals pshared M.LENGTH_EPS then { cs with tag := 1 } else cs
      (tagCoincidentAt M sk pshared rest).map (cs' :: ·)

/-- The assignment `SK.GetRequest(hr)->construction = true`. -/
def setConstruction (sk : Sketch) (hr : hRequest) : Option Sketch :=
  match sk.GetRequest hr with
  | none => none
  | some _ =>
    some { sk with request := modifyFirst (fun r => decide (r.h = hr))
                     (fun r => { r with construction := true }) sk.request }

/-- The message of `MakeTangentArc` outside a workplane. -/
def msgTangentArcWorkplane : String :=
  "Must be sketching in workplane to create tangent arc."

/-- The message of `MakeTangentArc` when the vertex does not join two curves. -/
def msgTangentArcSelect : String :=
  "To create a tangent arc, select a point where two non-construction lines or circles in this group and workplane join."

/-- The message of `MakeTangentArc` when the loop result is rejected. -/
def msgTangentArcRound : String :=
  "Couldn't round this corner. Try a smaller radius, or try creating the desired geometry by hand with tangency constraints."

/-- The part of `MakeTangentArc` that computes the centre of the arc and the
indices `a`, `b` of the arc's points for the first and the second curve. -/
def arcCentre (M : Math) (pc0 : ParametricCurve) (wn : Vector) (fit : ArcFit) :
    Nat × Nat × Vector :=
  let center := pc0.PointAt M fit.t0
  let v0inter := fit.pinter.Minus center
  if fit.vv < 0 then (1, 2, center.Minus ((v0inter.Cross wn).WithMagnitude M fit.r))
  else (2, 1, center.Plus ((v0inter.Cross wn).WithMagnitude M fit.r))

/-- The part of `MakeTangentArc` after `SS.UndoRemember()` that removes the
coincidence constraints at the vertex (`SS.tangentArcModify`) or makes the two
original requests construction. -/
def arcPrepare (M : Math) (sk : Sketch) (pshared : Vector) (op0 op1 : Operand) :
    Option Sketch :=
  if sk.tangentArcModify then do
    let cs ← tagCoincidentAt M sk pshared (clearConstraintTags sk.constraint)
    pure { sk with constraint := removeTaggedConstraints cs }
  else do
    let sk ← sk.setConstruction op0.hreq
    sk.setConstruction op1.hreq

/-- The part of `MakeTangentArc` that creates and positions the new arc; it
gives the handle of the arc entity. -/
def arcCreate (M : Math) (sk : Sketch) (pc0 pc1 : ParametricCurve) (fit : ArcFit)
    (a b : Nat) (center : Vector) : Option (hEntity × Sketch) := do
  let (harc, sk) := sk.AddRequest RequestType.ARC_OF_CIRCLE
  let earc ← sk.GetEntity (harc.entity 0)
  let hearc := earc.h
  let sk ← sk.PointForceTo (earc.pointAt 0) center
  let sk ← sk.PointForceTo (earc.pointAt a) (pc0.PointAt M fit.t0)
  let sk ← sk.PointForceTo (earc.pointAt b) (pc1.PointAt M fit.t1)
  return (hearc, sk)

/-- The part of `MakeTangentArc` after the test of the loop result: every change
of the sketch that the function makes. -/
def arcCommit (M : Math) (sk : Sketch) (pshared : Vector) (op0 op1 : Operand)
    (pc0 pc1 : ParametricCurve) (wn : Vector) (fit : ArcFit) : Option Sketch := do
  let (a, b, center) := arcCentre M pc0 wn fit
  let sk := sk.UndoRemember
  let sk ← arcPrepare M sk pshared op0 op1
  let (hearc, sk) ← arcCreate M sk pc0 pc1 fit a b center
  let sk ← sk.CreateRequestTrimmedTo M pc0 fit.t0 sk.tangentArcModify op0.hent hearc
    (decide (b = 1)) op0.pointf
  sk.CreateRequestTrimmedTo M pc1 fit.t1 sk.tangentArcModify op1.hent hearc
    (decide (a = 1)) op1.pointf

/-- `GraphicsWindow::MakeTangentArc`. -/
def MakeTangentArc (M : Math) (sk : Sketch) : Option Sketch := do
  if !sk.LockedInWorkplane then
    return sk.Error msgTangentArcWorkplane
  let pshared := (← sk.GetEntity (← sk.gs.point.head?)).PointGetNum
  let sk := sk.ClearSelection
  let (c, ops) ← findOperands M sk pshared sk.request (0, [])
  if c ≠ 2 then
    return sk.Error msgTangentArcSelect
  let op0 ← ops[0]?
  let op1 ← ops[1]?
  let wrkpl ← sk.GetEntity sk.activeWorkplane
  let wn := (← sk.GetEntity wrkpl.normal).numN
  let pc0 ← ParametricCurve.MakeFromEntity M sk op0.hent op0.pointf
  let pc1 ← ParametricCurve.MakeFromEntity M sk op1.hent op1.pointf
  let fit := arcFit M sk pc0 pc1 wn
  if arcFitRejected M fit then
    return sk.Error msgTangentArcRound
  arcCommit M sk pshared op0 op1 pc0 pc1 wn fit

end Sketch

end SolveSpace

namespace SolveSpace

/-! ### Specification-level definitions for the tangent arc -/

/-- The state after the iterations `0 .. k-1` of a counting loop. -/
def iterUp {σ : Type} (body : Nat → σ → σ) : Nat → σ → σ
  | 0, s => s
  | k + 1, s => body k (iterUp body k s)

namespace Sketch

/-- The properties of the library functions that the exact model uses: the
square root of a square, the tangent of half a right angle
(`tan(acos(0)/2) = 1`), and that `IsReasonable` does not flag a number
between 0 and 1. -/
structure ExactMath (M : Math) : Prop where
  sqrt_sq : ∀ x : ℚ, M.sqrt (x * x) = |x|
  tan_half_right : M.tan (M.acos 0 / 2) = 1
  reasonable : ∀ x : ℚ, 0 ≤ x → x ≤ 1 → M.IsReasonable x = false

/-- Two line curves that leave the vertex `pc0.p0 = pc1.p0` at a right angle,
both of length `L`, in a plane with unit normal `wn`. -/
structure RightCorner (pc0 pc1 : ParametricCurve) (wn : Vector) (L : ℚ) : Prop where
  line0 : pc0.isLine = true
  line1 : pc1.isLine = true
  shared : pc1.p0 = pc0.p0
  pos : 0 < L
  perp : (pc0.p1.Minus pc0.p0).Dot (pc1.p1.Minus pc1.p0) = 0
  len0 : (pc0.p1.Minus pc0.p0).MagSquared = L * L
  len1 : (pc1.p1.Minus pc1.p0).MagSquared = L * L
  normal0 : wn.Dot (pc0.p1.Minus pc0.p0) = 0
  normal1 : wn.Dot (pc1.p1.Minus pc1.p0) = 0
  unit : wn.MagSquared = 1

end Sketch

end SolveSpace

namespace SolveSpace

namespace Sketch

/-! ### The corner example -/

/-- An instance of the library functions for a right corner: the square root
of rationals, the value 1 of `tan(acos(0)/2)`, and `IsReasonable`, which flags
a magnitude above `1e11`. -/
def cornerMath : Math :=
  { sqrt := fun x => Rat.sqrt x
    acos := fun _ => 0
    tan := fun _ => 1
    cos := fun _ => 1
    sin := fun _ => 0
    IsReasonable := fun x => decide (x > 1e11 ∨ x < -1e11)
    LENGTH_EPS := 1e-6
    ArcGetAngles := fun _ _ => (0, 0, 0) }

/-- The request of the workplane of the corner example, under identifier 1. -/
def cornerPlaneRequest : Request :=
  { tag := 0, h := ⟨1⟩, type := RequestType.WORKPLANE, group := ⟨1⟩, workplane := FREE_IN_3D,
    construction := false }

/-- The workplane of the corner example. -/
def cornerPlane : Entity :=
  { generatedEntity cornerPlaneRequest with normal := cornerPlaneRequest.h.entity 32 }

/-- The normal of the workplane of the corner example: the `z` axis. -/
def cornerNormal : Entity :=
  { h := cornerPlaneRequest.h.entity 32, type := EntityType.NORMAL, group := ⟨1⟩,
    workplane := FREE_IN_3D, point := [], normal := NO_ENTITY, numPoint := ⟨0, 0, 0⟩,
    numU := ⟨1, 0, 0⟩, numV := ⟨0, 1, 0⟩, numN := ⟨0, 0, 1⟩ }

/-- A line-segment request of the corner example, in the workplane. -/
def cornerLine (id : Nat) : Request :=
  { tag := 0, h := ⟨id⟩, type := RequestType.LINE_SEGMENT, group := ⟨1⟩,
    workplane := cornerPlane.h, construction := false }

/-- The sketch with the segments from the origin to `(4, 0, 0)` and to
`(0, 4, 0)` in the workplane `z = 0`, the vertex at the origin selected, and
the manual radius `r`. -/
def cornerSketch (r : ℚ) (modify : Bool) : Sketch :=
  { emptySketch with
    request := [cornerPlaneRequest, cornerLine 2, cornerLine 3]
    entity := [cornerPlane, cornerNormal,
      generatedEntity (cornerLine 2), generatedPoint (cornerLine 2) 1 ⟨0, 0, 0⟩,
      generatedPoint (cornerLine 2) 2 ⟨4, 0, 0⟩,
      generatedEntity (cornerLine 3), generatedPoint (cornerLine 3) 1 ⟨0, 0, 0⟩,
      generatedPoint (cornerLine 3) 2 ⟨0, 4, 0⟩]
    activeWorkplane := cornerPlane.h
    gs := ⟨[(cornerLine 2).h.entity 1], [], 1, 0, 0, 0, 0⟩
    tangentArcManual := true
    tangentArcRadius := r
    tangentArcModify := modify }

/-- The first curve of the corner example. -/
def cornerCurve0 : ParametricCurve :=
  { isLine := true, p0 := ⟨0, 0, 0⟩, p1 := ⟨4, 0, 0⟩, u := ⟨0, 0, 0⟩, v := ⟨0, 0, 0⟩, r := 0,
    theta0 := 0, theta1 := 0, dtheta := 0 }

/-- The second curve of the corner example. -/
def cornerCurve1 : ParametricCurve :=
  { isLine := true, p0 := ⟨0, 0, 0⟩, p1 := ⟨0, 4, 0⟩, u := ⟨0, 0, 0⟩, v := ⟨0, 0, 0⟩, r := 0,
    theta0 := 0, theta1 := 0, dtheta := 0 }

end Sketch

end SolveSpace

namespace SolveSpace

namespace Sketch

/-- What the steps of the commit of a tangent arc keep of a sketch: the
entities under the handles in `P` stay as they are, every entity keeps its
handle and its points, requests are only appended, and no error is reported. -/
structure Grows (P : hEntity → Prop) (sk sk' : Sketch) : Prop where
  owned : sk.EntitiesOwned → sk'.EntitiesOwned
  request : ∃ rs, sk'.request = sk.request ++ rs
  keep : ∀ h e, P h → sk.GetEntity h = some e → sk'.GetEntity h = some e
  shape : ∀ h e, sk.GetEntity h = some e →
    ∃ e', sk'.GetEntity h = some e' ∧ e'.point = e.point ∧ e'.type = e.type
  errors : sk'.errors = sk.errors
  modify : sk'.tangentArcModify = sk.tangentArcModify

end Sketch

end SolveSpace

/-! # Splitting at an intersection (modify.cpp)

`SplitEntity` and `SplitLinesOrCurves`.  The functions of other files that they
call (the selection, the Bezier intersection, the projection to the screen,
`SplitCubic`'s curve arithmetic, the request table and the deletion of tagged
requests) are the fields of `SplitEnv`; every definition takes them as a
parameter. -/

namespace SolveSpace

/-- The functions that the splitting code calls and that are defined elsewhere:
`GroupSelection` (the selection `gs` it fills in), `GenerateBezierCurves` of two
entities followed by `AllIntersectionsWith` (the list of intersection points),
`ProjectPoint(p).DistanceTo(currentMousePosition)`, `VERY_POSITIVE`,
`Vector::OnLineSegment`, `SplitCubic` (whose Bezier arithmetic is elsewhere),
`EntReqTable::GetRequestForEntity` and `DeleteTaggedRequests`. -/
structure SplitEnv where
  GroupSelection : Sketch → Selection
  AllIntersections : Sketch → Entity → Entity → List Vector
  mouseDistance : Vector → ℚ
  VERY_POSITIVE : ℚ
  OnLineSegment : Vector → Vector → Vector → Bool
  SplitCubic : Sketch → hEntity → Vector → Option (hEntity × Sketch)
  GetRequestForEntity : EntityType → RequestType
  DeleteTaggedRequests : Sketch → Sketch

/-- Modelled from the spec: `hEntity::isFromRequest`, the test of the top bit of
the handle. -/
def hEntity.isFromRequest (h : hEntity) : Bool := decide (h.v < 2147483648)

namespace Sketch

/-- Modelled from the spec: `SK.request.ClearTags`. -/
def clearRequestTags (l : List Request) : List Request :=
  l.map fun r => { r with tag := 0 }

/-- Modelled from the spec: `SK.request.RemoveTagged`. -/
def removeTaggedRequests (l : List Request) : List Request :=
  l.filter fun r => decide (r.tag = 0)

/-- `GraphicsWindow::FixConstraintsForRequestBeingDeleted`. -/
def FixConstraintsForRequestBeingDeleted (sk : Sketch) (hr : hRequest) : Option Sketch := do
  let r ← sk.GetRequest hr
  if r.group ≠ sk.activeGroup then
    return sk
  return sk.entity.foldl (fun s e =>
    if !e.h.isFromRequest then s
    else if e.h.request ≠ hr then s
    else if e.type ≠ EntityType.POINT_IN_2D ∧ e.type ≠ EntityType.POINT_IN_3D then s
    else s.FixConstraintsForPointBeingDeleted e.h) sk

/-- The message of `SplitEntity` for an entity that is no line, circle or cubic. -/
def msgSplitKind : String :=
  "Couldn't split this entity; lines, circles, or cubics only."

/-- The message of `SplitLinesOrCurves` outside a workplane. -/
def msgSplitWorkplane : String :=
  "Must be sketching in workplane to split."

/-- The message of `SplitLinesOrCurves` for a selection that is not two entities,
or an entity and a point. -/
def msgSplitSelect : String :=
  "Select two entities that intersect each other (e.g. two lines/circles/arcs or a line/circle/arc and a point)."

/-- The message of `SplitLinesOrCurves` when `foundInters` is false. -/
def msgSplitNoIntersection : String :=
  "Can't split; no intersection found."

/-- `GraphicsWindow::SplitEntity`. -/
def SplitEntity (env : SplitEnv) (sk : Sketch) (he : hEntity) (pinter : Vector) :
    Option (hEntity × Sketch) := do
  let e ← sk.GetEntity he
  let entityType := e.type
  let split : Option (Option (hEntity × Sketch)) :=
    if e.IsCircle then some (sk.SplitCircle he pinter)
    else if e.type = EntityType.LINE_SEGMENT then some (sk.SplitLine he pinter)
    else if e.type = EntityType.CUBIC ∨ e.type = EntityType.CUBIC_PERIODIC then
      some (env.SplitCubic sk he pinter)
    else none
  match split with
  | none => return (NO_ENTITY, sk.Error msgSplitKind)
  | some res =>
    let (ret, sk) ← res
    let reqType := env.GetRequestForEntity entityType
    let rs := modifyFirst
      (fun r => decide (r.group = sk.activeGroup) && decide (r.type = reqType) &&
        decide (he = r.h.entity 0) && !r.construction)
      (fun r => { r with tag := 1 }) (clearRequestTags sk.request)
    return (ret, env.DeleteTaggedRequests { sk with request := rs })

/-- The loop of `SplitLinesOrCurves` that takes the intersection nearest to the
mouse pointer. -/
def nearestToMouse (env : SplitEnv) : List Vector → ℚ × Vector → ℚ × Vector
  | [], acc => acc
  | p :: ps, (dmin, pi) =>
    let d := env.mouseDistance p
    if d < dmin then nearestToMouse env ps (d, p) else nearestToMouse env ps (dmin, pi)

/-- The loop of `SplitLinesOrCurves` over the constraints when an entity is split
at a point: it gives `foundInters`, `pi` and the constraints with the one found
tagged. -/
def findSplitConstraint (env : SplitEnv) (sk : Sketch) (ea : Entity) (ha hb : hEntity)
    (p0 p1 : Vector) : List Constraint → Vector → Option (Bool × Vector × List Constraint)
  | [], pi => some (false, pi, [])
  | c :: cs, pi =>
    if c.ptA.request = hb.request ∧ c.entityA.request = ha.request then do
      let pi := (← sk.GetEntity c.ptA).PointGetNum
      if ea.type = EntityType.LINE_SEGMENT ∧ !env.OnLineSegment pi p0 p1 then
        (findSplitConstraint env sk ea ha hb p0 p1 cs pi).map
          fun (f, q, cs') => (f, q, c :: cs')
      else
        some (true, pi, { c with tag := 1 } :: cs)
    else
      (findSplitConstraint env sk ea ha hb p0 p1 cs pi).map fun (f, q, cs') => (f, q, c :: cs')

/-- The first part of `SplitLinesOrCurves` after the selection is read: it
decides the point `pi` of the split and gives `foundInters`, `pi` and the sketch
with the constraint tags set. -/
def findSplitPoint (env : SplitEnv) (sk : Sketch) (splitAtPoint : Bool) (ha hb : hEntity) :
    Option (Bool × Vector × Sketch) := do
  let ea ← sk.GetEntity ha
  let eb ← sk.GetEntity hb
  let pi : Vector := ⟨0, 0, 0⟩
  let sk := { sk with constraint := clearConstraintTags sk.constraint }
  if splitAtPoint then
    let (p0, p1) ←
      if ea.type = EntityType.LINE_SEGMENT then do
        let p0 ← sk.EndpointStart ea
        let p1 ← sk.EndpointFinish ea
        pure (p0, p1)
      else pure ((⟨0, 0, 0⟩ : Vector), (⟨0, 0, 0⟩ : Vector))
    let (found, pi, cs) ← findSplitConstraint env sk ea ha hb p0 p1 sk.constraint pi
    return (found, pi, { sk with constraint := cs })
  else
    let inters := env.AllIntersections sk ea eb
    let pi :=
      if inters ≠ [] then (nearestToMouse env inters (env.VERY_POSITIVE, pi)).2 else pi
    return (true, pi, sk)

/-- The loop of `SplitLinesOrCurves` over the requests after an entity was split
at a point: the datum point is deleted, any other point is constrained to the
split point. -/
def joinSplitPoint (sk : Sketch) (hia hb : hEntity) : Option Sketch := do
  let sk := { sk with request := clearRequestTags sk.request }
  let sk ←
    match sk.request.find? (fun r => decide (r.h = hb.request)) with
    | none => pure sk
    | some r =>
      if r.type = RequestType.DATUM_POINT then
        Sketch.FixConstraintsForRequestBeingDeleted
          { sk with request := modifyFirst (fun r => decide (r.h = hb.request))
                                 (fun r => { r with tag := 1 }) sk.request } r.h
      else pure (sk.ConstrainCoincident hia hb)
  return { sk with request := removeTaggedRequests sk.request }

/-- The part of `SplitLinesOrCurves` under `if (foundInters)`: every change of
the sketch that the function makes. -/
def splitCommit (env : SplitEnv) (sk : Sketch) (splitAtPoint : Bool) (ha hb : hEntity)
    (pi : Vector) : Option Sketch := do
  let sk := sk.UndoRemember
  let sk := { sk with constraint := removeTaggedConstraints sk.constraint }
  let (hia, sk) ← SplitEntity env sk ha pi
  if splitAtPoint then
    let sk ← joinSplitPoint sk hia hb
    return sk.ClearSelection
  else
    let (hib, sk) ← SplitEntity env sk hb pi
    let sk := if hia.v ≠ 0 ∧ hib.v ≠ 0 then sk.ConstrainCoincident hia hib else sk
    return sk.ClearSelection

/-- `GraphicsWindow::SplitLinesOrCurves`. -/
def SplitLinesOrCurves (env : SplitEnv) (sk : Sketch) : Option Sketch := do
  if !sk.LockedInWorkplane then
    return sk.Error msgSplitWorkplane
  let sk := { sk with gs := env.GroupSelection sk }
  let n := sk.gs.lineSegments + sk.gs.circlesOrArcs + sk.gs.cubics + sk.gs.periodicCubics
  if !(decide (n = 2 ∧ sk.gs.points = 0) || decide (n = 1 ∧ sk.gs.points = 1)) then
    return sk.Error msgSplitSelect
  let splitAtPoint := decide (sk.gs.points = 1)
  let ha ← sk.gs.entity[0]?
  let hb ← if splitAtPoint then sk.gs.point[0]? else sk.gs.entity[1]?
  let (foundInters, pi, sk) ← findSplitPoint env sk splitAtPoint ha hb
  if foundInters then
    splitCommit env sk splitAtPoint ha hb pi
  else
    return sk.Error msgSplitNoIntersection

end Sketch

end SolveSpace

namespace SolveSpace

namespace Sketch

/-! ### The example of two parallel segments -/

/-- An instance of the functions that the splitting code calls, for a sketch
whose selection is grouped already and whose selected entities do not meet:
no intersection points, and a `DeleteTaggedRequests` that removes the tagged
requests and the entities they own. -/
def parallelEnv : SplitEnv :=
  { GroupSelection := fun sk => sk.gs
    AllIntersections := fun _ _ _ => []
    mouseDistance := fun _ => 0
    VERY_POSITIVE := 1e10
    OnLineSegment := fun _ _ _ => false
    SplitCubic := fun _ _ _ => none
    GetRequestForEntity := fun t =>
      match t with
      | EntityType.LINE_SEGMENT => RequestType.LINE_SEGMENT
      | EntityType.CIRCLE => RequestType.CIRCLE
      | EntityType.ARC_OF_CIRCLE => RequestType.ARC_OF_CIRCLE
      | EntityType.CUBIC => RequestType.CUBIC
      | EntityType.CUBIC_PERIODIC => RequestType.CUBIC_PERIODIC
      | EntityType.WORKPLANE => RequestType.WORKPLANE
      | _ => RequestType.DATUM_POINT
    DeleteTaggedRequests := fun sk =>
      { sk with
        request := removeTaggedRequests sk.request
        entity := sk.entity.filter fun e =>
          (removeTaggedRequests sk.request).any fun r => decide (r.h = e.h.request) } }

/-- The sketch with the parallel segments from `(0, 0, 0)` to `(4, 0, 0)` and
from `(0, 1, 0)` to `(4, 1, 0)` in the workplane `z = 0`, both selected. -/
def parallelSketch : Sketch :=
  { emptySketch with
    request := [cornerPlaneRequest, cornerLine 2, cornerLine 3]
    entity := [cornerPlane, cornerNormal,
      generatedEntity (cornerLine 2), generatedPoint (cornerLine 2) 1 ⟨0, 0, 0⟩,
      generatedPoint (cornerLine 2) 2 ⟨4, 0, 0⟩,
      generatedEntity (cornerLine 3), generatedPoint (cornerLine 3) 1 ⟨0, 1, 0⟩,
      generatedPoint (cornerLine 3) 2 ⟨4, 1, 0⟩]
    activeWorkplane := cornerPlane.h
    gs := ⟨[], [(cornerLine 2).h.entity 0, (cornerLine 3).h.entity 0], 0, 2, 0, 0, 0⟩ }

end Sketch

end SolveSpace

namespace SolveSpace

namespace Sketch

/-! ### The example of an arc -/

/-- An instance of the library functions near the angle 0: `cos` and `sin` are
their first-order expansions `1` and `x`, and every arc runs from the angle 0
to the angle 1. -/
def arcMath : Math :=
  { cornerMath with
    cos := fun _ => 1
    sin := fun x => x
    ArcGetAngles := fun _ _ => (0, 1, 1) }

/-- The request of the arc example, under identifier 2. -/
def arcRequest : Request := { cornerLine 2 with type := RequestType.ARC_OF_CIRCLE }

/-- The sketch with one arc in the workplane `z = 0`: centre `(0, 0, 0)`, start
`(1, 0, 0)`, finish `(0, 1, 0)`, and a distance constraint between start and
finish. -/
def arcSketch : Sketch :=
  { emptySketch with
    request := [cornerPlaneRequest, arcRequest]
    entity := [cornerPlane, cornerNormal, generatedEntity arcRequest,
      generatedPoint arcRequest 1 ⟨0, 0, 0⟩, generatedPoint arcRequest 2 ⟨1, 0, 0⟩,
      generatedPoint arcRequest 3 ⟨0, 1, 0⟩]
    constraint := [{ coincident 1 131074 131075 with type := ConstraintType.PT_PT_DISTANCE }]
    activeWorkplane := cornerPlane.h }

end Sketch

end SolveSpace

namespace SolveSpace

namespace Sketch

/-! ### Specification-level definitions for `SplitEntity` -/

/-- The test of `SplitEntity` for the request that it tags: of the active group,
of the request type of the entity, with `he` as its entity 0, and not
construction. -/
def isOriginal (g : hGroup) (reqType : RequestType) (he : hEntity) (r : Request) : Bool :=
  decide (r.group = g) && decide (r.type = reqType) && decide (he = r.h.entity 0) &&
    !r.construction

/-- The requests as `SplitEntity` hands them to `DeleteTaggedRequests`. -/
def taggedRequests (g : hGroup) (reqType : RequestType) (he : hEntity) (l : List Request) :
    List Request :=
  modifyFirst (isOriginal g reqType he) (fun r => { r with tag := 1 }) (clearRequestTags l)

end Sketch

end SolveSpace

namespace SolveSpace

namespace Sketch

end Sketch

end SolveSpace

namespace SolveSpace

namespace Sketch

/-! ### Tangency constraints -/

/-- A tangency constraint: `ARC_LINE_TANGENT` or `CURVE_CURVE_TANGENT`. -/
def isTangency (c : Constraint) : Bool :=
  decide (c.type = ConstraintType.ARC_LINE_TANGENT) ||
    decide (c.type = ConstraintType.CURVE_CURVE_TANGENT)

/-- The number of tangency constraints of a list. -/
def tangencyCount (l : List Constraint) : Nat := l.countP isTangency

/-- The constraint with its tag cleared. -/
def untag (c : Constraint) : Constraint := { c with tag := 0 }

/-- The steps between the sketch `s` and `s'` have appended the constraints `cs`,
none of them a tangency, and have kept the active group and workplane. -/
structure Adds (s s' : Sketch) (cs : List Constraint) : Prop where
  constraint : s'.constraint = s.constraint ++ cs
  count : tangencyCount cs = 0
  group : s'.activeGroup = s.activeGroup
  workplane : s'.activeWorkplane = s.activeWorkplane
  modify : s'.tangentArcModify = s.tangentArcModify

/-- What `CreateRequestTrimmedTo` keeps and adds: the constraints `cs` that are no
tangency, then the one tangency constraint `tc`. -/
structure Trimmed (sk sk' : Sketch) (cs : List Constraint) (tc : Constraint) : Prop where
  constraint : sk'.constraint = sk.constraint ++ cs ++ [tc]
  count : tangencyCount cs = 0
  modify : sk'.tangentArcModify = sk.tangentArcModify
  group : tc.group = sk.activeGroup
  workplane : tc.workplane = sk.activeWorkplane

end Sketch

end SolveSpace

namespace SolveSpace

namespace Sketch

/-! ### Specification-level definitions for the split of two entities -/

/-- The points of a line segment, circle or arc that `SplitLine` and
`SplitCircle` look up: the two end points of a segment, the centre of a circle,
the centre and the two end points of an arc. -/
def splitPoints (e : Entity) : List hEntity :=
  if e.type = EntityType.LINE_SEGMENT then [e.pointAt 0, e.pointAt 1]
  else if e.type = EntityType.CIRCLE then [e.pointAt 0]
  else [e.pointAt 0, e.pointAt 1, e.pointAt 2]

/-- What `SplitLine` or `SplitCircle` has done to the sketch `s` when it returns
the point `ret` and the sketch `pre`, with `j` the constraint that joins the
halves. -/
structure SplitPre (s : Sketch) (e : Entity) (pre : Sketch) (ret : hEntity) (j : Constraint) :
    Prop where
  keeps : ∀ c ∈ s.constraint, (∀ h ∈ splitPoints e, c.ptA ≠ h ∧ c.ptB ≠ h) → c ∈ pre.constraint
  join : j ∈ pre.constraint
  type : j.type = ConstraintType.POINTS_COINCIDENT
  ptA : j.ptA = ret
  entityA : j.entityA = NO_ENTITY
  entityB : j.entityB = NO_ENTITY
  freshA : requestMaximumId s.request < j.ptA.request.v
  freshB : requestMaximumId s.request < j.ptB.request.v
  ownerA : ∃ r ∈ pre.request, r.h = j.ptA.request
  ownerB : ∃ r ∈ pre.request, r.h = j.ptB.request
  request : ∀ r ∈ s.request, r ∈ pre.request
  entity : ∀ h x, s.GetEntity h = some x → pre.GetEntity h = some x
  owned : pre.EntitiesOwned
  group : pre.activeGroup = s.activeGroup

/-- The request that owns the entity `h` is in the request list and is not
tagged. -/
def OwnerUntagged (s : Sketch) (h : hEntity) : Prop :=
  ∃ r ∈ s.request, r.h = h.request ∧ r.tag = 0

/-- No tagged request is a workplane (the deletion of a workplane deletes the
requests drawn in it as well). -/
def NoWorkplaneTagged (s : Sketch) : Prop :=
  ∀ r ∈ s.request, r.tag ≠ 0 → r.type ≠ RequestType.WORKPLANE

/-- Modelled from the spec: what the splitting code needs of
`DeleteTaggedRequests`, which is defined in another file: when no workplane is
tagged, it deletes nothing but what belongs to the tagged requests.  The
untagged requests stay; an entity of an untagged request stays, with its kind
and its points; a constraint between two points of untagged requests stays; and
the entities that stay belong to the requests that stay. -/
structure KeepsUntagged (env : SplitEnv) : Prop where
  owned : ∀ s : Sketch, NoWorkplaneTagged s → s.EntitiesOwned →
    (env.DeleteTaggedRequests s).EntitiesOwned
  request : ∀ (s : Sketch) (r : Request), NoWorkplaneTagged s → r ∈ s.request → r.tag = 0 →
    r ∈ (env.DeleteTaggedRequests s).request
  entity : ∀ (s : Sketch) (h : hEntity) (e : Entity), NoWorkplaneTagged s →
    s.GetEntity h = some e → OwnerUntagged s h →
    ∃ e', (env.DeleteTaggedRequests s).GetEntity h = some e' ∧ e'.type = e.type ∧
      e'.point = e.point
  constraint : ∀ (s : Sketch) (c : Constraint), NoWorkplaneTagged s → c ∈ s.constraint →
    c.entityA = NO_ENTITY → c.entityB = NO_ENTITY → OwnerUntagged s c.ptA →
    OwnerUntagged s c.ptB → c ∈ (env.DeleteTaggedRequests s).constraint

/-- The sketch as `SplitEntity` hands it to `DeleteTaggedRequests`: the request
of the original entity is tagged. -/
def handedOver (env : SplitEnv) (pre : Sketch) (e : Entity) (he : hEntity) : Sketch :=
  { pre with
    request := taggedRequests pre.activeGroup (env.GetRequestForEntity e.type) he pre.request }

/-- The sketch on which `SplitLinesOrCurves` splits the first entity: the
selection is grouped, the constraint tags are cleared, the snapshot for undo is
taken and the tagged constraints are removed. -/
def splitStart (env : SplitEnv) (sk : Sketch) : Sketch :=
  { ({ sk with gs := env.GroupSelection sk
               constraint := clearConstraintTags sk.constraint } : Sketch).UndoRemember with
    constraint := removeTaggedConstraints (clearConstraintTags sk.constraint) }

/-- The point at which `SplitLinesOrCurves` splits two entities: the
intersection nearest to the mouse, or the origin when the list is empty. -/
def splitPointOf (env : SplitEnv) (sk : Sketch) (ea eb : Entity) : Vector :=
  let s : Sketch :=
    { sk with gs := env.GroupSelection sk, constraint := clearConstraintTags sk.constraint }
  if env.AllIntersections s ea eb ≠ [] then
    (nearestToMouse env (env.AllIntersections s ea eb) (env.VERY_POSITIVE, ⟨0, 0, 0⟩)).2
  else ⟨0, 0, 0⟩

/-- An instance of the functions that the splitting code calls in which the
intersection routine reports the one point `(2, 0, 0)`. -/
def crossEnv : SplitEnv :=
  { parallelEnv with AllIntersections := fun _ _ _ => [⟨2, 0, 0⟩] }

/-- The sketch with the crossing segments from `(0, 0, 0)` to `(4, 0, 0)` and
from `(2, -2, 0)` to `(2, 2, 0)` in the workplane `z = 0`, both selected. -/
def crossSketch : Sketch :=
  { emptySketch with
    request := [cornerPlaneRequest, cornerLine 2, cornerLine 3]
    entity := [cornerPlane, cornerNormal,
      generatedEntity (cornerLine 2), generatedPoint (cornerLine 2) 1 ⟨0, 0, 0⟩,
      generatedPoint (cornerLine 2) 2 ⟨4, 0, 0⟩,
      generatedEntity (cornerLine 3), generatedPoint (cornerLine 3) 1 ⟨2, -2, 0⟩,
      generatedPoint (cornerLine 3) 2 ⟨2, 2, 0⟩]
    activeWorkplane := cornerPlane.h
    gs := ⟨[], [(cornerLine 2).h.entity 0, (cornerLine 3).h.entity 0], 0, 2, 0, 0, 0⟩ }

end Sketch

end SolveSpace

namespace SolveSpace
namespace Sketch

/-- The loop of `RemoveConstraintsForPointBeingDeleted` over the constraints: it
tags the constraints that have `hpt` as `ptA` or `ptB` and counts them in
`SS.deleted.constraints` and, when they are no coincidence, horizontal or
vertical constraint, in `SS.deleted.nonTrivialConstraints`. -/
def removeLoop (hpt : hEntity) : List Constraint → Nat × Nat → List Constraint × Nat × Nat
  | [], (dc, dn) => ([], dc, dn)
  | c :: cs, (dc, dn) =>
    if c.ptA = hpt ∨ c.ptB = hpt then
      let dn' :=
        if c.type ≠ ConstraintType.POINTS_COINCIDENT ∧ c.type ≠ ConstraintType.HORIZONTAL ∧
            c.type ≠ ConstraintType.VERTICAL then dn + 1
        else dn
      let (cs', r) := removeLoop hpt cs (dc + 1, dn')
      ({ c with tag := 1 } :: cs', r)
    else
      let (cs', r) := removeLoop hpt cs (dc, dn)
      (c :: cs', r)

/-- `GraphicsWindow::RemoveConstraintsForPointBeingDeleted`. -/
def RemoveConstraintsForPointBeingDeleted (sk : Sketch) (hpt : hEntity) : Sketch :=
  let (cs, dc, dn) := removeLoop hpt (clearConstraintTags sk.constraint)
    (sk.deletedConstraints, sk.deletedNonTrivialConstraints)
  { sk with constraint := removeTaggedConstraints cs
            deletedConstraints := dc
            deletedNonTrivialConstraints := dn }

/-- The constraint has `hpt` as `ptA` or `ptB`. -/
def onPoint (hpt : hEntity) (c : Constraint) : Bool :=
  decide (c.ptA = hpt) || decide (c.ptB = hpt)

/-- The constraint is none of `POINTS_COINCIDENT`, `HORIZONTAL`, `VERTICAL`. -/
def nonTrivial (c : Constraint) : Bool :=
  !decide (c.type = ConstraintType.POINTS_COINCIDENT) &&
    !decide (c.type = ConstraintType.HORIZONTAL) && !decide (c.type = ConstraintType.VERTICAL)

/-- The entity `e` is a point other than `hpt`, of the group and workplane of the
point `pt`, and numerically equal to it. -/
def CoincidesWith (M : Math) (hpt : hEntity) (pt e : Entity) : Prop :=
  e.h ≠ hpt ∧ e.IsPoint = true ∧ e.group = pt.group ∧ e.workplane = pt.workplane ∧
    e.PointGetNum.Equals pt.PointGetNum M.LENGTH_EPS = true

end Sketch
end SolveSpace

namespace SolveSpace
namespace Sketch

/-- The start state of the Newton loop of `MakeTangentArc`: `t = {0, 0}`,
`r = 0.0`, `vv = 0.0`. -/
def arcFitStart : ArcFit :=
  { t0 := 0, t1 := 0, tp0 := 0, tp1 := 0, pinter := ⟨0, 0, 0⟩, r := 0, vv := 0 }

/-- The Newton loop of `MakeTangentArc` with a count of the iterations that
ran, for at most `fuel` iterations. -/
def arcFitCounted (M : Math) (sk : Sketch) (pc0 pc1 : ParametricCurve) (wn : Vector)
    (fuel : Nat) : ArcFit × Nat :=
  forUp (fun i => decide (i < 1000 + 20))
    (fun i p => (arcFitStep M sk pc0 pc1 wn 1000 i p.1, p.2 + 1)) fuel 0 (arcFitStart, 0)

/-- The angle `theta` that an iteration of the Newton loop computes from the
state `s`: the angle between the two tangents. -/
def fitAngle (M : Math) (pc0 pc1 : ParametricCurve) (s : ArcFit) : ℚ :=
  M.acos (((pc0.TangentAt M s.t0).WithMagnitude M 1).Dot ((pc1.TangentAt M s.t1).WithMagnitude M 1))

/-- The radius that an iteration aims at before the source stepping scales it:
the manual radius, or the automatic one. -/
def targetRadius (M : Math) (sk : Sketch) (pc0 pc1 : ParametricCurve) (s : ArcFit) : ℚ :=
  if sk.tangentArcManual then sk.tangentArcRadius
  else
    min (min (200 / sk.scale) (pc0.LengthForAuto M * M.tan (fitAngle M pc0 pc1 s / 2)))
      (pc1.LengthForAuto M * M.tan (fitAngle M pc0 pc1 s / 2))

/-- The corner example with the automatic radius. -/
def cornerSketchAuto : Sketch :=
  { cornerSketch 1 false with tangentArcManual := false }

end Sketch
end SolveSpace

namespace SolveSpace
namespace utf8_iterator

/-- The `do … while` loop of `utf8_iterator::operator*` on 32-bit unsigned
numbers: `bytes` are the bytes after `*it`, and the result carries `result`,
`mask` and the bytes after the last one read. The mask is zero after six
rounds, so six rounds of fuel let the loop end by its own test. -/
def decodeLoop : Nat → List Nat → Nat → Nat → Option (Nat × Nat × List Nat)
  | 0, _, _, _ => none
  | _ + 1, [], _, _ => none
  | fuel + 1, b :: bytes, result, mask =>
    let result := (result <<< 6) % 2 ^ 32
    let c := b % 256
    let mask := (mask <<< 5) % 2 ^ 32
    let result := (result + (c + 2 ^ 32 - 0x80) % 2 ^ 32) % 2 ^ 32
    if result &&& mask ≠ 0 then decodeLoop fuel bytes result mask
    else some (result, mask, bytes)

/-- `utf8_iterator::operator*` on the bytes from `this->p` on: the code point
returned and the bytes from `this->n` on. -/
def deref : List Nat → Option (Nat × List Nat)
  | [] => none
  | b :: bytes =>
    let result := b % 256
    if result &&& 0x80 ≠ 0 then
      match decodeLoop 6 bytes result 0x40 with
      | none => none
      | some (result, mask, n) => some (result &&& (mask + 2 ^ 32 - 1) % 2 ^ 32, n)
    else some (result, bytes)

/-- The standard UTF-8 encoding of a code point in one to four bytes. -/
def encode (cp : Nat) : List Nat :=
  if cp < 0x80 then [cp]
  else if cp < 0x800 then [0xC0 + cp / 64, 0x80 + cp % 64]
  else if cp < 0x10000 then [0xE0 + cp / 4096, 0x80 + cp / 64 % 64, 0x80 + cp % 64]
  else [0xF0 + cp / 262144, 0x80 + cp / 4096 % 64, 0x80 + cp / 64 % 64, 0x80 + cp % 64]

end utf8_iterator
end SolveSpace

namespace SolveSpace
namespace Sketch

/-- The request is a line segment or an arc of the active group and workplane
that is not construction geometry. -/
def isCandidate (sk : Sketch) (r : Request) : Bool :=
  decide (r.group = sk.activeGroup) && decide (r.workplane = sk.activeWorkplane) &&
    !r.construction &&
    (decide (r.type = RequestType.LINE_SEGMENT) || decide (r.type = RequestType.ARC_OF_CIRCLE))

/-- The start and the finish point of the entity that the request generates. -/
def endpointsOf (sk : Sketch) (r : Request) : Option (Vector × Vector) :=
  match sk.GetEntity (r.h.entity 0) with
  | none => none
  | some e =>
    match sk.EndpointStart e, sk.EndpointFinish e with
    | some ps, some pf => some (ps, pf)
    | _, _ => none

/-- The request is a non-construction line segment or arc of the active group
and workplane with an end point numerically equal to `pshared`. -/
def joinsAt (M : Math) (sk : Sketch) (pshared : Vector) (r : Request) : Bool :=
  isCandidate sk r &&
    match endpointsOf sk r with
    | some (ps, pf) => ps.Equals pshared M.LENGTH_EPS || pf.Equals pshared M.LENGTH_EPS
    | none => false

/-- The corner example with the far end of the first segment selected. -/
def cornerSketchEnd : Sketch :=
  { cornerSketch 1 false with gs := ⟨[(cornerLine 2).h.entity 2], [], 1, 0, 0, 0, 0⟩ }

end Sketch
end SolveSpace

namespace SolveSpace
namespace Sketch

/-- The constraint lets `SplitLinesOrCurves` split the entity `ea` at a point:
its `ptA` is generated by the request of the selected point `hb`, its `entityA`
by the request of the selected entity `ha`, and when `ea` is a line segment
from `p0` to `p1` the point `ptA` lies on it. -/
def SplitsAt (env : SplitEnv) (sk : Sketch) (ea : Entity) (ha hb : hEntity) (p0 p1 : Vector)
    (c : Constraint) : Prop :=
  c.ptA.request = hb.request ∧ c.entityA.request = ha.request ∧
    (ea.type = EntityType.LINE_SEGMENT →
      ∃ pe, sk.GetEntity c.ptA = some pe ∧ env.OnLineSegment pe.PointGetNum p0 p1 = true)

/-- The constraint of the example for the split at a point: the start of the
second segment on the first segment. -/
def offLineConstraint : Constraint :=
  { coincident 1 0 0 with
    type := ConstraintType.PT_ON_LINE
    workplane := cornerPlane.h
    ptA := (cornerLine 3).h.entity 1
    ptB := NO_ENTITY
    entityA := (cornerLine 2).h.entity 0 }

/-- The two parallel segments with the first segment and the start of the
second one selected, and the constraint that puts this point on the first
segment. -/
def offLineSketch : Sketch :=
  { parallelSketch with
    constraint := [offLineConstraint]
    gs := ⟨[(cornerLine 3).h.entity 1], [(cornerLine 2).h.entity 0], 1, 1, 0, 0, 0⟩ }

end Sketch
end SolveSpace

namespace SolveSpace

/-- The class `Point2d`, with coordinates of the number type `α`. -/
structure Point2d (α : Type) where
  x : α
  y : α
deriving DecidableEq

namespace Point2d

/-- `Point2d::Minus`. -/
def Minus {α : Type} [Sub α] (a b : Point2d α) : Point2d α := ⟨a.x - b.x, a.y - b.y⟩

/-- `Point2d::MagSquared`. -/
def MagSquared {α : Type} [Add α] [Mul α] (a : Point2d α) : α := a.x * a.x + a.y * a.y

/-- `Point2d::Equals`: the tests of the two coordinate differences first, then
the squared distance against `tol*tol`. -/
def Equals {α : Type} [Add α] [Sub α] [Mul α] [Neg α] [LT α]
    [DecidableRel (fun x y : α => x < y)] (a v : Point2d α) (tol : α) : Bool :=
  let dx := v.x - a.x
  if dx < -tol ∨ dx > tol then false else
  let dy := v.y - a.y
  if dy < -tol ∨ dy > tol then false else
  decide ((a.Minus v).MagSquared < tol * tol)

/-- The test that the specification gives for `Point2d::Equals`, in exact
arithmetic: the squared distance of the two points is strictly below the square
of the tolerance. -/
def EqualsSpec (a b : Point2d ℚ) (tol : ℚ) : Bool :=
  decide ((a.x - b.x) ^ 2 + (a.y - b.y) ^ 2 < tol ^ 2)

end Point2d

/-- The assignment `mat[i] = v` on an array of numbers, given by its entries. -/
def setAt {α : Type} (mat : Nat → α) (i : Nat) (v : α) : Nat → α :=
  fun j => if j = i then v else mat j

/-- `SolveSpace::MakeMatrix`: the sixteen assignments, in the order of the
source. -/
def MakeMatrix {α : Type} (mat : Nat → α)
    (a11 a12 a13 a14 a21 a22 a23 a24 a31 a32 a33 a34 a41 a42 a43 a44 : α) : Nat → α :=
  let mat := setAt mat 0 a11
  let mat := setAt mat 1 a21
  let mat := setAt mat 2 a31
  let mat := setAt mat 3 a41
  let mat := setAt mat 4 a12
  let mat := setAt mat 5 a22
  let mat := setAt mat 6 a32
  let mat := setAt mat 7 a42
  let mat := setAt mat 8 a13
  let mat := setAt mat 9 a23
  let mat := setAt mat 10 a33
  let mat := setAt mat 11 a43
  let mat := setAt mat 12 a14
  let mat := setAt mat 13 a24
  let mat := setAt mat 14 a34
  setAt mat 15 a44

/-- `SolveSpace::MultMatrix`, with the result array `matr` apart from the two
operands. -/
def MultMatrix {α : Type} [Zero α] [Add α] [Mul α] (mata matb matr : Nat → α) : Nat → α :=
  forUp (fun i => decide (i < 4)) (fun i matr =>
    forUp (fun j => decide (j < 4)) (fun j matr =>
      let s := forUp (fun k => decide (k < 4))
        (fun k s => s + mata (k * 4 + j) * matb (i * 4 + k)) 4 0 0
      setAt matr (i * 4 + j) s) 4 0 matr) 4 0 matr

/-- The entry in row `r` and column `c` of a matrix in the layout of
`MakeMatrix`. -/
def entry {α : Type} (mat : Nat → α) (r c : Fin 4) : α := mat (4 * c.val + r.val)

/-- `MakeMatrix` on the sixteen entries of a matrix given by rows and columns. -/
def MakeMatrixOf {α : Type} (mat : Nat → α) (A : Fin 4 → Fin 4 → α) : Nat → α :=
  MakeMatrix mat (A 0 0) (A 0 1) (A 0 2) (A 0 3) (A 1 0) (A 1 1) (A 1 2) (A 1 3)
    (A 2 0) (A 2 1) (A 2 2) (A 2 3) (A 3 0) (A 3 1) (A 3 2) (A 3 3)

end SolveSpace

namespace SolveSpace

/-! ## The type `double`

The numbers of the program are IEEE 754 binary64 values. `F64` is that format
with rounding to nearest, ties to even: the finite values are `±m·2^e` with
`m < 2^53` and `-1074 ≤ e ≤ 971`, where `m ≥ 2^52` unless `e = -1074`
(subnormal numbers and the two zeros). The definitions over a number type
below are used with the rationals or the reals for exact arithmetic and with
`F64` for the arithmetic of the compiled program. -/

/-- A binary64 value: a NaN, an infinity with its sign, or the finite value
`(-1)^s · m · 2^e`. -/
inductive F64 where
  | nan
  | inf (s : Bool)
  | fin (s : Bool) (m : Nat) (e : Int)
deriving DecidableEq

namespace F64

/-- The number of binary digits of `n`, by halving at most `fuel` times. -/
def bitsAux : Nat → Nat → Nat
  | 0, _ => 0
  | fuel + 1, n => if n = 0 then 0 else bitsAux fuel (n / 2) + 1

/-- The number of binary digits of `n`. -/
def bits (n : Nat) : Nat := bitsAux n n

/-- The binary64 value nearest to `(-1)^s · (n + δ) · 2^e`, ties to even, where
`0 ≤ δ < 1` and `sticky` tells whether `δ ≠ 0`; with `sticky` set, `n` has more
than 53 digits. A magnitude of `2^1024` or more gives the infinity. -/
def round (s : Bool) (n : Nat) (e : Int) (sticky : Bool) : F64 :=
  if n = 0 then fin s 0 (-1074)
  else
    let e' : Int := max (e + (bits n : Int) - 53) (-1074)
    if e' ≤ e then
      if e' > 971 then inf s else fin s (n <<< (e - e').toNat) e'
    else
      let sh := (e' - e).toNat
      let q := n >>> sh
      let rem := n % (1 <<< sh)
      let half := 1 <<< (sh - 1)
      let up := decide (rem > half) || (decide (rem = half) && (sticky || decide (q % 2 = 1)))
      let q := if up then q + 1 else q
      let e' := if q = 9007199254740992 then e' + 1 else e'
      let q := if q = 9007199254740992 then 4503599627370496 else q
      if e' > 971 then inf s else fin s q e'

/-- The exact value `(-1)^s · m · 2^e` as an integer multiple of `2^e0`, for
`e0 ≤ e`. -/
def scaled (s : Bool) (m : Nat) (e e0 : Int) : Int :=
  if s then -((m <<< (e - e0).toNat : Nat) : Int) else ((m <<< (e - e0).toNat : Nat) : Int)

/-- Unary minus. -/
def neg : F64 → F64
  | nan => nan
  | inf s => inf (!s)
  | fin s m e => fin (!s) m e

/-- The sum, rounded; an exact zero sum is `+0` unless both terms are `-0`. -/
def add : F64 → F64 → F64
  | nan, _ => nan
  | _, nan => nan
  | inf s, inf s' => if s = s' then inf s else nan
  | inf s, fin _ _ _ => inf s
  | fin _ _ _, inf s => inf s
  | fin s1 m1 e1, fin s2 m2 e2 =>
    if scaled s1 m1 e1 (min e1 e2) + scaled s2 m2 e2 (min e1 e2) = 0 then
      fin (s1 && s2) 0 (-1074)
    else
      round (decide (scaled s1 m1 e1 (min e1 e2) + scaled s2 m2 e2 (min e1 e2) < 0))
        (scaled s1 m1 e1 (min e1 e2) + scaled s2 m2 e2 (min e1 e2)).natAbs (min e1 e2) false

/-- The difference, rounded. -/
def sub (x y : F64) : F64 := add x (neg y)

/-- The product, rounded; `0 · ∞` is a NaN. -/
def mul : F64 → F64 → F64
  | nan, _ => nan
  | _, nan => nan
  | inf s, inf s' => inf (xor s s')
  | inf s, fin s' m _ => if m = 0 then nan else inf (xor s s')
  | fin s m _, inf s' => if m = 0 then nan else inf (xor s s')
  | fin s1 m1 e1, fin s2 m2 e2 => round (xor s1 s2) (m1 * m2) (e1 + e2) false

/-- The quotient, rounded: the integer quotient of the numerator scaled by
`2^128` has more than 64 digits, and the remainder gives the sticky bit. -/
def div : F64 → F64 → F64
  | nan, _ => nan
  | _, nan => nan
  | inf _, inf _ => nan
  | inf s, fin s' _ _ => inf (xor s s')
  | fin s _ _, inf s' => fin (xor s s') 0 (-1074)
  | fin s1 m1 e1, fin s2 m2 e2 =>
    if m2 = 0 then (if m1 = 0 then nan else inf (xor s1 s2))
    else if m1 = 0 then fin (xor s1 s2) 0 (-1074)
    else round (xor s1 s2) ((m1 <<< 128) / m2) (e1 - e2 - 128)
      (decide ((m1 <<< 128) % m2 ≠ 0))

/-- The comparison `x < y` of the language: false when a NaN is involved. -/
def lt : F64 → F64 → Bool
  | nan, _ => false
  | _, nan => false
  | inf s, inf s' => s && !s'
  | inf s, fin _ _ _ => s
  | fin _ _ _, inf s => !s
  | fin s1 m1 e1, fin s2 m2 e2 =>
    decide (scaled s1 m1 e1 (min e1 e2) < scaled s2 m2 e2 (min e1 e2))

/-- The comparison `x == y` of the language: false when a NaN is involved, true
of the two zeros. -/
def eq : F64 → F64 → Bool
  | nan, _ => false
  | _, nan => false
  | inf s, inf s' => s == s'
  | inf _, fin _ _ _ => false
  | fin _ _ _, inf _ => false
  | fin s1 m1 e1, fin s2 m2 e2 =>
    decide (scaled s1 m1 e1 (min e1 e2) = scaled s2 m2 e2 (min e1 e2))

/-- The value is neither a NaN nor an infinity. -/
def isFinite : F64 → Bool
  | fin _ _ _ => true
  | _ => false

/-- The exact value of a finite binary64 number as a rational; 0 for a NaN and
the infinities. -/
def toRat : F64 → ℚ
  | fin s m e => (if s then -(m : ℚ) else (m : ℚ)) * (2 : ℚ) ^ e
  | _ => 0

instance : Zero F64 := ⟨fin false 0 (-1074)⟩
instance : One F64 := ⟨fin false 4503599627370496 (-52)⟩
instance : Add F64 := ⟨add⟩
instance : Sub F64 := ⟨sub⟩
instance : Mul F64 := ⟨mul⟩
instance : Div F64 := ⟨div⟩
instance : Neg F64 := ⟨neg⟩
instance : LT F64 := ⟨fun x y => lt x y = true⟩
instance : DecidableRel (fun x y : F64 => x < y) :=
  fun x y => inferInstanceAs (Decidable (lt x y = true))

end F64
end SolveSpace

namespace SolveSpace

/-! ## The curve arithmetic over a number type -/

namespace Numeric

/-- The class `Vector`, with coordinates of the number type `α`. -/
structure Vector (α : Type) where
  x : α
  y : α
  z : α
deriving DecidableEq

namespace Vector

/-- Modelled from the spec: `Vector::Plus`, the three-dimensional form of
`Point2d::Plus`. -/
def Plus {α : Type} [Add α] (a b : Vector α) : Vector α := ⟨a.x + b.x, a.y + b.y, a.z + b.z⟩

/-- Modelled from the spec: `Vector::Minus`, the three-dimensional form of
`Point2d::Minus`. -/
def Minus {α : Type} [Sub α] (a b : Vector α) : Vector α := ⟨a.x - b.x, a.y - b.y, a.z - b.z⟩

/-- Modelled from the spec: `Vector::ScaledBy`, the three-dimensional form of
`Point2d::ScaledBy`. -/
def ScaledBy {α : Type} [Mul α] (a : Vector α) (s : α) : Vector α := ⟨a.x * s, a.y * s, a.z * s⟩

/-- Modelled from the spec: `Vector::Dot`, the three-dimensional form of
`Point2d::Dot`. -/
def Dot {α : Type} [Add α] [Mul α] (a b : Vector α) : α := a.x * b.x + a.y * b.y + a.z * b.z

end Vector

/-- The fields of the class `GraphicsWindow::ParametricCurve`, over the number
type `α`. -/
structure ParametricCurve (α : Type) where
  isLine : Bool
  p0 : Vector α
  p1 : Vector α
  u : Vector α
  v : Vector α
  r : α
  theta0 : α
  theta1 : α
  dtheta : α

namespace ParametricCurve

/-- `ParametricCurve::PointAt`, with the library functions `cos` and `sin` as
parameters. -/
def PointAt {α : Type} [Add α] [Sub α] [Mul α] (cos sin : α → α) (pc : ParametricCurve α)
    (t : α) : Vector α :=
  if pc.isLine then pc.p0.Plus ((pc.p1.Minus pc.p0).ScaledBy t)
  else
    let theta := pc.theta0 + pc.dtheta * t
    pc.p0.Plus ((pc.u.ScaledBy (pc.r * cos theta)).Plus (pc.v.ScaledBy (pc.r * sin theta)))

/-- `ParametricCurve::TangentAt`, with the library functions `cos` and `sin` as
parameters. -/
def TangentAt {α : Type} [Add α] [Sub α] [Mul α] [Neg α] (cos sin : α → α)
    (pc : ParametricCurve α) (t : α) : Vector α :=
  if pc.isLine then pc.p1.Minus pc.p0
  else
    let theta := pc.theta0 + pc.dtheta * t
    let t' := (pc.u.ScaledBy (-pc.r * sin theta)).Plus (pc.v.ScaledBy (pc.r * cos theta))
    t'.ScaledBy pc.dtheta

/-- The curve that `MakeFromEntity` builds from a line segment with the start
point `ps` and the finish point `pf`: the two points, swapped when `reverse` is
set, and all other fields zero. -/
def line {α : Type} [Zero α] (ps pf : Vector α) (reverse : Bool) : ParametricCurve α :=
  { isLine := true, p0 := if reverse then pf else ps, p1 := if reverse then ps else pf,
    u := ⟨0, 0, 0⟩, v := ⟨0, 0, 0⟩, r := 0, theta0 := 0, theta1 := 0, dtheta := 0 }

end ParametricCurve

end Numeric

/-- The coordinates of a vector of the sketch, as a vector over `ℚ`. -/
def Vector.toNumeric (a : Vector) : Numeric.Vector ℚ := ⟨a.x, a.y, a.z⟩

/-- The fields of a curve of the sketch, as a curve over `ℚ`. -/
def ParametricCurve.toNumeric (pc : ParametricCurve) : Numeric.ParametricCurve ℚ :=
  { isLine := pc.isLine, p0 := pc.p0.toNumeric, p1 := pc.p1.toNumeric, u := pc.u.toNumeric,
    v := pc.v.toNumeric, r := pc.r, theta0 := pc.theta0, theta1 := pc.theta1,
    dtheta := pc.dtheta }

end SolveSpace

namespace SolveSpace

/-! ## Examples on doubles -/

namespace F64

/-- The value of the decimal constant `m·10^(-k)` of the source text: the
quotient, rounded once. -/
def ofDecimal (m k : Nat) : F64 :=
  if m = 0 then fin false 0 (-1074)
  else round false ((m <<< (128 + 4 * k)) / 10 ^ k) (-(128 + 4 * (k : Int)))
    (decide ((m <<< (128 + 4 * k)) % 10 ^ k ≠ 0))

instance instOfNatF64 (n : Nat) : OfNat F64 (n + 2) := ⟨round false (n + 2) 0 false⟩

/-- The identity matrix on doubles, built by `MakeMatrix`. -/
def identityMatrix : Nat → F64 :=
  MakeMatrix (fun _ => 0) 1 0 0 0 0 1 0 0 0 0 1 0 0 0 0 1

/-- The matrix on doubles with the entry `+inf` in row 0 and column 0 and zero
elsewhere, built by `MakeMatrix`. -/
def infMatrix : Nat → F64 :=
  MakeMatrix (fun _ => 0) (inf false) 0 0 0 0 0 0 0 0 0 0 0 0 0 0 0

/-- The double `1e-200`. -/
def tinyTol : F64 := ofDecimal 1 200

end F64

namespace Numeric

/-- A function in the place of `cos` and `sin` for a line curve, on which
`PointAt` and `TangentAt` call neither. -/
def unusedTrig : F64 → F64 := fun _ => 0

/-- The segment from `(0.3, 0, 0)` to `(0.9, 0, 0)` on doubles, as
`MakeFromEntity` stores it. -/
def tenthsLine (reverse : Bool) : ParametricCurve F64 :=
  ParametricCurve.line ⟨F64.ofDecimal 3 1, 0, 0⟩ ⟨F64.ofDecimal 9 1, 0, 0⟩ reverse

/-- The arc curve on doubles with centre at the origin, the axes `(1,0,0)` and
`(0,1,0)`, radius 1, start angle 0 and sweep `0.25`. -/
def quarterArc : ParametricCurve F64 :=
  { isLine := false, p0 := ⟨0, 0, 0⟩, p1 := ⟨0, 0, 0⟩, u := ⟨1, 0, 0⟩, v := ⟨0, 1, 0⟩,
    r := 1, theta0 := 0, theta1 := F64.ofDecimal 25 2, dtheta := F64.ofDecimal 25 2 }

/-- The arc curve with centre `(1, 2, 3)`, the axes `(1,0,0)` and `(0,1,0)`,
radius 2, start angle 1 and sweep 3, over the number type `α`. -/
def sampleArc (α : Type) [Zero α] [One α] [Add α] : ParametricCurve α :=
  { isLine := false, p0 := ⟨1, 1 + 1, 1 + 1 + 1⟩, p1 := ⟨0, 0, 0⟩, u := ⟨1, 0, 0⟩,
    v := ⟨0, 1, 0⟩, r := 1 + 1, theta0 := 1, theta1 := 1 + 1 + 1 + 1,
    dtheta := 1 + 1 + 1 }

/-- The double nearest to the cosine of `0.25`, `0.9689124217106447`, which the
C library returns for `cos(0.25)`. -/
def cosQuarter : F64 := F64.fin false 8727187242741409 (-53)

/-- The double nearest to the sine of `0.25`, `0.24740395925452294`, which the
C library returns for `sin(0.25)`. -/
def sinQuarter : F64 := F64.fin false 8913667029669239 (-55)

/-- The function `std::min(a, b)`: `(b < a) ? b : a`. -/
def stdMin {α : Type} [LT α] [DecidableRel (fun x y : α => x < y)] (a b : α) : α :=
  if b < a then b else a

/-- The automatic radius of `MakeTangentArc`, from the lengths `la0`, `la1` that
`LengthForAuto` returns for the two curves and the value `tt` of
`tan(theta / 2)`: `r = 200 / scale`, then `r = std::min(r, la0 * tt)` and
`r = std::min(r, la1 * tt)`. -/
def autoRadius {α : Type} [OfNat α 200] [Mul α] [Div α] [LT α]
    [DecidableRel (fun x y : α => x < y)] (scale la0 la1 tt : α) : α :=
  let r := 200 / scale
  let r := stdMin r (la0 * tt)
  stdMin r (la1 * tt)

/-- The double nearest to the tangent of `0.6`, `0.6841368083416923`, which the
C library returns for `tan(1.2 / 2)`. -/
def tanSixTenths : F64 := F64.fin false 6162156550236172 (-53)

end Numeric

namespace Sketch

/-- The second curve of the corner example with its start point moved by
`5e-7` along the line, away from the corner. -/
def offsetCurve1 : ParametricCurve :=
  { cornerCurve1 with p0 := ⟨0, -(1 / 2000000), 0⟩ }

/-- Modelled from the spec: what `SplitEntity` needs of `DeleteTaggedRequests`,
which is defined in another file: when no workplane is tagged, the request list
after the call is the list before it without the tagged requests
(`SK.request.RemoveTagged`). -/
def DeletesTagged (env : SplitEnv) : Prop :=
  ∀ s : Sketch, NoWorkplaneTagged s →
    (env.DeleteTaggedRequests s).request = removeTaggedRequests s.request

/-- The sketch with the two parallel segments in which the request of the first
segment is marked construction. -/
def constructionSketch : Sketch :=
  { parallelSketch with
    request := [cornerPlaneRequest, { cornerLine 2 with construction := true }, cornerLine 3] }

end Sketch

end SolveSpace

namespace SolveSpace

namespace BandedMatrix

variable {α : Type}

/-! ## The banded solve: lemmas -/

theorem ext_fields {m m' : BandedMatrix α} (hn : m.n = m'.n) (hA : ∀ r c, m.A r c = m'.A r c)
    (hB : ∀ r, m.B r = m'.B r) (hX : ∀ r, m.X r = m'.X r) : m = m' := by
  cases m; cases m'
  simp only at hn hA hB hX
  subst hn
  have h1 := funext fun r => funext (hA r)
  have h2 := funext hB
  have h3 := funext hX
  subst h1; subst h2; subst h3
  rfl

theorem jpLoop_spec [Sub α] [Mul α] (n R i ip : Nat) (temp : α) (hne : ip ≠ i) (fuel : Nat) :
    ∀ (k : Nat) (s : BandedMatrix α),
      let s' := forUp (fun jp => decide (jp + 2 < n) && decide (jp ≤ i + R))
        (fun jp s => s.setA ip jp (s.A ip jp - temp * s.A i jp)) fuel k s
      s'.n = s.n ∧ s'.B = s.B ∧ s'.X = s.X ∧
      ∀ r c, s'.A r c = if r = ip ∧ k ≤ c ∧ c < k + fuel ∧ c + 2 < n ∧ c ≤ i + R
        then s.A r c - temp * s.A i c else s.A r c := by
  induction fuel with
  | zero =>
    intro k s
    refine ⟨rfl, rfl, rfl, ?_⟩
    intro r c
    rw [if_neg (by omega)]
    rfl
  | succ f ih =>
    intro k s
    simp only [forUp]
    by_cases hc : (decide (k + 2 < n) && decide (k ≤ i + R)) = true
    · rw [if_pos hc]
      simp only [Bool.and_eq_true, decide_eq_true_eq] at hc
      obtain ⟨h1, h2, h3, h4⟩ := ih (k + 1) (s.setA ip k (s.A ip k - temp * s.A i k))
      refine ⟨h1, h2, h3, ?_⟩
      intro r c
      rw [h4]
      simp only [setA]
      by_cases hr : r = ip
      · subst hr
        by_cases hck : c = k
        · subst hck
          simp [hc.1, hc.2, hne.symm]
        · have : (k + 1 ≤ c ∧ c < k + 1 + f ∧ c + 2 < n ∧ c ≤ i + R) ↔
              (k ≤ c ∧ c < k + (f + 1) ∧ c + 2 < n ∧ c ≤ i + R) := by omega
          simp [hck, this, hne.symm]
      · simp [hr]
    · rw [if_neg hc]
      simp only [Bool.and_eq_true, decide_eq_true_eq, not_and_or, not_lt, not_le] at hc
      refine ⟨rfl, rfl, rfl, ?_⟩
      intro r c
      rw [if_neg (by omega)]

theorem rowOpBand_spec [Sub α] [Mul α] (R i ip : Nat) (temp : α) (m : BandedMatrix α)
    (hne : ip ≠ i) :
    (rowOpBand R i ip temp m).n = m.n ∧ (rowOpBand R i ip temp m).B = m.B ∧
    (rowOpBand R i ip temp m).X = m.X ∧
    ∀ r c, (rowOpBand R i ip temp m).A r c =
      if r = ip ∧ i ≤ c ∧ c + 2 < m.n ∧ c ≤ i + R then m.A r c - temp * m.A i c else m.A r c := by
  obtain ⟨h1, h2, h3, h4⟩ := jpLoop_spec m.n R i ip temp hne m.n i m
  refine ⟨h1, h2, h3, ?_⟩
  intro r c
  have e4 : (r = ip ∧ i ≤ c ∧ c < i + m.n ∧ c + 2 < m.n ∧ c ≤ i + R) ↔
      (r = ip ∧ i ≤ c ∧ c + 2 < m.n ∧ c ≤ i + R) := by omega
  unfold rowOpBand
  rw [h4, if_congr e4 rfl rfl]

theorem rowOp_eq [Sub α] [Mul α] [Div α] (R i ip : Nat) (m : BandedMatrix α) (hne : ip ≠ i)
    (hn : 2 ≤ m.n) : rowOp R i ip m = rowOpSpec R i ip m := by
  obtain ⟨h1, h2, h3, h4⟩ := rowOpBand_spec R i ip (m.A ip i / m.A i i) m hne
  apply ext_fields
  · simp only [rowOp, setA, setB, rowOpSpec, h1]
  · intro r c
    simp only [rowOp, setA, setB, rowOpSpec, h4, touched]
    by_cases hr : r = ip
    · subst hr
      by_cases c1 : c = m.n - 1
      · subst c1
        have e1 : ¬ (m.n - 1 = m.n - 2) := by omega
        have e2 : ¬ (m.n - 1 + 2 < m.n) := by omega
        have e3 : ¬ (m.n - 2 + 2 < m.n) := by omega
        simp [e1, e2, e3, hne.symm]
      · by_cases c2 : c = m.n - 2
        · subst c2
          have e3 : ¬ (m.n - 2 + 2 < m.n) := by omega
          simp [e3, hne.symm, c1]
        · simp [c1, c2]
    · simp [hr, Ne.symm hne, hne]
  · intro r
    simp only [rowOp, setA, setB, rowOpSpec, h2]
    by_cases hr : r = ip
    · subst hr; simp
    · simp [hr]
  · intro r
    simp only [rowOp, setA, setB, rowOpSpec, h3]

theorem ipLoop_spec [Sub α] [Mul α] [Div α] (L R i n : Nat) (fuel : Nat) :
    ∀ (k : Nat) (s : BandedMatrix α), i < k → s.n = n →
      let s' := forUp (fun ip => decide (ip < n) && decide (ip ≤ i + L))
        (fun ip s => rowOp R i ip s) fuel k s
      s'.n = s.n ∧ s'.X = s.X ∧
      (∀ r, s'.B r = if k ≤ r ∧ r < k + fuel ∧ r < n ∧ r ≤ i + L
        then s.B r - (s.A r i / s.A i i) * s.B i else s.B r) ∧
      ∀ r c, s'.A r c = if (k ≤ r ∧ r < k + fuel ∧ r < n ∧ r ≤ i + L) ∧ touched R n i c
        then s.A r c - (s.A r i / s.A i i) * s.A i c else s.A r c := by
  induction fuel with
  | zero =>
    intro k s _ _
    refine ⟨rfl, rfl, ?_, ?_⟩
    · intro r; rw [if_neg (by omega)]; rfl
    · intro r c; rw [if_neg (by omega)]; rfl
  | succ f ih =>
    intro k s hik hsn
    simp only [forUp]
    by_cases hc : (decide (k < n) && decide (k ≤ i + L)) = true
    · rw [if_pos hc]
      simp only [Bool.and_eq_true, decide_eq_true_eq] at hc
      have hki : k ≠ i := by omega
      have hik' : i ≠ k := by omega
      rw [rowOp_eq R i k s hki (by omega)]
      obtain ⟨h1, h2, h3, h4⟩ := ih (k + 1) (rowOpSpec R i k s) (by omega) hsn
      refine ⟨h1, h2, ?_, ?_⟩
      · intro r
        rw [h3]
        simp only [rowOpSpec]
        by_cases hr : r = k
        · subst hr
          have e1 : ¬ (r + 1 ≤ r ∧ r < r + 1 + f ∧ r < n ∧ r ≤ i + L) := by omega
          have e2 : (r ≤ r ∧ r < r + (f + 1) ∧ r < n ∧ r ≤ i + L) := by omega
          simp [e1, e2]
        · have e : (k + 1 ≤ r ∧ r < k + 1 + f ∧ r < n ∧ r ≤ i + L) ↔
              (k ≤ r ∧ r < k + (f + 1) ∧ r < n ∧ r ≤ i + L) := by omega
          simp [hr, e, hik']
      · intro r c
        rw [h4]
        simp only [rowOpSpec, hsn]
        by_cases hr : r = k
        · subst hr
          have e1 : ¬ (r + 1 ≤ r ∧ r < r + 1 + f ∧ r < n ∧ r ≤ i + L) := by omega
          have e2 : (r ≤ r ∧ r < r + (f + 1) ∧ r < n ∧ r ≤ i + L) := by omega
          simp [e1, e2]
        · have e : (k + 1 ≤ r ∧ r < k + 1 + f ∧ r < n ∧ r ≤ i + L) ↔
              (k ≤ r ∧ r < k + (f + 1) ∧ r < n ∧ r ≤ i + L) := by omega
          simp [hr, e, hik']
    · rw [if_neg hc]
      simp only [Bool.and_eq_true, decide_eq_true_eq, not_and_or, not_lt, not_le] at hc
      refine ⟨rfl, rfl, ?_, ?_⟩
      · intro r; rw [if_neg (by omega)]
      · intro r c; rw [if_neg (by omega)]

theorem elimCol_eq [Sub α] [Mul α] [Div α] (L R i : Nat) (m : BandedMatrix α) :
    elimCol L R i m = elimColSpec L R i m := by
  obtain ⟨h1, h2, h3, h4⟩ := ipLoop_spec L R i m.n m.n (i + 1) m (by omega) rfl
  apply ext_fields
  · exact h1
  · intro r c
    have e : (i + 1 ≤ r ∧ r < i + 1 + m.n ∧ r < m.n ∧ r ≤ i + L) ↔
        (i < r ∧ r < m.n ∧ r ≤ i + L) := by omega
    unfold elimCol
    rw [h4]
    simp only [elimColSpec, e]
  · intro r
    have e : (i + 1 ≤ r ∧ r < i + 1 + m.n ∧ r < m.n ∧ r ≤ i + L) ↔
        (i < r ∧ r < m.n ∧ r ≤ i + L) := by omega
    unfold elimCol
    rw [h3]
    simp only [elimColSpec, e]
  · intro r
    unfold elimCol
    rw [h2]
    rfl

theorem reduceUpTo_n [Sub α] [Mul α] [Div α] (L R : Nat) (m : BandedMatrix α) (k : Nat) :
    (reduceUpTo L R k m).n = m.n := by
  induction k with
  | zero => rfl
  | succ k ih => simpa [reduceUpTo, elimColSpec] using ih

theorem reduceUpTo_X [Sub α] [Mul α] [Div α] (L R : Nat) (m : BandedMatrix α) (k : Nat) :
    (reduceUpTo L R k m).X = m.X := by
  induction k with
  | zero => rfl
  | succ k ih => simpa [reduceUpTo, elimColSpec] using ih

theorem outerLoop_spec [Sub α] [Mul α] [Div α] (L R : Nat) (m : BandedMatrix α) (fuel : Nat) :
    ∀ k, k + fuel = m.n →
      forUp (fun i => decide (i < m.n)) (fun i s => elimCol L R i s) fuel k (reduceUpTo L R k m)
        = reduceUpTo L R m.n m := by
  induction fuel with
  | zero =>
    intro k hk
    have : k = m.n := by omega
    subst this
    rfl
  | succ f ih =>
    intro k hk
    have hlt : k < m.n := by omega
    simp only [forUp, hlt, decide_True, if_true]
    rw [elimCol_eq]
    exact ih (k + 1) (by omega)

theorem Reduce_eq [Sub α] [Mul α] [Div α] (L R : Nat) (m : BandedMatrix α) :
    Reduce L R m = reduceUpTo L R m.n m :=
  outerLoop_spec L R m m.n 0 (by omega)

/-- Rows `r ≤ k` are final after `k` outer iterations. -/
theorem reduceUpTo_row_frame [Sub α] [Mul α] [Div α] (L R : Nat) (m : BandedMatrix α)
    (r k : Nat) (hrk : r ≤ k) (d : Nat) :
    (∀ c, (reduceUpTo L R (k + d) m).A r c = (reduceUpTo L R k m).A r c) ∧
    (reduceUpTo L R (k + d) m).B r = (reduceUpTo L R k m).B r := by
  induction d with
  | zero => exact ⟨fun _ => rfl, rfl⟩
  | succ d ih =>
    have h1 : ¬ (k + d < r ∧ r < (reduceUpTo L R (k + d) m).n ∧ r ≤ k + d + L) := by omega
    constructor
    · intro c
      rw [← ih.1 c]
      show (elimColSpec L R (k + d) (reduceUpTo L R (k + d) m)).A r c = _
      simp only [elimColSpec]
      rw [if_neg (fun h => h1 h.1)]
    · rw [← ih.2]
      show (elimColSpec L R (k + d) (reduceUpTo L R (k + d) m)).B r = _
      simp only [elimColSpec]
      rw [if_neg h1]

theorem pivotRow_zero (L R k : Nat) (s : BandedMatrix ℚ) (hb : Banded L R s)
    (hz : LowerZero k s) (hk : k < s.n) (c : Nat) (hc : c < s.n)
    (ht : ¬ touched R s.n k c) : s.A k c = 0 := by
  unfold touched at ht
  by_cases hck : c < k
  · exact hz k c hck hck hk
  · exact hb k c hk hc (by omega) (by omega) (by omega)

theorem elimColSpec_fullRow (L R k : Nat) (s : BandedMatrix ℚ) (hb : Banded L R s)
    (hz : LowerZero k s) (hk : k < s.n) (r c : Nat) (hr : k < r ∧ r < s.n ∧ r ≤ k + L)
    (hc : c < s.n) :
    (elimColSpec L R k s).A r c = s.A r c - (s.A r k / s.A k k) * s.A k c := by
  simp only [elimColSpec]
  by_cases ht : touched R s.n k c
  · rw [if_pos ⟨hr, ht⟩]
  · rw [if_neg (fun h => ht h.2), pivotRow_zero L R k s hb hz hk c hc ht]
    ring

theorem elimColSpec_banded (L R k : Nat) (s : BandedMatrix ℚ) (hb : Banded L R s) :
    Banded L R (elimColSpec L R k s) := by
  intro r c hr hc hout h2 h1
  have hn : (elimColSpec L R k s).n = s.n := rfl
  rw [hn] at hr hc h2 h1
  simp only [elimColSpec]
  rw [if_neg, hb r c hr hc hout h2 h1]
  unfold touched
  omega

theorem elimColSpec_lowerZero (L R k : Nat) (hL : 1 ≤ L) (s : BandedMatrix ℚ)
    (hb : Banded L R s) (hz : LowerZero k s) (hk : k < s.n)
    (hp : k + 1 < s.n → s.A k k ≠ 0) : LowerZero (k + 1) (elimColSpec L R k s) := by
  intro r c hc hcr hr
  have hn : (elimColSpec L R k s).n = s.n := rfl
  rw [hn] at hr
  by_cases hck : c < k
  · simp only [elimColSpec]
    have h0 : s.A r c = 0 := hz r c hck hcr hr
    have h1 : s.A k c = 0 := hz k c hck hck hk
    split_ifs <;> simp [h0, h1]
  · have : c = k := by omega
    subst this
    by_cases hin : r ≤ c + L
    · rw [elimColSpec_fullRow L R c s hb hz hk r c ⟨hcr, hr, hin⟩ hk]
      have := hp (by omega)
      field_simp
    · simp only [elimColSpec]
      rw [if_neg (by omega)]
      exact hb r c hr hk (by omega) (by omega) (by omega)

theorem elimColSpec_solImp (L R k : Nat) (s : BandedMatrix ℚ)
    (hb : Banded L R s) (hz : LowerZero k s) (hk : k < s.n) :
    SolImp (elimColSpec L R k s) s := by
  intro x hx r hr
  have hn : (elimColSpec L R k s).n = s.n := rfl
  rw [hn] at hx
  have hrowk : rowDot s x k = s.B k := by
    have := hx k hk
    simp only [rowDot, elimColSpec] at this
    rw [if_neg (by omega)] at this
    rw [← this]
    simp only [rowDot]
    apply Finset.sum_congr rfl
    intro c _
    rw [if_neg (by omega)]
  by_cases hin : k < r ∧ r < s.n ∧ r ≤ k + L
  · have h := hx r hr
    have hB : (elimColSpec L R k s).B r = s.B r - (s.A r k / s.A k k) * s.B k := by
      simp only [elimColSpec]; rw [if_pos hin]
    have hsum : rowDot (elimColSpec L R k s) x r
        = rowDot s x r - (s.A r k / s.A k k) * rowDot s x k := by
      simp only [rowDot, hn]
      rw [Finset.mul_sum, ← Finset.sum_sub_distrib]
      apply Finset.sum_congr rfl
      intro c hc
      rw [elimColSpec_fullRow L R k s hb hz hk r c hin (Finset.mem_range.mp hc)]
      ring
    rw [hsum, hB, hrowk] at h
    linarith
  · have h := hx r hr
    simp only [rowDot, elimColSpec] at h
    rw [if_neg hin] at h
    rw [← h]
    simp only [rowDot]
    apply Finset.sum_congr rfl
    intro c _
    rw [if_neg (fun h => hin h.1)]

theorem reduceUpTo_inv (L R : Nat) (hL : 1 ≤ L) (m : BandedMatrix ℚ) (hb : Banded L R m)
    (k : Nat) (hk : k ≤ m.n)
    (hp : ∀ i, i < k → i + 1 < m.n → (reduceUpTo L R i m).A i i ≠ 0) :
    Banded L R (reduceUpTo L R k m) ∧ LowerZero k (reduceUpTo L R k m) ∧
      SolImp (reduceUpTo L R k m) m := by
  induction k with
  | zero =>
    refine ⟨hb, ?_, fun x hx => hx⟩
    intro r c hc
    omega
  | succ k ih =>
    obtain ⟨ib, iz, isol⟩ := ih (by omega) (fun i hi => hp i (by omega))
    have hn := reduceUpTo_n L R m k
    have hkn : k < (reduceUpTo L R k m).n := by omega
    refine ⟨elimColSpec_banded L R k _ ib, ?_, ?_⟩
    · apply elimColSpec_lowerZero L R k hL _ ib iz hkn
      intro h
      exact hp k (by omega) (by omega)
    · intro x hx
      exact isol x (elimColSpec_solImp L R k _ ib iz hkn x hx)

/-- The pivot of step `i` is the diagonal entry of the reduced matrix. -/
theorem reduce_pivot (L R : Nat) (m : BandedMatrix ℚ) (i : Nat) (hi : i ≤ m.n) (c : Nat) :
    (reduceUpTo L R m.n m).A i c = (reduceUpTo L R i m).A i c := by
  have := (reduceUpTo_row_frame L R m i i (le_refl i) (m.n - i)).1 c
  rwa [Nat.add_sub_cancel' hi] at this

theorem forDownTo_sum (i : Nat) (h : Nat → ℚ) (c : Nat) (t : ℚ) :
    forDownTo i (fun j t => t - h j) c t
      = t - Finset.sum (Finset.range c) fun j => h (i + j + 1) := by
  induction c generalizing t with
  | zero => simp [forDownTo]
  | succ c ih =>
    simp only [forDownTo]
    rw [ih, Finset.sum_range_succ]
    ring

theorem sum_window (n i : Nat) (h : Nat → ℚ) (c : Nat) (hc : i + c < n) :
    (Finset.sum (Finset.range c) fun j => h (i + j + 1))
      = Finset.sum (Finset.range n) fun x => if i < x ∧ x ≤ i + c then h x else 0 := by
  induction c with
  | zero =>
    simp only [Finset.range_zero, Finset.sum_empty]
    symm
    apply Finset.sum_eq_zero
    intro x _
    rw [if_neg (by omega)]
  | succ c ih =>
    rw [Finset.sum_range_succ, ih (by omega)]
    have : ∀ x, (if i < x ∧ x ≤ i + (c + 1) then h x else 0)
        = (if i < x ∧ x ≤ i + c then h x else 0) + (if x = i + c + 1 then h x else 0) := by
      intro x
      by_cases h1 : x = i + c + 1
      · subst h1
        rw [if_pos (by omega), if_neg (by omega), if_pos rfl]
        ring
      · by_cases h2 : i < x ∧ x ≤ i + c
        · rw [if_pos (by omega), if_pos h2, if_neg h1]; ring
        · rw [if_neg (by omega), if_neg h2, if_neg h1]; ring
    simp only [this]
    rw [Finset.sum_add_distrib]
    congr 1
    rw [Finset.sum_ite_eq' (Finset.range n) (i + c + 1) h]
    rw [if_pos (Finset.mem_range.mpr (by omega))]

theorem backStep_eq (R i : Nat) (m : BandedMatrix ℚ) :
    backStep R i m = m.setX i (backTemp R i m / m.A i i) := rfl

theorem backCount_le (R n i : Nat) : backCount R n i = 0 ∨ i + backCount R n i + 3 ≤ n := by
  unfold backCount
  omega

theorem backCount_ge (R n i c : Nat) (h1 : i < c) (h2 : c + 3 ≤ n) (h3 : c ≤ i + R) :
    c ≤ i + backCount R n i := by
  unfold backCount
  omega

theorem backTemp_eq (L R i : Nat) (m : BandedMatrix ℚ) (hb : Banded L R m)
    (hz : LowerZero m.n m) (hi : i < m.n) :
    backTemp R i m = m.B i
      - Finset.sum (Finset.range m.n) fun c => if c = i then 0 else m.A i c * m.X c := by
  unfold backTemp
  rw [forDownTo_sum i (fun j => m.X j * m.A i j)]
  have hcnt := backCount_le R m.n i
  have hwin := sum_window m.n i (fun j => m.X j * m.A i j) (backCount R m.n i) (by omega)
  rw [hwin]
  have key : ∀ c, c ∈ Finset.range m.n → (if c = i then 0 else m.A i c * m.X c)
      = (if i < c ∧ c ≤ i + backCount R m.n i then m.X c * m.A i c else 0)
        + ((if c = m.n - 1 then (if i + 1 < m.n then m.X c * m.A i c else 0) else 0)
        + (if c = m.n - 2 then (if i + 2 < m.n then m.X c * m.A i c else 0) else 0)) := by
    intro c hc
    have hc' : c < m.n := Finset.mem_range.mp hc
    rcases lt_trichotomy c i with h | h | h
    · have z := hz i c (by omega) h hi
      have e1 : ¬ c = i := by omega
      have e2 : ¬ (i < c ∧ c ≤ i + backCount R m.n i) := by omega
      have e3 : ¬ c = m.n - 1 := by omega
      rw [if_neg e1, if_neg e2, if_neg e3, z]
      split_ifs <;> ring1
    · have e2 : ¬ (i < c ∧ c ≤ i + backCount R m.n i) := by omega
      rw [if_pos h, if_neg e2]
      split_ifs <;> first | ring1 | (exfalso; omega)
    · have e1 : ¬ c = i := by omega
      rw [if_neg e1]
      by_cases h3 : c = m.n - 1
      · have e2 : ¬ (i < c ∧ c ≤ i + backCount R m.n i) := by omega
        rw [if_neg e2]
        split_ifs <;> first | ring1 | (exfalso; omega)
      · by_cases h4 : c = m.n - 2
        · have e2 : ¬ (i < c ∧ c ≤ i + backCount R m.n i) := by omega
          rw [if_neg e2]
          split_ifs <;> first | ring1 | (exfalso; omega)
        · rw [if_neg h3, if_neg h4]
          by_cases h5 : c ≤ i + backCount R m.n i
          · rw [if_pos ⟨h, h5⟩]; ring
          · rw [if_neg (fun hh => h5 hh.2)]
            have hR : i + R < c := by
              by_contra hcon
              exact h5 (backCount_ge R m.n i c h (by omega) (by omega))
            rw [hb i c hi hc' (Or.inr hR) h4 h3]
            ring
  rw [Finset.sum_congr rfl key, Finset.sum_add_distrib, Finset.sum_add_distrib]
  rw [Finset.sum_ite_eq' (Finset.range m.n) (m.n - 1)
        (fun c => if i + 1 < m.n then m.X c * m.A i c else 0)]
  rw [Finset.sum_ite_eq' (Finset.range m.n) (m.n - 2)
        (fun c => if i + 2 < m.n then m.X c * m.A i c else 0)]
  split_ifs <;> first | ring1 | (exfalso; simp only [Finset.mem_range] at *; omega)

theorem backStep_rowsHold (L R k : Nat) (m : BandedMatrix ℚ) (hu : UpperBanded L R m)
    (hk : k < m.n) (hr : RowsHold (k + 1) m) : RowsHold k (backStep R k m) := by
  obtain ⟨hb, hz, hd⟩ := hu
  intro i hki hi
  rw [backStep_eq] at hi ⊢
  have hn : (m.setX k (backTemp R k m / m.A k k)).n = m.n := rfl
  rw [hn] at hi
  by_cases hik : i = k
  · subst hik
    have ht := backTemp_eq L R i m hb hz hi
    have hsplit : rowDot (m.setX i (backTemp R i m / m.A i i))
        (m.setX i (backTemp R i m / m.A i i)).X i
        = (Finset.sum (Finset.range m.n) fun c => if c = i then 0 else m.A i c * m.X c)
          + m.A i i * (backTemp R i m / m.A i i) := by
      simp only [rowDot, setX]
      have : ∀ c, c ∈ Finset.range m.n →
          m.A i c * (if c = i then backTemp R i m / m.A i i else m.X c)
          = (if c = i then 0 else m.A i c * m.X c)
            + (if c = i then m.A i c * (backTemp R i m / m.A i i) else 0) := by
        intro c _
        split_ifs <;> ring1
      rw [Finset.sum_congr rfl this, Finset.sum_add_distrib]
      rw [Finset.sum_ite_eq' (Finset.range m.n) i
        (fun c => m.A i c * (backTemp R i m / m.A i i)), if_pos (Finset.mem_range.mpr hi)]
    rw [hsplit]
    show _ = m.B i
    have hdi := hd i hi
    rw [mul_div_cancel₀ _ hdi, ht]
    ring
  · have hlt : k < i := by omega
    have := hr i (by omega) hi
    rw [← show m.B i = (m.setX k (backTemp R k m / m.A k k)).B i from rfl] 
    rw [← this]
    simp only [rowDot, setX]
    apply Finset.sum_congr rfl
    intro c _
    by_cases hck : c = k
    · subst hck
      rw [hz i c hk hlt hi]
      ring
    · rw [if_neg hck]

theorem backLoop_rowsHold (L R : Nat) (k : Nat) :
    ∀ (m : BandedMatrix ℚ), UpperBanded L R m → k ≤ m.n → RowsHold k m →
      (forDown (fun i s => backStep R i s) k m).n = m.n ∧
      (forDown (fun i s => backStep R i s) k m).A = m.A ∧
      (forDown (fun i s => backStep R i s) k m).B = m.B ∧
      RowsHold 0 (forDown (fun i s => backStep R i s) k m) := by
  induction k with
  | zero => intro m _ _ h; exact ⟨rfl, rfl, rfl, h⟩
  | succ k ih =>
    intro m hu hk hr
    simp only [forDown]
    have h1 := backStep_rowsHold L R k m hu (by omega) hr
    have hu' : UpperBanded L R (backStep R k m) := hu
    obtain ⟨a, b, c, d⟩ := ih (backStep R k m) hu' (by
      have : (backStep R k m).n = m.n := rfl
      omega) h1
    exact ⟨a, b, c, d⟩

theorem BackSubstitute_rowsHold (L R : Nat) (m : BandedMatrix ℚ) (hu : UpperBanded L R m) :
    ∀ i, i < m.n → rowDot m (BackSubstitute R m).X i = m.B i := by
  obtain ⟨hn, hA, hB, h⟩ := backLoop_rowsHold L R m.n m hu (le_refl _)
    (by intro i h1 h2; omega)
  intro i hi
  have := h i (Nat.zero_le _) (by rw [hn]; exact hi)
  simp only [rowDot, hn, hA, hB] at this
  exact this

/-- The banded solve is correct over the rationals when no pivot is zero. -/
theorem Solve_rat (L R : Nat) (hL : 1 ≤ L) (m : BandedMatrix ℚ) (hb : Banded L R m)
    (hp : ∀ i, i < m.n → (Reduce L R m).A i i ≠ 0) :
    ∀ r, r < m.n → rowDot m (Solve L R m).X r = m.B r := by
  have hn := reduceUpTo_n L R m m.n
  have hpi : ∀ i, i < m.n → i + 1 < m.n → (reduceUpTo L R i m).A i i ≠ 0 := by
    intro i hi _
    have := hp i hi
    rwa [Reduce_eq, reduce_pivot L R m i (by omega)] at this
  obtain ⟨ib, iz, isol⟩ := reduceUpTo_inv L R hL m hb m.n (le_refl _) hpi
  have hu : UpperBanded L R (Reduce L R m) := by
    rw [Reduce_eq]
    refine ⟨ib, ?_, ?_⟩
    · rw [hn]; exact iz
    · intro i hi
      have := hp i (by omega)
      rwa [Reduce_eq] at this
  have hrows := BackSubstitute_rowsHold L R (Reduce L R m) hu
  have := isol (Solve L R m).X (by
    intro r hr
    rw [← Reduce_eq]
    exact hrows r (by rw [Reduce_eq]; exact hr))
  exact this

end BandedMatrix

namespace Dbl
theorem fin_sub_fin (a b : ℚ) : (fin a - fin b : Dbl) = fin (a - b) := rfl
theorem fin_mul_fin (a b : ℚ) : (fin a * fin b : Dbl) = fin (a * b) := rfl
theorem fin_div_fin (a b : ℚ) (hb : b ≠ 0) : (fin a / fin b : Dbl) = fin (a / b) := by
  show Dbl.div (fin a) (fin b) = _
  simp [Dbl.div, hb]
theorem fin_div_zero (a : ℚ) : (fin a / fin 0 : Dbl) = nonfinite := by
  show Dbl.div (fin a) (fin 0) = _
  simp [Dbl.div]
end Dbl

namespace BandedMatrix

theorem elimColSpec_toDbl (L R k : Nat) (s : BandedMatrix ℚ) (hp : s.A k k ≠ 0) :
    elimColSpec L R k s.toDbl = (elimColSpec L R k s).toDbl := by
  apply ext_fields
  · rfl
  · intro r c
    simp only [elimColSpec, toDbl]
    split_ifs
    · rw [Dbl.fin_div_fin _ _ hp, Dbl.fin_mul_fin, Dbl.fin_sub_fin]
    · rfl
  · intro r
    simp only [elimColSpec, toDbl]
    split_ifs
    · rw [Dbl.fin_div_fin _ _ hp, Dbl.fin_mul_fin, Dbl.fin_sub_fin]
    · rfl
  · intro r
    rfl

theorem reduceUpTo_toDbl (L R : Nat) (m : BandedMatrix ℚ)
    (hp : ∀ i, i < m.n → (Reduce L R m.toDbl).A i i ≠ Dbl.fin 0) (k : Nat) (hk : k ≤ m.n) :
    reduceUpTo L R k m.toDbl = (reduceUpTo L R k m).toDbl ∧
      ∀ i, i < k → (reduceUpTo L R i m).A i i ≠ 0 := by
  induction k with
  | zero => exact ⟨rfl, fun i hi => absurd hi (Nat.not_lt_zero i)⟩
  | succ k ih =>
    obtain ⟨h1, h2⟩ := ih (by omega)
    have hpk : (reduceUpTo L R k m).A k k ≠ 0 := by
      intro h0
      apply hp k (by omega)
      rw [Reduce_eq]
      have hf := (reduceUpTo_row_frame L R m.toDbl k k (le_refl k) (m.n - k)).1 k
      have e : k + (m.n - k) = m.toDbl.n := by
        show k + (m.n - k) = m.n
        omega
      rw [e] at hf
      rw [hf, h1]
      show Dbl.fin ((reduceUpTo L R k m).A k k) = Dbl.fin 0
      rw [h0]
    constructor
    · show elimColSpec L R k (reduceUpTo L R k m.toDbl) = _
      rw [h1, elimColSpec_toDbl L R k _ hpk]
      rfl
    · intro i hi
      by_cases hik : i = k
      · subst hik; exact hpk
      · exact h2 i (by omega)

theorem forDownTo_toDbl (i : Nat) (h : Nat → ℚ) (c : Nat) (t : ℚ) :
    forDownTo i (fun j (t : Dbl) => t - Dbl.fin (h j)) c (Dbl.fin t)
      = Dbl.fin (forDownTo i (fun j t => t - h j) c t) := by
  induction c generalizing t with
  | zero => rfl
  | succ c ih =>
    simp only [forDownTo]
    rw [Dbl.fin_sub_fin, ih]

theorem backStep_toDbl (R i : Nat) (s : BandedMatrix ℚ) (hp : s.A i i ≠ 0) :
    backStep R i s.toDbl = (backStep R i s).toDbl := by
  apply ext_fields
  · rfl
  · intro r c; rfl
  · intro r; rfl
  · intro r
    simp only [backStep, setX, toDbl]
    by_cases hr : r = i
    · rw [if_pos hr, if_pos hr]
      have e : ∀ (b : Prop) [Decidable b] (x y : ℚ),
          (if b then Dbl.fin x else Dbl.fin y) = Dbl.fin (if b then x else y) := by
        intro b _ x y; split_ifs <;> rfl
      simp only [Dbl.fin_mul_fin, Dbl.fin_sub_fin, e]
      rw [forDownTo_toDbl i (fun j => s.X j * s.A i j), Dbl.fin_div_fin _ _ hp]
    · rw [if_neg hr, if_neg hr]

theorem backLoop_toDbl (R : Nat) (k : Nat) :
    ∀ (s : BandedMatrix ℚ), (∀ i, i < k → s.A i i ≠ 0) →
      forDown (fun i s => backStep R i s) k s.toDbl
        = (forDown (fun i s => backStep R i s) k s).toDbl := by
  induction k with
  | zero => intro s _; rfl
  | succ k ih =>
    intro s hp
    simp only [forDown]
    rw [backStep_toDbl R k s (hp k (by omega))]
    exact ih (backStep R k s) (fun i hi => hp i (by omega))

theorem Solve_toDbl (L R : Nat) (m : BandedMatrix ℚ)
    (hp : ∀ i, i < m.n → (Reduce L R m.toDbl).A i i ≠ Dbl.fin 0) :
    Solve L R m.toDbl = (Solve L R m).toDbl ∧ ∀ i, i < m.n → (Reduce L R m).A i i ≠ 0 := by
  obtain ⟨h1, h2⟩ := reduceUpTo_toDbl L R m hp m.n (le_refl _)
  have hred : Reduce L R m.toDbl = (Reduce L R m).toDbl := by
    rw [Reduce_eq, Reduce_eq]; exact h1
  have hpq : ∀ i, i < m.n → (Reduce L R m).A i i ≠ 0 := by
    intro i hi
    rw [Reduce_eq, reduce_pivot L R m i (by omega)]
    exact h2 i hi
  refine ⟨?_, hpq⟩
  unfold Solve BackSubstitute
  rw [hred]
  have hn : (Reduce L R m).n = m.n := by rw [Reduce_eq]; exact reduceUpTo_n L R m m.n
  exact backLoop_toDbl R _ (Reduce L R m) (fun i hi => hpq i (by
    have : (Reduce L R m).toDbl.n = (Reduce L R m).n := rfl
    omega))

end BandedMatrix

end SolveSpace

namespace SolveSpace

namespace BandedMatrix

/-! ## The banded solve: results -/

theorem Reduce_n {α : Type} [Sub α] [Mul α] [Div α] (L R : Nat) (m : BandedMatrix α) :
    (Reduce L R m).n = m.n := by
  rw [Reduce_eq]
  exact reduceUpTo_n L R m m.n

/-- The pivot that the reduction divides by in its iteration `i` is the diagonal
entry `A[i][i]` of the reduced matrix, the one back-substitution divides by. -/
theorem Reduce_pivot_final {α : Type} [Sub α] [Mul α] [Div α] (L R : Nat) (m : BandedMatrix α)
    (i : Nat) (hi : i ≤ m.n) :
    (Reduce L R m).A i i = (reduceUpTo L R i m).A i i := by
  rw [Reduce_eq]
  have := (reduceUpTo_row_frame L R m i i (le_refl i) (m.n - i)).1 i
  rwa [Nat.add_sub_cancel' hi] at this

theorem backLoop_frame {α : Type} [Sub α] [Mul α] [Div α] (R : Nat) (k : Nat) :
    ∀ (s : BandedMatrix α),
      (forDown (fun i s => backStep R i s) k s).A = s.A ∧
      ∀ i, k ≤ i → (forDown (fun i s => backStep R i s) k s).X i = s.X i := by
  induction k with
  | zero => intro s; exact ⟨rfl, fun _ _ => rfl⟩
  | succ k ih =>
    intro s
    obtain ⟨h1, h2⟩ := ih (backStep R k s)
    simp only [forDown]
    refine ⟨h1, ?_⟩
    intro i hi
    rw [h2 i (by omega)]
    simp only [backStep, setX]
    rw [if_neg (by omega)]

theorem backLoop_X {α : Type} [Sub α] [Mul α] [Div α] (R i : Nat) (k : Nat) :
    ∀ (s : BandedMatrix α), i < k →
      ∃ s' : BandedMatrix α, s'.A = s.A ∧
        (forDown (fun i s => backStep R i s) k s).X i = (backStep R i s').X i := by
  induction k with
  | zero => intro s h; omega
  | succ k ih =>
    intro s hik
    simp only [forDown]
    by_cases h : i = k
    · subst h
      exact ⟨s, rfl, (backLoop_frame R i (backStep R i s)).2 i (le_refl i)⟩
    · obtain ⟨s', h1, h2⟩ := ih (backStep R k s) (by omega)
      exact ⟨s', h1, h2⟩

theorem Dbl_div_zero (x : Dbl) : x / Dbl.fin 0 = Dbl.nonfinite := by
  cases x with
  | fin a => exact Dbl.fin_div_zero a
  | nonfinite => rfl

/-- Claim C1.  For every system `A·x = B` of `n` unknowns whose rows are zero outside
the band `i - LEFT_OF_DIAG .. i + RIGHT_OF_DIAG` and the last two columns, if no
pivot is zero when it is divided by (every diagonal entry of the reduced matrix
is a nonzero number), then `Solve` leaves in `X` finite values `x` with
`(original A)·x = (original B)` in exact arithmetic.  The class constants are
parameters; the band must reach at least one row below the diagonal. -/
theorem Solve_correct (LEFT_OF_DIAG RIGHT_OF_DIAG : Nat) (hL : 1 ≤ LEFT_OF_DIAG)
    (m : BandedMatrix ℚ) (hb : Banded LEFT_OF_DIAG RIGHT_OF_DIAG m)
    (hp : ∀ i, i < m.n → (Reduce LEFT_OF_DIAG RIGHT_OF_DIAG m.toDbl).A i i ≠ Dbl.fin 0) :
    ∃ x : Nat → ℚ,
      (∀ i, i < m.n → (Solve LEFT_OF_DIAG RIGHT_OF_DIAG m.toDbl).X i = Dbl.fin (x i)) ∧
      ∀ r, r < m.n → rowDot m x r = m.B r := by
  obtain ⟨h1, h2⟩ := Solve_toDbl LEFT_OF_DIAG RIGHT_OF_DIAG m hp
  refine ⟨(Solve LEFT_OF_DIAG RIGHT_OF_DIAG m).X, ?_, ?_⟩
  · intro i _
    rw [h1]
    rfl
  · exact Solve_rat LEFT_OF_DIAG RIGHT_OF_DIAG hL m hb h2

theorem exampleSystem_banded : Banded 1 1 exampleSystem := by
  intro r c hr hc h h2 h1
  simp only [exampleSystem] at *
  have : r = 2 ∧ c = 0 := by omega
  obtain ⟨rfl, rfl⟩ := this
  simp

theorem exampleSystem_pivots :
    ∀ i, i < exampleSystem.n → (Reduce 1 1 exampleSystem.toDbl).A i i ≠ Dbl.fin 0 := by
  intro i hi
  have e : ∀ a b : ℚ,
      (Dbl.fin a / Dbl.fin b : Dbl) = if b = 0 then Dbl.nonfinite else Dbl.fin (a / b) :=
    fun _ _ => rfl
  have hi' : i < 3 := hi
  interval_cases i <;>
    simp [Reduce, elimCol, rowOp, rowOpBand, forUp, setA, setB, toDbl, exampleSystem,
      Dbl.fin_sub_fin, Dbl.fin_mul_fin, e] <;>
    norm_num [Dbl.fin_sub_fin, Dbl.fin_mul_fin, e]

/-- Witness for C1: the tridiagonal example system satisfies the hypotheses. -/
theorem Solve_correct_witness :
    1 ≤ 1 ∧ Banded 1 1 exampleSystem ∧
    (∀ i, i < exampleSystem.n → (Reduce 1 1 exampleSystem.toDbl).A i i ≠ Dbl.fin 0) ∧
    ∃ x : Nat → ℚ,
      (∀ i, i < exampleSystem.n → (Solve 1 1 exampleSystem.toDbl).X i = Dbl.fin (x i)) ∧
      ∀ r, r < exampleSystem.n → rowDot exampleSystem x r = exampleSystem.B r :=
  ⟨le_refl 1, exampleSystem_banded, exampleSystem_pivots,
    Solve_correct 1 1 (le_refl 1) exampleSystem exampleSystem_banded exampleSystem_pivots⟩

/-- Claim C9, refuted as stated.  For the system `0·x = 1` the only pivot is zero
when back-substitution divides by it; `Solve` reports nothing, divides, and
leaves the quotient by zero, which is not a finite number, in `X[0]`. -/
theorem Solve_zero_pivot_counterexample :
    (Reduce 2 1 zeroPivot).A 0 0 = Dbl.fin 0 ∧
    (Solve 2 1 zeroPivot).X 0 = zeroPivot.B 0 / (Reduce 2 1 zeroPivot).A 0 0 ∧
    (Solve 2 1 zeroPivot).X 0 = Dbl.nonfinite := by
  decide

/-- Claim C9, amended.  `Solve` has no failure result and tests no pivot: it always
runs to completion, and when the pivot `A[i][i]` of a row `i < n` is zero when it
is divided by (in the reduction or in back-substitution: it is the same entry of
the reduced matrix), the division is carried out and the `X[i]` that `Solve`
produces is not a finite number. -/
theorem Solve_zero_pivot (LEFT_OF_DIAG RIGHT_OF_DIAG : Nat) (m : BandedMatrix Dbl) (i : Nat)
    (hi : i < m.n) (hz : (Reduce LEFT_OF_DIAG RIGHT_OF_DIAG m).A i i = Dbl.fin 0) :
    (Solve LEFT_OF_DIAG RIGHT_OF_DIAG m).X i = Dbl.nonfinite := by
  have hn := Reduce_n LEFT_OF_DIAG RIGHT_OF_DIAG m
  obtain ⟨s', h1, h2⟩ := backLoop_X RIGHT_OF_DIAG i (Reduce LEFT_OF_DIAG RIGHT_OF_DIAG m).n
    (Reduce LEFT_OF_DIAG RIGHT_OF_DIAG m) (by omega)
  unfold Solve BackSubstitute
  rw [h2]
  simp only [backStep, setX, if_true, h1, hz]
  exact Dbl_div_zero _

/-- Witness for C9 amended: in `0·x + y = 1`, `x + y = 2` the reduction divides by
the zero pivot of row 0. -/
theorem Solve_zero_pivot_witness :
    0 < zeroFirstPivot.n ∧ (Reduce 2 1 zeroFirstPivot).A 0 0 = Dbl.fin 0 ∧
    (Solve 2 1 zeroFirstPivot).X 0 = Dbl.nonfinite :=
  ⟨by decide, by decide, Solve_zero_pivot 2 1 zeroFirstPivot 0 (by decide) (by decide)⟩

end BandedMatrix

end SolveSpace

namespace SolveSpace

namespace Sketch

/-! ## Constraint repair: `FixConstraintsForPointBeingDeleted` -/

theorem fixLoop_cons (g : hGroup) (hpt : hEntity) (c : Constraint) (cs : List Constraint)
    (ld : List hEntity) :
    fixLoop g hpt (c :: cs) ld =
      ((if isFixed g hpt c then { c with tag := 1 } else c)
          :: (fixLoop g hpt cs (ld ++ if isFixed g hpt c then partners hpt c else [])).1,
        (fixLoop g hpt cs (ld ++ if isFixed g hpt c then partners hpt c else [])).2) := by
  by_cases h1 : c.type = ConstraintType.POINTS_COINCIDENT <;>
    by_cases h2 : c.group = g <;>
    by_cases h3 : c.ptA = hpt <;> by_cases h4 : c.ptB = hpt <;>
    simp [fixLoop, h1, h2, h3, h4, isFixed, partners]

theorem fixLoop_spec (g : hGroup) (hpt : hEntity) (cs : List Constraint) :
    ∀ ld, (∀ c ∈ cs, c.tag = 0) →
      removeTaggedConstraints (fixLoop g hpt cs ld).1 = cs.filter (fun c => !isFixed g hpt c) ∧
      (fixLoop g hpt cs ld).2 = ld ++ partnerPoints g hpt cs := by
  induction cs with
  | nil => intro ld _; simp [fixLoop, removeTaggedConstraints, partnerPoints]
  | cons c cs ih =>
    intro ld htag
    have hc0 : c.tag = 0 := htag c (List.mem_cons_self _ _)
    have htl : ∀ c' ∈ cs, c'.tag = 0 := fun c' h => htag c' (List.mem_cons_of_mem _ h)
    rw [fixLoop_cons]
    obtain ⟨ih1, ih2⟩ := ih (ld ++ if isFixed g hpt c then partners hpt c else []) htl
    by_cases hf : isFixed g hpt c = true
    · simp only [hf, if_true] at ih1 ih2 ⊢
      constructor
      · simp only [removeTaggedConstraints] at ih1 ⊢
        rw [List.filter_cons, List.filter_cons]
        simp [hf, ih1]
      · rw [ih2]
        simp [partnerPoints, List.filter_cons, hf]
    · simp only [Bool.not_eq_true] at hf
      simp only [hf, Bool.false_eq_true, if_false, List.append_nil] at ih1 ih2 ⊢
      constructor
      · simp only [removeTaggedConstraints] at ih1 ⊢
        rw [List.filter_cons, List.filter_cons]
        simp [hf, hc0, ih1]
      · rw [ih2]
        simp [partnerPoints, List.filter_cons, hf]

theorem clearConstraintTags_tag (cs : List Constraint) :
    ∀ c ∈ clearConstraintTags cs, c.tag = 0 := by
  intro c hc
  simp only [clearConstraintTags, List.mem_map] at hc
  obtain ⟨c', _, rfl⟩ := hc
  rfl

theorem isFixed_clearTag (g : hGroup) (hpt : hEntity) (c : Constraint) :
    isFixed g hpt { c with tag := 0 } = isFixed g hpt c := rfl

theorem partners_clearTag (hpt : hEntity) (c : Constraint) :
    partners hpt { c with tag := 0 } = partners hpt c := rfl

theorem filter_clearConstraintTags (g : hGroup) (hpt : hEntity) (cs : List Constraint) :
    (clearConstraintTags cs).filter (fun c => !isFixed g hpt c)
      = clearConstraintTags (cs.filter (fun c => !isFixed g hpt c)) := by
  induction cs with
  | nil => rfl
  | cons c cs ih =>
    simp only [clearConstraintTags, List.map_cons, List.filter_cons, isFixed_clearTag] at ih ⊢
    split_ifs <;> simp [ih]

theorem partnerPoints_clearConstraintTags (g : hGroup) (hpt : hEntity) (cs : List Constraint) :
    partnerPoints g hpt (clearConstraintTags cs) = partnerPoints g hpt cs := by
  induction cs with
  | nil => rfl
  | cons c cs ih =>
    simp only [partnerPoints, clearConstraintTags, List.map_cons, List.filter_cons,
      isFixed_clearTag] at ih ⊢
    split_ifs <;> simp [ih, partners_clearTag]

/-- The constraint that `ConstrainCoincident(a, b)` appends. -/
theorem ConstrainCoincident_constraint (sk : Sketch) (a b : hEntity) :
    ∃ c, (sk.ConstrainCoincident a b).constraint = sk.constraint ++ [c] ∧
      c.summary = (ConstraintType.POINTS_COINCIDENT, sk.activeGroup, sk.activeWorkplane, a, b) ∧
      c.h = ⟨constraintMaximumId sk.constraint + 1⟩ :=
  ⟨_, rfl, rfl, rfl⟩

theorem constrainChain_spec (l : List hEntity) :
    ∀ sk : Sketch, ∃ added : List Constraint,
      constrainChain sk l = { sk with constraint := sk.constraint ++ added } ∧
      added.map Constraint.summary = (l.zip l.tail).map fun p =>
        (ConstraintType.POINTS_COINCIDENT, sk.activeGroup, sk.activeWorkplane, p.1, p.2) := by
  induction l with
  | nil => intro sk; exact ⟨[], by simp [constrainChain], rfl⟩
  | cons a l ih =>
    intro sk
    cases l with
    | nil => exact ⟨[], by simp [constrainChain], rfl⟩
    | cons b rest =>
      obtain ⟨added, h1, h2⟩ := ih (sk.ConstrainCoincident a b)
      obtain ⟨c, hc1, hc2, _⟩ := ConstrainCoincident_constraint sk a b
      refine ⟨c :: added, ?_, ?_⟩
      · simp only [constrainChain]
        rw [h1, hc1]
        simp [ConstrainCoincident, Constrain]
      · simp only [List.map_cons, hc2, List.tail_cons, List.zip_cons_cons]
        rw [h2]
        simp [ConstrainCoincident, Constrain]

/-- The general effect of `FixConstraintsForPointBeingDeleted` on the constraint list. -/
theorem FixConstraints_general (sk : Sketch) (hpt : hEntity) :
    ∃ added : List Constraint,
      (sk.FixConstraintsForPointBeingDeleted hpt).constraint =
        clearConstraintTags (sk.constraint.filter fun c => !isFixed sk.activeGroup hpt c)
          ++ added ∧
      added.length = (partnerPoints sk.activeGroup hpt sk.constraint).length - 1 ∧
      added.map Constraint.summary =
        ((partnerPoints sk.activeGroup hpt sk.constraint).zip
          (partnerPoints sk.activeGroup hpt sk.constraint).tail).map fun p =>
            (ConstraintType.POINTS_COINCIDENT, sk.activeGroup, sk.activeWorkplane, p.1, p.2) := by
  obtain ⟨h1, h2⟩ := fixLoop_spec sk.activeGroup hpt (clearConstraintTags sk.constraint) []
    (clearConstraintTags_tag sk.constraint)
  rw [filter_clearConstraintTags] at h1
  rw [partnerPoints_clearConstraintTags, List.nil_append] at h2
  obtain ⟨added, h3, h4⟩ := constrainChain_spec (partnerPoints sk.activeGroup hpt sk.constraint)
    { sk with constraint :=
        clearConstraintTags (sk.constraint.filter fun c => !isFixed sk.activeGroup hpt c) }
  refine ⟨added, ?_, ?_, h4⟩
  · unfold FixConstraintsForPointBeingDeleted
    simp only [h1, h2, h3]
  · have := congrArg List.length h4
    simpa using this

/-- The case of the specification: with `A≡B` and `B≡C` the only constraints,
deleting `B` leaves exactly one constraint, the new coincidence `A≡C`. -/
theorem FixConstraints_ABC (sk : Sketch) (A B C : hEntity)
    (cab cbc : Constraint) (hcs : sk.constraint = [cab, cbc])
    (h1 : cab.type = ConstraintType.POINTS_COINCIDENT) (h2 : cab.group = sk.activeGroup)
    (h3 : cab.ptA = A) (h4 : cab.ptB = B)
    (h5 : cbc.type = ConstraintType.POINTS_COINCIDENT) (h6 : cbc.group = sk.activeGroup)
    (h7 : cbc.ptA = B) (h8 : cbc.ptB = C) (hA : A ≠ B) (hC : C ≠ B) :
    ∃ c, (sk.FixConstraintsForPointBeingDeleted B).constraint = [c] ∧
      c.summary = (ConstraintType.POINTS_COINCIDENT, sk.activeGroup, sk.activeWorkplane, A, C) := by
  obtain ⟨added, e1, e2, e3⟩ := FixConstraints_general sk B
  have hf1 : isFixed sk.activeGroup B cab = true := by simp [isFixed, h1, h2, h4]
  have hf2 : isFixed sk.activeGroup B cbc = true := by simp [isFixed, h5, h6, h7]
  have hq : partnerPoints sk.activeGroup B sk.constraint = [A, C] := by
    simp [partnerPoints, hcs, hf1, hf2, partners, h3, h4, h7, h8, hA, hC]
  rw [hq] at e2 e3
  rw [hcs] at e1
  simp only [List.filter_cons, hf1, hf2, Bool.not_true, Bool.false_eq_true, if_false,
    List.filter_nil, clearConstraintTags, List.map_nil, List.nil_append] at e1
  have hlen : added.length = 1 := by simpa using e2
  obtain ⟨c, rfl⟩ := List.length_eq_one.mp hlen
  exact ⟨c, e1, by simpa using e3⟩

/-- Claim C2.  `FixConstraintsForPointBeingDeleted(hpt)` removes every
`POINTS_COINCIDENT` constraint of the active group that has `hpt` as `ptA` or
`ptB`, keeps the others in order (tags cleared), and with the partner points
`q1 .. qk` of the removed constraints in list order appends exactly `k - 1` new
coincidence constraints of the active group, the `i`-th between `q(i)` and
`q(i+1)`; in particular, with `A≡B` and `B≡C` the constraints of the sketch,
deleting `B` removes both and leaves one new constraint `A≡C`. -/
theorem FixConstraintsForPointBeingDeleted_spec (sk : Sketch) (hpt : hEntity) :
    (∃ added : List Constraint,
      (sk.FixConstraintsForPointBeingDeleted hpt).constraint =
        clearConstraintTags (sk.constraint.filter fun c => !isFixed sk.activeGroup hpt c)
          ++ added ∧
      added.length = (partnerPoints sk.activeGroup hpt sk.constraint).length - 1 ∧
      added.map Constraint.summary =
        ((partnerPoints sk.activeGroup hpt sk.constraint).zip
          (partnerPoints sk.activeGroup hpt sk.constraint).tail).map fun p =>
            (ConstraintType.POINTS_COINCIDENT, sk.activeGroup, sk.activeWorkplane, p.1, p.2)) ∧
    ∀ (A C : hEntity) (cab cbc : Constraint), sk.constraint = [cab, cbc] →
      cab.type = ConstraintType.POINTS_COINCIDENT → cab.group = sk.activeGroup →
      cab.ptA = A → cab.ptB = hpt →
      cbc.type = ConstraintType.POINTS_COINCIDENT → cbc.group = sk.activeGroup →
      cbc.ptA = hpt → cbc.ptB = C → A ≠ hpt → C ≠ hpt →
      ∃ c, (sk.FixConstraintsForPointBeingDeleted hpt).constraint = [c] ∧
        c.summary =
          (ConstraintType.POINTS_COINCIDENT, sk.activeGroup, sk.activeWorkplane, A, C) :=
  ⟨FixConstraints_general sk hpt, fun A C cab cbc h0 h1 h2 h3 h4 h5 h6 h7 h8 hA hC =>
    FixConstraints_ABC sk A hpt C cab cbc h0 h1 h2 h3 h4 h5 h6 h7 h8 hA hC⟩

/-- Witness for C2: the sketch with `10 ≡ 20` and `20 ≡ 30`, deleting point 20. -/
theorem FixConstraintsForPointBeingDeleted_witness :
    chainSketch.constraint = [coincident 1 10 20, coincident 2 20 30] ∧
    (⟨10⟩ : hEntity) ≠ ⟨20⟩ ∧ (⟨30⟩ : hEntity) ≠ ⟨20⟩ ∧
    ∃ c, (chainSketch.FixConstraintsForPointBeingDeleted ⟨20⟩).constraint = [c] ∧
      c.summary = (ConstraintType.POINTS_COINCIDENT, chainSketch.activeGroup,
        chainSketch.activeWorkplane, ⟨10⟩, ⟨30⟩) :=
  ⟨rfl, by decide, by decide,
    (FixConstraintsForPointBeingDeleted_spec chainSketch ⟨20⟩).2 ⟨10⟩ ⟨30⟩
      (coincident 1 10 20) (coincident 2 20 30) rfl rfl rfl rfl rfl rfl rfl rfl rfl
      (by decide) (by decide)⟩

end Sketch

end SolveSpace

namespace SolveSpace

namespace Sketch

/-! ## Splitting: `SplitLine` and `SplitCircle` -/

theorem foldl_max_append (l : List Request) (r : Request) (a : Nat) :
    (l ++ [r]).foldl (fun mx r => max mx r.h.v) a
      = max (l.foldl (fun mx r => max mx r.h.v) a) r.h.v := by
  simp [List.foldl_append]

theorem requestMaximumId_append (l : List Request) (r : Request) :
    requestMaximumId (l ++ [r]) = max (requestMaximumId l) r.h.v :=
  foldl_max_append l r 0

theorem entity_inj (a b : hRequest) (i j : Nat) (hi : i < 65536) (hj : j < 65536) :
    a.entity i = b.entity j ↔ a = b ∧ i = j := by
  cases a with | mk a => cases b with | mk b =>
  simp only [hRequest.entity, hEntity.mk.injEq, hRequest.mk.injEq]
  omega

theorem entity_request (a : hRequest) (i : Nat) (hi : i < 65536) :
    (a.entity i).request = a := by
  cases a with | mk a =>
  simp only [hRequest.entity, hEntity.request, hRequest.mk.injEq]
  omega

theorem GetEntity_mem (sk : Sketch) (h : hEntity) (e : Entity) (he : sk.GetEntity h = some e) :
    e ∈ sk.entity ∧ e.h = h := by
  unfold GetEntity at he
  have h1 := List.mem_of_find?_eq_some he
  have h2 := List.find?_some he
  exact ⟨h1, by simpa using h2⟩

theorem find?_append_fresh (l l' : List Entity) (h : hEntity) (hf : ∀ e ∈ l, e.h ≠ h) :
    (l ++ l').find? (fun e => decide (e.h = h)) = l'.find? (fun e => decide (e.h = h)) := by
  rw [List.find?_append]
  have : l.find? (fun e => decide (e.h = h)) = none := by
    rw [List.find?_eq_none]
    intro e he
    simpa using hf e he
  rw [this]
  rfl

theorem find?_append_old (l l' : List Entity) (h : hEntity) (e : Entity)
    (hf : l.find? (fun e => decide (e.h = h)) = some e) :
    (l ++ l').find? (fun e => decide (e.h = h)) = some e := by
  rw [List.find?_append, hf]
  rfl

theorem modifyFirst_append_fresh (l l' : List Entity) (h : hEntity) (f : Entity → Entity)
    (hf : ∀ e ∈ l, e.h ≠ h) :
    modifyFirst (fun e => decide (e.h = h)) f (l ++ l')
      = l ++ modifyFirst (fun e => decide (e.h = h)) f l' := by
  induction l with
  | nil => rfl
  | cons a l ih =>
    have ha : a.h ≠ h := hf a (List.mem_cons_self _ _)
    have := ih (fun e he => hf e (List.mem_cons_of_mem _ he))
    simp only [List.cons_append, modifyFirst, ha, decide_False, Bool.false_eq_true, if_false]
    exact congrArg (List.cons a) this


theorem requestMaximumId_append_requestNo (sk : Sketch) (l : List Request) (k : Nat)
    (type : RequestType) (hl : requestMaximumId (sk.request ++ l) = requestMaximumId sk.request + k) :
    requestMaximumId (sk.request ++ (l ++ [requestNo sk k type]))
      = requestMaximumId sk.request + (k + 1) := by
  rw [← List.append_assoc, requestMaximumId_append, hl]
  simp only [requestNo]
  omega

theorem fresh_entity (sk : Sketch) (hown : sk.EntitiesOwned) (r : hRequest) (i : Nat)
    (hr : requestMaximumId sk.request < r.v) (hi : i < 65536) :
    ∀ e ∈ sk.entity, e.h ≠ r.entity i := by
  intro e hmem heq
  have := hown e hmem
  rw [heq, entity_request r i hi] at this
  omega

theorem AddRequest_eq (sk : Sketch) (t : RequestType) :
    sk.AddRequest t = ((requestNo sk 0 t).h,
      withAdded sk [requestNo sk 0 t] (Generate (requestNo sk 0 t))) := rfl

theorem AddRequest_withAdded (sk : Sketch) (rs : List Request) (es : List Entity) (k : Nat)
    (t : RequestType)
    (hk : requestMaximumId (sk.request ++ rs) = requestMaximumId sk.request + k) :
    (withAdded sk rs es).AddRequest t = ((requestNo sk k t).h,
      withAdded sk (rs ++ [requestNo sk k t]) (es ++ Generate (requestNo sk k t))) := by
  have e : (withAdded sk rs es).newRequest t = requestNo sk k t := by
    simp only [newRequest, requestNo, withAdded, hk]
    congr 2
    omega
  simp only [AddRequest, e]
  simp only [withAdded, List.append_assoc]

theorem Generate_line (r : Request) (hr : r.type = RequestType.LINE_SEGMENT) :
    Generate r = [generatedEntity r, generatedPoint r 1 ⟨0, 0, 0⟩, generatedPoint r 2 ⟨0, 0, 0⟩] := by
  simp [Generate, hr, requestPoints, List.range_succ]

theorem Generate_arc (r : Request) (hr : r.type = RequestType.ARC_OF_CIRCLE) :
    Generate r = [generatedEntity r, generatedPoint r 1 ⟨0, 0, 0⟩, generatedPoint r 2 ⟨0, 0, 0⟩,
      generatedPoint r 3 ⟨0, 0, 0⟩] := by
  simp [Generate, hr, requestPoints, List.range_succ]

theorem GetEntity_withAdded_old (sk : Sketch) (rs : List Request) (es : List Entity)
    (h : hEntity) (e : Entity) (he : sk.GetEntity h = some e) :
    (withAdded sk rs es).GetEntity h = some e :=
  find?_append_old sk.entity es h e he

theorem GetEntity_withAdded_new (sk : Sketch) (hown : sk.EntitiesOwned) (rs : List Request)
    (es : List Entity) (r : hRequest) (i : Nat)
    (hr : requestMaximumId sk.request < r.v) (hi : i < 65536) :
    (withAdded sk rs es).GetEntity (r.entity i)
      = es.find? (fun e => decide (e.h = r.entity i)) :=
  find?_append_fresh sk.entity es _ (fresh_entity sk hown r i hr hi)

theorem PointForceTo_withAdded_new (sk : Sketch) (hown : sk.EntitiesOwned) (rs : List Request)
    (es : List Entity) (r : hRequest) (i : Nat) (p : Vector)
    (hr : requestMaximumId sk.request < r.v) (hi : i < 65536)
    (hf : (es.find? (fun e => decide (e.h = r.entity i))).isSome = true) :
    (withAdded sk rs es).PointForceTo (r.entity i) p
      = some (withAdded sk rs (modifyFirst (fun e => decide (e.h = r.entity i))
          (fun e => { e with numPoint := p }) es)) := by
  unfold PointForceTo
  rw [GetEntity_withAdded_new sk hown rs es r i hr hi]
  obtain ⟨e, he⟩ := Option.isSome_iff_exists.mp hf
  rw [he]
  simp only [withAdded]
  rw [modifyFirst_append_fresh _ _ _ _ (fresh_entity sk hown r i hr hi)]

theorem generatedEntity_h (r : Request) : (generatedEntity r).h = r.h.entity 0 := rfl

theorem generatedPoint_h (r : Request) (i : Nat) (p : Vector) :
    (generatedPoint r i p).h = r.h.entity i := rfl

theorem generatedPoint_numPoint (r : Request) (i : Nat) (p q : Vector) :
    { generatedPoint r i p with numPoint := q } = generatedPoint r i q := rfl

theorem entity_eq_same (a : hRequest) (i j : Nat) (hi : i < 65536) (hj : j < 65536) :
    (a.entity i = a.entity j) = (i = j) := by
  rw [entity_inj a a i j hi hj]
  simp

theorem entity_eq_other (a b : hRequest) (hab : a ≠ b) (i j : Nat) (hi : i < 65536)
    (hj : j < 65536) : (a.entity i = b.entity j) = False := by
  rw [entity_inj a b i j hi hj]
  simp [hab]

theorem generatedEntity_pointAt (r : Request) (i : Nat) (hi : i < requestPoints r.type) :
    (generatedEntity r).pointAt i = r.h.entity (i + 1) := by
  simp [generatedEntity, Entity.pointAt, List.getD_eq_getElem?_getD, hi]

theorem SplitLine_eq (sk : Sketch) (he : hEntity) (pinter : Vector) (e01 ep0 ep1 : Entity)
    (hown : sk.EntitiesOwned)
    (h0 : sk.GetEntity he = some e01)
    (h1 : sk.GetEntity (e01.pointAt 0) = some ep0)
    (h2 : sk.GetEntity (e01.pointAt 1) = some ep1) :
    sk.SplitLine he pinter = some ((requestNo sk 0 RequestType.LINE_SEGMENT).h.entity 2,
      ((withAdded sk
          [requestNo sk 0 RequestType.LINE_SEGMENT, requestNo sk 1 RequestType.LINE_SEGMENT]
          [generatedEntity (requestNo sk 0 RequestType.LINE_SEGMENT),
           generatedPoint (requestNo sk 0 RequestType.LINE_SEGMENT) 1 ep0.numPoint,
           generatedPoint (requestNo sk 0 RequestType.LINE_SEGMENT) 2 pinter,
           generatedEntity (requestNo sk 1 RequestType.LINE_SEGMENT),
           generatedPoint (requestNo sk 1 RequestType.LINE_SEGMENT) 1 pinter,
           generatedPoint (requestNo sk 1 RequestType.LINE_SEGMENT) 2 ep1.numPoint]
        ).ReplacePointInConstraints (e01.pointAt 0)
            ((requestNo sk 0 RequestType.LINE_SEGMENT).h.entity 1)
        |>.ReplacePointInConstraints (e01.pointAt 1)
            ((requestNo sk 1 RequestType.LINE_SEGMENT).h.entity 2)
        |>.ConstrainCoincident ((requestNo sk 0 RequestType.LINE_SEGMENT).h.entity 2)
            ((requestNo sk 1 RequestType.LINE_SEGMENT).h.entity 1))) := by
  have hk1 : requestMaximumId (sk.request ++ [requestNo sk 0 RequestType.LINE_SEGMENT])
      = requestMaximumId sk.request + 1 := by
    rw [requestMaximumId_append]; simp [requestNo]
  have g0 : ∀ rs es i, i < 65536 →
      (withAdded sk rs es).GetEntity ((requestNo sk 0 RequestType.LINE_SEGMENT).h.entity i)
        = es.find? (fun e => decide (e.h = (requestNo sk 0 RequestType.LINE_SEGMENT).h.entity i)) :=
    fun rs es i hi => GetEntity_withAdded_new sk hown rs es _ i
      (by simp only [requestNo]; omega) hi
  have g1 : ∀ rs es i, i < 65536 →
      (withAdded sk rs es).GetEntity ((requestNo sk 1 RequestType.LINE_SEGMENT).h.entity i)
        = es.find? (fun e => decide (e.h = (requestNo sk 1 RequestType.LINE_SEGMENT).h.entity i)) :=
    fun rs es i hi => GetEntity_withAdded_new sk hown rs es _ i
      (by simp only [requestNo]; omega) hi
  have hne : (requestNo sk 0 RequestType.LINE_SEGMENT).h ≠ (requestNo sk 1 RequestType.LINE_SEGMENT).h := by
    simp [requestNo]
  unfold SplitLine
  simp only [h0, h1, h2, Option.bind_eq_bind, Option.some_bind]
  rw [AddRequest_eq sk]
  simp only []
  rw [AddRequest_withAdded sk _ _ 1 _ hk1]
  simp only [List.singleton_append, List.cons_append, List.nil_append]
  rw [g0 _ _ 0 (by norm_num), g1 _ _ 0 (by norm_num)]
  rw [Generate_line (requestNo sk 0 RequestType.LINE_SEGMENT) rfl,
    Generate_line (requestNo sk 1 RequestType.LINE_SEGMENT) rfl]
  have p0 : ∀ i, i < 2 → (generatedEntity (requestNo sk 0 RequestType.LINE_SEGMENT)).pointAt i
      = (requestNo sk 0 RequestType.LINE_SEGMENT).h.entity (i + 1) :=
    fun i hi => generatedEntity_pointAt _ i hi
  have p1 : ∀ i, i < 2 → (generatedEntity (requestNo sk 1 RequestType.LINE_SEGMENT)).pointAt i
      = (requestNo sk 1 RequestType.LINE_SEGMENT).h.entity (i + 1) :=
    fun i hi => generatedEntity_pointAt _ i hi
  simp only [List.cons_append, List.nil_append, List.find?_cons, generatedEntity_h,
    generatedPoint_h, entity_eq_same, entity_eq_other _ _ hne, entity_eq_other _ _ hne.symm,
    decide_True, decide_False, Option.some_bind, p0 0 (by norm_num), p0 1 (by norm_num),
    p1 0 (by norm_num), p1 1 (by norm_num), Nat.reduceLT, Nat.reduceAdd, Nat.reduceEqDiff,
    Option.bind_eq_bind]
  have f0 : ∀ rs es i p, i < 65536 →
      (es.find? (fun e => decide (e.h = (requestNo sk 0 RequestType.LINE_SEGMENT).h.entity i))).isSome
        = true →
      (withAdded sk rs es).PointForceTo ((requestNo sk 0 RequestType.LINE_SEGMENT).h.entity i) p
        = some (withAdded sk rs (modifyFirst
            (fun e => decide (e.h = (requestNo sk 0 RequestType.LINE_SEGMENT).h.entity i))
            (fun e => { e with numPoint := p }) es)) :=
    fun rs es i p hi hf => PointForceTo_withAdded_new sk hown rs es _ i p
      (by simp only [requestNo]; omega) hi hf
  have f1 : ∀ rs es i p, i < 65536 →
      (es.find? (fun e => decide (e.h = (requestNo sk 1 RequestType.LINE_SEGMENT).h.entity i))).isSome
        = true →
      (withAdded sk rs es).PointForceTo ((requestNo sk 1 RequestType.LINE_SEGMENT).h.entity i) p
        = some (withAdded sk rs (modifyFirst
            (fun e => decide (e.h = (requestNo sk 1 RequestType.LINE_SEGMENT).h.entity i))
            (fun e => { e with numPoint := p }) es)) :=
    fun rs es i p hi hf => PointForceTo_withAdded_new sk hown rs es _ i p
      (by simp only [requestNo]; omega) hi hf
  simp only [f0, f1, List.find?_cons, generatedEntity_h, modifyFirst,
    generatedPoint_h, entity_eq_same, entity_eq_other _ _ hne, entity_eq_other _ _ hne.symm,
    decide_True, decide_False, Option.some_bind, Nat.reduceLT, Nat.reduceAdd, Nat.reduceEqDiff,
    Option.bind_eq_bind, Option.isSome_some, generatedPoint_numPoint, Bool.false_eq_true,
    if_true, if_false, OfNat.ofNat_ne_zero, OfNat.zero_ne_ofNat]
  rfl


theorem ReplacePointInConstraints_constraint (sk : Sketch) (o n : hEntity) :
    (sk.ReplacePointInConstraints o n).constraint
      = sk.constraint.map fun c =>
          { c with ptA := if c.ptA = o then n else c.ptA,
                   ptB := if c.ptB = o then n else c.ptB } := by
  simp only [ReplacePointInConstraints]
  apply List.map_congr_left
  intro c _
  by_cases a0 : c.ptA = o <;> by_cases b0 : c.ptB = o <;> simp [a0, b0]

theorem repoint_eq (hep0 new0 hep1 new1 h : hEntity) (hn : new0 ≠ hep1) :
    (if (if h = hep0 then new0 else h) = hep1 then new1 else (if h = hep0 then new0 else h))
      = repoint hep0 new0 hep1 new1 h := by
  unfold repoint
  by_cases a0 : h = hep0
  · simp [a0, hn]
  · simp [a0]

theorem ReplacePointInConstraints_twice (sk : Sketch) (hep0 new0 hep1 new1 : hEntity)
    (hn : new0 ≠ hep1) :
    ((sk.ReplacePointInConstraints hep0 new0).ReplacePointInConstraints hep1 new1).constraint
      = sk.constraint.map fun c =>
          { c with ptA := repoint hep0 new0 hep1 new1 c.ptA,
                   ptB := repoint hep0 new0 hep1 new1 c.ptB } := by
  rw [ReplacePointInConstraints_constraint, ReplacePointInConstraints_constraint, List.map_map]
  apply List.map_congr_left
  intro c _
  simp only [Function.comp, repoint_eq _ _ _ _ _ hn]


theorem GetEntity_withAdded_explicit (sk : Sketch) (hown : sk.EntitiesOwned) (rs : List Request)
    (es : List Entity) (k i : Nat) (t : RequestType) (hi : i < 65536) :
    (withAdded sk rs es).GetEntity ((requestNo sk k t).h.entity i)
      = es.find? (fun e => decide (e.h = (requestNo sk k t).h.entity i)) :=
  GetEntity_withAdded_new sk hown rs es _ i (by simp only [requestNo]; omega) hi

theorem requestNo_h_ne (sk : Sketch) (j k : Nat) (t t' : RequestType) (hjk : j ≠ k) :
    (requestNo sk j t).h ≠ (requestNo sk k t').h := by
  simp only [requestNo, ne_eq, hRequest.mk.injEq]
  omega

theorem GetEntity_ConstrainCoincident (sk : Sketch) (a b h : hEntity) :
    (sk.ConstrainCoincident a b).GetEntity h = sk.GetEntity h := rfl

theorem GetEntity_ReplacePointInConstraints (sk : Sketch) (a b h : hEntity) :
    (sk.ReplacePointInConstraints a b).GetEntity h = sk.GetEntity h := rfl

/-- Claim C3.  For a segment `he` with endpoint positions `p0`, `p1` and a split point
`pinter`, `SplitLine` appends exactly two line-segment requests, whose entities have
the endpoint positions `(p0, pinter)` and `(pinter, p1)`, appends one
`POINTS_COINCIDENT` constraint between the finish point of the first and the start
point of the second, and returns the handle of the first segment's finish point. -/
theorem SplitLine_spec (sk : Sketch) (he : hEntity) (pinter : Vector) (e01 ep0 ep1 : Entity)
    (hown : sk.EntitiesOwned)
    (h0 : sk.GetEntity he = some e01)
    (h1 : sk.GetEntity (e01.pointAt 0) = some ep0)
    (h2 : sk.GetEntity (e01.pointAt 1) = some ep1) :
    ∃ (sk' : Sketch) (r0 r1 : Request) (e0i ei1 : Entity) (old : List Constraint)
      (c : Constraint),
      sk.SplitLine he pinter = some (e0i.pointAt 1, sk') ∧
      sk'.request = sk.request ++ [r0, r1] ∧
      r0.type = RequestType.LINE_SEGMENT ∧ r1.type = RequestType.LINE_SEGMENT ∧
      sk'.GetEntity (r0.h.entity 0) = some e0i ∧ sk'.GetEntity (r1.h.entity 0) = some ei1 ∧
      e0i.type = EntityType.LINE_SEGMENT ∧ ei1.type = EntityType.LINE_SEGMENT ∧
      (sk'.GetEntity (e0i.pointAt 0)).map Entity.PointGetNum = some ep0.PointGetNum ∧
      (sk'.GetEntity (e0i.pointAt 1)).map Entity.PointGetNum = some pinter ∧
      (sk'.GetEntity (ei1.pointAt 0)).map Entity.PointGetNum = some pinter ∧
      (sk'.GetEntity (ei1.pointAt 1)).map Entity.PointGetNum = some ep1.PointGetNum ∧
      sk'.constraint = old ++ [c] ∧ old.length = sk.constraint.length ∧
      c.summary = (ConstraintType.POINTS_COINCIDENT, sk.activeGroup, sk.activeWorkplane,
        e0i.pointAt 1, ei1.pointAt 0) := by
  have hne := requestNo_h_ne sk 0 1 RequestType.LINE_SEGMENT RequestType.LINE_SEGMENT (by decide)
  have p0 : ∀ i, i < 2 → (generatedEntity (requestNo sk 0 RequestType.LINE_SEGMENT)).pointAt i
      = (requestNo sk 0 RequestType.LINE_SEGMENT).h.entity (i + 1) :=
    fun i hi => generatedEntity_pointAt _ i hi
  have p1 : ∀ i, i < 2 → (generatedEntity (requestNo sk 1 RequestType.LINE_SEGMENT)).pointAt i
      = (requestNo sk 1 RequestType.LINE_SEGMENT).h.entity (i + 1) :=
    fun i hi => generatedEntity_pointAt _ i hi
  have hx := GetEntity_withAdded_explicit sk hown
  have heq := SplitLine_eq sk he pinter e01 ep0 ep1 hown h0 h1 h2
  obtain ⟨c, hc1, hc2, _⟩ := ConstrainCoincident_constraint
    (((withAdded sk
          [requestNo sk 0 RequestType.LINE_SEGMENT, requestNo sk 1 RequestType.LINE_SEGMENT]
          [generatedEntity (requestNo sk 0 RequestType.LINE_SEGMENT),
           generatedPoint (requestNo sk 0 RequestType.LINE_SEGMENT) 1 ep0.numPoint,
           generatedPoint (requestNo sk 0 RequestType.LINE_SEGMENT) 2 pinter,
           generatedEntity (requestNo sk 1 RequestType.LINE_SEGMENT),
           generatedPoint (requestNo sk 1 RequestType.LINE_SEGMENT) 1 pinter,
           generatedPoint (requestNo sk 1 RequestType.LINE_SEGMENT) 2 ep1.numPoint]
        ).ReplacePointInConstraints (e01.pointAt 0)
            ((requestNo sk 0 RequestType.LINE_SEGMENT).h.entity 1)).ReplacePointInConstraints
          (e01.pointAt 1) ((requestNo sk 1 RequestType.LINE_SEGMENT).h.entity 2))
    ((requestNo sk 0 RequestType.LINE_SEGMENT).h.entity 2)
    ((requestNo sk 1 RequestType.LINE_SEGMENT).h.entity 1)
  refine ⟨_, requestNo sk 0 RequestType.LINE_SEGMENT, requestNo sk 1 RequestType.LINE_SEGMENT,
    generatedEntity (requestNo sk 0 RequestType.LINE_SEGMENT),
    generatedEntity (requestNo sk 1 RequestType.LINE_SEGMENT), _, c,
    ?_, rfl, rfl, rfl, ?_, ?_, ?_, ?_, ?_, ?_, ?_, ?_, hc1, ?_, ?_⟩
  · rw [heq, p0 1 (by norm_num)]
  · simp only [GetEntity_ConstrainCoincident, GetEntity_ReplacePointInConstraints, hx,
      Nat.reduceLT, List.find?_cons, generatedEntity_h, decide_True]
  · simp only [GetEntity_ConstrainCoincident, GetEntity_ReplacePointInConstraints, hx,
      List.find?_cons, generatedEntity_h, generatedPoint_h, entity_eq_same,
      entity_eq_other _ _ hne, decide_True, decide_False, Nat.reduceLT, Nat.reduceEqDiff,
      OfNat.ofNat_ne_zero, OfNat.zero_ne_ofNat]
  · rfl
  · rfl
  · simp only [GetEntity_ConstrainCoincident, GetEntity_ReplacePointInConstraints, hx,
      p0 0 (by norm_num), Nat.reduceLT, Nat.reduceAdd]
    simp [generatedEntity_h, generatedPoint_h, entity_eq_same,
      entity_eq_other _ _ hne, entity_eq_other _ _ hne.symm]
    rfl
  · simp only [GetEntity_ConstrainCoincident, GetEntity_ReplacePointInConstraints, hx,
      p0 1 (by norm_num), Nat.reduceLT, Nat.reduceAdd]
    simp [generatedEntity_h, generatedPoint_h, entity_eq_same,
      entity_eq_other _ _ hne, entity_eq_other _ _ hne.symm]
    rfl
  · simp only [GetEntity_ConstrainCoincident, GetEntity_ReplacePointInConstraints, hx,
      p1 0 (by norm_num), Nat.reduceLT, Nat.reduceAdd]
    simp [generatedEntity_h, generatedPoint_h, entity_eq_same,
      entity_eq_other _ _ hne, entity_eq_other _ _ hne.symm]
    rfl
  · simp only [GetEntity_ConstrainCoincident, GetEntity_ReplacePointInConstraints, hx,
      p1 1 (by norm_num), Nat.reduceLT, Nat.reduceAdd]
    simp [generatedEntity_h, generatedPoint_h, entity_eq_same,
      entity_eq_other _ _ hne, entity_eq_other _ _ hne.symm]
    rfl
  · rw [ReplacePointInConstraints_constraint, ReplacePointInConstraints_constraint]
    simp [withAdded]
  · rw [hc2, p0 1 (by norm_num), p1 0 (by norm_num)]
    rfl


/-- Claim C4.  After `SplitLine` on a segment with endpoint handles `hep0 ≠ hep1`, the
constraint list is the old one, constraint by constraint and in the same order,
followed by the one new constraint: in every old constraint (of any group) a
`ptA` or `ptB` that was `hep0` is now the start point of the first new segment,
one that was `hep1` is now the finish point of the second new segment, any
other is unchanged, and so is every other field; none is removed. -/
theorem SplitLine_repoints (sk : Sketch) (he : hEntity) (pinter : Vector) (e01 ep0 ep1 : Entity)
    (hown : sk.EntitiesOwned)
    (h0 : sk.GetEntity he = some e01)
    (h1 : sk.GetEntity (e01.pointAt 0) = some ep0)
    (h2 : sk.GetEntity (e01.pointAt 1) = some ep1)
    (hne : e01.pointAt 0 ≠ e01.pointAt 1) :
    ∃ (sk' : Sketch) (ret : hEntity) (r0 r1 : Request) (e0i ei1 : Entity)
      (f : Constraint → Constraint) (c : Constraint),
      sk.SplitLine he pinter = some (ret, sk') ∧
      sk'.request = sk.request ++ [r0, r1] ∧
      sk'.GetEntity (r0.h.entity 0) = some e0i ∧ sk'.GetEntity (r1.h.entity 0) = some ei1 ∧
      sk'.constraint = sk.constraint.map f ++ [c] ∧
      ∀ o : Constraint,
        (o.ptA = e01.pointAt 0 → (f o).ptA = e0i.pointAt 0) ∧
        (o.ptB = e01.pointAt 0 → (f o).ptB = e0i.pointAt 0) ∧
        (o.ptA = e01.pointAt 1 → (f o).ptA = ei1.pointAt 1) ∧
        (o.ptB = e01.pointAt 1 → (f o).ptB = ei1.pointAt 1) ∧
        (o.ptA ≠ e01.pointAt 0 → o.ptA ≠ e01.pointAt 1 → (f o).ptA = o.ptA) ∧
        (o.ptB ≠ e01.pointAt 0 → o.ptB ≠ e01.pointAt 1 → (f o).ptB = o.ptB) ∧
        { f o with ptA := o.ptA, ptB := o.ptB } = o := by
  have hne01 := requestNo_h_ne sk 0 1 RequestType.LINE_SEGMENT RequestType.LINE_SEGMENT
    (by decide)
  have p0 : ∀ i, i < 2 → (generatedEntity (requestNo sk 0 RequestType.LINE_SEGMENT)).pointAt i
      = (requestNo sk 0 RequestType.LINE_SEGMENT).h.entity (i + 1) :=
    fun i hi => generatedEntity_pointAt _ i hi
  have p1 : ∀ i, i < 2 → (generatedEntity (requestNo sk 1 RequestType.LINE_SEGMENT)).pointAt i
      = (requestNo sk 1 RequestType.LINE_SEGMENT).h.entity (i + 1) :=
    fun i hi => generatedEntity_pointAt _ i hi
  have hx := GetEntity_withAdded_explicit sk hown
  have heq := SplitLine_eq sk he pinter e01 ep0 ep1 hown h0 h1 h2
  have hfresh : (requestNo sk 0 RequestType.LINE_SEGMENT).h.entity 1 ≠ e01.pointAt 1 := by
    obtain ⟨hm, hh⟩ := GetEntity_mem sk _ _ h2
    have := fresh_entity sk hown (requestNo sk 0 RequestType.LINE_SEGMENT).h 1
      (by simp only [requestNo]; omega) (by norm_num) ep1 hm
    rw [hh] at this
    exact this.symm
  obtain ⟨c, hc1, _, _⟩ := ConstrainCoincident_constraint
    (((withAdded sk
          [requestNo sk 0 RequestType.LINE_SEGMENT, requestNo sk 1 RequestType.LINE_SEGMENT]
          [generatedEntity (requestNo sk 0 RequestType.LINE_SEGMENT),
           generatedPoint (requestNo sk 0 RequestType.LINE_SEGMENT) 1 ep0.numPoint,
           generatedPoint (requestNo sk 0 RequestType.LINE_SEGMENT) 2 pinter,
           generatedEntity (requestNo sk 1 RequestType.LINE_SEGMENT),
           generatedPoint (requestNo sk 1 RequestType.LINE_SEGMENT) 1 pinter,
           generatedPoint (requestNo sk 1 RequestType.LINE_SEGMENT) 2 ep1.numPoint]
        ).ReplacePointInConstraints (e01.pointAt 0)
            ((requestNo sk 0 RequestType.LINE_SEGMENT).h.entity 1)).ReplacePointInConstraints
          (e01.pointAt 1) ((requestNo sk 1 RequestType.LINE_SEGMENT).h.entity 2))
    ((requestNo sk 0 RequestType.LINE_SEGMENT).h.entity 2)
    ((requestNo sk 1 RequestType.LINE_SEGMENT).h.entity 1)
  rw [ReplacePointInConstraints_twice _ _ _ _ _ hfresh] at hc1
  refine ⟨_, _, requestNo sk 0 RequestType.LINE_SEGMENT, requestNo sk 1 RequestType.LINE_SEGMENT,
    generatedEntity (requestNo sk 0 RequestType.LINE_SEGMENT),
    generatedEntity (requestNo sk 1 RequestType.LINE_SEGMENT),
    (fun c => { c with
      ptA := repoint (e01.pointAt 0) ((requestNo sk 0 RequestType.LINE_SEGMENT).h.entity 1)
        (e01.pointAt 1) ((requestNo sk 1 RequestType.LINE_SEGMENT).h.entity 2) c.ptA,
      ptB := repoint (e01.pointAt 0) ((requestNo sk 0 RequestType.LINE_SEGMENT).h.entity 1)
        (e01.pointAt 1) ((requestNo sk 1 RequestType.LINE_SEGMENT).h.entity 2) c.ptB }),
    c, heq, rfl, ?_, ?_, hc1, ?_⟩
  · simp only [GetEntity_ConstrainCoincident, GetEntity_ReplacePointInConstraints, hx,
      Nat.reduceLT, List.find?_cons, generatedEntity_h, decide_True]
  · simp only [GetEntity_ConstrainCoincident, GetEntity_ReplacePointInConstraints, hx,
      List.find?_cons, generatedEntity_h, generatedPoint_h, entity_eq_same,
      entity_eq_other _ _ hne01, decide_True, decide_False, Nat.reduceLT, Nat.reduceEqDiff,
      OfNat.ofNat_ne_zero, OfNat.zero_ne_ofNat]
  · intro o
    simp only [p0 0 (by norm_num), p1 1 (by norm_num), repoint]
    refine ⟨?_, ?_, ?_, ?_, ?_, ?_, ?_⟩
    · intro h; simp [h]
    · intro h; simp [h]
    · intro h; simp [h, hne.symm]
    · intro h; simp [h, hne.symm]
    · intro ha hb; simp [ha, hb]
    · intro ha hb; simp [ha, hb]
    · trivial


theorem PointForceTo_withAdded_explicit (sk : Sketch) (hown : sk.EntitiesOwned)
    (rs : List Request) (es : List Entity) (k i : Nat) (t : RequestType) (p : Vector)
    (hi : i < 65536)
    (hf : (es.find? (fun e => decide (e.h = (requestNo sk k t).h.entity i))).isSome = true) :
    (withAdded sk rs es).PointForceTo ((requestNo sk k t).h.entity i) p
      = some (withAdded sk rs (modifyFirst
          (fun e => decide (e.h = (requestNo sk k t).h.entity i))
          (fun e => { e with numPoint := p }) es)) :=
  PointForceTo_withAdded_new sk hown rs es _ i p (by simp only [requestNo]; omega) hi hf

theorem SplitCircle_circle_eq (sk : Sketch) (he : hEntity) (pinter : Vector)
    (circle ec : Entity) (hown : sk.EntitiesOwned)
    (h0 : sk.GetEntity he = some circle) (ht : circle.type = EntityType.CIRCLE)
    (h1 : sk.GetEntity (circle.pointAt 0) = some ec) :
    sk.SplitCircle he pinter = some ((requestNo sk 0 RequestType.ARC_OF_CIRCLE).h.entity 2,
      (withAdded sk [requestNo sk 0 RequestType.ARC_OF_CIRCLE]
          [generatedEntity (requestNo sk 0 RequestType.ARC_OF_CIRCLE),
           generatedPoint (requestNo sk 0 RequestType.ARC_OF_CIRCLE) 1 ec.numPoint,
           generatedPoint (requestNo sk 0 RequestType.ARC_OF_CIRCLE) 2 pinter,
           generatedPoint (requestNo sk 0 RequestType.ARC_OF_CIRCLE) 3 pinter]
        ).ConstrainCoincident ((requestNo sk 0 RequestType.ARC_OF_CIRCLE).h.entity 2)
            ((requestNo sk 0 RequestType.ARC_OF_CIRCLE).h.entity 3)) := by
  have hx := GetEntity_withAdded_explicit sk hown
  have hf := PointForceTo_withAdded_explicit sk hown
  have p0 : ∀ i, i < 3 → (generatedEntity (requestNo sk 0 RequestType.ARC_OF_CIRCLE)).pointAt i
      = (requestNo sk 0 RequestType.ARC_OF_CIRCLE).h.entity (i + 1) :=
    fun i hi => generatedEntity_pointAt _ i hi
  unfold SplitCircle
  simp only [h0, h1, ht, Option.bind_eq_bind, Option.some_bind, if_true]
  rw [AddRequest_eq sk]
  simp only []
  rw [Generate_arc (requestNo sk 0 RequestType.ARC_OF_CIRCLE) rfl]
  simp only [hx, hf, List.find?_cons, generatedEntity_h, modifyFirst,
    generatedPoint_h, entity_eq_same, p0 0 (by norm_num), p0 1 (by norm_num),
    p0 2 (by norm_num),
    decide_True, decide_False, Option.some_bind, Nat.reduceLT, Nat.reduceAdd, Nat.reduceEqDiff,
    Option.bind_eq_bind, Option.isSome_some, Bool.false_eq_true,
    if_true, if_false, OfNat.ofNat_ne_zero, OfNat.zero_ne_ofNat]
  rfl

/-- Claim C10.  For an entity of type `CIRCLE` with centre position `c` and a split
point `pinter`, `SplitCircle` appends exactly one `ARC_OF_CIRCLE` request whose
centre is at `c` and whose start and finish points are both at `pinter`, appends
one `POINTS_COINCIDENT` constraint between the arc's start and finish points, and
returns the arc's start point. -/
theorem SplitCircle_circle (sk : Sketch) (he : hEntity) (pinter : Vector)
    (circle ec : Entity) (hown : sk.EntitiesOwned)
    (h0 : sk.GetEntity he = some circle) (ht : circle.type = EntityType.CIRCLE)
    (h1 : sk.GetEntity (circle.pointAt 0) = some ec) :
    ∃ (sk' : Sketch) (r : Request) (arc : Entity) (c : Constraint),
      sk.SplitCircle he pinter = some (arc.pointAt 1, sk') ∧
      sk'.request = sk.request ++ [r] ∧ r.type = RequestType.ARC_OF_CIRCLE ∧
      sk'.GetEntity (r.h.entity 0) = some arc ∧ arc.type = EntityType.ARC_OF_CIRCLE ∧
      (sk'.GetEntity (arc.pointAt 0)).map Entity.PointGetNum = some ec.PointGetNum ∧
      (sk'.GetEntity (arc.pointAt 1)).map Entity.PointGetNum = some pinter ∧
      (sk'.GetEntity (arc.pointAt 2)).map Entity.PointGetNum = some pinter ∧
      sk'.constraint = sk.constraint ++ [c] ∧
      c.summary = (ConstraintType.POINTS_COINCIDENT, sk.activeGroup, sk.activeWorkplane,
        arc.pointAt 1, arc.pointAt 2) := by
  have hx := GetEntity_withAdded_explicit sk hown
  have p0 : ∀ i, i < 3 → (generatedEntity (requestNo sk 0 RequestType.ARC_OF_CIRCLE)).pointAt i
      = (requestNo sk 0 RequestType.ARC_OF_CIRCLE).h.entity (i + 1) :=
    fun i hi => generatedEntity_pointAt _ i hi
  have heq := SplitCircle_circle_eq sk he pinter circle ec hown h0 ht h1
  refine ⟨(withAdded sk [requestNo sk 0 RequestType.ARC_OF_CIRCLE]
          [generatedEntity (requestNo sk 0 RequestType.ARC_OF_CIRCLE),
           generatedPoint (requestNo sk 0 RequestType.ARC_OF_CIRCLE) 1 ec.numPoint,
           generatedPoint (requestNo sk 0 RequestType.ARC_OF_CIRCLE) 2 pinter,
           generatedPoint (requestNo sk 0 RequestType.ARC_OF_CIRCLE) 3 pinter]
        ).ConstrainCoincident ((requestNo sk 0 RequestType.ARC_OF_CIRCLE).h.entity 2)
            ((requestNo sk 0 RequestType.ARC_OF_CIRCLE).h.entity 3),
    requestNo sk 0 RequestType.ARC_OF_CIRCLE,
    generatedEntity (requestNo sk 0 RequestType.ARC_OF_CIRCLE),
    sk.newConstraint ConstraintType.POINTS_COINCIDENT
      ((requestNo sk 0 RequestType.ARC_OF_CIRCLE).h.entity 2)
      ((requestNo sk 0 RequestType.ARC_OF_CIRCLE).h.entity 3) NO_ENTITY NO_ENTITY false false,
    ?_, rfl, rfl, ?_, rfl, ?_, ?_, ?_, rfl, ?_⟩
  · rw [heq, p0 1 (by norm_num)]
  · simp only [GetEntity_ConstrainCoincident, hx,
      Nat.reduceLT, List.find?_cons, generatedEntity_h, decide_True]
  · simp only [GetEntity_ConstrainCoincident, hx, p0 0 (by norm_num), Nat.reduceLT,
      Nat.reduceAdd]
    simp [generatedEntity_h, generatedPoint_h, entity_eq_same]
    rfl
  · simp only [GetEntity_ConstrainCoincident, hx, p0 1 (by norm_num), Nat.reduceLT,
      Nat.reduceAdd]
    simp [generatedEntity_h, generatedPoint_h, entity_eq_same]
    rfl
  · simp only [GetEntity_ConstrainCoincident, hx, p0 2 (by norm_num), Nat.reduceLT,
      Nat.reduceAdd]
    simp [generatedEntity_h, generatedPoint_h, entity_eq_same]
    rfl
  · rw [p0 1 (by norm_num), p0 2 (by norm_num)]
    rfl

end Sketch

end SolveSpace

namespace SolveSpace

namespace Sketch

/-! ## Splitting: the example sketches -/

theorem lineSketch_owned : lineSketch.EntitiesOwned := by
  unfold EntitiesOwned
  decide

theorem circleSketch_owned : circleSketch.EntitiesOwned := by
  unfold EntitiesOwned
  decide

/-- Witness for C3: the example segment, split at `(2, 0, 0)`. -/
theorem SplitLine_spec_witness :
    lineSketch.EntitiesOwned ∧
    lineSketch.GetEntity ⟨65536⟩ = some (generatedEntity lineRequest) ∧
    lineSketch.GetEntity ((generatedEntity lineRequest).pointAt 0)
      = some (generatedPoint lineRequest 1 ⟨0, 0, 0⟩) ∧
    lineSketch.GetEntity ((generatedEntity lineRequest).pointAt 1)
      = some (generatedPoint lineRequest 2 ⟨4, 0, 0⟩) ∧
    ∃ (sk' : Sketch) (r0 r1 : Request) (e0i ei1 : Entity) (old : List Constraint)
      (c : Constraint),
      lineSketch.SplitLine ⟨65536⟩ ⟨2, 0, 0⟩ = some (e0i.pointAt 1, sk') ∧
      sk'.request = lineSketch.request ++ [r0, r1] ∧
      r0.type = RequestType.LINE_SEGMENT ∧ r1.type = RequestType.LINE_SEGMENT ∧
      sk'.GetEntity (r0.h.entity 0) = some e0i ∧ sk'.GetEntity (r1.h.entity 0) = some ei1 ∧
      e0i.type = EntityType.LINE_SEGMENT ∧ ei1.type = EntityType.LINE_SEGMENT ∧
      (sk'.GetEntity (e0i.pointAt 0)).map Entity.PointGetNum
        = some (generatedPoint lineRequest 1 ⟨0, 0, 0⟩).PointGetNum ∧
      (sk'.GetEntity (e0i.pointAt 1)).map Entity.PointGetNum = some ⟨2, 0, 0⟩ ∧
      (sk'.GetEntity (ei1.pointAt 0)).map Entity.PointGetNum = some ⟨2, 0, 0⟩ ∧
      (sk'.GetEntity (ei1.pointAt 1)).map Entity.PointGetNum
        = some (generatedPoint lineRequest 2 ⟨4, 0, 0⟩).PointGetNum ∧
      sk'.constraint = old ++ [c] ∧ old.length = lineSketch.constraint.length ∧
      c.summary = (ConstraintType.POINTS_COINCIDENT, lineSketch.activeGroup,
        lineSketch.activeWorkplane, e0i.pointAt 1, ei1.pointAt 0) :=
  ⟨lineSketch_owned, rfl, rfl, rfl,
    SplitLine_spec lineSketch ⟨65536⟩ ⟨2, 0, 0⟩ (generatedEntity lineRequest)
      (generatedPoint lineRequest 1 ⟨0, 0, 0⟩) (generatedPoint lineRequest 2 ⟨4, 0, 0⟩)
      lineSketch_owned rfl rfl rfl⟩

/-- Witness for C4: the example segment with its distance constraint, split at
`(2, 0, 0)`. -/
theorem SplitLine_repoints_witness :
    lineSketch.EntitiesOwned ∧
    lineSketch.GetEntity ⟨65536⟩ = some (generatedEntity lineRequest) ∧
    lineSketch.GetEntity ((generatedEntity lineRequest).pointAt 0)
      = some (generatedPoint lineRequest 1 ⟨0, 0, 0⟩) ∧
    lineSketch.GetEntity ((generatedEntity lineRequest).pointAt 1)
      = some (generatedPoint lineRequest 2 ⟨4, 0, 0⟩) ∧
    (generatedEntity lineRequest).pointAt 0 ≠ (generatedEntity lineRequest).pointAt 1 ∧
    ∃ (sk' : Sketch) (ret : hEntity) (r0 r1 : Request) (e0i ei1 : Entity)
      (f : Constraint → Constraint) (c : Constraint),
      lineSketch.SplitLine ⟨65536⟩ ⟨2, 0, 0⟩ = some (ret, sk') ∧
      sk'.request = lineSketch.request ++ [r0, r1] ∧
      sk'.GetEntity (r0.h.entity 0) = some e0i ∧ sk'.GetEntity (r1.h.entity 0) = some ei1 ∧
      sk'.constraint = lineSketch.constraint.map f ++ [c] ∧
      ∀ o : Constraint,
        (o.ptA = (generatedEntity lineRequest).pointAt 0 → (f o).ptA = e0i.pointAt 0) ∧
        (o.ptB = (generatedEntity lineRequest).pointAt 0 → (f o).ptB = e0i.pointAt 0) ∧
        (o.ptA = (generatedEntity lineRequest).pointAt 1 → (f o).ptA = ei1.pointAt 1) ∧
        (o.ptB = (generatedEntity lineRequest).pointAt 1 → (f o).ptB = ei1.pointAt 1) ∧
        (o.ptA ≠ (generatedEntity lineRequest).pointAt 0 →
          o.ptA ≠ (generatedEntity lineRequest).pointAt 1 → (f o).ptA = o.ptA) ∧
        (o.ptB ≠ (generatedEntity lineRequest).pointAt 0 →
          o.ptB ≠ (generatedEntity lineRequest).pointAt 1 → (f o).ptB = o.ptB) ∧
        { f o with ptA := o.ptA, ptB := o.ptB } = o :=
  ⟨lineSketch_owned, rfl, rfl, rfl, by decide,
    SplitLine_repoints lineSketch ⟨65536⟩ ⟨2, 0, 0⟩ (generatedEntity lineRequest)
      (generatedPoint lineRequest 1 ⟨0, 0, 0⟩) (generatedPoint lineRequest 2 ⟨4, 0, 0⟩)
      lineSketch_owned rfl rfl rfl (by decide)⟩

/-- Witness for C10: the example circle, split at `(3, 1, 0)`. -/
theorem SplitCircle_circle_witness :
    circleSketch.EntitiesOwned ∧
    circleSketch.GetEntity ⟨65536⟩ = some (generatedEntity circleRequest) ∧
    (generatedEntity circleRequest).type = EntityType.CIRCLE ∧
    circleSketch.GetEntity ((generatedEntity circleRequest).pointAt 0)
      = some (generatedPoint circleRequest 1 ⟨1, 1, 0⟩) ∧
    ∃ (sk' : Sketch) (r : Request) (arc : Entity) (c : Constraint),
      circleSketch.SplitCircle ⟨65536⟩ ⟨3, 1, 0⟩ = some (arc.pointAt 1, sk') ∧
      sk'.request = circleSketch.request ++ [r] ∧ r.type = RequestType.ARC_OF_CIRCLE ∧
      sk'.GetEntity (r.h.entity 0) = some arc ∧ arc.type = EntityType.ARC_OF_CIRCLE ∧
      (sk'.GetEntity (arc.pointAt 0)).map Entity.PointGetNum
        = some (generatedPoint circleRequest 1 ⟨1, 1, 0⟩).PointGetNum ∧
      (sk'.GetEntity (arc.pointAt 1)).map Entity.PointGetNum = some ⟨3, 1, 0⟩ ∧
      (sk'.GetEntity (arc.pointAt 2)).map Entity.PointGetNum = some ⟨3, 1, 0⟩ ∧
      sk'.constraint = circleSketch.constraint ++ [c] ∧
      c.summary = (ConstraintType.POINTS_COINCIDENT, circleSketch.activeGroup,
        circleSketch.activeWorkplane, arc.pointAt 1, arc.pointAt 2) :=
  ⟨circleSketch_owned, rfl, rfl, rfl,
    SplitCircle_circle circleSketch ⟨65536⟩ ⟨3, 1, 0⟩ (generatedEntity circleRequest)
      (generatedPoint circleRequest 1 ⟨1, 1, 0⟩) circleSketch_owned rfl rfl rfl⟩

end Sketch

end SolveSpace

/-! ## The tangent arc at a right corner -/

namespace SolveSpace

theorem forUp_invariant {σ : Type} (P : σ → Prop) (cond : Nat → Bool) (body : Nat → σ → σ)
    (hbody : ∀ i s, P s → P (body i s)) (fuel : Nat) :
    ∀ k s, P s → P (forUp cond body fuel k s) := by
  induction fuel with
  | zero => intro k s h; exact h
  | succ f ih =>
    intro k s h
    simp only [forUp]
    split_ifs
    · exact ih (k + 1) (body k s) (hbody k s h)
    · exact h

theorem forUp_iterUp {σ : Type} (body : Nat → σ → σ) (N : Nat) (s : σ) (fuel : Nat) :
    ∀ k, k + fuel = N →
      forUp (fun i => decide (i < N)) body fuel k (iterUp body k s) = iterUp body N s := by
  induction fuel with
  | zero =>
    intro k hk
    have : k = N := by omega
    subst this
    rfl
  | succ f ih =>
    intro k hk
    have hlt : k < N := by omega
    simp only [forUp, hlt, decide_True, if_true]
    exact ih (k + 1) (by omega)

theorem forUp_eq_iterUp {σ : Type} (body : Nat → σ → σ) (N : Nat) (s : σ) :
    forUp (fun i => decide (i < N)) body N 0 s = iterUp body N s :=
  forUp_iterUp body N s N 0 (by omega)

namespace Vector

theorem ext_xyz (a b : Vector) : a = b ↔ a.x = b.x ∧ a.y = b.y ∧ a.z = b.z := by
  cases a; cases b; simp

theorem MagSquared_eq_Dot (a : Vector) : a.MagSquared = a.Dot a := rfl

theorem Minus_Plus_self (a b : Vector) : (a.Plus b).Minus a = b := by
  simp only [Plus, Minus, ext_xyz]
  refine ⟨by ring, by ring, by ring⟩

theorem Cross_Cross (a b c : Vector) :
    (a.Cross b).Cross c = (b.ScaledBy (a.Dot c)).Minus (a.ScaledBy (b.Dot c)) := by
  simp only [Cross, ScaledBy, Minus, Dot, ext_xyz]
  refine ⟨by ring, by ring, by ring⟩

theorem Dot_comm (a b : Vector) : a.Dot b = b.Dot a := by
  simp only [Dot]; ring

theorem Dot_ScaledBy_right (a b : Vector) (s : ℚ) : a.Dot (b.ScaledBy s) = s * a.Dot b := by
  simp only [Dot, ScaledBy]; ring

theorem Dot_ScaledBy_left (a b : Vector) (s : ℚ) : (a.ScaledBy s).Dot b = s * a.Dot b := by
  simp only [Dot, ScaledBy]; ring

theorem Dot_Minus_right (a b c : Vector) : a.Dot (b.Minus c) = a.Dot b - a.Dot c := by
  simp only [Dot, Minus]; ring

theorem Dot_Minus_left (a b c : Vector) : (a.Minus b).Dot c = a.Dot c - b.Dot c := by
  simp only [Dot, Minus]; ring

theorem Dot_Plus_left (a b c : Vector) : (a.Plus b).Dot c = a.Dot c + b.Dot c := by
  simp only [Dot, Plus]; ring

theorem Dot_Cross_self_left (a b : Vector) : a.Dot (a.Cross b) = 0 := by
  simp only [Dot, Cross]; ring

theorem Dot_Cross_self_right (a b : Vector) : b.Dot (a.Cross b) = 0 := by
  simp only [Dot, Cross]; ring

/-- Lagrange's identity. -/
theorem MagSquared_Cross (a b : Vector) :
    (a.Cross b).MagSquared = a.MagSquared * b.MagSquared - a.Dot b * a.Dot b := by
  simp only [MagSquared, Cross, Dot]; ring

theorem MagSquared_ScaledBy (a : Vector) (s : ℚ) :
    (a.ScaledBy s).MagSquared = s * s * a.MagSquared := by
  simp only [MagSquared, ScaledBy]; ring

theorem DivProjected_eq (a d : Vector) : a.DivProjected d = a.Dot d / d.Dot d := rfl

theorem Magnitude_of_sq (M : Math) (hs : ∀ x : ℚ, M.sqrt (x * x) = |x|) (a : Vector) (L : ℚ)
    (hL : 0 ≤ L) (ha : a.MagSquared = L * L) : a.Magnitude M = L := by
  unfold Magnitude
  rw [ha, hs, abs_of_nonneg hL]

theorem WithMagnitude_of_sq (M : Math) (hs : ∀ x : ℚ, M.sqrt (x * x) = |x|) (a : Vector)
    (L : ℚ) (hL : 0 < L) (ha : a.MagSquared = L * L) (v : ℚ) :
    a.WithMagnitude M v = a.ScaledBy (v / L) := by
  unfold WithMagnitude
  simp only [Magnitude_of_sq M hs a L hL.le ha]
  rw [if_neg hL.ne']


theorem Plus_Minus_Plus (C A B : Vector) :
    (C.Plus A).Minus (C.Plus B) = A.Minus B := by
  simp only [Plus, Minus, ext_xyz]
  refine ⟨by ring, by ring, by ring⟩

theorem DivProjected_scaled (T : Vector) (a b L : ℚ) (hL : L ≠ 0) (hT : T.Dot T = L * L) :
    ((T.ScaledBy a).Minus (T.ScaledBy b)).DivProjected T = a - b := by
  rw [DivProjected_eq, Dot_Minus_left, Dot_ScaledBy_left, Dot_ScaledBy_left, hT]
  have : L * L ≠ 0 := mul_ne_zero hL hL
  field_simp
  ring

/-- Two lines through `C` with perpendicular directions of length `L` meet at `C`. -/
theorem AtIntersectionOfLines_corner (C T0 T1 : Vector) (L a b : ℚ) (hL : L ≠ 0)
    (hperp : T0.Dot T1 = 0) (h0 : T0.Dot T0 = L * L) (h1 : T1.Dot T1 = L * L) :
    AtIntersectionOfLines (C.Plus (T0.ScaledBy a)) ((C.Plus (T0.ScaledBy a)).Plus T0)
      (C.Plus (T1.ScaledBy b)) ((C.Plus (T1.ScaledBy b)).Plus T1) = C := by
  unfold AtIntersectionOfLines
  simp only [Minus_Plus_self, Plus_Minus_Plus, Cross_Cross]
  have hden : T0.Dot ((T1.ScaledBy (T0.Dot T1)).Minus (T0.ScaledBy (T1.Dot T1)))
      = -(L * L * (L * L)) := by
    rw [Dot_Minus_right, Dot_ScaledBy_right, Dot_ScaledBy_right, hperp, h0, h1]
    ring
  have hnum : ((T0.ScaledBy a).Minus (T1.ScaledBy b)).Dot
      ((T1.ScaledBy (T0.Dot T1)).Minus (T0.ScaledBy (T1.Dot T1))) = -(a * (L * L * (L * L))) := by
    rw [Dot_Minus_left, Dot_ScaledBy_left, Dot_ScaledBy_left, hden, Dot_Minus_right,
      Dot_ScaledBy_right, Dot_ScaledBy_right, h1, hperp, Dot_comm T1 T0, hperp]
    ring
  rw [hden, hnum]
  have hL4 : L * L * (L * L) ≠ 0 := by positivity
  have hpa : -(-(a * (L * L * (L * L)))) / (-(L * L * (L * L))) = -a := by
    field_simp
  rw [hpa]
  simp only [Plus, ScaledBy, ext_xyz]
  refine ⟨by ring, by ring, by ring⟩

end Vector

namespace Sketch

theorem arcFitStep_corner (M : Math) (hM : ExactMath M) (sk : Sketch)
    (pc0 pc1 : ParametricCurve) (wn : Vector) (L : ℚ) (hc : RightCorner pc0 pc1 wn L)
    (hman : sk.tangentArcManual = true) (iters i : Nat) (s : ArcFit) :
    arcFitStep M sk pc0 pc1 wn iters i s =
      { t0 := rampRadius iters i sk.tangentArcRadius / L
        t1 := rampRadius iters i sk.tangentArcRadius / L
        tp0 := s.t0
        tp1 := s.t1
        pinter := pc0.p0
        r := rampRadius iters i sk.tangentArcRadius
        vv := (pc1.p1.Minus pc1.p0).Dot (wn.Cross (pc0.p1.Minus pc0.p0)) / L } := by
  obtain ⟨l0, l1, hsh, hpos, hperp, h0, h1, n0, n1, hu⟩ := hc
  rw [hsh] at hperp h1 n1
  have hL : L ≠ 0 := hpos.ne'
  have hL2 : L * L ≠ 0 := by positivity
  have hW : (wn.Cross (pc0.p1.Minus pc0.p0)).MagSquared = L * L := by
    rw [Vector.MagSquared_Cross, hu, h0, n0]; ring
  have hint := fun a b => Vector.AtIntersectionOfLines_corner pc0.p0 (pc0.p1.Minus pc0.p0)
    (pc1.p1.Minus pc0.p0) L a b hL hperp h0 h1
  unfold arcFitStep
  simp only [ParametricCurve.PointAt, ParametricCurve.TangentAt, l0, l1, if_true, hman, hsh,
    hint, Vector.WithMagnitude_of_sq M hM.sqrt_sq _ L hpos h0,
    Vector.WithMagnitude_of_sq M hM.sqrt_sq _ L hpos h1,
    Vector.WithMagnitude_of_sq M hM.sqrt_sq _ L hpos hW]
  simp only [Vector.Dot_ScaledBy_left, Vector.Dot_ScaledBy_right, hperp, mul_zero,
    hM.tan_half_right, div_one, Vector.Plus_Minus_Plus,
    Vector.DivProjected_scaled _ _ _ L hL h0, Vector.DivProjected_scaled _ _ _ L hL h1]
  congr 1
  · ring
  · ring
  · ring

end Sketch
end SolveSpace

/-! ## The tangent arc: the loop and the rejection test -/

namespace SolveSpace
namespace Sketch

theorem rampRadius_after (iters i : Nat) (r : ℚ) (h : iters ≤ i) : rampRadius iters i r = r := by
  unfold rampRadius
  rw [if_neg (by omega)]

theorem arcFit_corner (M : Math) (hM : ExactMath M) (sk : Sketch)
    (pc0 pc1 : ParametricCurve) (wn : Vector) (L : ℚ) (hc : RightCorner pc0 pc1 wn L)
    (hman : sk.tangentArcManual = true) :
    arcFit M sk pc0 pc1 wn =
      { t0 := sk.tangentArcRadius / L
        t1 := sk.tangentArcRadius / L
        tp0 := sk.tangentArcRadius / L
        tp1 := sk.tangentArcRadius / L
        pinter := pc0.p0
        r := sk.tangentArcRadius
        vv := (pc1.p1.Minus pc1.p0).Dot (wn.Cross (pc0.p1.Minus pc0.p0)) / L } := by
  unfold arcFit
  rw [forUp_eq_iterUp]
  show iterUp _ (1018 + 1 + 1) _ = _
  rw [iterUp, iterUp, arcFitStep_corner M hM sk pc0 pc1 wn L hc hman,
    arcFitStep_corner M hM sk pc0 pc1 wn L hc hman,
    rampRadius_after 1000 (1018 + 1) _ (by omega), rampRadius_after 1000 1018 _ (by omega)]

end Sketch

namespace Vector

/-- The square of a triple product is the Gram determinant. -/
theorem triple_sq (a b c : Vector) :
    a.Dot (b.Cross c) * a.Dot (b.Cross c) =
      a.MagSquared * b.MagSquared * c.MagSquared + 2 * (a.Dot b) * (b.Dot c) * (c.Dot a)
        - a.MagSquared * (b.Dot c * b.Dot c) - b.MagSquared * (a.Dot c * a.Dot c)
        - c.MagSquared * (a.Dot b * a.Dot b) := by
  simp only [Dot, Cross, MagSquared]; ring

theorem MagSquared_Minus (a b : Vector) :
    (a.Minus b).MagSquared = a.MagSquared + b.MagSquared - 2 * a.Dot b := by
  simp only [Dot, Minus, MagSquared]; ring

theorem MagSquared_Plus (a b : Vector) :
    (a.Plus b).MagSquared = a.MagSquared + b.MagSquared + 2 * a.Dot b := by
  simp only [Dot, Plus, MagSquared]; ring

end Vector
end SolveSpace

namespace SolveSpace
namespace Sketch

theorem findOperands_ClearSelection (M : Math) (sk : Sketch) (p : Vector) (rs : List Request) :
    ∀ acc, findOperands M sk.ClearSelection p rs acc = findOperands M sk p rs acc := by
  induction rs with
  | nil => intro acc; rfl
  | cons r rs ih =>
    intro acc
    obtain ⟨c, ops⟩ := acc
    simp only [findOperands, ih]
    rfl

theorem MakeFromEntity_ClearSelection (M : Math) (sk : Sketch) (he : hEntity) (rev : Bool) :
    ParametricCurve.MakeFromEntity M sk.ClearSelection he rev
      = ParametricCurve.MakeFromEntity M sk he rev := rfl

theorem arcFit_ClearSelection (M : Math) (sk : Sketch) (pc0 pc1 : ParametricCurve) (wn : Vector) :
    arcFit M sk.ClearSelection pc0 pc1 wn = arcFit M sk pc0 pc1 wn := by
  have h : arcFitStep M sk.ClearSelection pc0 pc1 wn 1000 = arcFitStep M sk pc0 pc1 wn 1000 := rfl
  unfold arcFit
  rw [h]

theorem MakeTangentArc_eq (M : Math) (sk : Sketch) (hp : hEntity) (ep : Entity)
    (op0 op1 : Operand) (wrkpl en : Entity) (pc0 pc1 : ParametricCurve)
    (hlock : sk.LockedInWorkplane = true)
    (hsel : sk.gs.point.head? = some hp) (hep : sk.GetEntity hp = some ep)
    (hops : findOperands M sk ep.PointGetNum sk.request (0, []) = some (2, [op0, op1]))
    (hw : sk.GetEntity sk.activeWorkplane = some wrkpl)
    (hn : sk.GetEntity wrkpl.normal = some en)
    (hpc0 : ParametricCurve.MakeFromEntity M sk op0.hent op0.pointf = some pc0)
    (hpc1 : ParametricCurve.MakeFromEntity M sk op1.hent op1.pointf = some pc1) :
    MakeTangentArc M sk =
      if arcFitRejected M (arcFit M sk pc0 pc1 en.numN) then
        some (sk.ClearSelection.Error msgTangentArcRound)
      else
        arcCommit M sk.ClearSelection ep.PointGetNum op0 op1 pc0 pc1 en.numN
          (arcFit M sk pc0 pc1 en.numN) := by
  have hw' : sk.ClearSelection.GetEntity sk.ClearSelection.activeWorkplane = some wrkpl := hw
  have hn' : sk.ClearSelection.GetEntity wrkpl.normal = some en := hn
  have hops' : findOperands M sk.ClearSelection ep.PointGetNum sk.ClearSelection.request (0, [])
      = some (2, [op0, op1]) := by
    rw [findOperands_ClearSelection]; exact hops
  unfold MakeTangentArc
  rw [hlock, if_neg (show ¬ ((!true) = true) by decide), hsel]
  dsimp only [Option.pure_def, Option.bind_eq_bind, Option.some_bind, Option.bind]
  rw [hep]
  dsimp only
  rw [hops']
  dsimp only
  rw [if_neg (show ¬ ((2 : Nat) ≠ 2) by decide)]
  rw [hw']
  dsimp only
  rw [hn']
  dsimp only
  rw [show ([op0, op1] : List Operand)[0]? = some op0 from rfl,
    show ([op0, op1] : List Operand)[1]? = some op1 from rfl]
  dsimp only
  rw [MakeFromEntity_ClearSelection, MakeFromEntity_ClearSelection, hpc0, hpc1]
  dsimp only
  rw [arcFit_ClearSelection]

theorem arcFitRejected_of_bad (M : Math) (fit : ArcFit)
    (hbad : fit.t0 ≤ 0 ∨ 1 ≤ fit.t0 ∨ fit.t1 ≤ 0 ∨ 1 ≤ fit.t1 ∨
      |fit.tp0 - fit.t0| > 1e-3 ∨ |fit.tp1 - fit.t1| > 1e-3) :
    arcFitRejected M fit = true := by
  unfold arcFitRejected
  simp only [Bool.or_eq_true, decide_eq_true_eq]
  rcases hbad with h | h | h | h | h | h
  · have : fit.t0 < 0.01 := by norm_num; linarith
    tauto
  · have : fit.t0 > 0.99 := by norm_num; linarith
    tauto
  · have : fit.t1 < 0.01 := by norm_num; linarith
    tauto
  · have : fit.t1 > 0.99 := by norm_num; linarith
    tauto
  · tauto
  · tauto

/-- Claim C7.  When `MakeTangentArc` has found its two curves and the loop ends
with a parameter `t[k]` outside the open interval `(0, 1)`, or more than `1e-3`
away from its previous iterate, the function reports the error "Couldn't round
this corner. .." and returns the sketch as it was: no undo snapshot, and the
lists of requests (with their construction flags), entities (with the point
positions) and constraints are unchanged. -/
theorem MakeTangentArc_rejected (M : Math) (sk : Sketch) (hp : hEntity) (ep : Entity)
    (op0 op1 : Operand) (wrkpl en : Entity) (pc0 pc1 : ParametricCurve)
    (hlock : sk.LockedInWorkplane = true)
    (hsel : sk.gs.point.head? = some hp) (hep : sk.GetEntity hp = some ep)
    (hops : findOperands M sk ep.PointGetNum sk.request (0, []) = some (2, [op0, op1]))
    (hw : sk.GetEntity sk.activeWorkplane = some wrkpl)
    (hn : sk.GetEntity wrkpl.normal = some en)
    (hpc0 : ParametricCurve.MakeFromEntity M sk op0.hent op0.pointf = some pc0)
    (hpc1 : ParametricCurve.MakeFromEntity M sk op1.hent op1.pointf = some pc1)
    (hbad : (arcFit M sk pc0 pc1 en.numN).t0 ≤ 0 ∨ 1 ≤ (arcFit M sk pc0 pc1 en.numN).t0 ∨
      (arcFit M sk pc0 pc1 en.numN).t1 ≤ 0 ∨ 1 ≤ (arcFit M sk pc0 pc1 en.numN).t1 ∨
      |(arcFit M sk pc0 pc1 en.numN).tp0 - (arcFit M sk pc0 pc1 en.numN).t0| > 1e-3 ∨
      |(arcFit M sk pc0 pc1 en.numN).tp1 - (arcFit M sk pc0 pc1 en.numN).t1| > 1e-3) :
    ∃ sk', MakeTangentArc M sk = some sk' ∧
      sk'.errors = sk.errors ++ [msgTangentArcRound] ∧
      sk'.undoCount = sk.undoCount ∧ sk'.request = sk.request ∧ sk'.entity = sk.entity ∧
      sk'.constraint = sk.constraint := by
  refine ⟨sk.ClearSelection.Error msgTangentArcRound, ?_, rfl, rfl, rfl, rfl, rfl⟩
  rw [MakeTangentArc_eq M sk hp ep op0 op1 wrkpl en pc0 pc1 hlock hsel hep hops hw hn hpc0 hpc1,
    if_pos (arcFitRejected_of_bad M _ hbad)]

end Sketch
end SolveSpace

namespace SolveSpace
namespace Sketch

/-! ## The corner example -/

theorem cornerMath_exact : ExactMath cornerMath where
  sqrt_sq := fun x => Rat.sqrt_eq x
  tan_half_right := rfl
  reasonable := by
    intro x h0 h1
    simp only [cornerMath, decide_eq_false_iff_not, not_or, not_lt]
    constructor
    · norm_num; linarith
    · norm_num; linarith

theorem cornerSketch_owned (r : ℚ) (m : Bool) : (cornerSketch r m).EntitiesOwned := by
  show (cornerSketch 0 false).EntitiesOwned
  unfold EntitiesOwned
  decide

theorem cornerSketch_corner : RightCorner cornerCurve0 cornerCurve1 ⟨0, 0, 1⟩ 4 where
  line0 := rfl
  line1 := rfl
  shared := rfl
  pos := by norm_num
  perp := by norm_num [cornerCurve0, cornerCurve1, Vector.Minus, Vector.Dot]
  len0 := by norm_num [cornerCurve0, Vector.Minus, Vector.MagSquared]
  len1 := by norm_num [cornerCurve1, Vector.Minus, Vector.MagSquared]
  normal0 := by norm_num [cornerCurve0, Vector.Minus, Vector.Dot]
  normal1 := by norm_num [cornerCurve1, Vector.Minus, Vector.Dot]
  unit := by norm_num [Vector.MagSquared]

theorem cornerSketch_curve0 (r : ℚ) (m : Bool) :
    ParametricCurve.MakeFromEntity cornerMath (cornerSketch r m) ((cornerLine 2).h.entity 0) false
      = some cornerCurve0 := by
  rfl

theorem cornerSketch_curve1 (r : ℚ) (m : Bool) :
    ParametricCurve.MakeFromEntity cornerMath (cornerSketch r m) ((cornerLine 3).h.entity 0) false
      = some cornerCurve1 := by
  rfl

theorem findOperands_skip_workplane (M : Math) (sk : Sketch) (p : Vector) (r : Request)
    (rs : List Request) (acc : Nat × List Operand) (h : r.workplane ≠ sk.activeWorkplane) :
    findOperands M sk p (r :: rs) acc = findOperands M sk p rs acc := by
  obtain ⟨c, ops⟩ := acc
  simp only [findOperands]
  split_ifs <;> rfl

theorem findOperands_hit (M : Math) (sk : Sketch) (p : Vector) (r : Request)
    (rs : List Request) (c : Nat) (ops : List Operand) (e : Entity) (ps pf : Vector)
    (hg : r.group = sk.activeGroup) (hw : r.workplane = sk.activeWorkplane)
    (hc : r.construction = false)
    (ht : r.type = RequestType.LINE_SEGMENT ∨ r.type = RequestType.ARC_OF_CIRCLE)
    (he : sk.GetEntity (r.h.entity 0) = some e)
    (hs : sk.EndpointStart e = some ps) (hf : sk.EndpointFinish e = some pf)
    (hit : (ps.Equals p M.LENGTH_EPS || pf.Equals p M.LENGTH_EPS) = true) (hc2 : c < 2) :
    findOperands M sk p (r :: rs) (c, ops)
      = findOperands M sk p rs (c + 1, ops ++ [⟨e.h, r.h, pf.Equals p M.LENGTH_EPS⟩]) := by
  have ht' : ¬ (r.type ≠ RequestType.LINE_SEGMENT ∧ r.type ≠ RequestType.ARC_OF_CIRCLE) := by
    tauto
  simp only [findOperands]
  rw [if_neg (by simpa using hg), if_neg (by simpa using hw), if_neg (by simp [hc]), if_neg ht',
    he]
  simp only [Option.bind_eq_bind, Option.some_bind, hs, hf, hit, if_true, hc2]

theorem Equals_origin : (⟨0, 0, 0⟩ : Vector).Equals ⟨0, 0, 0⟩ cornerMath.LENGTH_EPS = true := by
  norm_num [Vector.Equals, cornerMath, Vector.Minus, Vector.MagSquared]

theorem Equals_x4 : (⟨4, 0, 0⟩ : Vector).Equals ⟨0, 0, 0⟩ cornerMath.LENGTH_EPS = false := by
  norm_num [Vector.Equals, cornerMath, Vector.Minus, Vector.MagSquared]

theorem Equals_y4 : (⟨0, 4, 0⟩ : Vector).Equals ⟨0, 0, 0⟩ cornerMath.LENGTH_EPS = false := by
  norm_num [Vector.Equals, cornerMath, Vector.Minus, Vector.MagSquared]

theorem cornerSketch_operands (r : ℚ) (m : Bool) :
    findOperands cornerMath (cornerSketch r m) ⟨0, 0, 0⟩ (cornerSketch r m).request (0, [])
      = some (2, [⟨(cornerLine 2).h.entity 0, (cornerLine 2).h, false⟩,
                  ⟨(cornerLine 3).h.entity 0, (cornerLine 3).h, false⟩]) := by
  show findOperands cornerMath (cornerSketch r m) ⟨0, 0, 0⟩
    [cornerPlaneRequest, cornerLine 2, cornerLine 3] (0, []) = _
  have hne : cornerPlaneRequest.workplane ≠ (cornerSketch r m).activeWorkplane :=
    show cornerPlaneRequest.workplane ≠ (cornerSketch 0 false).activeWorkplane by decide
  rw [findOperands_skip_workplane _ _ _ _ _ _ hne,
    findOperands_hit cornerMath (cornerSketch r m) ⟨0, 0, 0⟩ (cornerLine 2) _ 0 []
      (generatedEntity (cornerLine 2)) ⟨0, 0, 0⟩ ⟨4, 0, 0⟩ rfl rfl rfl (Or.inl rfl) rfl rfl rfl
      (by rw [Equals_origin]; rfl) (by decide),
    findOperands_hit cornerMath (cornerSketch r m) ⟨0, 0, 0⟩ (cornerLine 3) _ 1 _
      (generatedEntity (cornerLine 3)) ⟨0, 0, 0⟩ ⟨0, 4, 0⟩ rfl rfl rfl (Or.inl rfl) rfl rfl rfl
      (by rw [Equals_origin]; rfl) (by decide),
    Equals_x4, Equals_y4]
  rfl

end Sketch
end SolveSpace

/-! ## The tangent arc: the changes of the sketch -/

namespace SolveSpace
namespace Sketch

theorem Grows.refl (P : hEntity → Prop) (sk : Sketch) : Grows P sk sk where
  owned := id
  request := ⟨[], by simp⟩
  keep := fun _ _ _ h => h
  shape := fun _ e h => ⟨e, h, rfl, rfl⟩
  errors := rfl
  modify := rfl

theorem Grows.trans {P : hEntity → Prop} {a b c : Sketch} (h1 : Grows P a b) (h2 : Grows P b c) :
    Grows P a c where
  owned := fun h => h2.owned (h1.owned h)
  request := by
    obtain ⟨r1, e1⟩ := h1.request
    obtain ⟨r2, e2⟩ := h2.request
    exact ⟨r1 ++ r2, by rw [e2, e1, List.append_assoc]⟩
  keep := fun h e hP he => h2.keep h e hP (h1.keep h e hP he)
  shape := by
    intro h e he
    obtain ⟨e1, he1, hp1, ht1⟩ := h1.shape h e he
    obtain ⟨e2, he2, hp2, ht2⟩ := h2.shape h e1 he1
    exact ⟨e2, he2, hp2.trans hp1, ht2.trans ht1⟩
  errors := h2.errors.trans h1.errors
  modify := h2.modify.trans h1.modify

/-- A change of the constraint list alone. -/
theorem Grows.constraint (P : hEntity → Prop) (sk : Sketch) (cs : List Constraint) :
    Grows P sk { sk with constraint := cs } where
  owned := id
  request := ⟨[], by simp⟩
  keep := fun _ _ _ h => h
  shape := fun _ e h => ⟨e, h, rfl, rfl⟩
  errors := rfl
  modify := rfl

theorem Grows.Constrain (P : hEntity → Prop) (sk : Sketch) (t : ConstraintType)
    (a b c d : hEntity) (o o2 : Bool) : Grows P sk (sk.Constrain t a b c d o o2) :=
  Grows.constraint P sk _

theorem Generate_owner (r : Request) : ∀ e ∈ Generate r, e.h.request = r.h := by
  intro e he
  simp only [Generate, List.mem_cons, List.mem_map, List.mem_range] at he
  rcases he with rfl | ⟨i, hi, rfl⟩
  · exact entity_request r.h 0 (by omega)
  · have : requestPoints r.type ≤ 4 := by cases r.type <;> simp [requestPoints]
    exact entity_request r.h (i + 1) (by omega)

theorem Grows.AddRequest (P : hEntity → Prop) (sk : Sketch) (t : RequestType) :
    Grows P sk (sk.AddRequest t).2 where
  owned := by
    intro hown e he
    simp only [Sketch.AddRequest, List.mem_append] at he ⊢
    rw [requestMaximumId_append]
    rcases he with he | he
    · exact le_trans (hown e he) (le_max_left _ _)
    · rw [Generate_owner _ e he]
      exact le_max_right _ _
  request := ⟨[sk.newRequest t], rfl⟩
  keep := fun h e _ he => find?_append_old sk.entity _ h e he
  shape := fun h e he => ⟨e, find?_append_old sk.entity _ h e he, rfl, rfl⟩
  errors := rfl
  modify := rfl

theorem find?_modifyFirst (l : List Entity) (h h' : hEntity) (f : Entity → Entity)
    (hf : ∀ e, (f e).h = e.h) :
    (modifyFirst (fun e => decide (e.h = h)) f l).find? (fun e => decide (e.h = h'))
      = if h' = h then (l.find? (fun e => decide (e.h = h))).map f
        else l.find? (fun e => decide (e.h = h')) := by
  induction l with
  | nil => simp [modifyFirst]
  | cons a l ih =>
    by_cases ha : a.h = h
    · by_cases hh : h' = h
      · subst hh
        simp [modifyFirst, ha, hf]
      · have h1 : ¬ a.h = h' := by rw [ha]; exact fun e => hh e.symm
        have h2 : ¬ (f a).h = h' := by rw [hf]; exact h1
        have h3 : ¬ h = h' := fun e => hh e.symm
        simp [modifyFirst, ha, hh, h1, h2, h3, List.find?_cons]
    · by_cases hh : h' = h
      · subst hh
        simp only [modifyFirst, ha, decide_False, Bool.false_eq_true, if_false, List.find?_cons,
          if_true] at ih ⊢
        exact ih
      · simp only [modifyFirst, ha, decide_False, Bool.false_eq_true, if_false, hh,
          List.find?_cons] at ih ⊢
        rw [ih]

theorem modifyFirst_map_h (l : List Entity) (p : Entity → Bool) (f : Entity → Entity)
    (hf : ∀ e, (f e).h = e.h) : (modifyFirst p f l).map (fun e => e.h) = l.map (fun e => e.h) := by
  induction l with
  | nil => rfl
  | cons a l ih =>
    simp only [modifyFirst]
    split_ifs
    · simp [hf]
    · simp [ih]

theorem GetEntity_PointForceTo (sk : Sketch) (h : hEntity) (p : Vector) (e : Entity)
    (he : sk.GetEntity h = some e) :
    ∃ sk', sk.PointForceTo h p = some sk' ∧
      (∀ h', sk'.GetEntity h' = if h' = h then some { e with numPoint := p }
        else sk.GetEntity h') ∧
      (∀ P : hEntity → Prop, ¬ P h → Grows P sk sk') := by
  refine ⟨{ sk with entity := modifyFirst (fun e => decide (e.h = h))
                                (fun e => { e with numPoint := p }) sk.entity }, ?_, ?_, ?_⟩
  · unfold PointForceTo
    rw [he]
  · intro h'
    unfold GetEntity at he ⊢
    simp only []
    rw [find?_modifyFirst sk.entity h _ (fun e => { e with numPoint := p }) (fun _ => rfl), he]
    rfl
  · intro P hP
    have hget : ∀ h', h' ≠ h →
        ({ sk with entity := modifyFirst (fun e => decide (e.h = h))
                               (fun e => { e with numPoint := p }) sk.entity } : Sketch).GetEntity h'
        = sk.GetEntity h' := by
      intro h' hne
      unfold GetEntity
      simp only []
      rw [find?_modifyFirst sk.entity h _ (fun e => { e with numPoint := p }) (fun _ => rfl),
        if_neg hne]
    refine ⟨?_, ⟨[], by simp⟩, ?_, ?_, rfl, rfl⟩
    · intro hown e' he'
      simp only [] at he' ⊢
      have hm : e'.h ∈ (modifyFirst (fun e => decide (e.h = h))
          (fun e => { e with numPoint := p }) sk.entity).map (fun e => e.h) :=
        List.mem_map_of_mem _ he'
      rw [modifyFirst_map_h sk.entity _ (fun e => { e with numPoint := p }) (fun _ => rfl)] at hm
      obtain ⟨e0, he0, hh⟩ := List.mem_map.mp hm
      rw [← hh]
      exact hown e0 he0
    · intro h' e' hPh he'
      have hne : h' ≠ h := fun e => hP (e ▸ hPh)
      rw [hget h' hne]; exact he'
    · intro h' e' he'
      by_cases hh : h' = h
      · rw [hh] at he' ⊢
        refine ⟨{ e with numPoint := p }, ?_, ?_, ?_⟩
        · unfold GetEntity at he ⊢
          simp only []
          rw [find?_modifyFirst sk.entity h _ (fun e => { e with numPoint := p }) (fun _ => rfl), he,
            if_pos rfl]
          rfl
        · rw [he] at he'; cases he'; rfl
        · rw [he] at he'; cases he'; rfl
      · exact ⟨e', by rw [hget h' hh]; exact he', rfl, rfl⟩

theorem Grows.ConstrainPointIfCoincident (M : Math) (P : hEntity → Prop) (sk : Sketch)
    (hpt : hEntity) (e : Entity) (he : sk.GetEntity hpt = some e) :
    ∃ sk', sk.ConstrainPointIfCoincident M hpt = some sk' ∧ Grows P sk sk' := by
  unfold Sketch.ConstrainPointIfCoincident
  rw [he]
  simp only [Option.bind_eq_bind, Option.some_bind, Option.pure_def]
  split
  · exact ⟨_, rfl, Grows.constraint P sk _⟩
  · exact ⟨_, rfl, Grows.refl P sk⟩

theorem AddRequest_fst (sk : Sketch) (t : RequestType) :
    (sk.AddRequest t).1 = (sk.newRequest t).h := rfl

theorem AddRequest_pair (sk : Sketch) (t : RequestType) :
    sk.AddRequest t = ((sk.newRequest t).h, (sk.AddRequest t).2) := rfl

theorem newRequest_fresh (sk : Sketch) (t : RequestType) :
    requestMaximumId sk.request < (sk.newRequest t).h.v := by
  simp [newRequest]

theorem GetEntity_AddRequest (sk : Sketch) (hown : sk.EntitiesOwned) (t : RequestType) (i : Nat)
    (hi : i < 65536) :
    (sk.AddRequest t).2.GetEntity ((sk.newRequest t).h.entity i)
      = (Generate (sk.newRequest t)).find? (fun e => decide (e.h = (sk.newRequest t).h.entity i)) :=
  find?_append_fresh sk.entity _ _ (fresh_entity sk hown _ i (newRequest_fresh sk t) hi)

theorem GetEntity_AddRequest_line (sk : Sketch) (hown : sk.EntitiesOwned) :
    (sk.AddRequest RequestType.LINE_SEGMENT).2.GetEntity
        ((sk.newRequest RequestType.LINE_SEGMENT).h.entity 0)
      = some (generatedEntity (sk.newRequest RequestType.LINE_SEGMENT)) ∧
    (sk.AddRequest RequestType.LINE_SEGMENT).2.GetEntity
        ((sk.newRequest RequestType.LINE_SEGMENT).h.entity 1)
      = some (generatedPoint (sk.newRequest RequestType.LINE_SEGMENT) 1 ⟨0, 0, 0⟩) ∧
    (sk.AddRequest RequestType.LINE_SEGMENT).2.GetEntity
        ((sk.newRequest RequestType.LINE_SEGMENT).h.entity 2)
      = some (generatedPoint (sk.newRequest RequestType.LINE_SEGMENT) 2 ⟨0, 0, 0⟩) := by
  rw [GetEntity_AddRequest sk hown _ 0 (by omega), GetEntity_AddRequest sk hown _ 1 (by omega),
    GetEntity_AddRequest sk hown _ 2 (by omega), Generate_line _ rfl]
  simp only [List.find?_cons, generatedEntity_h, generatedPoint_h, entity_eq_same _ _ _,
    decide_True, decide_False, Nat.reduceLT, Nat.reduceEqDiff, OfNat.ofNat_ne_zero,
    OfNat.zero_ne_ofNat, OfNat.ofNat_ne_one, OfNat.one_ne_ofNat, one_ne_zero, zero_ne_one,
    and_self]

theorem GetEntity_AddRequest_arc (sk : Sketch) (hown : sk.EntitiesOwned) :
    (sk.AddRequest RequestType.ARC_OF_CIRCLE).2.GetEntity
        ((sk.newRequest RequestType.ARC_OF_CIRCLE).h.entity 0)
      = some (generatedEntity (sk.newRequest RequestType.ARC_OF_CIRCLE)) ∧
    (sk.AddRequest RequestType.ARC_OF_CIRCLE).2.GetEntity
        ((sk.newRequest RequestType.ARC_OF_CIRCLE).h.entity 1)
      = some (generatedPoint (sk.newRequest RequestType.ARC_OF_CIRCLE) 1 ⟨0, 0, 0⟩) ∧
    (sk.AddRequest RequestType.ARC_OF_CIRCLE).2.GetEntity
        ((sk.newRequest RequestType.ARC_OF_CIRCLE).h.entity 2)
      = some (generatedPoint (sk.newRequest RequestType.ARC_OF_CIRCLE) 2 ⟨0, 0, 0⟩) ∧
    (sk.AddRequest RequestType.ARC_OF_CIRCLE).2.GetEntity
        ((sk.newRequest RequestType.ARC_OF_CIRCLE).h.entity 3)
      = some (generatedPoint (sk.newRequest RequestType.ARC_OF_CIRCLE) 3 ⟨0, 0, 0⟩) := by
  rw [GetEntity_AddRequest sk hown _ 0 (by omega), GetEntity_AddRequest sk hown _ 1 (by omega),
    GetEntity_AddRequest sk hown _ 2 (by omega), GetEntity_AddRequest sk hown _ 3 (by omega),
    Generate_arc _ rfl]
  simp only [List.find?_cons, generatedEntity_h, generatedPoint_h, entity_eq_same _ _ _,
    decide_True, decide_False, Nat.reduceLT, Nat.reduceEqDiff, OfNat.ofNat_ne_zero,
    OfNat.zero_ne_ofNat, OfNat.ofNat_ne_one, OfNat.one_ne_ofNat, one_ne_zero, zero_ne_one,
    and_self]

theorem CreateRequestTrimmedTo_line (M : Math) (pc : ParametricCurve) (sk : Sketch) (t : ℚ)
    (reuse : Bool) (orig arc : hEntity) (af pf : Bool) (P : hEntity → Prop)
    (hline : pc.isLine = true) (hown : sk.EntitiesOwned)
    (hP : ∀ h, P h → h.request.v ≤ requestMaximumId sk.request)
    (hreuse : reuse = true → ∃ e pe, sk.GetEntity orig = some e ∧
      sk.GetEntity (e.pointAt (if pf then 1 else 0)) = some pe ∧
      ¬ P (e.pointAt (if pf then 1 else 0))) :
    ∃ sk', sk.CreateRequestTrimmedTo M pc t reuse orig arc af pf = some sk' ∧ Grows P sk sk' := by
  unfold Sketch.CreateRequestTrimmedTo
  rw [if_pos hline]
  cases reuse with
  | true =>
    obtain ⟨e, pe, he, hpe, hnP⟩ := hreuse rfl
    obtain ⟨s1, hs1, hg1, hG1⟩ := GetEntity_PointForceTo sk _ (pc.PointAt M t) pe hpe
    obtain ⟨s2, hs2, hG2⟩ := Grows.ConstrainPointIfCoincident M P s1 _ _
      ((hg1 _).trans (if_pos rfl))
    rw [if_pos rfl, he]
    simp only [Option.bind_eq_bind, Option.some_bind, Option.pure_def]
    rw [hs1]
    simp only [Option.some_bind]
    rw [hs2]
    simp only [Option.some_bind]
    exact ⟨_, rfl, ((hG1 P hnP).trans hG2).trans (Grows.Constrain P s2 _ _ _ _ _ _ _)⟩
  | false =>
    have hnP : ∀ i, i < 65536 →
        ¬ P ((sk.newRequest RequestType.LINE_SEGMENT).h.entity i) := by
      intro i hi hPi
      have := hP _ hPi
      rw [entity_request _ i hi] at this
      have := newRequest_fresh sk RequestType.LINE_SEGMENT
      omega
    obtain ⟨h0, h1, h2⟩ := GetEntity_AddRequest_line sk hown
    have hp0 : (generatedEntity (sk.newRequest RequestType.LINE_SEGMENT)).pointAt 0
        = (sk.newRequest RequestType.LINE_SEGMENT).h.entity 1 :=
      generatedEntity_pointAt _ 0 (show 0 < requestPoints RequestType.LINE_SEGMENT by decide)
    have hp1 : (generatedEntity (sk.newRequest RequestType.LINE_SEGMENT)).pointAt 1
        = (sk.newRequest RequestType.LINE_SEGMENT).h.entity 2 :=
      generatedEntity_pointAt _ 1 (show 1 < requestPoints RequestType.LINE_SEGMENT by decide)
    obtain ⟨s2, hs2, hg2, hG2⟩ := GetEntity_PointForceTo _ _ (pc.PointAt M t) _ h1
    have h2' : s2.GetEntity ((sk.newRequest RequestType.LINE_SEGMENT).h.entity 2)
        = some (generatedPoint (sk.newRequest RequestType.LINE_SEGMENT) 2 ⟨0, 0, 0⟩) := by
      rw [hg2, if_neg, h2]
      rw [entity_inj _ _ _ _ (by omega) (by omega)]
      omega
    obtain ⟨s3, hs3, hg3, hG3⟩ := GetEntity_PointForceTo _ _ (pc.PointAt M 1) _ h2'
    obtain ⟨e1, he1, -, -⟩ := (hG3 P (hnP 2 (by omega))).shape _ _ ((hg2 _).trans (if_pos rfl))
    obtain ⟨s4, hs4, hG4⟩ := Grows.ConstrainPointIfCoincident M P s3 _ _ he1
    obtain ⟨e2, he2, -, -⟩ := hG4.shape _ _ ((hg3 _).trans (if_pos rfl))
    obtain ⟨s5, hs5, hG5⟩ := Grows.ConstrainPointIfCoincident M P s4 _ _ he2
    rw [if_neg (by decide), AddRequest_pair]
    simp only [Option.bind_eq_bind, Option.pure_def]
    rw [h0]
    simp only [Option.some_bind, hp0, hp1]
    rw [hs2]
    simp only [Option.some_bind]
    rw [hs3]
    simp only [Option.some_bind]
    rw [hs4]
    simp only [Option.some_bind]
    rw [hs5]
    simp only [Option.some_bind]
    exact ⟨_, rfl, (((((Grows.AddRequest P sk _).trans (hG2 P (hnP 1 (by omega)))).trans
      (hG3 P (hnP 2 (by omega)))).trans hG4).trans hG5).trans
        ((Grows.Constrain P s5 _ _ _ _ _ _ _).trans (Grows.Constrain P _ _ _ _ _ _ _ _))⟩

theorem foldl_max_ge (l : List Request) (a : Nat) :
    a ≤ l.foldl (fun mx r => max mx r.h.v) a ∧
      ∀ r ∈ l, r.h.v ≤ l.foldl (fun mx r => max mx r.h.v) a := by
  induction l generalizing a with
  | nil => simp
  | cons x l ih =>
    simp only [List.foldl_cons, List.mem_cons, forall_eq_or_imp]
    obtain ⟨h1, h2⟩ := ih (max a x.h.v)
    exact ⟨le_trans (le_max_left _ _) h1, le_trans (le_max_right _ _) h1, h2⟩

theorem le_requestMaximumId (l : List Request) (r : Request) (hr : r ∈ l) :
    r.h.v ≤ requestMaximumId l :=
  (foldl_max_ge l 0).2 r hr

theorem requestMaximumId_map (l l' : List Request)
    (h : l.map (fun r => r.h) = l'.map (fun r => r.h)) :
    requestMaximumId l = requestMaximumId l' := by
  have key : ∀ (l : List Request) (a : Nat),
      l.foldl (fun mx r => max mx r.h.v) a
        = (l.map (fun r => r.h)).foldl (fun mx h => max mx h.v) a := by
    intro l
    induction l with
    | nil => intro a; rfl
    | cons x l ih => intro a; simp only [List.foldl_cons, List.map_cons]; exact ih _
  unfold requestMaximumId
  rw [key, key, h]

theorem modifyFirst_map {α β : Type} (l : List α) (p : α → Bool) (f : α → α) (g : α → β)
    (hf : ∀ a, g (f a) = g a) : (modifyFirst p f l).map g = l.map g := by
  induction l with
  | nil => rfl
  | cons a l ih =>
    simp only [modifyFirst]
    split_ifs
    · simp [hf]
    · simp [ih]

theorem GetRequest_isSome_iff (sk : Sketch) (hr : hRequest) :
    (sk.GetRequest hr).isSome = true ↔ hr ∈ sk.request.map (fun r => r.h) := by
  unfold GetRequest
  rw [List.find?_isSome]
  simp

theorem setConstruction_spec (sk : Sketch) (hr : hRequest)
    (h : (sk.GetRequest hr).isSome = true) :
    ∃ sk', sk.setConstruction hr = some sk' ∧ sk'.entity = sk.entity ∧
      sk'.request.map (fun r => r.h) = sk.request.map (fun r => r.h) ∧
      sk'.errors = sk.errors ∧ sk'.tangentArcModify = sk.tangentArcModify := by
  obtain ⟨r, hr'⟩ := Option.isSome_iff_exists.mp h
  unfold setConstruction
  rw [hr']
  exact ⟨_, rfl, rfl, modifyFirst_map _ _ _ _ (fun _ => rfl), rfl, rfl⟩

theorem tagCoincidentAt_some (M : Math) (sk : Sketch) (p : Vector) (l : List Constraint)
    (h : ∀ c ∈ l, c.group = sk.activeGroup → c.workplane = sk.activeWorkplane →
      c.type = ConstraintType.POINTS_COINCIDENT → (sk.GetEntity c.ptA).isSome = true) :
    ∃ cs, tagCoincidentAt M sk p l = some cs := by
  induction l with
  | nil => exact ⟨[], rfl⟩
  | cons c l ih =>
    obtain ⟨cs, hcs⟩ := ih (fun c hc => h c (List.mem_cons_of_mem _ hc))
    simp only [tagCoincidentAt, hcs, Option.map_some']
    split_ifs with h1 h2 h3
    · exact ⟨_, rfl⟩
    · exact ⟨_, rfl⟩
    · exact ⟨_, rfl⟩
    · obtain ⟨e, he⟩ := Option.isSome_iff_exists.mp
        (h c (List.mem_cons_self _ _) (not_not.mp h1) (not_not.mp h2) (not_not.mp h3))
      rw [he]
      exact ⟨_, rfl⟩

theorem arcPrepare_spec (M : Math) (sk : Sketch) (p : Vector) (op0 op1 : Operand)
    (hmod : sk.tangentArcModify = true → ∀ c ∈ sk.constraint, c.group = sk.activeGroup →
      c.workplane = sk.activeWorkplane → c.type = ConstraintType.POINTS_COINCIDENT →
      (sk.GetEntity c.ptA).isSome = true)
    (hreq : sk.tangentArcModify = false →
      (sk.GetRequest op0.hreq).isSome = true ∧ (sk.GetRequest op1.hreq).isSome = true) :
    ∃ sk', arcPrepare M sk p op0 op1 = some sk' ∧ sk'.entity = sk.entity ∧
      sk'.request.map (fun r => r.h) = sk.request.map (fun r => r.h) ∧
      sk'.errors = sk.errors ∧ sk'.tangentArcModify = sk.tangentArcModify := by
  unfold arcPrepare
  cases hm : sk.tangentArcModify with
  | true =>
    obtain ⟨cs, hcs⟩ := tagCoincidentAt_some M sk p (clearConstraintTags sk.constraint) (by
      intro c hc hg hw ht
      simp only [clearConstraintTags, List.mem_map] at hc
      obtain ⟨c0, hc0, rfl⟩ := hc
      exact hmod hm c0 hc0 hg hw ht)
    simp only [if_true, hcs, Option.bind_eq_bind, Option.some_bind, Option.pure_def]
    exact ⟨_, rfl, rfl, rfl, rfl, rfl⟩
  | false =>
    obtain ⟨h0, h1⟩ := hreq hm
    obtain ⟨s1, hs1, e1, r1, er1, m1⟩ := setConstruction_spec sk op0.hreq h0
    have h1' : (s1.GetRequest op1.hreq).isSome = true := by
      rw [GetRequest_isSome_iff] at h1 ⊢
      rw [r1]; exact h1
    obtain ⟨s2, hs2, e2, r2, er2, m2⟩ := setConstruction_spec s1 op1.hreq h1'
    simp only [Bool.false_eq_true, if_false, hs1, Option.bind_eq_bind, Option.some_bind]
    exact ⟨s2, hs2, e2.trans e1, r2.trans r1, er2.trans er1, (m2.trans m1).trans hm⟩

theorem arcCreate_spec (M : Math) (sk : Sketch) (hown : sk.EntitiesOwned)
    (pc0 pc1 : ParametricCurve) (fit : ArcFit) (a b : Nat) (center : Vector)
    (hab : (a = 1 ∧ b = 2) ∨ (a = 2 ∧ b = 1)) :
    ∃ sk', arcCreate M sk pc0 pc1 fit a b center
        = some ((sk.newRequest RequestType.ARC_OF_CIRCLE).h.entity 0, sk') ∧
      Grows (fun h => h.request.v ≤ requestMaximumId sk.request) sk sk' ∧
      sk.newRequest RequestType.ARC_OF_CIRCLE ∈ sk'.request ∧
      sk'.GetEntity ((sk.newRequest RequestType.ARC_OF_CIRCLE).h.entity 0)
        = some (generatedEntity (sk.newRequest RequestType.ARC_OF_CIRCLE)) ∧
      (sk'.GetEntity ((sk.newRequest RequestType.ARC_OF_CIRCLE).h.entity 1)).map
        Entity.PointGetNum = some center ∧
      (sk'.GetEntity ((sk.newRequest RequestType.ARC_OF_CIRCLE).h.entity (a + 1))).map
        Entity.PointGetNum = some (pc0.PointAt M fit.t0) ∧
      (sk'.GetEntity ((sk.newRequest RequestType.ARC_OF_CIRCLE).h.entity (b + 1))).map
        Entity.PointGetNum = some (pc1.PointAt M fit.t1) := by
  have hnP : ∀ i, i < 65536 → ¬ (fun h : hEntity => h.request.v ≤ requestMaximumId sk.request)
      ((sk.newRequest RequestType.ARC_OF_CIRCLE).h.entity i) := by
    intro i hi hPi
    simp only [entity_request _ i hi] at hPi
    have := newRequest_fresh sk RequestType.ARC_OF_CIRCLE
    omega
  obtain ⟨h0, h1, h2, h3⟩ := GetEntity_AddRequest_arc sk hown
  have hp0 : (generatedEntity (sk.newRequest RequestType.ARC_OF_CIRCLE)).pointAt 0
      = (sk.newRequest RequestType.ARC_OF_CIRCLE).h.entity 1 :=
    generatedEntity_pointAt _ 0 (show 0 < requestPoints RequestType.ARC_OF_CIRCLE by decide)
  have hp1 : (generatedEntity (sk.newRequest RequestType.ARC_OF_CIRCLE)).pointAt 1
      = (sk.newRequest RequestType.ARC_OF_CIRCLE).h.entity 2 :=
    generatedEntity_pointAt _ 1 (show 1 < requestPoints RequestType.ARC_OF_CIRCLE by decide)
  have hp2 : (generatedEntity (sk.newRequest RequestType.ARC_OF_CIRCLE)).pointAt 2
      = (sk.newRequest RequestType.ARC_OF_CIRCLE).h.entity 3 :=
    generatedEntity_pointAt _ 2 (show 2 < requestPoints RequestType.ARC_OF_CIRCLE by decide)
  have hmem : sk.newRequest RequestType.ARC_OF_CIRCLE
      ∈ (sk.AddRequest RequestType.ARC_OF_CIRCLE).2.request := by
    simp [Sketch.AddRequest]
  have hne : ∀ i j : Nat, i < 65536 → j < 65536 → i ≠ j →
      ¬ (sk.newRequest RequestType.ARC_OF_CIRCLE).h.entity i
        = (sk.newRequest RequestType.ARC_OF_CIRCLE).h.entity j := by
    intro i j hi hj hij
    rw [entity_inj _ _ _ _ hi hj]
    omega
  obtain ⟨s5, hs5, hg5, hG5⟩ := GetEntity_PointForceTo _ _ center _ h1
  unfold arcCreate
  rw [AddRequest_pair]
  simp only [Option.bind_eq_bind, Option.pure_def]
  rw [h0]
  simp only [Option.some_bind, hp0]
  rw [hs5]
  simp only [Option.some_bind]
  rcases hab with ⟨rfl, rfl⟩ | ⟨rfl, rfl⟩
  · have h2' := (hg5 ((sk.newRequest RequestType.ARC_OF_CIRCLE).h.entity 2)).trans
      ((if_neg (hne 2 1 (by omega) (by omega) (by omega))).trans h2)
    obtain ⟨s6, hs6, hg6, hG6⟩ := GetEntity_PointForceTo _ _ (pc0.PointAt M fit.t0) _ h2'
    have h3' := ((hg6 ((sk.newRequest RequestType.ARC_OF_CIRCLE).h.entity 3)).trans
      (if_neg (hne 3 2 (by omega) (by omega) (by omega)))).trans
      ((hg5 _).trans ((if_neg (hne 3 1 (by omega) (by omega) (by omega))).trans h3))
    obtain ⟨s7, hs7, hg7, hG7⟩ := GetEntity_PointForceTo _ _ (pc1.PointAt M fit.t1) _ h3'
    simp only [hp1, hp2]
    rw [hs6]
    simp only [Option.some_bind]
    rw [hs7]
    simp only [Option.some_bind]
    refine ⟨s7, rfl, (((Grows.AddRequest _ sk _).trans (hG5 _ (hnP 1 (by omega)))).trans
      (hG6 _ (hnP 2 (by omega)))).trans (hG7 _ (hnP 3 (by omega))), ?_, ?_, ?_, ?_, ?_⟩
    · obtain ⟨rs, hrs⟩ := ((hG5 (fun h : hEntity => h.request.v ≤ requestMaximumId sk.request) (hnP 1 (by omega))).trans
        ((hG6 _ (hnP 2 (by omega))).trans (hG7 _ (hnP 3 (by omega))))).request
      rw [hrs]
      exact List.mem_append_left _ hmem
    · rw [hg7, if_neg (hne 0 3 (by omega) (by omega) (by omega)), hg6,
        if_neg (hne 0 2 (by omega) (by omega) (by omega)), hg5,
        if_neg (hne 0 1 (by omega) (by omega) (by omega)), h0]
    · rw [hg7, if_neg (hne 1 3 (by omega) (by omega) (by omega)), hg6,
        if_neg (hne 1 2 (by omega) (by omega) (by omega)), hg5, if_pos rfl]
      rfl
    · rw [hg7, if_neg (hne 2 3 (by omega) (by omega) (by omega)), hg6, if_pos rfl]
      rfl
    · rw [hg7, if_pos rfl]
      rfl
  · have h3' := (hg5 ((sk.newRequest RequestType.ARC_OF_CIRCLE).h.entity 3)).trans
      ((if_neg (hne 3 1 (by omega) (by omega) (by omega))).trans h3)
    obtain ⟨s6, hs6, hg6, hG6⟩ := GetEntity_PointForceTo _ _ (pc0.PointAt M fit.t0) _ h3'
    have h2' := ((hg6 ((sk.newRequest RequestType.ARC_OF_CIRCLE).h.entity 2)).trans
      (if_neg (hne 2 3 (by omega) (by omega) (by omega)))).trans
      ((hg5 _).trans ((if_neg (hne 2 1 (by omega) (by omega) (by omega))).trans h2))
    obtain ⟨s7, hs7, hg7, hG7⟩ := GetEntity_PointForceTo _ _ (pc1.PointAt M fit.t1) _ h2'
    simp only [hp1, hp2]
    rw [hs6]
    simp only [Option.some_bind]
    rw [hs7]
    simp only [Option.some_bind]
    refine ⟨s7, rfl, (((Grows.AddRequest _ sk _).trans (hG5 _ (hnP 1 (by omega)))).trans
      (hG6 _ (hnP 3 (by omega)))).trans (hG7 _ (hnP 2 (by omega))), ?_, ?_, ?_, ?_, ?_⟩
    · obtain ⟨rs, hrs⟩ := ((hG5 (fun h : hEntity => h.request.v ≤ requestMaximumId sk.request) (hnP 1 (by omega))).trans
        ((hG6 _ (hnP 3 (by omega))).trans (hG7 _ (hnP 2 (by omega))))).request
      rw [hrs]
      exact List.mem_append_left _ hmem
    · rw [hg7, if_neg (hne 0 2 (by omega) (by omega) (by omega)), hg6,
        if_neg (hne 0 3 (by omega) (by omega) (by omega)), hg5,
        if_neg (hne 0 1 (by omega) (by omega) (by omega)), h0]
    · rw [hg7, if_neg (hne 1 2 (by omega) (by omega) (by omega)), hg6,
        if_neg (hne 1 3 (by omega) (by omega) (by omega)), hg5, if_pos rfl]
      rfl
    · rw [hg7, if_neg (hne 3 2 (by omega) (by omega) (by omega)), hg6, if_pos rfl]
      rfl
    · rw [hg7, if_pos rfl]
      rfl

theorem EntitiesOwned_of_eq (sk sk' : Sketch) (he : sk'.entity = sk.entity)
    (hr : sk'.request.map (fun r => r.h) = sk.request.map (fun r => r.h))
    (hown : sk.EntitiesOwned) : sk'.EntitiesOwned := by
  intro e hmem
  rw [he] at hmem
  rw [requestMaximumId_map _ _ hr]
  exact hown e hmem

theorem GetEntity_of_eq (sk sk' : Sketch) (he : sk'.entity = sk.entity) (h : hEntity) :
    sk'.GetEntity h = sk.GetEntity h := by
  unfold GetEntity
  rw [he]

theorem GetEntity_owned (sk : Sketch) (hown : sk.EntitiesOwned) (h : hEntity) (e : Entity)
    (he : sk.GetEntity h = some e) : h.request.v ≤ requestMaximumId sk.request := by
  obtain ⟨hm, hh⟩ := GetEntity_mem sk h e he
  rw [← hh]
  exact hown e hm

theorem requestMaximumId_le_append (l rs : List Request) :
    requestMaximumId l ≤ requestMaximumId (l ++ rs) := by
  unfold requestMaximumId
  rw [List.foldl_append]
  exact (foldl_max_ge rs _).1

theorem arcCommit_spec (M : Math) (sk : Sketch) (pshared : Vector) (op0 op1 : Operand)
    (pc0 pc1 : ParametricCurve) (wn : Vector) (fit : ArcFit) (a b : Nat) (center : Vector)
    (hac : arcCentre M pc0 wn fit = (a, b, center))
    (hab : (a = 1 ∧ b = 2) ∨ (a = 2 ∧ b = 1))
    (hown : sk.EntitiesOwned) (hl0 : pc0.isLine = true) (hl1 : pc1.isLine = true)
    (hcs : sk.tangentArcModify = true → ∀ c ∈ sk.constraint, c.group = sk.activeGroup →
      c.workplane = sk.activeWorkplane → c.type = ConstraintType.POINTS_COINCIDENT →
      (sk.GetEntity c.ptA).isSome = true)
    (he0 : sk.tangentArcModify = true → ∃ e q, sk.GetEntity op0.hent = some e ∧
      sk.GetEntity (e.pointAt (if op0.pointf then 1 else 0)) = some q)
    (he1 : sk.tangentArcModify = true → ∃ e q, sk.GetEntity op1.hent = some e ∧
      sk.GetEntity (e.pointAt (if op1.pointf then 1 else 0)) = some q)
    (hreq : sk.tangentArcModify = false →
      (sk.GetRequest op0.hreq).isSome = true ∧ (sk.GetRequest op1.hreq).isSome = true) :
    ∃ sk' rq, arcCommit M sk pshared op0 op1 pc0 pc1 wn fit = some sk' ∧
      sk'.errors = sk.errors ∧ rq ∈ sk'.request ∧ rq ∉ sk.request ∧
      rq.type = RequestType.ARC_OF_CIRCLE ∧
      sk'.GetEntity (rq.h.entity 0) = some (generatedEntity rq) ∧
      (sk'.GetEntity (rq.h.entity 1)).map Entity.PointGetNum = some center ∧
      (sk'.GetEntity (rq.h.entity (a + 1))).map Entity.PointGetNum
        = some (pc0.PointAt M fit.t0) ∧
      (sk'.GetEntity (rq.h.entity (b + 1))).map Entity.PointGetNum
        = some (pc1.PointAt M fit.t1) := by
  obtain ⟨s3, hs3, e3, r3, er3, m3⟩ := arcPrepare_spec M sk.UndoRemember pshared op0 op1 hcs hreq
  have hown3 : s3.EntitiesOwned := EntitiesOwned_of_eq sk s3 e3 r3 hown
  have hmax3 : requestMaximumId s3.request = requestMaximumId sk.request :=
    requestMaximumId_map _ _ r3
  obtain ⟨s7, hs7, hG7, hmem7, h70, h71, h7a, h7b⟩ :=
    arcCreate_spec M s3 hown3 pc0 pc1 fit a b center hab
  have hown7 : s7.EntitiesOwned := hG7.owned hown3
  have hfresh : requestMaximumId s3.request < (s3.newRequest RequestType.ARC_OF_CIRCLE).h.v :=
    newRequest_fresh s3 _
  -- the handles of the arc
  have hP7 : ∀ s : Sketch, (∃ rs, s.request = s7.request ++ rs) →
      ∀ h : hEntity, h.request = (s3.newRequest RequestType.ARC_OF_CIRCLE).h →
        h.request.v ≤ requestMaximumId s.request := by
    intro s ⟨rs, hrs⟩ h hh
    rw [hh, hrs]
    exact le_trans (le_requestMaximumId _ _ hmem7) (requestMaximumId_le_append _ _)
  have hold : ∀ (s : Sketch) (op : Operand),
      Grows (fun h => h.request = (s3.newRequest RequestType.ARC_OF_CIRCLE).h) s7 s ∨ s = s7 →
      (sk.tangentArcModify = true → ∃ e q, sk.GetEntity op.hent = some e ∧
        sk.GetEntity (e.pointAt (if op.pointf then 1 else 0)) = some q) →
      s.tangentArcModify = true → ∃ e pe, s.GetEntity op.hent = some e ∧
        s.GetEntity (e.pointAt (if op.pointf = true then 1 else 0)) = some pe ∧
        ¬ (fun h : hEntity => h.request = (s3.newRequest RequestType.ARC_OF_CIRCLE).h)
          (e.pointAt (if op.pointf = true then 1 else 0)) := by
    intro s op hs hop hm
    have hshape : ∀ h e, sk.GetEntity h = some e →
        ∃ e', s.GetEntity h = some e' ∧ e'.point = e.point := by
      intro h e he
      have he3 : s3.GetEntity h = some e := by rw [GetEntity_of_eq _ _ e3]; exact he
      obtain ⟨e7, he7, hp7, -⟩ := hG7.shape h e he3
      rcases hs with hs | rfl
      · obtain ⟨e', he', hp', -⟩ := hs.shape h e7 he7
        exact ⟨e', he', hp'.trans hp7⟩
      · exact ⟨e7, he7, hp7⟩
    have hmsk : sk.tangentArcModify = true := by
      have : s7.tangentArcModify = sk.tangentArcModify := hG7.modify.trans m3
      rcases hs with hs | rfl
      · rw [← this, ← hs.modify]; exact hm
      · rw [← this]; exact hm
    obtain ⟨e, q, he, hq⟩ := hop hmsk
    obtain ⟨e', he', hp'⟩ := hshape _ _ he
    have hpt : ∀ i, e'.pointAt i = e.pointAt i := fun i => by
      unfold Entity.pointAt; rw [hp']
    obtain ⟨q', hq', -⟩ := hshape _ _ hq
    refine ⟨e', q', he', by rw [hpt]; exact hq', ?_⟩
    rw [hpt]
    intro hcontra
    have := GetEntity_owned sk hown _ _ hq
    have hc : (e.pointAt (if op.pointf = true then 1 else 0)).request
        = (s3.newRequest RequestType.ARC_OF_CIRCLE).h := hcontra
    rw [hc] at this
    omega
  obtain ⟨s8, hs8, hG8⟩ := CreateRequestTrimmedTo_line M pc0 s7 fit.t0 s7.tangentArcModify
    op0.hent ((s3.newRequest RequestType.ARC_OF_CIRCLE).h.entity 0) (decide (b = 1)) op0.pointf
    (fun h => h.request = (s3.newRequest RequestType.ARC_OF_CIRCLE).h) hl0 hown7
    (hP7 s7 ⟨[], by simp⟩) (hold s7 op0 (Or.inr rfl) he0)
  obtain ⟨s9, hs9, hG9⟩ := CreateRequestTrimmedTo_line M pc1 s8 fit.t1 s8.tangentArcModify
    op1.hent ((s3.newRequest RequestType.ARC_OF_CIRCLE).h.entity 0) (decide (a = 1)) op1.pointf
    (fun h => h.request = (s3.newRequest RequestType.ARC_OF_CIRCLE).h) hl1 (hG8.owned hown7)
    (hP7 s8 hG8.request) (hold s8 op1 (Or.inl hG8) he1)
  have hG := hG8.trans hG9
  have hkeep : ∀ (i : Nat) (v : Vector), i < 65536 →
      (s7.GetEntity ((s3.newRequest RequestType.ARC_OF_CIRCLE).h.entity i)).map
        Entity.PointGetNum = some v →
      (s9.GetEntity ((s3.newRequest RequestType.ARC_OF_CIRCLE).h.entity i)).map
        Entity.PointGetNum = some v := by
    intro i v hi h
    cases h7 : s7.GetEntity ((s3.newRequest RequestType.ARC_OF_CIRCLE).h.entity i) with
    | none => rw [h7] at h; cases h
    | some e =>
      rw [h7] at h
      rw [hG.keep _ e (entity_request _ i hi) h7]
      exact h
  have ha : a + 1 < 65536 := by omega
  have hb : b + 1 < 65536 := by omega
  refine ⟨s9, s3.newRequest RequestType.ARC_OF_CIRCLE, ?_, ?_, ?_, ?_, rfl, ?_,
    hkeep 1 _ (by omega) h71, hkeep _ _ ha h7a, hkeep _ _ hb h7b⟩
  · unfold arcCommit
    rw [hac]
    simp only [Option.bind_eq_bind]
    rw [hs3]
    simp only [Option.some_bind]
    rw [hs7]
    simp only [Option.some_bind]
    rw [hs8]
    simp only [Option.some_bind]
    exact hs9
  · rw [hG.errors, hG7.errors, er3]
    rfl
  · obtain ⟨rs, hrs⟩ := hG.request
    rw [hrs]
    exact List.mem_append_left _ hmem7
  · intro hmem
    have := le_requestMaximumId _ _ hmem
    omega
  · exact hG.keep _ _ (entity_request _ 0 (by omega)) h70

end Sketch
end SolveSpace

/-! ## The tangent arc: the geometry of a right corner -/

namespace SolveSpace
namespace Vector

/-- The square of a triple product of three mutually perpendicular vectors. -/
theorem triple_sq_perp (T0 T1 wn : Vector) (L : ℚ) (h0 : T0.MagSquared = L * L)
    (h1 : T1.MagSquared = L * L) (hperp : T0.Dot T1 = 0) (n0 : wn.Dot T0 = 0)
    (n1 : wn.Dot T1 = 0) (hu : wn.MagSquared = 1) :
    T1.Dot (wn.Cross T0) * T1.Dot (wn.Cross T0) = L * L * (L * L) := by
  rw [triple_sq, h1, hu, h0, Dot_comm T1 wn, n1, n0, Dot_comm T1 T0, hperp]
  ring

theorem triple_sign (T0 T1 wn : Vector) (L : ℚ) (hL : 0 < L) (h0 : T0.MagSquared = L * L)
    (h1 : T1.MagSquared = L * L) (hperp : T0.Dot T1 = 0) (n0 : wn.Dot T0 = 0)
    (n1 : wn.Dot T1 = 0) (hu : wn.MagSquared = 1) :
    (T1.Dot (wn.Cross T0) < 0 → T1.Dot (wn.Cross T0) = -(L * L)) ∧
    (¬ T1.Dot (wn.Cross T0) < 0 → T1.Dot (wn.Cross T0) = L * L) := by
  have h := triple_sq_perp T0 T1 wn L h0 h1 hperp n0 n1 hu
  have hLL : 0 < L * L := mul_pos hL hL
  have hfac : (T1.Dot (wn.Cross T0) - L * L) * (T1.Dot (wn.Cross T0) + L * L) = 0 := by
    linear_combination h
  rcases mul_eq_zero.mp hfac with h' | h'
  · constructor
    · intro hneg; linarith
    · intro _; linarith
  · constructor
    · intro _; linarith
    · intro hpos; linarith

/-- The centre that `MakeTangentArc` computes at a right corner is at distance
`ρ L` from both ends of the arc. -/
theorem corner_centre (C T0 T1 wn : Vector) (L ρ : ℚ) (hL : 0 < L)
    (h0 : T0.MagSquared = L * L) (h1 : T1.MagSquared = L * L) (hperp : T0.Dot T1 = 0)
    (n0 : wn.Dot T0 = 0) (n1 : wn.Dot T1 = 0) (hu : wn.MagSquared = 1) :
    (((C.Minus (C.Plus (T0.ScaledBy ρ))).Cross wn).MagSquared = ρ * L * (ρ * L)) ∧
    (((C.Plus (T0.ScaledBy ρ)).Minus C).MagSquared = ρ * L * (ρ * L)) ∧
    (((C.Plus (T1.ScaledBy ρ)).Minus C).MagSquared = ρ * L * (ρ * L)) ∧
    (T1.Dot (wn.Cross T0) < 0 →
      ((((C.Plus (T0.ScaledBy ρ)).Minus
          (((C.Minus (C.Plus (T0.ScaledBy ρ))).Cross wn).ScaledBy 1)).Minus
            (C.Plus (T0.ScaledBy ρ))).MagSquared = ρ * L * (ρ * L)) ∧
      ((((C.Plus (T0.ScaledBy ρ)).Minus
          (((C.Minus (C.Plus (T0.ScaledBy ρ))).Cross wn).ScaledBy 1)).Minus
            (C.Plus (T1.ScaledBy ρ))).MagSquared = ρ * L * (ρ * L))) ∧
    (¬ T1.Dot (wn.Cross T0) < 0 →
      ((((C.Plus (T0.ScaledBy ρ)).Plus
          (((C.Minus (C.Plus (T0.ScaledBy ρ))).Cross wn).ScaledBy 1)).Minus
            (C.Plus (T0.ScaledBy ρ))).MagSquared = ρ * L * (ρ * L)) ∧
      ((((C.Plus (T0.ScaledBy ρ)).Plus
          (((C.Minus (C.Plus (T0.ScaledBy ρ))).Cross wn).ScaledBy 1)).Minus
            (C.Plus (T1.ScaledBy ρ))).MagSquared = ρ * L * (ρ * L))) := by
  obtain ⟨hneg, hpos⟩ := triple_sign T0 T1 wn L hL h0 h1 hperp n0 n1 hu
  obtain ⟨c1, c2, c3⟩ := C
  obtain ⟨a1, a2, a3⟩ := T0
  obtain ⟨b1, b2, b3⟩ := T1
  obtain ⟨m1, m2, m3⟩ := wn
  simp only [MagSquared, Dot, Cross, Plus, Minus, ScaledBy] at *
  refine ⟨?_, ?_, ?_, ?_, ?_⟩
  · linear_combination ρ ^ 2 * ((m1 * m1 + m2 * m2 + m3 * m3) * h0 + L * L * hu
      - (m1 * a1 + m2 * a2 + m3 * a3) * n0)
  · linear_combination ρ ^ 2 * h0
  · linear_combination ρ ^ 2 * h1
  · intro hlt
    have hd := hneg hlt
    constructor
    · linear_combination ρ ^ 2 * ((m1 * m1 + m2 * m2 + m3 * m3) * h0 + L * L * hu
        - (m1 * a1 + m2 * a2 + m3 * a3) * n0)
    · linear_combination ρ ^ 2 * (h0 + ((m1 * m1 + m2 * m2 + m3 * m3) * h0 + L * L * hu
        - (m1 * a1 + m2 * a2 + m3 * a3) * n0) + h1 - 2 * hperp + 2 * hd)
  · intro hge
    have hd := hpos hge
    constructor
    · linear_combination ρ ^ 2 * ((m1 * m1 + m2 * m2 + m3 * m3) * h0 + L * L * hu
        - (m1 * a1 + m2 * a2 + m3 * a3) * n0)
    · linear_combination ρ ^ 2 * (h0 + ((m1 * m1 + m2 * m2 + m3 * m3) * h0 + L * L * hu
        - (m1 * a1 + m2 * a2 + m3 * a3) * n0) + h1 - 2 * hperp - 2 * hd)

end Vector
end SolveSpace

/-! ## The tangent arc at a right corner: `MakeTangentArc` -/

namespace SolveSpace
namespace Sketch

theorem MakeFromEntity_line (M : Math) (sk : Sketch) (he : hEntity) (rev : Bool)
    (pc : ParametricCurve) (h : ParametricCurve.MakeFromEntity M sk he rev = some pc)
    (hl : pc.isLine = true) :
    ∃ e q0 q1, sk.GetEntity he = some e ∧ sk.GetEntity (e.pointAt 0) = some q0 ∧
      sk.GetEntity (e.pointAt 1) = some q1 := by
  unfold ParametricCurve.MakeFromEntity at h
  cases he' : sk.GetEntity he with
  | none => rw [he'] at h; cases h
  | some e =>
    rw [he'] at h
    simp only [Option.bind_eq_bind, Option.some_bind] at h
    by_cases ht : e.type = EntityType.LINE_SEGMENT
    · rw [if_pos ht] at h
      unfold EndpointStart EndpointFinish at h
      rw [if_pos ht, if_pos ht] at h
      cases h0 : sk.GetEntity (e.pointAt 0) with
      | none => rw [h0] at h; cases h
      | some q0 =>
        cases h1 : sk.GetEntity (e.pointAt 1) with
        | none => rw [h0, h1] at h; cases h
        | some q1 => exact ⟨e, q0, q1, rfl, h0, h1⟩
    · rw [if_neg ht] at h
      by_cases ha : e.type = EntityType.ARC_OF_CIRCLE
      · rw [if_pos ha] at h
        exfalso
        simp only [Option.bind_eq_some, Option.pure_def, Option.some.injEq] at h
        obtain ⟨_, _, _, _, _, _, _, _, h⟩ := h
        rw [← h] at hl
        cases hl
      · rw [if_neg ha] at h
        cases h

theorem findOperands_hreq (M : Math) (sk : Sketch) (p : Vector) (rs : List Request) :
    ∀ (c : Nat) (ops : List Operand) (c' : Nat) (ops' : List Operand),
      findOperands M sk p rs (c, ops) = some (c', ops') →
      ∀ op ∈ ops', op ∈ ops ∨ ∃ r ∈ rs, op.hreq = r.h := by
  induction rs with
  | nil =>
    intro c ops c' ops' h op hop
    simp only [findOperands, Option.some.injEq, Prod.mk.injEq] at h
    rw [← h.2] at hop
    exact Or.inl hop
  | cons r rs ih =>
    intro c ops c' ops' h op hop
    have hstep : ∀ c1 ops1, findOperands M sk p rs (c1, ops1) = some (c', ops') →
        (∀ o ∈ ops1, o ∈ ops ∨ o.hreq = r.h) → op ∈ ops ∨ ∃ r' ∈ r :: rs, op.hreq = r'.h := by
      intro c1 ops1 h1 hsub
      rcases ih c1 ops1 c' ops' h1 op hop with h2 | ⟨r', hr', e⟩
      · rcases hsub op h2 with h3 | h3
        · exact Or.inl h3
        · exact Or.inr ⟨r, List.mem_cons_self _ _, h3⟩
      · exact Or.inr ⟨r', List.mem_cons_of_mem _ hr', e⟩
    simp only [findOperands] at h
    by_cases h1 : r.group ≠ sk.activeGroup
    · rw [if_pos h1] at h
      exact hstep _ _ h (fun o ho => Or.inl ho)
    rw [if_neg h1] at h
    by_cases h2 : r.workplane ≠ sk.activeWorkplane
    · rw [if_pos h2] at h
      exact hstep _ _ h (fun o ho => Or.inl ho)
    rw [if_neg h2] at h
    by_cases h3 : r.construction = true
    · rw [if_pos h3] at h
      exact hstep _ _ h (fun o ho => Or.inl ho)
    rw [if_neg h3] at h
    by_cases h4 : r.type ≠ RequestType.LINE_SEGMENT ∧ r.type ≠ RequestType.ARC_OF_CIRCLE
    · rw [if_pos h4] at h
      exact hstep _ _ h (fun o ho => Or.inl ho)
    rw [if_neg h4] at h
    simp only [Option.bind_eq_bind, Option.bind_eq_some] at h
    obtain ⟨e, -, ps, -, pf, -, h⟩ := h
    by_cases h5 : (ps.Equals p M.LENGTH_EPS || pf.Equals p M.LENGTH_EPS) = true
    · rw [if_pos h5] at h
      refine hstep _ _ h ?_
      intro o ho
      split_ifs at ho
      · rcases List.mem_append.mp ho with ho | ho
        · exact Or.inl ho
        · simp only [List.mem_singleton] at ho
          rw [ho]
          exact Or.inr rfl
      · exact Or.inl ho
    · rw [if_neg h5] at h
      exact hstep _ _ h (fun o ho => Or.inl ho)

theorem findOperands_GetRequest (M : Math) (sk : Sketch) (p : Vector) (c' : Nat)
    (ops' : List Operand) (h : findOperands M sk p sk.request (0, []) = some (c', ops'))
    (op : Operand) (hop : op ∈ ops') : (sk.GetRequest op.hreq).isSome = true := by
  rcases findOperands_hreq M sk p sk.request 0 [] c' ops' h op hop with h1 | ⟨r, hr, e⟩
  · cases h1
  · rw [GetRequest_isSome_iff, e]
    exact List.mem_map_of_mem _ hr

end Sketch
end SolveSpace

namespace SolveSpace
namespace Sketch

theorem arcCentre_corner (M : Math) (hM : ExactMath M) (pc0 pc1 : ParametricCurve) (wn : Vector)
    (L r : ℚ) (hc : RightCorner pc0 pc1 wn L) (hr : 0 < r) (fit : ArcFit)
    (hfit : fit = { t0 := r / L, t1 := r / L, tp0 := r / L, tp1 := r / L, pinter := pc0.p0,
                    r := r,
                    vv := (pc1.p1.Minus pc1.p0).Dot (wn.Cross (pc0.p1.Minus pc0.p0)) / L }) :
    ∃ a b center, arcCentre M pc0 wn fit = (a, b, center) ∧
      ((a = 1 ∧ b = 2) ∨ (a = 2 ∧ b = 1)) ∧
      (center.Minus (pc0.PointAt M fit.t0)).MagSquared = r * r ∧
      (center.Minus (pc1.PointAt M fit.t1)).MagSquared = r * r := by
  obtain ⟨l0, l1, hsh, hpos, hperp, h0, h1, n0, n1, hu⟩ := hc
  have hL : L ≠ 0 := hpos.ne'
  have hρ : r / L * L = r := div_mul_cancel₀ r hL
  obtain ⟨g1, -, -, g4, g5⟩ := Vector.corner_centre pc0.p0 (pc0.p1.Minus pc0.p0)
    (pc1.p1.Minus pc1.p0) wn L (r / L) hpos h0 h1 hperp n0 n1 hu
  rw [hρ] at g1 g4 g5
  have hW := Vector.WithMagnitude_of_sq M hM.sqrt_sq _ r hr g1 r
  rw [div_self hr.ne'] at hW
  have hP0 : pc0.PointAt M (r / L) = pc0.p0.Plus ((pc0.p1.Minus pc0.p0).ScaledBy (r / L)) := by
    unfold ParametricCurve.PointAt; rw [if_pos l0]
  have hP1 : pc1.PointAt M (r / L) = pc0.p0.Plus ((pc1.p1.Minus pc1.p0).ScaledBy (r / L)) := by
    unfold ParametricCurve.PointAt; rw [if_pos l1, hsh]
  subst hfit
  unfold arcCentre
  simp only [hP0, hP1, hW]
  by_cases hvv : (pc1.p1.Minus pc1.p0).Dot (wn.Cross (pc0.p1.Minus pc0.p0)) < 0
  · have : (pc1.p1.Minus pc1.p0).Dot (wn.Cross (pc0.p1.Minus pc0.p0)) / L < 0 :=
      div_neg_of_neg_of_pos hvv hpos
    rw [if_pos this]
    exact ⟨_, _, _, rfl, Or.inl ⟨rfl, rfl⟩, (g4 hvv).1, (g4 hvv).2⟩
  · have : ¬ (pc1.p1.Minus pc1.p0).Dot (wn.Cross (pc0.p1.Minus pc0.p0)) / L < 0 := by
      rw [not_lt] at hvv ⊢
      exact div_nonneg hvv hpos.le
    rw [if_neg this]
    exact ⟨_, _, _, rfl, Or.inr ⟨rfl, rfl⟩, (g5 hvv).1, (g5 hvv).2⟩

end Sketch
end SolveSpace

namespace SolveSpace
namespace Sketch

theorem arcFitRejected_corner (M : Math) (hM : ExactMath M) (L r : ℚ) (hL : 0 < L)
    (hr1 : L / 100 ≤ r) (hr2 : r ≤ 99 * L / 100) (p : Vector) (vv : ℚ) :
    arcFitRejected M { t0 := r / L, t1 := r / L, tp0 := r / L, tp1 := r / L, pinter := p,
                       r := r, vv := vv } = false := by
  have h1 : (1 : ℚ) / 100 ≤ r / L := by
    rw [le_div_iff₀ hL]; linarith
  have h2 : r / L ≤ 99 / 100 := by
    rw [div_le_iff₀ hL]; linarith
  have hreas : M.IsReasonable (r / L) = false :=
    hM.reasonable _ (by linarith) (by linarith)
  unfold arcFitRejected
  simp only [sub_self, abs_zero, hreas, Bool.or_false, Bool.or_eq_false_iff,
    decide_eq_false_iff_not, not_lt]
  norm_num
  exact ⟨h1, h2⟩

/-- Two line curves of length `L` leave the selected vertex at a right angle in
the active workplane (`RightCorner`), the radius is manual, and
`L/100 ≤ r ≤ 99 L/100`.  Then `MakeTangentArc` reports no error and appends an
`ARC_OF_CIRCLE` request whose two end points are the points of the two segments
at the parameter `r/L`, at distance `r` from the vertex, and whose centre is at
distance `r` from both (distances are stated by their squares). -/
theorem MakeTangentArc_corner_fits (M : Math) (hM : ExactMath M) (sk : Sketch) (hp : hEntity)
    (ep : Entity) (op0 op1 : Operand) (wrkpl en : Entity) (pc0 pc1 : ParametricCurve) (L : ℚ)
    (hlock : sk.LockedInWorkplane = true)
    (hsel : sk.gs.point.head? = some hp) (hep : sk.GetEntity hp = some ep)
    (hops : findOperands M sk ep.PointGetNum sk.request (0, []) = some (2, [op0, op1]))
    (hw : sk.GetEntity sk.activeWorkplane = some wrkpl)
    (hn : sk.GetEntity wrkpl.normal = some en)
    (hpc0 : ParametricCurve.MakeFromEntity M sk op0.hent op0.pointf = some pc0)
    (hpc1 : ParametricCurve.MakeFromEntity M sk op1.hent op1.pointf = some pc1)
    (hc : RightCorner pc0 pc1 en.numN L)
    (hman : sk.tangentArcManual = true)
    (hr1 : L / 100 ≤ sk.tangentArcRadius) (hr2 : sk.tangentArcRadius ≤ 99 * L / 100)
    (hown : sk.EntitiesOwned)
    (hcs : sk.tangentArcModify = true → ∀ c ∈ sk.constraint, c.group = sk.activeGroup →
      c.workplane = sk.activeWorkplane → c.type = ConstraintType.POINTS_COINCIDENT →
      (sk.GetEntity c.ptA).isSome = true) :
    ∃ (sk' : Sketch) (rq : Request) (centre start finish : Vector),
      MakeTangentArc M sk = some sk' ∧ sk'.errors = sk.errors ∧
      rq ∈ sk'.request ∧ rq ∉ sk.request ∧ rq.type = RequestType.ARC_OF_CIRCLE ∧
      sk'.GetEntity (rq.h.entity 0) = some (generatedEntity rq) ∧
      (generatedEntity rq).type = EntityType.ARC_OF_CIRCLE ∧
      (sk'.GetEntity ((generatedEntity rq).pointAt 0)).map Entity.PointGetNum = some centre ∧
      (sk'.GetEntity ((generatedEntity rq).pointAt 1)).map Entity.PointGetNum = some start ∧
      (sk'.GetEntity ((generatedEntity rq).pointAt 2)).map Entity.PointGetNum = some finish ∧
      ((start = pc0.p0.Plus ((pc0.p1.Minus pc0.p0).ScaledBy (sk.tangentArcRadius / L)) ∧
        finish = pc1.p0.Plus ((pc1.p1.Minus pc1.p0).ScaledBy (sk.tangentArcRadius / L))) ∨
       (start = pc1.p0.Plus ((pc1.p1.Minus pc1.p0).ScaledBy (sk.tangentArcRadius / L)) ∧
        finish = pc0.p0.Plus ((pc0.p1.Minus pc0.p0).ScaledBy (sk.tangentArcRadius / L)))) ∧
      0 < sk.tangentArcRadius / L ∧ sk.tangentArcRadius / L < 1 ∧
      ((pc0.p0.Plus ((pc0.p1.Minus pc0.p0).ScaledBy (sk.tangentArcRadius / L))).Minus
        pc0.p0).MagSquared = sk.tangentArcRadius * sk.tangentArcRadius ∧
      ((pc1.p0.Plus ((pc1.p1.Minus pc1.p0).ScaledBy (sk.tangentArcRadius / L))).Minus
        pc0.p0).MagSquared = sk.tangentArcRadius * sk.tangentArcRadius ∧
      (centre.Minus start).MagSquared = sk.tangentArcRadius * sk.tangentArcRadius ∧
      (centre.Minus finish).MagSquared = sk.tangentArcRadius * sk.tangentArcRadius := by
  have hpos : 0 < L := hc.pos
  have hr : 0 < sk.tangentArcRadius := lt_of_lt_of_le (by positivity) hr1
  have hfit := arcFit_corner M hM sk pc0 pc1 en.numN L hc hman
  have hrej : arcFitRejected M (arcFit M sk pc0 pc1 en.numN) = false := by
    rw [hfit]
    exact arcFitRejected_corner M hM L _ hpos hr1 hr2 _ _
  obtain ⟨a, b, center, hac, hab, hca, hcb⟩ :=
    arcCentre_corner M hM pc0 pc1 en.numN L _ hc hr _ hfit
  obtain ⟨e0, q00, q01, he0, hq00, hq01⟩ := MakeFromEntity_line M sk _ _ _ hpc0 hc.line0
  obtain ⟨e1, q10, q11, he1, hq10, hq11⟩ := MakeFromEntity_line M sk _ _ _ hpc1 hc.line1
  have hsome : ∀ (op : Operand) (e q0 q1 : Entity), sk.GetEntity op.hent = some e →
      sk.GetEntity (e.pointAt 0) = some q0 → sk.GetEntity (e.pointAt 1) = some q1 →
      sk.ClearSelection.tangentArcModify = true →
      ∃ e q, sk.ClearSelection.GetEntity op.hent = some e ∧
        sk.ClearSelection.GetEntity (e.pointAt (if op.pointf then 1 else 0)) = some q := by
    intro op e q0 q1 h h0 h1 _
    cases op.pointf with
    | true => exact ⟨e, q1, h, h1⟩
    | false => exact ⟨e, q0, h, h0⟩
  obtain ⟨sk', rq, hcommit, herr, hmem, hnew, hty, hg0, hg1, hga, hgb⟩ :=
    arcCommit_spec M sk.ClearSelection ep.PointGetNum op0 op1 pc0 pc1 en.numN
      (arcFit M sk pc0 pc1 en.numN) a b center hac hab hown hc.line0 hc.line1 hcs
      (hsome op0 e0 q00 q01 he0 hq00 hq01) (hsome op1 e1 q10 q11 he1 hq10 hq11)
      (fun _ => ⟨findOperands_GetRequest M sk _ _ _ hops op0 (by simp),
        findOperands_GetRequest M sk _ _ _ hops op1 (by simp)⟩)
  have hp0 : (generatedEntity rq).pointAt 0 = rq.h.entity 1 :=
    generatedEntity_pointAt _ 0 (by rw [hty]; decide)
  have hp1 : (generatedEntity rq).pointAt 1 = rq.h.entity 2 :=
    generatedEntity_pointAt _ 1 (by rw [hty]; decide)
  have hp2 : (generatedEntity rq).pointAt 2 = rq.h.entity 3 :=
    generatedEntity_pointAt _ 2 (by rw [hty]; decide)
  have hP0 : pc0.PointAt M (arcFit M sk pc0 pc1 en.numN).t0
      = pc0.p0.Plus ((pc0.p1.Minus pc0.p0).ScaledBy (sk.tangentArcRadius / L)) := by
    rw [hfit]; unfold ParametricCurve.PointAt; rw [if_pos hc.line0]
  have hP1 : pc1.PointAt M (arcFit M sk pc0 pc1 en.numN).t1
      = pc1.p0.Plus ((pc1.p1.Minus pc1.p0).ScaledBy (sk.tangentArcRadius / L)) := by
    rw [hfit]; unfold ParametricCurve.PointAt; rw [if_pos hc.line1]
  rw [hP0] at hga hca
  rw [hP1] at hgb hcb
  have hL : L ≠ 0 := hpos.ne'
  have hρ : sk.tangentArcRadius / L * L = sk.tangentArcRadius := div_mul_cancel₀ _ hL
  obtain ⟨-, g2, g3, -, -⟩ := Vector.corner_centre pc0.p0 (pc0.p1.Minus pc0.p0)
    (pc1.p1.Minus pc1.p0) en.numN L (sk.tangentArcRadius / L) hpos hc.len0 hc.len1 hc.perp
    hc.normal0 hc.normal1 hc.unit
  rw [hρ] at g2 g3
  have hmk : MakeTangentArc M sk = some sk' := by
    rw [MakeTangentArc_eq M sk hp ep op0 op1 wrkpl en pc0 pc1 hlock hsel hep hops hw hn hpc0 hpc1,
      if_neg (by rw [hrej]; decide)]
    exact hcommit
  have hgty : (generatedEntity rq).type = EntityType.ARC_OF_CIRCLE := by
    simp only [generatedEntity, hty, requestEntityType]
  have hlt : sk.tangentArcRadius / L < 1 := by
    rw [div_lt_one hpos]; linarith
  have hA1 : pc1.p0.Plus ((pc1.p1.Minus pc1.p0).ScaledBy (sk.tangentArcRadius / L))
      = pc0.p0.Plus ((pc1.p1.Minus pc1.p0).ScaledBy (sk.tangentArcRadius / L)) :=
    congrArg (fun c => c.Plus ((pc1.p1.Minus pc1.p0).ScaledBy (sk.tangentArcRadius / L)))
      hc.shared
  rcases hab with ⟨rfl, rfl⟩ | ⟨rfl, rfl⟩
  · refine ⟨sk', rq, center, _, _, hmk, herr, hmem, hnew, hty, hg0, hgty, ?_, ?_, ?_,
      Or.inl ⟨rfl, rfl⟩, div_pos hr hpos, hlt, g2, ?_, hca, hcb⟩
    · rw [hp0]; exact hg1
    · rw [hp1]; exact hga
    · rw [hp2]; exact hgb
    · rw [hA1]; exact g3
  · refine ⟨sk', rq, center, _, _, hmk, herr, hmem, hnew, hty, hg0, hgty, ?_, ?_, ?_,
      Or.inr ⟨rfl, rfl⟩, div_pos hr hpos, hlt, g2, ?_, hcb, hca⟩
    · rw [hp0]; exact hg1
    · rw [hp1]; exact hgb
    · rw [hp2]; exact hga
    · rw [hA1]; exact g3

end Sketch
end SolveSpace

namespace SolveSpace
namespace Sketch

theorem cornerSketch_fit (r : ℚ) (m : Bool) :
    arcFit cornerMath (cornerSketch r m) cornerCurve0 cornerCurve1 cornerNormal.numN
      = { t0 := r / 4, t1 := r / 4, tp0 := r / 4, tp1 := r / 4, pinter := ⟨0, 0, 0⟩, r := r,
          vv := (cornerCurve1.p1.Minus cornerCurve1.p0).Dot
            (cornerNormal.numN.Cross (cornerCurve0.p1.Minus cornerCurve0.p0)) / 4 } :=
  arcFit_corner cornerMath cornerMath_exact (cornerSketch r m) cornerCurve0 cornerCurve1
    cornerNormal.numN 4 cornerSketch_corner rfl

/-- Witness for C7: the corner example with the radius 4, the length of the
segments, for which the loop ends with `t = 1`. -/
theorem MakeTangentArc_rejected_witness :
    1 ≤ (arcFit cornerMath (cornerSketch 4 false) cornerCurve0 cornerCurve1
      cornerNormal.numN).t0 ∧
    ∃ sk', MakeTangentArc cornerMath (cornerSketch 4 false) = some sk' ∧
      sk'.errors = (cornerSketch 4 false).errors ++ [msgTangentArcRound] ∧
      sk'.undoCount = (cornerSketch 4 false).undoCount ∧
      sk'.request = (cornerSketch 4 false).request ∧
      sk'.entity = (cornerSketch 4 false).entity ∧
      sk'.constraint = (cornerSketch 4 false).constraint :=
  ⟨by rw [cornerSketch_fit]; norm_num,
    MakeTangentArc_rejected cornerMath (cornerSketch 4 false) ((cornerLine 2).h.entity 1)
      (generatedPoint (cornerLine 2) 1 ⟨0, 0, 0⟩)
      ⟨(cornerLine 2).h.entity 0, (cornerLine 2).h, false⟩
      ⟨(cornerLine 3).h.entity 0, (cornerLine 3).h, false⟩
      cornerPlane cornerNormal cornerCurve0 cornerCurve1 rfl rfl rfl
      (cornerSketch_operands 4 false) rfl rfl (cornerSketch_curve0 4 false)
      (cornerSketch_curve1 4 false)
      (Or.inr (Or.inl (by rw [cornerSketch_fit]; norm_num)))⟩

/-- Counterexample for C6: the corner example (two perpendicular segments of
length 4) with the manual radius `1/100`, which is positive and below `L/2 = 2`:
the loop ends with `t = 1/400 < 0.01`, and `MakeTangentArc` reports "Couldn't
round this corner. .." instead of creating the arc. -/
theorem MakeTangentArc_small_radius_counterexample :
    RightCorner cornerCurve0 cornerCurve1 cornerNormal.numN 4 ∧
    (0 : ℚ) < (cornerSketch (1 / 100) false).tangentArcRadius ∧
    (cornerSketch (1 / 100) false).tangentArcRadius < 4 / 2 ∧
    MakeTangentArc cornerMath (cornerSketch (1 / 100) false)
      = some ((cornerSketch (1 / 100) false).ClearSelection.Error msgTangentArcRound) := by
  refine ⟨cornerSketch_corner, by norm_num [cornerSketch], by norm_num [cornerSketch], ?_⟩
  rw [MakeTangentArc_eq cornerMath (cornerSketch (1 / 100) false) ((cornerLine 2).h.entity 1)
      (generatedPoint (cornerLine 2) 1 ⟨0, 0, 0⟩)
      ⟨(cornerLine 2).h.entity 0, (cornerLine 2).h, false⟩
      ⟨(cornerLine 3).h.entity 0, (cornerLine 3).h, false⟩
      cornerPlane cornerNormal cornerCurve0 cornerCurve1 rfl rfl rfl
      (cornerSketch_operands _ false) rfl rfl (cornerSketch_curve0 _ false)
      (cornerSketch_curve1 _ false), if_pos]
  rw [cornerSketch_fit]
  unfold arcFitRejected
  norm_num

/-- When the loop ends with `t = r/L` below `1/100`, the rejection test holds. -/
theorem arcFitRejected_small (M : Math) (L r : ℚ) (hL : 0 < L) (hr : r < L / 100)
    (p : Vector) (vv : ℚ) :
    arcFitRejected M { t0 := r / L, t1 := r / L, tp0 := r / L, tp1 := r / L, pinter := p,
                       r := r, vv := vv } = true := by
  have h1 : r / L < 0.01 := by
    rw [div_lt_iff₀ hL]
    norm_num
    linarith
  unfold arcFitRejected
  simp only [Bool.or_eq_true, decide_eq_true_eq]
  tauto

/-- Claim C6, amended.  In exact arithmetic: two line curves of length `L` leave
the selected vertex at a right angle in the active workplane (`RightCorner`),
and the radius `r` is manual with `0 < r < L/2`.  If `L/100 ≤ r`, then
`MakeTangentArc` reports no error and appends an `ARC_OF_CIRCLE` request whose
two end points are the points of the two segments at the parameter `r/L`, at
distance `r` from the vertex, and whose centre is at distance `r` from both
(distances are stated by their squares).  If `r < L/100`, the loop ends with
`t = r/L < 0.01` and `MakeTangentArc` reports "Couldn't round this corner. .."
and returns the sketch with nothing else changed.  The library functions are
exact on the values met (`ExactMath`); with `SS.tangentArcModify` on, the
coincidence constraints of the active group and workplane name points that
exist. -/
theorem MakeTangentArc_corner (M : Math) (hM : ExactMath M) (sk : Sketch) (hp : hEntity)
    (ep : Entity) (op0 op1 : Operand) (wrkpl en : Entity) (pc0 pc1 : ParametricCurve) (L : ℚ)
    (hlock : sk.LockedInWorkplane = true)
    (hsel : sk.gs.point.head? = some hp) (hep : sk.GetEntity hp = some ep)
    (hops : findOperands M sk ep.PointGetNum sk.request (0, []) = some (2, [op0, op1]))
    (hw : sk.GetEntity sk.activeWorkplane = some wrkpl)
    (hn : sk.GetEntity wrkpl.normal = some en)
    (hpc0 : ParametricCurve.MakeFromEntity M sk op0.hent op0.pointf = some pc0)
    (hpc1 : ParametricCurve.MakeFromEntity M sk op1.hent op1.pointf = some pc1)
    (hc : RightCorner pc0 pc1 en.numN L)
    (hman : sk.tangentArcManual = true)
    (hr0 : 0 < sk.tangentArcRadius) (hr2 : sk.tangentArcRadius < L / 2)
    (hown : sk.EntitiesOwned)
    (hcs : sk.tangentArcModify = true → ∀ c ∈ sk.constraint, c.group = sk.activeGroup →
      c.workplane = sk.activeWorkplane → c.type = ConstraintType.POINTS_COINCIDENT →
      (sk.GetEntity c.ptA).isSome = true) :
    (L / 100 ≤ sk.tangentArcRadius →
      ∃ (sk' : Sketch) (rq : Request) (centre start finish : Vector),
        MakeTangentArc M sk = some sk' ∧ sk'.errors = sk.errors ∧
        rq ∈ sk'.request ∧ rq ∉ sk.request ∧ rq.type = RequestType.ARC_OF_CIRCLE ∧
        sk'.GetEntity (rq.h.entity 0) = some (generatedEntity rq) ∧
        (generatedEntity rq).type = EntityType.ARC_OF_CIRCLE ∧
        (sk'.GetEntity ((generatedEntity rq).pointAt 0)).map Entity.PointGetNum = some centre ∧
        (sk'.GetEntity ((generatedEntity rq).pointAt 1)).map Entity.PointGetNum = some start ∧
        (sk'.GetEntity ((generatedEntity rq).pointAt 2)).map Entity.PointGetNum = some finish ∧
        ((start = pc0.p0.Plus ((pc0.p1.Minus pc0.p0).ScaledBy (sk.tangentArcRadius / L)) ∧
          finish = pc1.p0.Plus ((pc1.p1.Minus pc1.p0).ScaledBy (sk.tangentArcRadius / L))) ∨
         (start = pc1.p0.Plus ((pc1.p1.Minus pc1.p0).ScaledBy (sk.tangentArcRadius / L)) ∧
          finish = pc0.p0.Plus ((pc0.p1.Minus pc0.p0).ScaledBy (sk.tangentArcRadius / L)))) ∧
        0 < sk.tangentArcRadius / L ∧ sk.tangentArcRadius / L < 1 ∧
        ((pc0.p0.Plus ((pc0.p1.Minus pc0.p0).ScaledBy (sk.tangentArcRadius / L))).Minus
          pc0.p0).MagSquared = sk.tangentArcRadius * sk.tangentArcRadius ∧
        ((pc1.p0.Plus ((pc1.p1.Minus pc1.p0).ScaledBy (sk.tangentArcRadius / L))).Minus
          pc0.p0).MagSquared = sk.tangentArcRadius * sk.tangentArcRadius ∧
        (centre.Minus start).MagSquared = sk.tangentArcRadius * sk.tangentArcRadius ∧
        (centre.Minus finish).MagSquared = sk.tangentArcRadius * sk.tangentArcRadius) ∧
    (sk.tangentArcRadius < L / 100 →
      MakeTangentArc M sk = some (sk.ClearSelection.Error msgTangentArcRound)) := by
  have hpos : 0 < L := hc.pos
  refine ⟨fun hr1 => ?_, fun hsmall => ?_⟩
  · exact MakeTangentArc_corner_fits M hM sk hp ep op0 op1 wrkpl en pc0 pc1 L hlock hsel hep
      hops hw hn hpc0 hpc1 hc hman hr1 (by linarith) hown hcs
  · rw [MakeTangentArc_eq M sk hp ep op0 op1 wrkpl en pc0 pc1 hlock hsel hep hops hw hn hpc0
      hpc1, if_pos]
    rw [arcFit_corner M hM sk pc0 pc1 en.numN L hc hman]
    exact arcFitRejected_small M L _ hpos hsmall _ _

/-- Witness for C6: the corner example with the manual radius 1, for which the
arc is made, and with the manual radius `1/50`, which is refused. -/
theorem MakeTangentArc_corner_witness :
    RightCorner cornerCurve0 cornerCurve1 cornerNormal.numN 4 ∧
    (0 : ℚ) < (cornerSketch 1 false).tangentArcRadius ∧
    (cornerSketch 1 false).tangentArcRadius < 4 / 2 ∧
    (4 : ℚ) / 100 ≤ (cornerSketch 1 false).tangentArcRadius ∧
    (0 : ℚ) < (cornerSketch (1 / 50) false).tangentArcRadius ∧
    (cornerSketch (1 / 50) false).tangentArcRadius < 4 / 100 ∧
    MakeTangentArc cornerMath (cornerSketch (1 / 50) false)
      = some ((cornerSketch (1 / 50) false).ClearSelection.Error msgTangentArcRound) ∧
    ∃ (sk' : Sketch) (rq : Request) (centre start finish : Vector),
      MakeTangentArc cornerMath (cornerSketch 1 false) = some sk' ∧
      sk'.errors = (cornerSketch 1 false).errors ∧
      rq ∈ sk'.request ∧ rq ∉ (cornerSketch 1 false).request ∧
      rq.type = RequestType.ARC_OF_CIRCLE ∧
      sk'.GetEntity (rq.h.entity 0) = some (generatedEntity rq) ∧
      (generatedEntity rq).type = EntityType.ARC_OF_CIRCLE ∧
      (sk'.GetEntity ((generatedEntity rq).pointAt 0)).map Entity.PointGetNum = some centre ∧
      (sk'.GetEntity ((generatedEntity rq).pointAt 1)).map Entity.PointGetNum = some start ∧
      (sk'.GetEntity ((generatedEntity rq).pointAt 2)).map Entity.PointGetNum = some finish ∧
      ((start = cornerCurve0.p0.Plus ((cornerCurve0.p1.Minus cornerCurve0.p0).ScaledBy
            ((cornerSketch 1 false).tangentArcRadius / 4)) ∧
        finish = cornerCurve1.p0.Plus ((cornerCurve1.p1.Minus cornerCurve1.p0).ScaledBy
            ((cornerSketch 1 false).tangentArcRadius / 4))) ∨
       (start = cornerCurve1.p0.Plus ((cornerCurve1.p1.Minus cornerCurve1.p0).ScaledBy
            ((cornerSketch 1 false).tangentArcRadius / 4)) ∧
        finish = cornerCurve0.p0.Plus ((cornerCurve0.p1.Minus cornerCurve0.p0).ScaledBy
            ((cornerSketch 1 false).tangentArcRadius / 4)))) ∧
      0 < (cornerSketch 1 false).tangentArcRadius / 4 ∧
      (cornerSketch 1 false).tangentArcRadius / 4 < 1 ∧
      ((cornerCurve0.p0.Plus ((cornerCurve0.p1.Minus cornerCurve0.p0).ScaledBy
          ((cornerSketch 1 false).tangentArcRadius / 4))).Minus cornerCurve0.p0).MagSquared
        = (cornerSketch 1 false).tangentArcRadius * (cornerSketch 1 false).tangentArcRadius ∧
      ((cornerCurve1.p0.Plus ((cornerCurve1.p1.Minus cornerCurve1.p0).ScaledBy
          ((cornerSketch 1 false).tangentArcRadius / 4))).Minus cornerCurve0.p0).MagSquared
        = (cornerSketch 1 false).tangentArcRadius * (cornerSketch 1 false).tangentArcRadius ∧
      (centre.Minus start).MagSquared
        = (cornerSketch 1 false).tangentArcRadius * (cornerSketch 1 false).tangentArcRadius ∧
      (centre.Minus finish).MagSquared
        = (cornerSketch 1 false).tangentArcRadius * (cornerSketch 1 false).tangentArcRadius :=
  ⟨cornerSketch_corner, by norm_num [cornerSketch], by norm_num [cornerSketch],
    by norm_num [cornerSketch], by norm_num [cornerSketch], by norm_num [cornerSketch],
    (MakeTangentArc_corner cornerMath cornerMath_exact (cornerSketch (1 / 50) false)
      ((cornerLine 2).h.entity 1) (generatedPoint (cornerLine 2) 1 ⟨0, 0, 0⟩)
      ⟨(cornerLine 2).h.entity 0, (cornerLine 2).h, false⟩
      ⟨(cornerLine 3).h.entity 0, (cornerLine 3).h, false⟩
      cornerPlane cornerNormal cornerCurve0 cornerCurve1 4 rfl rfl rfl
      (cornerSketch_operands _ false) rfl rfl (cornerSketch_curve0 _ false)
      (cornerSketch_curve1 _ false) cornerSketch_corner rfl (by norm_num [cornerSketch])
      (by norm_num [cornerSketch]) (cornerSketch_owned _ false)
      (fun h => by cases h)).2 (by norm_num [cornerSketch]),
    (MakeTangentArc_corner cornerMath cornerMath_exact (cornerSketch 1 false)
      ((cornerLine 2).h.entity 1) (generatedPoint (cornerLine 2) 1 ⟨0, 0, 0⟩)
      ⟨(cornerLine 2).h.entity 0, (cornerLine 2).h, false⟩
      ⟨(cornerLine 3).h.entity 0, (cornerLine 3).h, false⟩
      cornerPlane cornerNormal cornerCurve0 cornerCurve1 4 rfl rfl rfl
      (cornerSketch_operands 1 false) rfl rfl (cornerSketch_curve0 1 false)
      (cornerSketch_curve1 1 false) cornerSketch_corner rfl (by norm_num [cornerSketch])
      (by norm_num [cornerSketch]) (cornerSketch_owned 1 false)
      (fun h => by cases h)).1 (by norm_num [cornerSketch])⟩

end Sketch
end SolveSpace

/-! ## The tangent arc: the source stepping of the radius -/

namespace SolveSpace
namespace Sketch

theorem arcFitStep_r (M : Math) (sk : Sketch) (pc0 pc1 : ParametricCurve) (wn : Vector)
    (iters i : Nat) (s : ArcFit) :
    (arcFitStep M sk pc0 pc1 wn iters i s).r = rampRadius iters i (arcFitStep M sk pc0 pc1 wn 0 0 s).r := by
  simp only [arcFitStep, rampRadius, Nat.lt_irrefl, if_false]

/-- Counterexample for C8: in the first iteration (`i = 0`) of the loop for the
corner example with the manual radius 1, the radius used is `1/10`, not 0. -/
theorem arcFitStep_radius_counterexample :
    (arcFitStep cornerMath (cornerSketch 1 false) cornerCurve0 cornerCurve1 cornerNormal.numN
      1000 0 { t0 := 0, t1 := 0, tp0 := 0, tp1 := 0, pinter := ⟨0, 0, 0⟩, r := 0, vv := 0 }).r
      = 1 / 10 ∧
    (arcFitStep cornerMath (cornerSketch 1 false) cornerCurve0 cornerCurve1 cornerNormal.numN
      1000 0 { t0 := 0, t1 := 0, tp0 := 0, tp1 := 0, pinter := ⟨0, 0, 0⟩, r := 0, vv := 0 }).r
      ≠ 0 := by
  have h : (arcFitStep cornerMath (cornerSketch 1 false) cornerCurve0 cornerCurve1
      cornerNormal.numN 1000 0
      { t0 := 0, t1 := 0, tp0 := 0, tp1 := 0, pinter := ⟨0, 0, 0⟩, r := 0, vv := 0 }).r
      = 1 / 10 := by
    simp only [arcFitStep, rampRadius, cornerSketch, if_true]
    norm_num
  rw [h]
  norm_num

/-- Claim C8, amended.  For a given state of the loop of `MakeTangentArc` let
`target` be the radius before the source stepping (`SS.tangentArcRadius` when the
radius is manual).  The radius used in iteration `i < 1000` is
`target * (0.1 + 0.9 i / 1000)`: one tenth of the target at `i = 0`, affine in
`i` and increasing for a positive target, `0.9991` of the target at `i = 999`;
from iteration 1000 on the target itself is used. -/
theorem arcFitStep_radius_ramp (M : Math) (sk : Sketch) (pc0 pc1 : ParametricCurve)
    (wn : Vector) (s : ArcFit) :
    ∃ target : ℚ, (sk.tangentArcManual = true → target = sk.tangentArcRadius) ∧
      (∀ i : Nat, i < 1000 →
        (arcFitStep M sk pc0 pc1 wn 1000 i s).r = target * (1 / 10 + 9 / 10000 * i)) ∧
      (arcFitStep M sk pc0 pc1 wn 1000 0 s).r = target / 10 ∧
      (arcFitStep M sk pc0 pc1 wn 1000 999 s).r = target * 9991 / 10000 ∧
      (∀ i j : Nat, i < j → j < 1000 → 0 < target →
        (arcFitStep M sk pc0 pc1 wn 1000 i s).r < (arcFitStep M sk pc0 pc1 wn 1000 j s).r) ∧
      (∀ i : Nat, 1000 ≤ i → (arcFitStep M sk pc0 pc1 wn 1000 i s).r = target) := by
  have hramp : ∀ (i : Nat) (t : ℚ), i < 1000 →
      rampRadius 1000 i t = t * (1 / 10 + 9 / 10000 * i) := by
    intro i t hi
    unfold rampRadius
    rw [if_pos hi]
    push_cast
    ring
  refine ⟨(arcFitStep M sk pc0 pc1 wn 0 0 s).r, ?_, ?_, ?_, ?_, ?_, ?_⟩
  · intro hman
    simp only [arcFitStep, rampRadius, Nat.lt_irrefl, if_false, hman, if_true]
  · intro i hi
    rw [arcFitStep_r, hramp i _ hi]
  · rw [arcFitStep_r, hramp 0 _ (by omega)]
    push_cast
    ring
  · rw [arcFitStep_r, hramp 999 _ (by omega)]
    push_cast
    ring
  · intro i j hij hj ht
    rw [arcFitStep_r M sk pc0 pc1 wn 1000 i, arcFitStep_r M sk pc0 pc1 wn 1000 j,
      hramp i _ (by omega), hramp j _ hj]
    have : (i : ℚ) < j := by exact_mod_cast hij
    nlinarith
  · intro i hi
    rw [arcFitStep_r, rampRadius_after 1000 i _ hi]

/-- Witness for C8: the ramp of the corner example with the manual radius 1. -/
theorem arcFitStep_radius_ramp_witness :
    ∃ target : ℚ, ((cornerSketch 1 false).tangentArcManual = true →
        target = (cornerSketch 1 false).tangentArcRadius) ∧
      (∀ i : Nat, i < 1000 →
        (arcFitStep cornerMath (cornerSketch 1 false) cornerCurve0 cornerCurve1
          cornerNormal.numN 1000 i
          { t0 := 0, t1 := 0, tp0 := 0, tp1 := 0, pinter := ⟨0, 0, 0⟩, r := 0, vv := 0 }).r
          = target * (1 / 10 + 9 / 10000 * i)) ∧
      (arcFitStep cornerMath (cornerSketch 1 false) cornerCurve0 cornerCurve1
          cornerNormal.numN 1000 0
          { t0 := 0, t1 := 0, tp0 := 0, tp1 := 0, pinter := ⟨0, 0, 0⟩, r := 0, vv := 0 }).r
          = target / 10 ∧
      (arcFitStep cornerMath (cornerSketch 1 false) cornerCurve0 cornerCurve1
          cornerNormal.numN 1000 999
          { t0 := 0, t1 := 0, tp0 := 0, tp1 := 0, pinter := ⟨0, 0, 0⟩, r := 0, vv := 0 }).r
          = target * 9991 / 10000 ∧
      (∀ i j : Nat, i < j → j < 1000 → 0 < target →
        (arcFitStep cornerMath (cornerSketch 1 false) cornerCurve0 cornerCurve1
          cornerNormal.numN 1000 i
          { t0 := 0, t1 := 0, tp0 := 0, tp1 := 0, pinter := ⟨0, 0, 0⟩, r := 0, vv := 0 }).r
          < (arcFitStep cornerMath (cornerSketch 1 false) cornerCurve0 cornerCurve1
          cornerNormal.numN 1000 j
          { t0 := 0, t1 := 0, tp0 := 0, tp1 := 0, pinter := ⟨0, 0, 0⟩, r := 0, vv := 0 }).r) ∧
      (∀ i : Nat, 1000 ≤ i →
        (arcFitStep cornerMath (cornerSketch 1 false) cornerCurve0 cornerCurve1
          cornerNormal.numN 1000 i
          { t0 := 0, t1 := 0, tp0 := 0, tp1 := 0, pinter := ⟨0, 0, 0⟩, r := 0, vv := 0 }).r
          = target) :=
  arcFitStep_radius_ramp cornerMath (cornerSketch 1 false) cornerCurve0 cornerCurve1
    cornerNormal.numN
    { t0 := 0, t1 := 0, tp0 := 0, tp1 := 0, pinter := ⟨0, 0, 0⟩, r := 0, vv := 0 }

end Sketch
end SolveSpace

/-! ## Splitting at an intersection -/

namespace SolveSpace
namespace Sketch

/-- Claim C5, the code at the failing input.  When two entities and no point are
selected, `SplitLinesOrCurves` sets `foundInters` to true whatever the list of
intersections is: with an empty list it does not report "Can't split; no
intersection found." but takes the undo snapshot and splits both entities at
`pi = (0, 0, 0)`, the initial value of `pi`. -/
theorem SplitLinesOrCurves_no_intersection (env : SplitEnv) (sk : Sketch) (ha hb : hEntity)
    (rest : List hEntity) (ea eb : Entity)
    (hlock : sk.LockedInWorkplane = true)
    (hn : (env.GroupSelection sk).lineSegments + (env.GroupSelection sk).circlesOrArcs
      + (env.GroupSelection sk).cubics + (env.GroupSelection sk).periodicCubics = 2)
    (hpts : (env.GroupSelection sk).points = 0)
    (hsel : (env.GroupSelection sk).entity = ha :: hb :: rest)
    (hea : sk.GetEntity ha = some ea) (heb : sk.GetEntity hb = some eb)
    (hempty : env.AllIntersections
      { sk with gs := env.GroupSelection sk, constraint := clearConstraintTags sk.constraint }
      ea eb = []) :
    findSplitPoint env { sk with gs := env.GroupSelection sk } false ha hb
      = some (true, ⟨0, 0, 0⟩,
          { sk with gs := env.GroupSelection sk,
                    constraint := clearConstraintTags sk.constraint }) ∧
    SplitLinesOrCurves env sk
      = splitCommit env
          { sk with gs := env.GroupSelection sk,
                    constraint := clearConstraintTags sk.constraint }
          false ha hb ⟨0, 0, 0⟩ := by
  have hfind : findSplitPoint env { sk with gs := env.GroupSelection sk } false ha hb
      = some (true, ⟨0, 0, 0⟩,
          { sk with gs := env.GroupSelection sk,
                    constraint := clearConstraintTags sk.constraint }) := by
    have hea' : ({ sk with gs := env.GroupSelection sk } : Sketch).GetEntity ha = some ea := hea
    have heb' : ({ sk with gs := env.GroupSelection sk } : Sketch).GetEntity hb = some eb := heb
    unfold findSplitPoint
    rw [hea', heb']
    simp only [Option.bind_eq_bind, Option.some_bind, Bool.false_eq_true, if_false, hempty,
      ne_eq, not_true_eq_false, Option.pure_def]
  refine ⟨hfind, ?_⟩
  unfold SplitLinesOrCurves
  rw [hlock]
  simp only [Bool.not_true, Bool.false_eq_true, if_false, hn, hpts, hsel, and_self,
    decide_True, Bool.true_or, OfNat.zero_ne_ofNat, zero_ne_one, decide_False,
    List.getElem?_cons_zero, List.getElem?_cons_succ, Option.bind_eq_bind, Option.some_bind,
    Option.pure_def]
  rw [hfind]
  simp only [Option.some_bind, if_true]


/-- The result of `SplitLinesOrCurves` for the two parallel segments: no error
message, one undo snapshot, the requests 2 and 3 replaced by 4, 5, 6 and 7, and
three new coincidence constraints. -/
theorem parallelSketch_result :
    (SplitLinesOrCurves parallelEnv parallelSketch).map
        (fun s => (s.errors, s.undoCount, s.request.map (fun r => r.h.v), s.constraint.length))
      = some ([], 1, [1, 4, 5, 6, 7], 3) := by
  rfl

/-- Witness for C5: two parallel segments, which do not meet. -/
theorem SplitLinesOrCurves_no_intersection_witness :
    parallelEnv.AllIntersections
      { parallelSketch with gs := parallelEnv.GroupSelection parallelSketch,
                            constraint := clearConstraintTags parallelSketch.constraint }
      (generatedEntity (cornerLine 2)) (generatedEntity (cornerLine 3)) = [] ∧
    (findSplitPoint parallelEnv
        { parallelSketch with gs := parallelEnv.GroupSelection parallelSketch } false
        ((cornerLine 2).h.entity 0) ((cornerLine 3).h.entity 0)
      = some (true, ⟨0, 0, 0⟩,
          { parallelSketch with gs := parallelEnv.GroupSelection parallelSketch,
                                constraint := clearConstraintTags parallelSketch.constraint }) ∧
    SplitLinesOrCurves parallelEnv parallelSketch
      = splitCommit parallelEnv
          { parallelSketch with gs := parallelEnv.GroupSelection parallelSketch,
                                constraint := clearConstraintTags parallelSketch.constraint }
          false ((cornerLine 2).h.entity 0) ((cornerLine 3).h.entity 0) ⟨0, 0, 0⟩) :=
  ⟨rfl, SplitLinesOrCurves_no_intersection parallelEnv parallelSketch
    ((cornerLine 2).h.entity 0) ((cornerLine 3).h.entity 0) []
    (generatedEntity (cornerLine 2)) (generatedEntity (cornerLine 3)) rfl rfl rfl rfl rfl rfl rfl⟩

end Sketch
end SolveSpace

/-! ## `ReplacePointInConstraints` and the parametric line -/

namespace SolveSpace
namespace Sketch

/-- Claim C14.  `ReplacePointInConstraints(oldpt, newpt)` maps the constraint list
element by element (same length, same order): `ptA` and `ptB` become `newpt`
where they were `oldpt` and stay otherwise, every other field of a constraint
is unchanged, and nothing else of the sketch changes; so for `newpt ≠ oldpt` no
constraint names `oldpt` as `ptA` or `ptB` afterwards. -/
theorem ReplacePointInConstraints_frame (sk : Sketch) (oldpt newpt : hEntity) :
    (sk.ReplacePointInConstraints oldpt newpt).constraint
      = sk.constraint.map (fun c =>
          { c with ptA := if c.ptA = oldpt then newpt else c.ptA,
                   ptB := if c.ptB = oldpt then newpt else c.ptB }) ∧
    (sk.ReplacePointInConstraints oldpt newpt).constraint.length = sk.constraint.length ∧
    (∀ (i : Nat) (c : Constraint), sk.constraint[i]? = some c →
      ∃ c', (sk.ReplacePointInConstraints oldpt newpt).constraint[i]? = some c' ∧
        c'.ptA = (if c.ptA = oldpt then newpt else c.ptA) ∧
        c'.ptB = (if c.ptB = oldpt then newpt else c.ptB) ∧
        c'.tag = c.tag ∧ c'.h = c.h ∧ c'.type = c.type ∧ c'.group = c.group ∧
        c'.workplane = c.workplane ∧ c'.valA = c.valA ∧ c'.valP = c.valP ∧
        c'.entityA = c.entityA ∧ c'.entityB = c.entityB ∧ c'.entityC = c.entityC ∧
        c'.entityD = c.entityD ∧ c'.other = c.other ∧ c'.other2 = c.other2 ∧
        c'.reference = c.reference ∧ c'.comment = c.comment) ∧
    (sk.ReplacePointInConstraints oldpt newpt).request = sk.request ∧
    (sk.ReplacePointInConstraints oldpt newpt).entity = sk.entity ∧
    (newpt ≠ oldpt → ∀ c' ∈ (sk.ReplacePointInConstraints oldpt newpt).constraint,
      c'.ptA ≠ oldpt ∧ c'.ptB ≠ oldpt) := by
  have h := ReplacePointInConstraints_constraint sk oldpt newpt
  refine ⟨h, by rw [h, List.length_map], ?_, rfl, rfl, ?_⟩
  · intro i c hc
    refine ⟨{ c with ptA := if c.ptA = oldpt then newpt else c.ptA,
                     ptB := if c.ptB = oldpt then newpt else c.ptB },
      by rw [h, List.getElem?_map, hc]; rfl, rfl, rfl, rfl, rfl, rfl, rfl, rfl, rfl, rfl,
      rfl, rfl, rfl, rfl, rfl, rfl, rfl, rfl⟩
  · intro hne c' hc'
    rw [h, List.mem_map] at hc'
    obtain ⟨c, -, rfl⟩ := hc'
    constructor
    · show (if c.ptA = oldpt then newpt else c.ptA) ≠ oldpt
      split_ifs with h1
      · exact hne
      · exact h1
    · show (if c.ptB = oldpt then newpt else c.ptB) ≠ oldpt
      split_ifs with h1
      · exact hne
      · exact h1

/-- Witness for C14: the point `65537` of the example segment replaced by `7`
in its distance constraint. -/
theorem ReplacePointInConstraints_frame_witness :
    (⟨7⟩ : hEntity) ≠ ⟨65537⟩ ∧
    ∀ c' ∈ (lineSketch.ReplacePointInConstraints ⟨65537⟩ ⟨7⟩).constraint,
      c'.ptA ≠ ⟨65537⟩ ∧ c'.ptB ≠ ⟨65537⟩ :=
  ⟨by decide,
    (ReplacePointInConstraints_frame lineSketch ⟨65537⟩ ⟨7⟩).2.2.2.2.2 (by decide)⟩

end Sketch

namespace ParametricCurve

/-- Claim C15.  In exact arithmetic, the curve that `MakeFromEntity` builds from a
line segment with the endpoints `ps`, `pf` (swapped when `reverse` is set) has `PointAt(0) = p0`,
`PointAt(1) = p1`, `PointAt(t) = (1 - t) p0 + t p1`, and the constant tangent
`TangentAt(t) = p1 - p0 = PointAt(1) - PointAt(0)`, which is the derivative of
`PointAt`: `PointAt(t + h) = PointAt(t) + h TangentAt(t)` for all `t`, `h`. -/
theorem line_PointAt_TangentAt (M : Math) (sk : Sketch) (he : hEntity) (reverse : Bool)
    (e : Entity) (ps pf : Vector) (hget : sk.GetEntity he = some e)
    (ht : e.type = EntityType.LINE_SEGMENT) (hs : sk.EndpointStart e = some ps)
    (hf : sk.EndpointFinish e = some pf) :
    ∃ pc : ParametricCurve, MakeFromEntity M sk he reverse = some pc ∧
      pc.p0 = (if reverse then pf else ps) ∧ pc.p1 = (if reverse then ps else pf) ∧
      pc.PointAt M 0 = pc.p0 ∧ pc.PointAt M 1 = pc.p1 ∧
      (∀ t : ℚ, pc.PointAt M t = (pc.p0.ScaledBy (1 - t)).Plus (pc.p1.ScaledBy t)) ∧
      (∀ t : ℚ, pc.TangentAt M t = pc.p1.Minus pc.p0) ∧
      (∀ t : ℚ, pc.TangentAt M t = (pc.PointAt M 1).Minus (pc.PointAt M 0)) ∧
      (∀ t h : ℚ, pc.PointAt M (t + h)
        = (pc.PointAt M t).Plus ((pc.TangentAt M t).ScaledBy h)) := by
  have hmk : MakeFromEntity M sk he reverse
      = some { isLine := true, p0 := if reverse then pf else ps,
               p1 := if reverse then ps else pf, u := ⟨0, 0, 0⟩, v := ⟨0, 0, 0⟩, r := 0,
               theta0 := 0, theta1 := 0, dtheta := 0 } := by
    unfold MakeFromEntity
    rw [hget]
    simp only [Option.bind_eq_bind, Option.some_bind, ht, if_true, hs, hf, Option.pure_def]
    cases reverse <;> rfl
  refine ⟨_, hmk, rfl, rfl, ?_, ?_, ?_, ?_, ?_, ?_⟩
  all_goals
    simp only [PointAt, TangentAt, if_true, Vector.ext_xyz, Vector.Plus, Vector.Minus,
      Vector.ScaledBy]
  · refine ⟨by ring, by ring, by ring⟩
  · refine ⟨by ring, by ring, by ring⟩
  · intro t; refine ⟨by ring, by ring, by ring⟩
  · intro t; trivial
  · intro t; refine ⟨by ring, by ring, by ring⟩
  · intro t h; refine ⟨by ring, by ring, by ring⟩

/-- Witness for C15: the first segment of the corner example. -/
theorem line_PointAt_TangentAt_witness :
    ∃ pc : ParametricCurve,
      MakeFromEntity Sketch.cornerMath (Sketch.cornerSketch 1 false)
        ((Sketch.cornerLine 2).h.entity 0) false = some pc ∧
      pc.p0 = (if false then ⟨4, 0, 0⟩ else ⟨0, 0, 0⟩) ∧
      pc.p1 = (if false then ⟨0, 0, 0⟩ else ⟨4, 0, 0⟩) ∧
      pc.PointAt Sketch.cornerMath 0 = pc.p0 ∧ pc.PointAt Sketch.cornerMath 1 = pc.p1 ∧
      (∀ t : ℚ, pc.PointAt Sketch.cornerMath t
        = (pc.p0.ScaledBy (1 - t)).Plus (pc.p1.ScaledBy t)) ∧
      (∀ t : ℚ, pc.TangentAt Sketch.cornerMath t = pc.p1.Minus pc.p0) ∧
      (∀ t : ℚ, pc.TangentAt Sketch.cornerMath t
        = (pc.PointAt Sketch.cornerMath 1).Minus (pc.PointAt Sketch.cornerMath 0)) ∧
      (∀ t h : ℚ, pc.PointAt Sketch.cornerMath (t + h)
        = (pc.PointAt Sketch.cornerMath t).Plus
            ((pc.TangentAt Sketch.cornerMath t).ScaledBy h)) :=
  line_PointAt_TangentAt Sketch.cornerMath (Sketch.cornerSketch 1 false)
    ((Sketch.cornerLine 2).h.entity 0) false (Sketch.generatedEntity (Sketch.cornerLine 2))
    ⟨0, 0, 0⟩ ⟨4, 0, 0⟩ rfl rfl rfl rfl

end ParametricCurve
end SolveSpace

/-! ## `SplitEntity` on other entities, and the nearest intersection -/

namespace SolveSpace
namespace Sketch

/-- Claim C18.  For an entity that is no circle or arc, no line segment, no cubic
and no periodic cubic, `SplitEntity` reports the error "Couldn't split this
entity; lines, circles, or cubics only.", returns `Entity::NO_ENTITY`, and leaves
the requests (with their tags), the entities and the constraints as they were. -/
theorem SplitEntity_unsupported (env : SplitEnv) (sk : Sketch) (he : hEntity) (pinter : Vector)
    (e : Entity) (hget : sk.GetEntity he = some e) (hc : e.IsCircle = false)
    (hl : e.type ≠ EntityType.LINE_SEGMENT) (hcu : e.type ≠ EntityType.CUBIC)
    (hcp : e.type ≠ EntityType.CUBIC_PERIODIC) :
    ∃ sk', SplitEntity env sk he pinter = some (NO_ENTITY, sk') ∧
      sk'.errors = sk.errors ++ [msgSplitKind] ∧ sk'.request = sk.request ∧
      sk'.constraint = sk.constraint ∧ sk'.entity = sk.entity ∧
      sk'.undoCount = sk.undoCount := by
  refine ⟨sk.Error msgSplitKind, ?_, rfl, rfl, rfl, rfl, rfl⟩
  unfold SplitEntity
  rw [hget]
  simp only [Option.bind_eq_bind, Option.some_bind, hc, Bool.false_eq_true, if_false, hl, hcu,
    hcp, or_self, Option.pure_def]

/-- Witness for C18: the workplane of the corner example. -/
theorem SplitEntity_unsupported_witness :
    ∃ sk', SplitEntity parallelEnv parallelSketch cornerPlane.h ⟨0, 0, 0⟩
        = some (NO_ENTITY, sk') ∧
      sk'.errors = parallelSketch.errors ++ [msgSplitKind] ∧
      sk'.request = parallelSketch.request ∧
      sk'.constraint = parallelSketch.constraint ∧ sk'.entity = parallelSketch.entity ∧
      sk'.undoCount = parallelSketch.undoCount :=
  SplitEntity_unsupported parallelEnv parallelSketch cornerPlane.h ⟨0, 0, 0⟩ cornerPlane
    rfl rfl (by decide) (by decide) (by decide)

end Sketch
end SolveSpace

/-! ## `SplitEntity`: the request that is deleted -/

namespace SolveSpace
namespace Sketch

theorem modifyFirst_split {α : Type} (p : α → Bool) (f : α → α) (l : List α) :
    ((∀ a ∈ l, p a = false) ∧ modifyFirst p f l = l) ∨
    ∃ l1 a l2, l = l1 ++ a :: l2 ∧ (∀ b ∈ l1, p b = false) ∧ p a = true ∧
      modifyFirst p f l = l1 ++ f a :: l2 := by
  induction l with
  | nil => exact Or.inl ⟨by simp, rfl⟩
  | cons x l ih =>
    by_cases hx : p x = true
    · exact Or.inr ⟨[], x, l, rfl, by simp, hx, by simp [modifyFirst, hx]⟩
    · have hx' : p x = false := by simpa using hx
      rcases ih with ⟨h1, h2⟩ | ⟨l1, a, l2, h1, h2, h3, h4⟩
      · left
        refine ⟨?_, by simp [modifyFirst, hx', h2]⟩
        intro a ha
        rcases List.mem_cons.mp ha with rfl | ha
        · exact hx'
        · exact h1 a ha
      · right
        refine ⟨x :: l1, a, l2, by simp [h1], ?_, h3, by simp [modifyFirst, hx', h4]⟩
        intro b hb
        rcases List.mem_cons.mp hb with rfl | hb
        · exact hx'
        · exact h2 b hb

theorem taggedRequests_spec (g : hGroup) (reqType : RequestType) (he : hEntity)
    (l : List Request) :
    (taggedRequests g reqType he l).map (fun r => { r with tag := 0 }) = clearRequestTags l ∧
    ((taggedRequests g reqType he l).filter (fun r => decide (r.tag ≠ 0))).length ≤ 1 ∧
    (∀ r ∈ taggedRequests g reqType he l, r.tag ≠ 0 →
      r.tag = 1 ∧ r.group = g ∧ r.type = reqType ∧ he = r.h.entity 0 ∧
        r.construction = false) ∧
    (∀ r ∈ l, r.group = g → r.type = reqType → he = r.h.entity 0 → r.construction = false →
      ∃ r' ∈ taggedRequests g reqType he l, r'.h = r.h ∧ r'.tag = 1) := by
  have hclear : ∀ r ∈ clearRequestTags l, r.tag = 0 := by
    intro r hr
    simp only [clearRequestTags, List.mem_map] at hr
    obtain ⟨r0, -, rfl⟩ := hr
    rfl
  have hpred : ∀ r : Request, isOriginal g reqType he r = true →
      r.group = g ∧ r.type = reqType ∧ he = r.h.entity 0 ∧ r.construction = false := by
    intro r hr
    simp only [isOriginal, Bool.and_eq_true, decide_eq_true_eq, Bool.not_eq_true'] at hr
    exact ⟨hr.1.1.1, hr.1.1.2, hr.1.2, hr.2⟩
  unfold taggedRequests
  rcases modifyFirst_split (isOriginal g reqType he) (fun r => { r with tag := 1 })
    (clearRequestTags l) with ⟨h1, h2⟩ | ⟨l1, a, l2, h1, h2, h3, h4⟩
  · rw [h2]
    refine ⟨?_, ?_, ?_, ?_⟩
    · simp [clearRequestTags]
    · rw [List.filter_eq_nil_iff.mpr]
      · simp
      · intro r hr
        simp [hclear r hr]
    · intro r hr ht
      exact absurd (hclear r hr) ht
    · intro r hr hg hty hhe hc
      have : isOriginal g reqType he { r with tag := 0 } = false :=
        h1 _ (List.mem_map_of_mem _ hr)
      simp [isOriginal, hg, hty, hc, ← hhe] at this
  · rw [h4]
    have hl1 : ∀ r ∈ l1, r.tag = 0 := fun r hr => hclear r (by rw [h1]; simp [hr])
    have hl2 : ∀ r ∈ l2, r.tag = 0 := fun r hr => hclear r (by rw [h1]; simp [hr])
    have ha : a.tag = 0 := hclear a (by rw [h1]; simp)
    refine ⟨?_, ?_, ?_, ?_⟩
    · have : (clearRequestTags l).map (fun r => { r with tag := 0 }) = clearRequestTags l := by
        simp [clearRequestTags]
      rw [← this, h1]
      simp
    · rw [List.filter_append, List.filter_cons]
      rw [List.filter_eq_nil_iff.mpr (fun r hr => by simp [hl1 r hr]),
        List.filter_eq_nil_iff.mpr (fun r hr => by simp [hl2 r hr])]
      simp
    · intro r hr ht
      rcases List.mem_append.mp hr with hr | hr
      · exact absurd (hl1 r hr) ht
      · rcases List.mem_cons.mp hr with rfl | hr
        · exact ⟨rfl, hpred a h3⟩
        · exact absurd (hl2 r hr) ht
    · intro r hr hg hty hhe hc
      refine ⟨{ a with tag := 1 }, by simp, ?_, rfl⟩
      obtain ⟨-, -, hae, -⟩ := hpred a h3
      have : a.h.entity 0 = r.h.entity 0 := hae.symm.trans hhe
      exact ((entity_inj _ _ 0 0 (by omega) (by omega)).mp this).1

theorem SplitEntity_supported (env : SplitEnv) (sk : Sketch) (he : hEntity) (pinter : Vector)
    (e : Entity) (hget : sk.GetEntity he = some e)
    (hkind : e.IsCircle = true ∨ e.type = EntityType.LINE_SEGMENT ∨
      e.type = EntityType.CUBIC ∨ e.type = EntityType.CUBIC_PERIODIC) :
    ∃ inner : Option (hEntity × Sketch),
      (inner = sk.SplitCircle he pinter ∨ inner = sk.SplitLine he pinter ∨
        inner = env.SplitCubic sk he pinter) ∧
      (e.IsCircle = true → inner = sk.SplitCircle he pinter) ∧
      (e.IsCircle = false → e.type = EntityType.LINE_SEGMENT →
        inner = sk.SplitLine he pinter) ∧
      SplitEntity env sk he pinter = inner.bind (fun rs =>
        some (rs.1, env.DeleteTaggedRequests
          { rs.2 with request := taggedRequests rs.2.activeGroup
                                   (env.GetRequestForEntity e.type) he rs.2.request })) := by
  unfold SplitEntity
  rw [hget]
  simp only [Option.bind_eq_bind, Option.some_bind, Option.pure_def]
  by_cases hc : e.IsCircle = true
  · refine ⟨sk.SplitCircle he pinter, Or.inl rfl, fun _ => rfl, ?_, ?_⟩
    · intro h; rw [hc] at h; cases h
    · rw [if_pos hc]
      rfl
  · rw [if_neg hc]
    by_cases hl : e.type = EntityType.LINE_SEGMENT
    · refine ⟨sk.SplitLine he pinter, Or.inr (Or.inl rfl), fun h => absurd h hc,
        fun _ _ => rfl, ?_⟩
      rw [if_pos hl]
      rfl
    · rw [if_neg hl]
      have hcub : e.type = EntityType.CUBIC ∨ e.type = EntityType.CUBIC_PERIODIC := by
        rcases hkind with h | h | h | h
        · exact absurd h hc
        · exact absurd h hl
        · exact Or.inl h
        · exact Or.inr h
      refine ⟨env.SplitCubic sk he pinter, Or.inr (Or.inr rfl), fun h => absurd h hc,
        fun _ h => absurd h hl, ?_⟩
      rw [if_pos hcub]
      rfl

end Sketch
end SolveSpace

/-! ## The parametric arc -/

namespace SolveSpace
namespace ParametricCurve

theorem MakeFromEntity_arc (M : Math) (sk : Sketch) (he : hEntity) (reverse : Bool)
    (e c pe w nrm : Entity) (hget : sk.GetEntity he = some e)
    (ht : e.type = EntityType.ARC_OF_CIRCLE) (hc : sk.GetEntity (e.pointAt 0) = some c)
    (hpe : sk.GetEntity (e.pointAt 1) = some pe) (hw : sk.GetEntity e.workplane = some w)
    (hn : sk.GetEntity w.normal = some nrm) :
    ∃ pc : ParametricCurve, MakeFromEntity M sk he reverse = some pc ∧ pc.isLine = false ∧
      pc.p0 = c.PointGetNum ∧ pc.r = (pe.PointGetNum.Minus c.PointGetNum).Magnitude M ∧
      pc.u = nrm.numU ∧ pc.v = nrm.numV ∧
      pc.theta0 = (if reverse then (M.ArcGetAngles sk.entity e).2.1
        else (M.ArcGetAngles sk.entity e).1) ∧
      pc.dtheta = (if reverse then -(M.ArcGetAngles sk.entity e).2.2
        else (M.ArcGetAngles sk.entity e).2.2) := by
  have hne : e.type ≠ EntityType.LINE_SEGMENT := by rw [ht]; decide
  unfold MakeFromEntity
  rw [hget]
  simp only [Option.bind_eq_bind, Option.some_bind, hne, if_false, ht, if_true, hc, hpe, hw, hn,
    Option.pure_def]
  cases reverse
  · exact ⟨_, rfl, rfl, rfl, rfl, rfl, rfl, rfl, rfl⟩
  · exact ⟨_, rfl, rfl, rfl, rfl, rfl, rfl, rfl, rfl⟩

end ParametricCurve
end SolveSpace

/-! ## Splitting: examples -/

namespace SolveSpace
namespace Sketch

theorem parallelSketch_SplitEntity :
    (SplitEntity parallelEnv parallelSketch ((cornerLine 2).h.entity 0) ⟨2, 0, 0⟩).isSome
      = true := rfl

end Sketch
end SolveSpace

namespace SolveSpace
namespace Sketch

theorem SplitCircle_arc_eq (sk : Sketch) (he : hEntity) (pinter : Vector)
    (arc ec es ef : Entity) (hown : sk.EntitiesOwned)
    (h0 : sk.GetEntity he = some arc) (ht : arc.type ≠ EntityType.CIRCLE)
    (h1 : sk.GetEntity (arc.pointAt 0) = some ec)
    (h2 : sk.GetEntity (arc.pointAt 1) = some es)
    (h3 : sk.GetEntity (arc.pointAt 2) = some ef) :
    sk.SplitCircle he pinter = some ((requestNo sk 0 RequestType.ARC_OF_CIRCLE).h.entity 3,
      ((withAdded sk
          [requestNo sk 0 RequestType.ARC_OF_CIRCLE, requestNo sk 1 RequestType.ARC_OF_CIRCLE]
          [generatedEntity (requestNo sk 0 RequestType.ARC_OF_CIRCLE),
           generatedPoint (requestNo sk 0 RequestType.ARC_OF_CIRCLE) 1 ec.numPoint,
           generatedPoint (requestNo sk 0 RequestType.ARC_OF_CIRCLE) 2 es.numPoint,
           generatedPoint (requestNo sk 0 RequestType.ARC_OF_CIRCLE) 3 pinter,
           generatedEntity (requestNo sk 1 RequestType.ARC_OF_CIRCLE),
           generatedPoint (requestNo sk 1 RequestType.ARC_OF_CIRCLE) 1 ec.numPoint,
           generatedPoint (requestNo sk 1 RequestType.ARC_OF_CIRCLE) 2 pinter,
           generatedPoint (requestNo sk 1 RequestType.ARC_OF_CIRCLE) 3 ef.numPoint]
        ).ReplacePointInConstraints (arc.pointAt 1)
            ((requestNo sk 0 RequestType.ARC_OF_CIRCLE).h.entity 2)
        |>.ReplacePointInConstraints (arc.pointAt 2)
            ((requestNo sk 1 RequestType.ARC_OF_CIRCLE).h.entity 3)
        |>.ConstrainCoincident ((requestNo sk 0 RequestType.ARC_OF_CIRCLE).h.entity 3)
            ((requestNo sk 1 RequestType.ARC_OF_CIRCLE).h.entity 2))) := by
  have hk1 : requestMaximumId (sk.request ++ [requestNo sk 0 RequestType.ARC_OF_CIRCLE])
      = requestMaximumId sk.request + 1 := by
    rw [requestMaximumId_append]; simp [requestNo]
  have g0 : ∀ rs es i, i < 65536 →
      (withAdded sk rs es).GetEntity ((requestNo sk 0 RequestType.ARC_OF_CIRCLE).h.entity i)
        = es.find? (fun e => decide (e.h = (requestNo sk 0 RequestType.ARC_OF_CIRCLE).h.entity i)) :=
    fun rs es i hi => GetEntity_withAdded_new sk hown rs es _ i
      (by simp only [requestNo]; omega) hi
  have g1 : ∀ rs es i, i < 65536 →
      (withAdded sk rs es).GetEntity ((requestNo sk 1 RequestType.ARC_OF_CIRCLE).h.entity i)
        = es.find? (fun e => decide (e.h = (requestNo sk 1 RequestType.ARC_OF_CIRCLE).h.entity i)) :=
    fun rs es i hi => GetEntity_withAdded_new sk hown rs es _ i
      (by simp only [requestNo]; omega) hi
  have hne : (requestNo sk 0 RequestType.ARC_OF_CIRCLE).h
      ≠ (requestNo sk 1 RequestType.ARC_OF_CIRCLE).h := by
    simp [requestNo]
  unfold SplitCircle
  simp only [h0, h1, h2, h3, ht, if_false, Option.bind_eq_bind, Option.some_bind]
  rw [AddRequest_eq sk]
  simp only []
  rw [AddRequest_withAdded sk _ _ 1 _ hk1]
  simp only [List.singleton_append, List.cons_append, List.nil_append]
  rw [g0 _ _ 0 (by norm_num), g1 _ _ 0 (by norm_num)]
  rw [Generate_arc (requestNo sk 0 RequestType.ARC_OF_CIRCLE) rfl,
    Generate_arc (requestNo sk 1 RequestType.ARC_OF_CIRCLE) rfl]
  have p0 : ∀ i, i < 3 → (generatedEntity (requestNo sk 0 RequestType.ARC_OF_CIRCLE)).pointAt i
      = (requestNo sk 0 RequestType.ARC_OF_CIRCLE).h.entity (i + 1) :=
    fun i hi => generatedEntity_pointAt _ i hi
  have p1 : ∀ i, i < 3 → (generatedEntity (requestNo sk 1 RequestType.ARC_OF_CIRCLE)).pointAt i
      = (requestNo sk 1 RequestType.ARC_OF_CIRCLE).h.entity (i + 1) :=
    fun i hi => generatedEntity_pointAt _ i hi
  simp only [List.cons_append, List.nil_append, List.find?_cons, generatedEntity_h,
    generatedPoint_h, entity_eq_same, entity_eq_other _ _ hne, entity_eq_other _ _ hne.symm,
    decide_True, decide_False, Option.some_bind, p0 0 (by norm_num), p0 1 (by norm_num),
    p0 2 (by norm_num), p1 0 (by norm_num), p1 1 (by norm_num), p1 2 (by norm_num),
    Nat.reduceLT, Nat.reduceAdd, Nat.reduceEqDiff, Option.bind_eq_bind]
  have f0 : ∀ rs es i p, i < 65536 →
      (es.find? (fun e => decide (e.h = (requestNo sk 0 RequestType.ARC_OF_CIRCLE).h.entity i))).isSome
        = true →
      (withAdded sk rs es).PointForceTo ((requestNo sk 0 RequestType.ARC_OF_CIRCLE).h.entity i) p
        = some (withAdded sk rs (modifyFirst
            (fun e => decide (e.h = (requestNo sk 0 RequestType.ARC_OF_CIRCLE).h.entity i))
            (fun e => { e with numPoint := p }) es)) :=
    fun rs es i p hi hf => PointForceTo_withAdded_new sk hown rs es _ i p
      (by simp only [requestNo]; omega) hi hf
  have f1 : ∀ rs es i p, i < 65536 →
      (es.find? (fun e => decide (e.h = (requestNo sk 1 RequestType.ARC_OF_CIRCLE).h.entity i))).isSome
        = true →
      (withAdded sk rs es).PointForceTo ((requestNo sk 1 RequestType.ARC_OF_CIRCLE).h.entity i) p
        = some (withAdded sk rs (modifyFirst
            (fun e => decide (e.h = (requestNo sk 1 RequestType.ARC_OF_CIRCLE).h.entity i))
            (fun e => { e with numPoint := p }) es)) :=
    fun rs es i p hi hf => PointForceTo_withAdded_new sk hown rs es _ i p
      (by simp only [requestNo]; omega) hi hf
  simp only [f0, f1, List.find?_cons, generatedEntity_h, modifyFirst,
    generatedPoint_h, entity_eq_same, entity_eq_other _ _ hne, entity_eq_other _ _ hne.symm,
    decide_True, decide_False, Option.some_bind, Nat.reduceLT, Nat.reduceAdd, Nat.reduceEqDiff,
    Option.bind_eq_bind, Option.isSome_some, generatedPoint_numPoint, Bool.false_eq_true,
    if_true, if_false, OfNat.ofNat_ne_zero, OfNat.zero_ne_ofNat, OfNat.ofNat_ne_one,
    OfNat.one_ne_ofNat]
  rfl

/-- Claim C11.  For an arc `he` with the points `hc`, `hs ≠ hf` at the positions
`c`, `s`, `f` and a split point `pinter`, `SplitCircle` appends exactly two arc
requests whose entities have the point positions `(c, s, pinter)` and
`(c, pinter, f)`; the constraint list is the old one, constraint by constraint
and in the same order, with every `ptA`, `ptB` that was `hs` now the start point
of the first arc, every one that was `hf` now the finish point of the second
arc, everything else unchanged, followed by one new `POINTS_COINCIDENT`
constraint between the finish point of the first arc and the start point of
the second; the function returns the finish point of the first arc. -/
theorem SplitCircle_arc (sk : Sketch) (he : hEntity) (pinter : Vector)
    (arc ec es ef : Entity) (hown : sk.EntitiesOwned)
    (h0 : sk.GetEntity he = some arc) (ht : arc.type = EntityType.ARC_OF_CIRCLE)
    (h1 : sk.GetEntity (arc.pointAt 0) = some ec)
    (h2 : sk.GetEntity (arc.pointAt 1) = some es)
    (h3 : sk.GetEntity (arc.pointAt 2) = some ef)
    (hne : arc.pointAt 1 ≠ arc.pointAt 2) :
    ∃ (sk' : Sketch) (r0 r1 : Request) (a0 a1 : Entity) (f : Constraint → Constraint)
      (c : Constraint),
      sk.SplitCircle he pinter = some (a0.pointAt 2, sk') ∧
      sk'.request = sk.request ++ [r0, r1] ∧
      r0.type = RequestType.ARC_OF_CIRCLE ∧ r1.type = RequestType.ARC_OF_CIRCLE ∧
      sk'.GetEntity (r0.h.entity 0) = some a0 ∧ sk'.GetEntity (r1.h.entity 0) = some a1 ∧
      a0.type = EntityType.ARC_OF_CIRCLE ∧ a1.type = EntityType.ARC_OF_CIRCLE ∧
      (sk'.GetEntity (a0.pointAt 0)).map Entity.PointGetNum = some ec.PointGetNum ∧
      (sk'.GetEntity (a0.pointAt 1)).map Entity.PointGetNum = some es.PointGetNum ∧
      (sk'.GetEntity (a0.pointAt 2)).map Entity.PointGetNum = some pinter ∧
      (sk'.GetEntity (a1.pointAt 0)).map Entity.PointGetNum = some ec.PointGetNum ∧
      (sk'.GetEntity (a1.pointAt 1)).map Entity.PointGetNum = some pinter ∧
      (sk'.GetEntity (a1.pointAt 2)).map Entity.PointGetNum = some ef.PointGetNum ∧
      sk'.constraint = sk.constraint.map f ++ [c] ∧
      c.summary = (ConstraintType.POINTS_COINCIDENT, sk.activeGroup, sk.activeWorkplane,
        a0.pointAt 2, a1.pointAt 1) ∧
      ∀ o : Constraint,
        (o.ptA = arc.pointAt 1 → (f o).ptA = a0.pointAt 1) ∧
        (o.ptB = arc.pointAt 1 → (f o).ptB = a0.pointAt 1) ∧
        (o.ptA = arc.pointAt 2 → (f o).ptA = a1.pointAt 2) ∧
        (o.ptB = arc.pointAt 2 → (f o).ptB = a1.pointAt 2) ∧
        (o.ptA ≠ arc.pointAt 1 → o.ptA ≠ arc.pointAt 2 → (f o).ptA = o.ptA) ∧
        (o.ptB ≠ arc.pointAt 1 → o.ptB ≠ arc.pointAt 2 → (f o).ptB = o.ptB) ∧
        { f o with ptA := o.ptA, ptB := o.ptB } = o := by
  have hne01 := requestNo_h_ne sk 0 1 RequestType.ARC_OF_CIRCLE RequestType.ARC_OF_CIRCLE
    (by decide)
  have p0 : ∀ i, i < 3 → (generatedEntity (requestNo sk 0 RequestType.ARC_OF_CIRCLE)).pointAt i
      = (requestNo sk 0 RequestType.ARC_OF_CIRCLE).h.entity (i + 1) :=
    fun i hi => generatedEntity_pointAt _ i hi
  have p1 : ∀ i, i < 3 → (generatedEntity (requestNo sk 1 RequestType.ARC_OF_CIRCLE)).pointAt i
      = (requestNo sk 1 RequestType.ARC_OF_CIRCLE).h.entity (i + 1) :=
    fun i hi => generatedEntity_pointAt _ i hi
  have hx := GetEntity_withAdded_explicit sk hown
  have htc : arc.type ≠ EntityType.CIRCLE := by rw [ht]; decide
  have heq := SplitCircle_arc_eq sk he pinter arc ec es ef hown h0 htc h1 h2 h3
  have hfresh : (requestNo sk 0 RequestType.ARC_OF_CIRCLE).h.entity 2 ≠ arc.pointAt 2 := by
    obtain ⟨hm, hh⟩ := GetEntity_mem sk _ _ h3
    have := fresh_entity sk hown (requestNo sk 0 RequestType.ARC_OF_CIRCLE).h 2
      (by simp only [requestNo]; omega) (by norm_num) ef hm
    rw [hh] at this
    exact this.symm
  obtain ⟨c, hc1, hc2, _⟩ := ConstrainCoincident_constraint
    (((withAdded sk
          [requestNo sk 0 RequestType.ARC_OF_CIRCLE, requestNo sk 1 RequestType.ARC_OF_CIRCLE]
          [generatedEntity (requestNo sk 0 RequestType.ARC_OF_CIRCLE),
           generatedPoint (requestNo sk 0 RequestType.ARC_OF_CIRCLE) 1 ec.numPoint,
           generatedPoint (requestNo sk 0 RequestType.ARC_OF_CIRCLE) 2 es.numPoint,
           generatedPoint (requestNo sk 0 RequestType.ARC_OF_CIRCLE) 3 pinter,
           generatedEntity (requestNo sk 1 RequestType.ARC_OF_CIRCLE),
           generatedPoint (requestNo sk 1 RequestType.ARC_OF_CIRCLE) 1 ec.numPoint,
           generatedPoint (requestNo sk 1 RequestType.ARC_OF_CIRCLE) 2 pinter,
           generatedPoint (requestNo sk 1 RequestType.ARC_OF_CIRCLE) 3 ef.numPoint]
        ).ReplacePointInConstraints (arc.pointAt 1)
            ((requestNo sk 0 RequestType.ARC_OF_CIRCLE).h.entity 2)).ReplacePointInConstraints
          (arc.pointAt 2) ((requestNo sk 1 RequestType.ARC_OF_CIRCLE).h.entity 3))
    ((requestNo sk 0 RequestType.ARC_OF_CIRCLE).h.entity 3)
    ((requestNo sk 1 RequestType.ARC_OF_CIRCLE).h.entity 2)
  rw [ReplacePointInConstraints_twice _ _ _ _ _ hfresh] at hc1
  refine ⟨_, requestNo sk 0 RequestType.ARC_OF_CIRCLE, requestNo sk 1 RequestType.ARC_OF_CIRCLE,
    generatedEntity (requestNo sk 0 RequestType.ARC_OF_CIRCLE),
    generatedEntity (requestNo sk 1 RequestType.ARC_OF_CIRCLE),
    (fun c => { c with
      ptA := repoint (arc.pointAt 1) ((requestNo sk 0 RequestType.ARC_OF_CIRCLE).h.entity 2)
        (arc.pointAt 2) ((requestNo sk 1 RequestType.ARC_OF_CIRCLE).h.entity 3) c.ptA,
      ptB := repoint (arc.pointAt 1) ((requestNo sk 0 RequestType.ARC_OF_CIRCLE).h.entity 2)
        (arc.pointAt 2) ((requestNo sk 1 RequestType.ARC_OF_CIRCLE).h.entity 3) c.ptB }),
    c, ?_, rfl, rfl, rfl, ?_, ?_, rfl, rfl, ?_, ?_, ?_, ?_, ?_, ?_, hc1, ?_, ?_⟩
  · rw [heq, p0 2 (by norm_num)]
  · simp only [GetEntity_ConstrainCoincident, GetEntity_ReplacePointInConstraints, hx,
      Nat.reduceLT, List.find?_cons, generatedEntity_h, decide_True]
  · simp only [GetEntity_ConstrainCoincident, GetEntity_ReplacePointInConstraints, hx,
      List.find?_cons, generatedEntity_h, generatedPoint_h, entity_eq_same,
      entity_eq_other _ _ hne01, decide_True, decide_False, Nat.reduceLT, Nat.reduceEqDiff,
      OfNat.ofNat_ne_zero, OfNat.zero_ne_ofNat]
  · simp only [GetEntity_ConstrainCoincident, GetEntity_ReplacePointInConstraints, hx,
      p0 0 (by norm_num), Nat.reduceLT, Nat.reduceAdd]
    simp [generatedEntity_h, generatedPoint_h, entity_eq_same,
      entity_eq_other _ _ hne01, entity_eq_other _ _ hne01.symm]
    rfl
  · simp only [GetEntity_ConstrainCoincident, GetEntity_ReplacePointInConstraints, hx,
      p0 1 (by norm_num), Nat.reduceLT, Nat.reduceAdd]
    simp [generatedEntity_h, generatedPoint_h, entity_eq_same,
      entity_eq_other _ _ hne01, entity_eq_other _ _ hne01.symm]
    rfl
  · simp only [GetEntity_ConstrainCoincident, GetEntity_ReplacePointInConstraints, hx,
      p0 2 (by norm_num), Nat.reduceLT, Nat.reduceAdd]
    simp [generatedEntity_h, generatedPoint_h, entity_eq_same,
      entity_eq_other _ _ hne01, entity_eq_other _ _ hne01.symm]
    rfl
  · simp only [GetEntity_ConstrainCoincident, GetEntity_ReplacePointInConstraints, hx,
      p1 0 (by norm_num), Nat.reduceLT, Nat.reduceAdd]
    simp [generatedEntity_h, generatedPoint_h, entity_eq_same,
      entity_eq_other _ _ hne01, entity_eq_other _ _ hne01.symm]
    rfl
  · simp only [GetEntity_ConstrainCoincident, GetEntity_ReplacePointInConstraints, hx,
      p1 1 (by norm_num), Nat.reduceLT, Nat.reduceAdd]
    simp [generatedEntity_h, generatedPoint_h, entity_eq_same,
      entity_eq_other _ _ hne01, entity_eq_other _ _ hne01.symm]
    rfl
  · simp only [GetEntity_ConstrainCoincident, GetEntity_ReplacePointInConstraints, hx,
      p1 2 (by norm_num), Nat.reduceLT, Nat.reduceAdd]
    simp [generatedEntity_h, generatedPoint_h, entity_eq_same,
      entity_eq_other _ _ hne01, entity_eq_other _ _ hne01.symm]
    rfl
  · rw [hc2, p0 2 (by norm_num), p1 1 (by norm_num)]
    rfl
  · intro o
    simp only [p0 1 (by norm_num), p1 2 (by norm_num), repoint]
    refine ⟨?_, ?_, ?_, ?_, ?_, ?_, ?_⟩
    · intro h; simp [h]
    · intro h; simp [h]
    · intro h; simp [h, hne.symm]
    · intro h; simp [h, hne.symm]
    · intro ha hb; simp [ha, hb]
    · intro ha hb; simp [ha, hb]
    · trivial

/-- Witness for C11: the arc example (centre `(0,0,0)`, start `(1,0,0)`, finish
`(0,1,0)`) split at the point `(3/5, 4/5, 0)`. -/
theorem SplitCircle_arc_witness :
    arcSketch.EntitiesOwned ∧
    (generatedEntity arcRequest).pointAt 1 ≠ (generatedEntity arcRequest).pointAt 2 ∧
    ∃ (sk' : Sketch) (r0 r1 : Request) (a0 a1 : Entity) (f : Constraint → Constraint)
      (c : Constraint),
      arcSketch.SplitCircle (arcRequest.h.entity 0) ⟨3 / 5, 4 / 5, 0⟩ = some (a0.pointAt 2, sk') ∧
      sk'.request = arcSketch.request ++ [r0, r1] ∧
      r0.type = RequestType.ARC_OF_CIRCLE ∧ r1.type = RequestType.ARC_OF_CIRCLE ∧
      sk'.GetEntity (r0.h.entity 0) = some a0 ∧ sk'.GetEntity (r1.h.entity 0) = some a1 ∧
      a0.type = EntityType.ARC_OF_CIRCLE ∧ a1.type = EntityType.ARC_OF_CIRCLE ∧
      (sk'.GetEntity (a0.pointAt 0)).map Entity.PointGetNum = some ⟨0, 0, 0⟩ ∧
      (sk'.GetEntity (a0.pointAt 1)).map Entity.PointGetNum = some ⟨1, 0, 0⟩ ∧
      (sk'.GetEntity (a0.pointAt 2)).map Entity.PointGetNum = some ⟨3 / 5, 4 / 5, 0⟩ ∧
      (sk'.GetEntity (a1.pointAt 0)).map Entity.PointGetNum = some ⟨0, 0, 0⟩ ∧
      (sk'.GetEntity (a1.pointAt 1)).map Entity.PointGetNum = some ⟨3 / 5, 4 / 5, 0⟩ ∧
      (sk'.GetEntity (a1.pointAt 2)).map Entity.PointGetNum = some ⟨0, 1, 0⟩ ∧
      sk'.constraint = arcSketch.constraint.map f ++ [c] ∧
      c.summary = (ConstraintType.POINTS_COINCIDENT, arcSketch.activeGroup,
        arcSketch.activeWorkplane, a0.pointAt 2, a1.pointAt 1) ∧
      ∀ o : Constraint,
        (o.ptA = (generatedEntity arcRequest).pointAt 1 → (f o).ptA = a0.pointAt 1) ∧
        (o.ptB = (generatedEntity arcRequest).pointAt 1 → (f o).ptB = a0.pointAt 1) ∧
        (o.ptA = (generatedEntity arcRequest).pointAt 2 → (f o).ptA = a1.pointAt 2) ∧
        (o.ptB = (generatedEntity arcRequest).pointAt 2 → (f o).ptB = a1.pointAt 2) ∧
        (o.ptA ≠ (generatedEntity arcRequest).pointAt 1 →
          o.ptA ≠ (generatedEntity arcRequest).pointAt 2 → (f o).ptA = o.ptA) ∧
        (o.ptB ≠ (generatedEntity arcRequest).pointAt 1 →
          o.ptB ≠ (generatedEntity arcRequest).pointAt 2 → (f o).ptB = o.ptB) ∧
        { f o with ptA := o.ptA, ptB := o.ptB } = o :=
  ⟨by unfold EntitiesOwned; decide, by decide,
    SplitCircle_arc arcSketch (arcRequest.h.entity 0) ⟨3 / 5, 4 / 5, 0⟩
      (generatedEntity arcRequest) (generatedPoint arcRequest 1 ⟨0, 0, 0⟩)
      (generatedPoint arcRequest 2 ⟨1, 0, 0⟩) (generatedPoint arcRequest 3 ⟨0, 1, 0⟩)
      (by unfold EntitiesOwned; decide) rfl rfl rfl rfl rfl (by decide)⟩

end Sketch
end SolveSpace

namespace SolveSpace
namespace Sketch

theorem tangencyCount_append (l l' : List Constraint) :
    tangencyCount (l ++ l') = tangencyCount l + tangencyCount l' := by
  simp [tangencyCount, List.countP_append]

theorem Adds.nothing (s : Sketch) : Adds s s [] :=
  ⟨by simp, rfl, rfl, rfl, rfl⟩

theorem Adds.andThen {a b c : Sketch} {l1 l2 : List Constraint} (h1 : Adds a b l1)
    (h2 : Adds b c l2) : Adds a c (l1 ++ l2) :=
  ⟨by rw [h2.constraint, h1.constraint, List.append_assoc],
    by rw [tangencyCount_append, h1.count, h2.count],
    h2.group.trans h1.group, h2.workplane.trans h1.workplane, h2.modify.trans h1.modify⟩

theorem Adds.ofAddRequest (s : Sketch) (t : RequestType) : Adds s (s.AddRequest t).2 [] :=
  ⟨by simp [Sketch.AddRequest], rfl, rfl, rfl, rfl⟩

theorem Adds.ofPointForceTo {s s' : Sketch} {h : hEntity} {p : Vector}
    (hs : s.PointForceTo h p = some s') : Adds s s' [] := by
  unfold Sketch.PointForceTo at hs
  cases hg : s.GetEntity h with
  | none => rw [hg] at hs; cases hs
  | some e =>
    rw [hg] at hs
    simp only [Option.some.injEq] at hs
    rw [← hs]
    exact ⟨by simp, rfl, rfl, rfl, rfl⟩

theorem Adds.ofCoincident {M : Math} {s s' : Sketch} {h : hEntity}
    (hs : s.ConstrainPointIfCoincident M h = some s') : ∃ cs, Adds s s' cs := by
  unfold Sketch.ConstrainPointIfCoincident at hs
  cases hg : s.GetEntity h with
  | none => rw [hg] at hs; cases hs
  | some e =>
    rw [hg] at hs
    simp only [Option.bind_eq_bind, Option.some_bind, Option.pure_def] at hs
    split at hs
    · simp only [Option.some.injEq] at hs
      rw [← hs]
      exact ⟨[_], rfl, rfl, rfl, rfl, rfl⟩
    · simp only [Option.some.injEq] at hs
      rw [← hs]
      exact ⟨[], Adds.nothing s⟩

theorem Adds.toTrimmed {sk s : Sketch} {cs : List Constraint} (h : Adds sk s cs)
    (t : ConstraintType) (a b c d : hEntity) (o o2 : Bool) :
    Trimmed sk (s.Constrain t a b c d o o2) cs (s.newConstraint t a b c d o o2) :=
  ⟨by simp only [Sketch.Constrain]; rw [h.constraint], h.count, h.modify, h.group, h.workplane⟩

theorem CreateRequestTrimmedTo_tangency (M : Math) (pc : ParametricCurve) (sk sk' : Sketch)
    (t : ℚ) (reuse : Bool) (orig arc : hEntity) (af pf : Bool)
    (hs : sk.CreateRequestTrimmedTo M pc t reuse orig arc af pf = some sk') :
    ∃ (cs : List Constraint) (tc : Constraint) (e : Entity),
      Trimmed sk sk' cs tc ∧
      tc.type = (if pc.isLine then ConstraintType.ARC_LINE_TANGENT
        else ConstraintType.CURVE_CURVE_TANGENT) ∧
      tc.entityA = arc ∧ tc.entityB = e.h ∧ tc.other = af ∧
      tc.other2 = (if pc.isLine then false else decide (pc.dtheta < 0)) ∧
      (reuse = true → sk.GetEntity orig = some e) ∧
      (reuse = false → (sk.AddRequest (if pc.isLine then RequestType.LINE_SEGMENT
          else RequestType.ARC_OF_CIRCLE)).2.GetEntity
        ((sk.AddRequest (if pc.isLine then RequestType.LINE_SEGMENT
          else RequestType.ARC_OF_CIRCLE)).1.entity 0) = some e) := by
  unfold Sketch.CreateRequestTrimmedTo at hs
  cases hl : pc.isLine <;> cases reuse <;>
    simp only [hl, Bool.false_eq_true, if_false, if_true, Option.bind_eq_bind,
      Option.bind_eq_some, Option.pure_def, Option.some.injEq] at hs
  · obtain ⟨e, he, s1, h1, hs⟩ := hs
    have key : ∀ (i j : Nat),
        ((s1.PointForceTo (e.pointAt i) (pc.PointAt M t)).bind fun sk =>
          (sk.PointForceTo (e.pointAt j) (pc.PointAt M 1)).bind fun y =>
            (Sketch.ConstrainPointIfCoincident M y (e.pointAt 0)).bind fun sk =>
              (Sketch.ConstrainPointIfCoincident M sk (e.pointAt 1)).bind fun sk =>
                (Sketch.ConstrainPointIfCoincident M sk (e.pointAt 2)).bind fun sk =>
                  some (sk.Constrain ConstraintType.CURVE_CURVE_TANGENT NO_ENTITY NO_ENTITY
                    arc e.h af (decide (pc.dtheta < 0)))) = some sk' →
        ∃ cs tc, Trimmed sk sk' cs tc ∧ tc.type = ConstraintType.CURVE_CURVE_TANGENT ∧
          tc.entityA = arc ∧ tc.entityB = e.h ∧ tc.other = af ∧
          tc.other2 = decide (pc.dtheta < 0) := by
      intro i j hh
      simp only [Option.bind_eq_some, Option.some.injEq] at hh
      obtain ⟨s2, h2, s3, h3, s4, h4, s5, h5, s6, h6, rfl⟩ := hh
      obtain ⟨c4, a4⟩ := Adds.ofCoincident h4
      obtain ⟨c5, a5⟩ := Adds.ofCoincident h5
      obtain ⟨c6, a6⟩ := Adds.ofCoincident h6
      exact ⟨_, _, ((((((Adds.ofAddRequest sk _).andThen (Adds.ofPointForceTo h1)).andThen
        (Adds.ofPointForceTo h2)).andThen (Adds.ofPointForceTo h3)).andThen a4).andThen a5).andThen a6
          |>.toTrimmed _ _ _ _ _ _ _, rfl, rfl, rfl, rfl, rfl⟩
    have hk : ∃ i j, ((s1.PointForceTo (e.pointAt i) (pc.PointAt M t)).bind fun sk =>
          (sk.PointForceTo (e.pointAt j) (pc.PointAt M 1)).bind fun y =>
            (Sketch.ConstrainPointIfCoincident M y (e.pointAt 0)).bind fun sk =>
              (Sketch.ConstrainPointIfCoincident M sk (e.pointAt 1)).bind fun sk =>
                (Sketch.ConstrainPointIfCoincident M sk (e.pointAt 2)).bind fun sk =>
                  some (sk.Constrain ConstraintType.CURVE_CURVE_TANGENT NO_ENTITY NO_ENTITY
                    arc e.h af (decide (pc.dtheta < 0)))) = some sk' := by
      split_ifs at hs
      · exact ⟨1, 2, hs⟩
      · exact ⟨2, 1, hs⟩
    obtain ⟨i, j, hk⟩ := hk
    obtain ⟨cs, tc, h1, h2, h3, h4, h5, h6⟩ := key i j hk
    exact ⟨cs, tc, e, h1, h2, h3, h4, h5, h6, (fun h => by cases h), fun _ => he⟩
  · obtain ⟨e, he, s1, h1, s2, h2, rfl⟩ := hs
    obtain ⟨c2, a2⟩ := Adds.ofCoincident h2
    exact ⟨_, _, e, ((Adds.ofPointForceTo h1).andThen a2).toTrimmed _ _ _ _ _ _ _, rfl, rfl, rfl, rfl,
      rfl, fun _ => he, fun h => by cases h⟩
  · obtain ⟨e, he, s1, h1, s2, h2, s3, h3, s4, h4, rfl⟩ := hs
    obtain ⟨c3, a3⟩ := Adds.ofCoincident h3
    obtain ⟨c4, a4⟩ := Adds.ofCoincident h4
    have a5 : Adds s4 (s4.Constrain ConstraintType.PT_ON_LINE
        ((sk.AddRequest RequestType.LINE_SEGMENT).1.entity 1) NO_ENTITY orig NO_ENTITY
        false false) [_] := ⟨rfl, rfl, rfl, rfl, rfl⟩
    exact ⟨_, _, e, ((((((Adds.ofAddRequest sk _).andThen (Adds.ofPointForceTo h1)).andThen
      (Adds.ofPointForceTo h2)).andThen a3).andThen a4).andThen a5).toTrimmed _ _ _ _ _ _ _,
      rfl, rfl, rfl, rfl, rfl, (fun h => by cases h), fun _ => he⟩
  · obtain ⟨e, he, s1, h1, s2, h2, rfl⟩ := hs
    obtain ⟨c2, a2⟩ := Adds.ofCoincident h2
    exact ⟨_, _, e, ((Adds.ofPointForceTo h1).andThen a2).toTrimmed _ _ _ _ _ _ _, rfl, rfl, rfl, rfl,
      rfl, fun _ => he, fun h => by cases h⟩

end Sketch
end SolveSpace

namespace SolveSpace
namespace Sketch

theorem Error_errors_ne (sk : Sketch) (msg : String) : (sk.Error msg).errors ≠ sk.errors := by
  intro h
  have := congrArg List.length h
  simp [Sketch.Error] at this

theorem MakeTangentArc_inv (M : Math) (sk sk' : Sketch) (h : MakeTangentArc M sk = some sk')
    (herr : sk'.errors = sk.errors) :
    ∃ (hp : hEntity) (ep : Entity) (ops : List Operand) (op0 op1 : Operand)
      (pc0 pc1 : ParametricCurve) (wn : Vector) (fit : ArcFit),
      sk.gs.point.head? = some hp ∧ sk.GetEntity hp = some ep ∧
      findOperands M sk.ClearSelection ep.PointGetNum sk.ClearSelection.request (0, [])
        = some (2, ops) ∧
      ops[0]? = some op0 ∧ ops[1]? = some op1 ∧
      ParametricCurve.MakeFromEntity M sk.ClearSelection op0.hent op0.pointf = some pc0 ∧
      ParametricCurve.MakeFromEntity M sk.ClearSelection op1.hent op1.pointf = some pc1 ∧
      arcCommit M sk.ClearSelection ep.PointGetNum op0 op1 pc0 pc1 wn fit = some sk' := by
  unfold MakeTangentArc at h
  by_cases hlock : (!sk.LockedInWorkplane) = true
  · rw [if_pos hlock] at h
    simp only [Option.pure_def, Option.bind_eq_bind, Option.some_bind, Option.some.injEq] at h
    subst h
    exact absurd herr (Error_errors_ne _ _)
  · rw [if_neg hlock] at h
    dsimp only [Option.pure_def, Option.bind_eq_bind, Option.some_bind] at h
    cases hsel : sk.gs.point.head? with
    | none => rw [hsel] at h; cases h
    | some hp =>
      rw [hsel] at h
      rw [Option.some_bind] at h
      cases hep : sk.GetEntity hp with
      | none => rw [hep] at h; cases h
      | some ep =>
        rw [hep] at h
        rw [Option.some_bind] at h
        cases hops : findOperands M sk.ClearSelection ep.PointGetNum sk.ClearSelection.request
            (0, []) with
        | none => rw [hops] at h; cases h
        | some co =>
          obtain ⟨c, ops⟩ := co
          rw [hops] at h
          rw [Option.some_bind] at h
          by_cases hc : c ≠ 2
          · rw [if_pos hc] at h
            simp only [Option.some.injEq] at h
            subst h
            exact absurd herr (Error_errors_ne _ _)
          · rw [if_neg hc] at h
            have hc2 : c = 2 := not_not.mp hc
            subst hc2
            cases h0 : ops[0]? with
            | none => rw [h0] at h; cases h
            | some op0 =>
              rw [h0] at h
              rw [Option.some_bind] at h
              cases h1 : ops[1]? with
              | none => rw [h1] at h; cases h
              | some op1 =>
                rw [h1] at h
                rw [Option.some_bind] at h
                cases hw : sk.ClearSelection.GetEntity sk.ClearSelection.activeWorkplane with
                | none => rw [hw] at h; cases h
                | some wrkpl =>
                  rw [hw] at h
                  rw [Option.some_bind] at h
                  cases hn : sk.ClearSelection.GetEntity wrkpl.normal with
                  | none => rw [hn] at h; cases h
                  | some en =>
                    rw [hn] at h
                    rw [Option.some_bind] at h
                    cases hpc0 : ParametricCurve.MakeFromEntity M sk.ClearSelection op0.hent
                        op0.pointf with
                    | none => rw [hpc0] at h; cases h
                    | some pc0 =>
                      rw [hpc0] at h
                      rw [Option.some_bind] at h
                      cases hpc1 : ParametricCurve.MakeFromEntity M sk.ClearSelection op1.hent
                          op1.pointf with
                      | none => rw [hpc1] at h; cases h
                      | some pc1 =>
                        rw [hpc1] at h
                        rw [Option.some_bind] at h
                        by_cases hrej : arcFitRejected M
                            (arcFit M sk.ClearSelection pc0 pc1 en.numN) = true
                        · rw [if_pos hrej] at h
                          have h' := Option.some.inj h
                          rw [← h'] at herr
                          exact absurd herr (Error_errors_ne _ _)
                        · rw [if_neg hrej] at h
                          exact ⟨hp, ep, ops, op0, op1, pc0, pc1, _, _, rfl, hep, hops, h0, h1, hpc0,
                            hpc1, h⟩

theorem isTangency_untag (c : Constraint) : isTangency (untag c) = isTangency c := rfl

theorem filter_isTangency_clear (l : List Constraint) :
    (clearConstraintTags l).filter isTangency = (l.filter isTangency).map untag := by
  induction l with
  | nil => rfl
  | cons c l ih =>
    have ih' : List.filter isTangency (List.map untag l)
        = List.map untag (List.filter isTangency l) := ih
    show List.filter isTangency (untag c :: List.map untag l) = _
    rw [List.filter_cons, List.filter_cons, isTangency_untag]
    cases isTangency c
    · simpa using ih'
    · simpa using ih'

theorem tagCoincidentAt_filter (M : Math) (sk : Sketch) (p : Vector) :
    ∀ (l cs : List Constraint), tagCoincidentAt M sk p l = some cs → (∀ c ∈ l, c.tag = 0) →
      (removeTaggedConstraints cs).filter isTangency = l.filter isTangency := by
  intro l
  induction l with
  | nil =>
    intro cs h _
    simp only [tagCoincidentAt, Option.some.injEq] at h
    subst h
    rfl
  | cons c l ih =>
    intro cs h ht
    have hc0 : c.tag = 0 := ht c (List.mem_cons_self _ _)
    have keep : ∀ a, tagCoincidentAt M sk p l = some a →
        (removeTaggedConstraints (c :: a)).filter isTangency = (c :: l).filter isTangency := by
      intro a ha
      have := ih a ha (fun c hc => ht c (List.mem_cons_of_mem _ hc))
      simp only [removeTaggedConstraints] at this ⊢
      rw [List.filter_cons, if_pos (by simp [hc0]), List.filter_cons, List.filter_cons, this]
    simp only [tagCoincidentAt] at h
    split_ifs at h with h1 h2 h3
    · simp only [Option.map_eq_some'] at h
      obtain ⟨a, ha, rfl⟩ := h
      exact keep a ha
    · simp only [Option.map_eq_some'] at h
      obtain ⟨a, ha, rfl⟩ := h
      exact keep a ha
    · simp only [Option.map_eq_some'] at h
      obtain ⟨a, ha, rfl⟩ := h
      exact keep a ha
    · simp only [Option.bind_eq_bind, Option.bind_eq_some, Option.map_eq_some'] at h
      obtain ⟨pa, -, a, ha, rfl⟩ := h
      have hty : c.type = ConstraintType.POINTS_COINCIDENT := not_not.mp h3
      have hn : isTangency c = false := by simp [isTangency, hty]
      have := ih a ha (fun c hc => ht c (List.mem_cons_of_mem _ hc))
      simp only [removeTaggedConstraints] at this ⊢
      have key : ∀ c' : Constraint, isTangency c' = false →
          List.filter isTangency (List.filter (fun c => decide (c.tag = 0)) (c' :: a))
            = List.filter isTangency (c :: l) := by
        intro c' hc'
        have e2 : List.filter isTangency (c :: l) = List.filter isTangency l := by
          rw [List.filter_cons, hn]; rfl
        rw [e2, List.filter_cons]
        split_ifs
        · rw [List.filter_cons, hc']; exact this
        · exact this
      apply key
      split_ifs
      · exact hn
      · exact hn

theorem untag_untag (c : Constraint) : untag (untag c) = untag c := rfl

theorem setConstruction_same (sk sk' : Sketch) (hr : hRequest)
    (h : sk.setConstruction hr = some sk') :
    sk'.constraint = sk.constraint ∧ sk'.activeGroup = sk.activeGroup ∧
      sk'.activeWorkplane = sk.activeWorkplane ∧ sk'.tangentArcModify = sk.tangentArcModify := by
  unfold setConstruction at h
  cases hg : sk.GetRequest hr with
  | none => rw [hg] at h; cases h
  | some r =>
    rw [hg] at h
    simp only [Option.some.injEq] at h
    subst h
    exact ⟨rfl, rfl, rfl, rfl⟩

theorem arcPrepare_tangency (M : Math) (sk sk' : Sketch) (p : Vector) (op0 op1 : Operand)
    (h : arcPrepare M sk p op0 op1 = some sk') :
    (sk'.constraint.filter isTangency).map untag = (sk.constraint.filter isTangency).map untag ∧
      sk'.activeGroup = sk.activeGroup ∧ sk'.activeWorkplane = sk.activeWorkplane ∧
      sk'.tangentArcModify = sk.tangentArcModify := by
  unfold arcPrepare at h
  cases hm : sk.tangentArcModify with
  | true =>
    simp only [hm, if_true, Option.bind_eq_bind, Option.bind_eq_some, Option.pure_def,
      Option.some.injEq] at h
    obtain ⟨cs, hcs, rfl⟩ := h
    refine ⟨?_, rfl, rfl, rfl⟩
    have := tagCoincidentAt_filter M sk p _ cs hcs (by
      intro c hc
      simp only [clearConstraintTags, List.mem_map] at hc
      obtain ⟨c0, -, rfl⟩ := hc
      rfl)
    show List.map untag (List.filter isTangency (removeTaggedConstraints cs)) = _
    rw [this, filter_isTangency_clear, List.map_map]
    rfl
  | false =>
    simp only [hm, Bool.false_eq_true, if_false, Option.bind_eq_bind, Option.bind_eq_some] at h
    obtain ⟨s1, h1, h2⟩ := h
    obtain ⟨a1, b1, c1, d1⟩ := setConstruction_same _ _ _ h1
    obtain ⟨a2, b2, c2, d2⟩ := setConstruction_same _ _ _ h2
    exact ⟨by rw [a2, a1], b2.trans b1, c2.trans c1, (d2.trans d1).trans hm⟩

theorem arcCreate_Adds (M : Math) (sk sk' : Sketch) (pc0 pc1 : ParametricCurve) (fit : ArcFit)
    (a b : Nat) (center : Vector) (harc : hEntity)
    (h : arcCreate M sk pc0 pc1 fit a b center = some (harc, sk')) : Adds sk sk' [] := by
  unfold arcCreate at h
  simp only [Option.bind_eq_bind, Option.bind_eq_some, Option.pure_def, Option.some.injEq,
    Prod.mk.injEq] at h
  obtain ⟨e, -, s1, h1, s2, h2, s3, h3, -, rfl⟩ := h
  exact (((Adds.ofAddRequest sk _).andThen (Adds.ofPointForceTo h1)).andThen
    (Adds.ofPointForceTo h2)).andThen (Adds.ofPointForceTo h3)

/-- What a call of `arcCommit` that returns does to the constraint list. -/
theorem arcCommit_tangency (M : Math) (sk sk' : Sketch) (p : Vector) (op0 op1 : Operand)
    (pc0 pc1 : ParametricCurve) (wn : Vector) (fit : ArcFit)
    (h : arcCommit M sk p op0 op1 pc0 pc1 wn fit = some sk') :
    ∃ (base cs0 cs1 : List Constraint) (tc0 tc1 : Constraint) (e0 e1 : Entity),
      sk'.constraint = base ++ cs0 ++ [tc0] ++ cs1 ++ [tc1] ∧
      (base.filter isTangency).map untag = (sk.constraint.filter isTangency).map untag ∧
      tangencyCount cs0 = 0 ∧ tangencyCount cs1 = 0 ∧
      tc0.type = (if pc0.isLine then ConstraintType.ARC_LINE_TANGENT
        else ConstraintType.CURVE_CURVE_TANGENT) ∧
      tc1.type = (if pc1.isLine then ConstraintType.ARC_LINE_TANGENT
        else ConstraintType.CURVE_CURVE_TANGENT) ∧
      tc0.entityA = tc1.entityA ∧ tc0.entityB = e0.h ∧ tc1.entityB = e1.h ∧
      (sk.tangentArcModify = true → e0.h = op0.hent ∧ e1.h = op1.hent) ∧
      tc0.other2 = (if pc0.isLine then false else decide (pc0.dtheta < 0)) ∧
      tc1.other2 = (if pc1.isLine then false else decide (pc1.dtheta < 0)) := by
  unfold arcCommit at h
  simp only [Option.bind_eq_bind, Option.bind_eq_some, Prod.exists] at h
  obtain ⟨s1, h1, harc, s2, h2, s3, h3, h4⟩ := h
  obtain ⟨f1, g1, w1, m1⟩ := arcPrepare_tangency M _ _ _ _ _ h1
  have a2 := arcCreate_Adds M _ _ _ _ _ _ _ _ _ h2
  obtain ⟨cs0, tc0, e0, t3, ty0, ea0, eb0, -, o20, r0, -⟩ :=
    CreateRequestTrimmedTo_tangency M _ _ _ _ _ _ _ _ _ h3
  obtain ⟨cs1, tc1, e1, t4, ty1, ea1, eb1, -, o21, r1, -⟩ :=
    CreateRequestTrimmedTo_tangency M _ _ _ _ _ _ _ _ _ h4
  refine ⟨s1.constraint, cs0, cs1, tc0, tc1, e0, e1, ?_, f1, t3.count, t4.count, ty0, ty1,
    ea0.trans ea1.symm, eb0, eb1, ?_, o20, o21⟩
  · rw [t4.constraint, t3.constraint, a2.constraint, List.append_nil]
  · intro hm
    have hm2 : s2.tangentArcModify = true := by rw [a2.modify, m1]; exact hm
    have hm3 : s3.tangentArcModify = true := by rw [t3.modify]; exact hm2
    exact ⟨(GetEntity_mem _ _ _ (r0 hm2)).2, (GetEntity_mem _ _ _ (r1 hm3)).2⟩

theorem PointForceTo_isSome (sk : Sketch) (h : hEntity) (p : Vector)
    (he : (sk.GetEntity h).isSome = true) :
    ∃ sk', sk.PointForceTo h p = some sk' ∧
      ∀ h', (sk.GetEntity h').isSome = true → (sk'.GetEntity h').isSome = true := by
  obtain ⟨e, he⟩ := Option.isSome_iff_exists.mp he
  obtain ⟨sk', h1, h2, -⟩ := GetEntity_PointForceTo sk h p e he
  refine ⟨sk', h1, fun h' hh => ?_⟩
  rw [h2]
  split_ifs
  · rfl
  · exact hh

theorem ConstrainPointIfCoincident_isSome (M : Math) (sk : Sketch) (h : hEntity)
    (he : (sk.GetEntity h).isSome = true) :
    ∃ sk', sk.ConstrainPointIfCoincident M h = some sk' ∧
      ∀ h', (sk.GetEntity h').isSome = true → (sk'.GetEntity h').isSome = true := by
  obtain ⟨e, he⟩ := Option.isSome_iff_exists.mp he
  unfold Sketch.ConstrainPointIfCoincident
  rw [he]
  simp only [Option.bind_eq_bind, Option.some_bind, Option.pure_def]
  split
  · exact ⟨_, rfl, fun h' hh => hh⟩
  · exact ⟨_, rfl, fun h' hh => hh⟩

/-- `CreateRequestTrimmedTo` returns: the entities it looks up exist, when the
entities of the sketch belong to its requests and, on reuse, the original curve
and the end point that is moved exist. -/
theorem CreateRequestTrimmedTo_returns (M : Math) (pc : ParametricCurve) (sk : Sketch) (t : ℚ)
    (reuse : Bool) (orig arc : hEntity) (af pf : Bool) (hown : sk.EntitiesOwned)
    (hreuse : reuse = true → ∃ e pe, sk.GetEntity orig = some e ∧
      sk.GetEntity (e.pointAt (if pc.isLine then (if pf then 1 else 0)
        else (if pf then 2 else 1))) = some pe) :
    ∃ sk', sk.CreateRequestTrimmedTo M pc t reuse orig arc af pf = some sk' := by
  cases hl : pc.isLine with
  | true =>
    obtain ⟨sk', h, -⟩ := CreateRequestTrimmedTo_line M pc sk t reuse orig arc af pf
      (fun _ => False) hl hown (fun _ h => h.elim) (by
        intro hr
        obtain ⟨e, pe, h1, h2⟩ := hreuse hr
        rw [hl, if_pos rfl] at h2
        exact ⟨e, pe, h1, h2, fun h => h⟩)
    exact ⟨sk', h⟩
  | false =>
    unfold Sketch.CreateRequestTrimmedTo
    rw [hl, if_neg (by decide)]
    cases reuse with
    | true =>
      obtain ⟨e, pe, h1, h2⟩ := hreuse rfl
      rw [hl, if_neg (by decide)] at h2
      obtain ⟨s1, hs1, k1⟩ := PointForceTo_isSome sk _ (pc.PointAt M t)
        (Option.isSome_iff_exists.mpr ⟨pe, h2⟩)
      obtain ⟨s2, hs2, -⟩ := ConstrainPointIfCoincident_isSome M s1
        (e.pointAt (if pf then 2 else 1)) (k1 _ (Option.isSome_iff_exists.mpr ⟨pe, h2⟩))
      rw [if_pos rfl, h1]
      simp only [Option.bind_eq_bind, Option.some_bind, Option.pure_def]
      rw [hs1]
      simp only [Option.some_bind]
      rw [hs2]
      simp only [Option.some_bind]
      exact ⟨_, rfl⟩
    | false =>
      obtain ⟨h0, h1, h2, h3⟩ := GetEntity_AddRequest_arc sk hown
      have hp0 : (generatedEntity (sk.newRequest RequestType.ARC_OF_CIRCLE)).pointAt 0
          = (sk.newRequest RequestType.ARC_OF_CIRCLE).h.entity 1 :=
        generatedEntity_pointAt _ 0 (show 0 < requestPoints RequestType.ARC_OF_CIRCLE by decide)
      have hp1 : (generatedEntity (sk.newRequest RequestType.ARC_OF_CIRCLE)).pointAt 1
          = (sk.newRequest RequestType.ARC_OF_CIRCLE).h.entity 2 :=
        generatedEntity_pointAt _ 1 (show 1 < requestPoints RequestType.ARC_OF_CIRCLE by decide)
      have hp2 : (generatedEntity (sk.newRequest RequestType.ARC_OF_CIRCLE)).pointAt 2
          = (sk.newRequest RequestType.ARC_OF_CIRCLE).h.entity 3 :=
        generatedEntity_pointAt _ 2 (show 2 < requestPoints RequestType.ARC_OF_CIRCLE by decide)
      have i1 := Option.isSome_iff_exists.mpr ⟨_, h1⟩
      have i2 := Option.isSome_iff_exists.mpr ⟨_, h2⟩
      have i3 := Option.isSome_iff_exists.mpr ⟨_, h3⟩
      obtain ⟨s1, hs1, k1⟩ := PointForceTo_isSome _ _ pc.p0 i1
      rw [if_neg (by decide), AddRequest_pair]
      simp only [Option.bind_eq_bind, Option.pure_def]
      rw [h0]
      simp only [Option.some_bind, hp0, hp1, hp2]
      rw [hs1]
      simp only [Option.some_bind]
      by_cases hd : pc.dtheta > 0
      · obtain ⟨s2, hs2, k2⟩ := PointForceTo_isSome s1 _ (pc.PointAt M t) (k1 _ i2)
        obtain ⟨s3, hs3, k3⟩ := PointForceTo_isSome s2 _ (pc.PointAt M 1) (k2 _ (k1 _ i3))
        obtain ⟨s4, hs4, k4⟩ := ConstrainPointIfCoincident_isSome M s3 _
          (k3 _ (k2 _ (k1 _ i1)))
        obtain ⟨s5, hs5, k5⟩ := ConstrainPointIfCoincident_isSome M s4 _
          (k4 _ (k3 _ (k2 _ (k1 _ i2))))
        obtain ⟨s6, hs6, k6⟩ := ConstrainPointIfCoincident_isSome M s5 _
          (k5 _ (k4 _ (k3 _ (k2 _ (k1 _ i3)))))
        rw [if_pos hd, hs2]
        simp only [Option.some_bind]
        rw [hs3]
        simp only [Option.some_bind]
        rw [hs4]
        simp only [Option.some_bind]
        rw [hs5]
        simp only [Option.some_bind]
        rw [hs6]
        simp only [Option.some_bind]
        exact ⟨_, rfl⟩
      · obtain ⟨s2, hs2, k2⟩ := PointForceTo_isSome s1 _ (pc.PointAt M t) (k1 _ i3)
        obtain ⟨s3, hs3, k3⟩ := PointForceTo_isSome s2 _ (pc.PointAt M 1) (k2 _ (k1 _ i2))
        obtain ⟨s4, hs4, k4⟩ := ConstrainPointIfCoincident_isSome M s3 _
          (k3 _ (k2 _ (k1 _ i1)))
        obtain ⟨s5, hs5, k5⟩ := ConstrainPointIfCoincident_isSome M s4 _
          (k4 _ (k3 _ (k2 _ (k1 _ i2))))
        obtain ⟨s6, hs6, k6⟩ := ConstrainPointIfCoincident_isSome M s5 _
          (k5 _ (k4 _ (k3 _ (k2 _ (k1 _ i3)))))
        rw [if_neg hd, hs2]
        simp only [Option.some_bind]
        rw [hs3]
        simp only [Option.some_bind]
        rw [hs4]
        simp only [Option.some_bind]
        rw [hs5]
        simp only [Option.some_bind]
        rw [hs6]
        simp only [Option.some_bind]
        exact ⟨_, rfl⟩

theorem MakeTangentArc_corner_returns (M : Math) (hM : ExactMath M) (sk : Sketch)
    (hp : hEntity) (ep : Entity) (op0 op1 : Operand) (wrkpl en : Entity)
    (pc0 pc1 : ParametricCurve) (L : ℚ)
    (hlock : sk.LockedInWorkplane = true)
    (hsel : sk.gs.point.head? = some hp) (hep : sk.GetEntity hp = some ep)
    (hops : findOperands M sk ep.PointGetNum sk.request (0, []) = some (2, [op0, op1]))
    (hw : sk.GetEntity sk.activeWorkplane = some wrkpl)
    (hn : sk.GetEntity wrkpl.normal = some en)
    (hpc0 : ParametricCurve.MakeFromEntity M sk op0.hent op0.pointf = some pc0)
    (hpc1 : ParametricCurve.MakeFromEntity M sk op1.hent op1.pointf = some pc1)
    (hc : RightCorner pc0 pc1 en.numN L)
    (hman : sk.tangentArcManual = true)
    (hr1 : L / 100 ≤ sk.tangentArcRadius) (hr2 : sk.tangentArcRadius ≤ 99 * L / 100)
    (hown : sk.EntitiesOwned)
    (hcs : sk.tangentArcModify = true → ∀ c ∈ sk.constraint, c.group = sk.activeGroup →
      c.workplane = sk.activeWorkplane → c.type = ConstraintType.POINTS_COINCIDENT →
      (sk.GetEntity c.ptA).isSome = true) :
    ∃ sk', MakeTangentArc M sk = some sk' ∧ sk'.errors = sk.errors := by
  have hpos : 0 < L := hc.pos
  have hr : 0 < sk.tangentArcRadius := lt_of_lt_of_le (by positivity) hr1
  have hfit := arcFit_corner M hM sk pc0 pc1 en.numN L hc hman
  have hrej : arcFitRejected M (arcFit M sk pc0 pc1 en.numN) = false := by
    rw [hfit]
    exact arcFitRejected_corner M hM L _ hpos hr1 hr2 _ _
  obtain ⟨a, b, center, hac, hab, -, -⟩ :=
    arcCentre_corner M hM pc0 pc1 en.numN L _ hc hr _ hfit
  obtain ⟨e0, q00, q01, he0, hq00, hq01⟩ := MakeFromEntity_line M sk _ _ _ hpc0 hc.line0
  obtain ⟨e1, q10, q11, he1, hq10, hq11⟩ := MakeFromEntity_line M sk _ _ _ hpc1 hc.line1
  have hsome : ∀ (op : Operand) (e q0 q1 : Entity), sk.GetEntity op.hent = some e →
      sk.GetEntity (e.pointAt 0) = some q0 → sk.GetEntity (e.pointAt 1) = some q1 →
      sk.ClearSelection.tangentArcModify = true →
      ∃ e q, sk.ClearSelection.GetEntity op.hent = some e ∧
        sk.ClearSelection.GetEntity (e.pointAt (if op.pointf then 1 else 0)) = some q := by
    intro op e q0 q1 h h0 h1 _
    cases op.pointf with
    | true => exact ⟨e, q1, h, h1⟩
    | false => exact ⟨e, q0, h, h0⟩
  obtain ⟨sk', rq, hcommit, herr, -⟩ :=
    arcCommit_spec M sk.ClearSelection ep.PointGetNum op0 op1 pc0 pc1 en.numN
      (arcFit M sk pc0 pc1 en.numN) a b center hac hab hown hc.line0 hc.line1 hcs
      (hsome op0 e0 q00 q01 he0 hq00 hq01) (hsome op1 e1 q10 q11 he1 hq10 hq11)
      (fun _ => ⟨findOperands_GetRequest M sk _ _ _ hops op0 (by simp),
        findOperands_GetRequest M sk _ _ _ hops op1 (by simp)⟩)
  refine ⟨sk', ?_, herr⟩
  rw [MakeTangentArc_eq M sk hp ep op0 op1 wrkpl en pc0 pc1 hlock hsel hep hops hw hn hpc0 hpc1,
    if_neg (by rw [hrej]; decide)]
  exact hcommit

theorem tangencyCount_of_filter (l l' : List Constraint)
    (h : (l.filter isTangency).map untag = (l'.filter isTangency).map untag) :
    tangencyCount l = tangencyCount l' := by
  have := congrArg List.length h
  simp only [List.length_map] at this
  simp only [tangencyCount, List.countP_eq_length_filter]
  exact this

theorem tangencyCount_single (c : Constraint) (pl : Bool)
    (h : c.type = if pl then ConstraintType.ARC_LINE_TANGENT
      else ConstraintType.CURVE_CURVE_TANGENT) : tangencyCount [c] = 1 := by
  cases pl <;> simp [tangencyCount, isTangency, h]

/-- Claim C19.  A call of `ParametricCurve::CreateRequestTrimmedTo` on a sketch
whose entities belong to its requests (and, on reuse, whose original curve and
moved end point exist) returns, and appends to the constraint list constraints
that are no tangency followed by exactly one tangency constraint: its `entityA`
is the arc, its `entityB` the original curve (reuse) or the entity of the new
request, its `other` is `arcFinish`; it is `ARC_LINE_TANGENT` with
`other2 = false` for a line and `CURVE_CURVE_TANGENT` with `other2 = (dtheta < 0)`
for an arc.  And a `MakeTangentArc` that returns without an error message leaves
the tangency constraints that were there and appends exactly two, one for each
of the two curves found at the vertex, both with the same `entityA`. -/
theorem CreateRequestTrimmedTo_one_tangency (M : Math) :
    (∀ (pc : ParametricCurve) (sk : Sketch) (t : ℚ) (reuse : Bool) (orig arc : hEntity)
        (af pf : Bool), sk.EntitiesOwned →
      (reuse = true → ∃ e pe, sk.GetEntity orig = some e ∧
        sk.GetEntity (e.pointAt (if pc.isLine then (if pf then 1 else 0)
          else (if pf then 2 else 1))) = some pe) →
      ∃ (sk' : Sketch) (cs : List Constraint) (tc : Constraint),
        sk.CreateRequestTrimmedTo M pc t reuse orig arc af pf = some sk' ∧
        sk'.constraint = sk.constraint ++ cs ++ [tc] ∧ tangencyCount cs = 0 ∧
        tangencyCount sk'.constraint = tangencyCount sk.constraint + 1 ∧
        tc.type = (if pc.isLine then ConstraintType.ARC_LINE_TANGENT
          else ConstraintType.CURVE_CURVE_TANGENT) ∧
        tc.entityA = arc ∧
        tc.entityB = (if reuse then orig
          else (sk.newRequest (if pc.isLine then RequestType.LINE_SEGMENT
            else RequestType.ARC_OF_CIRCLE)).h.entity 0) ∧
        tc.other = af ∧
        tc.other2 = (if pc.isLine then false else decide (pc.dtheta < 0))) ∧
    (∀ (s s' : Sketch), MakeTangentArc M s = some s' → s'.errors = s.errors →
      ∃ (base cs0 cs1 : List Constraint) (tc0 tc1 : Constraint) (hp : hEntity) (ep : Entity)
        (ops : List Operand) (op0 op1 : Operand) (pc0 pc1 : ParametricCurve),
        s'.constraint = base ++ cs0 ++ [tc0] ++ cs1 ++ [tc1] ∧
        (base.filter isTangency).map untag = (s.constraint.filter isTangency).map untag ∧
        tangencyCount cs0 = 0 ∧ tangencyCount cs1 = 0 ∧
        tangencyCount s'.constraint = tangencyCount s.constraint + 2 ∧
        s.gs.point.head? = some hp ∧ s.GetEntity hp = some ep ∧
        findOperands M s ep.PointGetNum s.request (0, []) = some (2, ops) ∧
        ops[0]? = some op0 ∧ ops[1]? = some op1 ∧
        ParametricCurve.MakeFromEntity M s op0.hent op0.pointf = some pc0 ∧
        ParametricCurve.MakeFromEntity M s op1.hent op1.pointf = some pc1 ∧
        tc0.type = (if pc0.isLine then ConstraintType.ARC_LINE_TANGENT
          else ConstraintType.CURVE_CURVE_TANGENT) ∧
        tc1.type = (if pc1.isLine then ConstraintType.ARC_LINE_TANGENT
          else ConstraintType.CURVE_CURVE_TANGENT) ∧
        tc0.other2 = (if pc0.isLine then false else decide (pc0.dtheta < 0)) ∧
        tc1.other2 = (if pc1.isLine then false else decide (pc1.dtheta < 0)) ∧
        tc0.entityA = tc1.entityA ∧
        (s.tangentArcModify = true → tc0.entityB = op0.hent ∧ tc1.entityB = op1.hent)) := by
  constructor
  · intro pc sk t reuse orig arc af pf hown hreuse
    obtain ⟨sk', hs⟩ := CreateRequestTrimmedTo_returns M pc sk t reuse orig arc af pf hown hreuse
    obtain ⟨cs, tc, e, tr, ty, ea, eb, ot, o2, r1, r0⟩ :=
      CreateRequestTrimmedTo_tangency M pc sk sk' t reuse orig arc af pf hs
    refine ⟨sk', cs, tc, hs, tr.constraint, tr.count, ?_, ty, ea, ?_, ot, o2⟩
    · rw [tr.constraint, tangencyCount_append, tangencyCount_append, tr.count,
        tangencyCount_single tc pc.isLine ty]
    · rw [eb]
      cases reuse with
      | true => exact (GetEntity_mem _ _ _ (r1 rfl)).2
      | false => exact (GetEntity_mem _ _ _ (r0 rfl)).2
  · intro s s' h herr
    obtain ⟨hp, ep, ops, op0, op1, pc0, pc1, wn, fit, hsel, hep, hops, h0, h1, hpc0, hpc1, hc⟩ :=
      MakeTangentArc_inv M s s' h herr
    obtain ⟨base, cs0, cs1, tc0, tc1, e0, e1, hcon, hbase, c0, c1, ty0, ty1, ea, eb0, eb1, hm,
      o0, o1⟩ := arcCommit_tangency M _ _ _ _ _ _ _ _ _ hc
    refine ⟨base, cs0, cs1, tc0, tc1, hp, ep, ops, op0, op1, pc0, pc1, hcon, hbase, c0, c1, ?_,
      hsel, hep, ?_, h0, h1, hpc0, hpc1, ty0, ty1, o0, o1, ea, ?_⟩
    · rw [hcon]
      simp only [tangencyCount_append, c0, c1,
        tangencyCount_single tc0 pc0.isLine ty0,
        tangencyCount_single tc1 pc1.isLine ty1]
      rw [tangencyCount_of_filter base s.constraint hbase]
    · rw [← findOperands_ClearSelection]
      exact hops
    · intro hmod
      obtain ⟨x, y⟩ := hm hmod
      exact ⟨eb0.trans x, eb1.trans y⟩

/-- Witness for C19: on the corner example, the first segment is trimmed to the
parameter `1/4` with reuse, and `MakeTangentArc` with the radius 1 returns
without an error message. -/
theorem CreateRequestTrimmedTo_one_tangency_witness :
    (cornerSketch 1 true).EntitiesOwned ∧
    (∃ (sk' : Sketch) (cs : List Constraint) (tc : Constraint),
      (cornerSketch 1 true).CreateRequestTrimmedTo cornerMath cornerCurve0 (1 / 4) true
        ((cornerLine 2).h.entity 0) ((cornerLine 4).h.entity 0) false false = some sk' ∧
      sk'.constraint = (cornerSketch 1 true).constraint ++ cs ++ [tc] ∧ tangencyCount cs = 0 ∧
      tangencyCount sk'.constraint = tangencyCount (cornerSketch 1 true).constraint + 1 ∧
      tc.type = ConstraintType.ARC_LINE_TANGENT ∧
      tc.entityA = (cornerLine 4).h.entity 0 ∧
      tc.entityB = (cornerLine 2).h.entity 0 ∧
      tc.other = false ∧ tc.other2 = false) ∧
    ∃ s', MakeTangentArc cornerMath (cornerSketch 1 false) = some s' ∧
      s'.errors = (cornerSketch 1 false).errors ∧
      tangencyCount s'.constraint = tangencyCount (cornerSketch 1 false).constraint + 2 := by
  refine ⟨cornerSketch_owned 1 true,
    (CreateRequestTrimmedTo_one_tangency cornerMath).1 cornerCurve0 (cornerSketch 1 true) (1 / 4)
      true ((cornerLine 2).h.entity 0) ((cornerLine 4).h.entity 0) false false
      (cornerSketch_owned 1 true) (fun _ => ⟨_, _, rfl, rfl⟩), ?_⟩
  obtain ⟨s', h, he⟩ := MakeTangentArc_corner_returns cornerMath cornerMath_exact
    (cornerSketch 1 false) ((cornerLine 2).h.entity 1) (generatedPoint (cornerLine 2) 1 ⟨0, 0, 0⟩)
    ⟨(cornerLine 2).h.entity 0, (cornerLine 2).h, false⟩
    ⟨(cornerLine 3).h.entity 0, (cornerLine 3).h, false⟩
    cornerPlane cornerNormal cornerCurve0 cornerCurve1 4 rfl rfl rfl
    (cornerSketch_operands 1 false) rfl rfl (cornerSketch_curve0 1 false)
    (cornerSketch_curve1 1 false) cornerSketch_corner rfl (by norm_num [cornerSketch])
    (by norm_num [cornerSketch]) (cornerSketch_owned 1 false) (fun h => by cases h)
  obtain ⟨base, cs0, cs1, tc0, tc1, hp, ep, ops, op0, op1, pc0, pc1, -, -, -, -, hcount, -⟩ :=
    (CreateRequestTrimmedTo_one_tangency cornerMath).2 (cornerSketch 1 false) s' h he
  exact ⟨s', h, he, hcount⟩

end Sketch
end SolveSpace

namespace SolveSpace
namespace BandedMatrix

theorem offDiag_nonneg (m : BandedMatrix ℚ) (r : Nat) : 0 ≤ offDiag m r := by
  unfold offDiag
  apply Finset.sum_nonneg
  intro c _
  split_ifs
  · exact le_refl 0
  · exact abs_nonneg _

theorem DominantFrom_pivot (k : Nat) (m : BandedMatrix ℚ) (h : DominantFrom k m)
    (hk : k < m.n) : m.A k k ≠ 0 := by
  intro h0
  have := h k (le_refl k) hk
  rw [h0, abs_zero] at this
  exact absurd (offDiag_nonneg m k) (not_le.mpr this)

theorem sum_indicator (n k : Nat) (hk : k < n) (v : ℚ) :
    Finset.sum (Finset.range n) (fun c => if c = k then v else 0) = v := by
  rw [Finset.sum_ite_eq' (Finset.range n) k (fun _ => v)]
  rw [if_pos (Finset.mem_range.mpr hk)]

/-- One step of the elimination keeps the rows below the pivot row strictly
diagonally dominant. -/
theorem elimColSpec_dominant (L R k : Nat) (s : BandedMatrix ℚ) (hb : Banded L R s)
    (hz : LowerZero k s) (hk : k < s.n) (hd : DominantFrom k s) :
    DominantFrom (k + 1) (elimColSpec L R k s) := by
  intro r hkr hr
  have hn : (elimColSpec L R k s).n = s.n := rfl
  rw [hn] at hr
  by_cases hin : k < r ∧ r < s.n ∧ r ≤ k + L
  · have hp : s.A k k ≠ 0 := DominantFrom_pivot k s hd hk
    have hA : ∀ c, c < s.n →
        (elimColSpec L R k s).A r c = s.A r c - (s.A r k / s.A k k) * s.A k c :=
      fun c hc => elimColSpec_fullRow L R k s hb hz hk r c hin hc
    have hrk : r ≠ k := by omega
    have h1 := hd r (by omega) hr
    have h2 := hd k (le_refl k) hk
    have ht : |s.A r k / s.A k k| * |s.A k k| = |s.A r k| := by
      rw [← abs_mul, div_mul_cancel₀ _ hp]
    have hsum : offDiag (elimColSpec L R k s) r ≤
        offDiag s r - |s.A r k| + |s.A r k / s.A k k| * (offDiag s k - |s.A k r|) := by
      have e1 : offDiag s r - |s.A r k| + |s.A r k / s.A k k| * (offDiag s k - |s.A k r|)
          = Finset.sum (Finset.range s.n) (fun c =>
              (if c = r then 0 else |s.A r c|) - (if c = k then |s.A r k| else 0)
              + |s.A r k / s.A k k| * ((if c = k then 0 else |s.A k c|)
                - (if c = r then |s.A k r| else 0))) := by
        rw [Finset.sum_add_distrib, Finset.sum_sub_distrib, ← Finset.mul_sum,
          Finset.sum_sub_distrib, sum_indicator s.n k hk, sum_indicator s.n r hr]
        rfl
      rw [e1]
      unfold offDiag
      rw [hn]
      apply Finset.sum_le_sum
      intro c hc
      have hc' := Finset.mem_range.mp hc
      by_cases hcr : c = r
      · rw [hcr]
        simp only [if_true, if_neg hrk, sub_self, mul_zero, sub_zero, add_zero, le_refl]
      · by_cases hck : c = k
        · rw [hck]
          simp only [if_true, if_neg hrk.symm, sub_self, mul_zero, sub_zero, add_zero]
          rw [hA k hk, div_mul_cancel₀ _ hp, sub_self, abs_zero]
        · simp only [if_neg hcr, if_neg hck, sub_zero]
          rw [hA c hc']
          have := abs_sub (s.A r c) (s.A r k / s.A k k * s.A k c)
          rw [abs_mul] at this
          exact this
    have hdiag : |s.A r r| - |s.A r k / s.A k k| * |s.A k r| ≤ |(elimColSpec L R k s).A r r| := by
      rw [hA r hr, ← abs_mul]
      exact abs_sub_abs_le_abs_sub _ _
    have htn : 0 ≤ |s.A r k / s.A k k| := abs_nonneg _
    have h3 : |s.A r k / s.A k k| * offDiag s k ≤ |s.A r k / s.A k k| * |s.A k k| :=
      mul_le_mul_of_nonneg_left h2.le htn
    nlinarith
  · have hrow : ∀ c, (elimColSpec L R k s).A r c = s.A r c := by
      intro c
      simp only [elimColSpec]
      rw [if_neg (fun h => hin h.1)]
    have : offDiag (elimColSpec L R k s) r = offDiag s r := by
      unfold offDiag
      rw [hn]
      apply Finset.sum_congr rfl
      intro c _
      rw [hrow]
    rw [this, hrow]
    exact hd r (by omega) hr

theorem reduceUpTo_dominant (L R : Nat) (hL : 1 ≤ L) (m : BandedMatrix ℚ) (hb : Banded L R m)
    (hd : DiagDominant m) (k : Nat) (hk : k ≤ m.n) :
    Banded L R (reduceUpTo L R k m) ∧ LowerZero k (reduceUpTo L R k m) ∧
      DominantFrom k (reduceUpTo L R k m) := by
  induction k with
  | zero =>
    refine ⟨hb, ?_, fun r _ hr => hd r hr⟩
    intro r c hc
    omega
  | succ k ih =>
    obtain ⟨ib, iz, id⟩ := ih (by omega)
    have hn := reduceUpTo_n L R m k
    have hkn : k < (reduceUpTo L R k m).n := by omega
    exact ⟨elimColSpec_banded L R k _ ib,
      elimColSpec_lowerZero L R k hL _ ib iz hkn (fun _ => DominantFrom_pivot k _ id hkn),
      elimColSpec_dominant L R k _ ib iz hkn id⟩

theorem reduceUpTo_pivot_dominant (L R : Nat) (hL : 1 ≤ L) (m : BandedMatrix ℚ)
    (hb : Banded L R m) (hd : DiagDominant m) (i : Nat) (hi : i < m.n) :
    (reduceUpTo L R i m).A i i ≠ 0 := by
  obtain ⟨-, -, id⟩ := reduceUpTo_dominant L R hL m hb hd i (by omega)
  exact DominantFrom_pivot i _ id (by rw [reduceUpTo_n]; exact hi)

/-- With nonzero pivots the reduction over the doubles is the reduction over the
rationals. -/
theorem reduceUpTo_toDbl_of_pivots (L R : Nat) (m : BandedMatrix ℚ) (k : Nat)
    (hp : ∀ i, i < k → (reduceUpTo L R i m).A i i ≠ 0) :
    reduceUpTo L R k m.toDbl = (reduceUpTo L R k m).toDbl := by
  induction k with
  | zero => rfl
  | succ k ih =>
    show elimColSpec L R k (reduceUpTo L R k m.toDbl) = _
    rw [ih (fun i hi => hp i (by omega)), elimColSpec_toDbl L R k _ (hp k (by omega))]
    rfl

/-- Claim C20.  For every system whose rows are zero outside the band
`i - LEFT_OF_DIAG .. i + RIGHT_OF_DIAG` and the last two columns and that is
strictly diagonally dominant by rows, every pivot `A[i][i]` that `Solve` divides
by, in iteration `i` of the reduction and in back-substitution, is a nonzero
number, and `Solve` leaves in `X` finite values `x` with
`(original A)·x = (original B)` in exact arithmetic.  The class constants are
parameters; the band must reach at least one row below the diagonal. -/
theorem Solve_diagonally_dominant (LEFT_OF_DIAG RIGHT_OF_DIAG : Nat) (hL : 1 ≤ LEFT_OF_DIAG)
    (m : BandedMatrix ℚ) (hb : Banded LEFT_OF_DIAG RIGHT_OF_DIAG m) (hd : DiagDominant m) :
    (∀ i, i < m.n → ∃ p : ℚ, p ≠ 0 ∧
      (reduceUpTo LEFT_OF_DIAG RIGHT_OF_DIAG i m.toDbl).A i i = Dbl.fin p ∧
      (Reduce LEFT_OF_DIAG RIGHT_OF_DIAG m.toDbl).A i i = Dbl.fin p) ∧
    ∃ x : Nat → ℚ,
      (∀ i, i < m.n → (Solve LEFT_OF_DIAG RIGHT_OF_DIAG m.toDbl).X i = Dbl.fin (x i)) ∧
      ∀ r, r < m.n → rowDot m x r = m.B r := by
  have hq := reduceUpTo_pivot_dominant LEFT_OF_DIAG RIGHT_OF_DIAG hL m hb hd
  have hk : ∀ k, reduceUpTo LEFT_OF_DIAG RIGHT_OF_DIAG k m.toDbl
      = (reduceUpTo LEFT_OF_DIAG RIGHT_OF_DIAG k m).toDbl ∨ m.n < k := by
    intro k
    by_cases h : m.n < k
    · exact Or.inr h
    · exact Or.inl (reduceUpTo_toDbl_of_pivots _ _ m k (fun i hi => hq i (by omega)))
  have hpiv : ∀ i, i < m.n →
      (reduceUpTo LEFT_OF_DIAG RIGHT_OF_DIAG i m.toDbl).A i i
        = Dbl.fin ((reduceUpTo LEFT_OF_DIAG RIGHT_OF_DIAG i m).A i i) ∧
      (Reduce LEFT_OF_DIAG RIGHT_OF_DIAG m.toDbl).A i i
        = Dbl.fin ((reduceUpTo LEFT_OF_DIAG RIGHT_OF_DIAG i m).A i i) := by
    intro i hi
    have e := (hk i).resolve_right (by omega)
    have hi' : i ≤ m.toDbl.n := Nat.le_of_lt hi
    exact ⟨by rw [e]; rfl, by
      rw [Reduce_pivot_final LEFT_OF_DIAG RIGHT_OF_DIAG m.toDbl i hi', e]; rfl⟩
  have hp : ∀ i, i < m.n →
      (Reduce LEFT_OF_DIAG RIGHT_OF_DIAG m.toDbl).A i i ≠ Dbl.fin 0 := by
    intro i hi h0
    rw [(hpiv i hi).2] at h0
    exact hq i hi (Dbl.fin.inj h0)
  obtain ⟨h1, h2⟩ := Solve_toDbl LEFT_OF_DIAG RIGHT_OF_DIAG m hp
  refine ⟨fun i hi => ⟨_, hq i hi, (hpiv i hi).1, (hpiv i hi).2⟩,
    (Solve LEFT_OF_DIAG RIGHT_OF_DIAG m).X, ?_, ?_⟩
  · intro i _
    rw [h1]
    rfl
  · exact Solve_rat LEFT_OF_DIAG RIGHT_OF_DIAG hL m hb h2

theorem dominantSystem_banded : Banded 1 1 dominantSystem := by
  intro r c hr hc h h2 h1
  simp only [dominantSystem] at *
  have : r = 2 ∧ c = 0 := by omega
  obtain ⟨rfl, rfl⟩ := this
  simp

theorem dominantSystem_dominant : DiagDominant dominantSystem := by
  intro r hr
  have hr' : r < 3 := hr
  interval_cases r
  all_goals simp [offDiag, dominantSystem, Finset.sum_range_succ]
  all_goals norm_num

/-- Witness for C20: the tridiagonal system with the diagonal 4 and the
neighbours 1. -/
theorem Solve_diagonally_dominant_witness :
    1 ≤ 1 ∧ Banded 1 1 dominantSystem ∧ DiagDominant dominantSystem ∧
    (∀ i, i < dominantSystem.n → ∃ p : ℚ, p ≠ 0 ∧
      (reduceUpTo 1 1 i dominantSystem.toDbl).A i i = Dbl.fin p ∧
      (Reduce 1 1 dominantSystem.toDbl).A i i = Dbl.fin p) ∧
    ∃ x : Nat → ℚ,
      (∀ i, i < dominantSystem.n → (Solve 1 1 dominantSystem.toDbl).X i = Dbl.fin (x i)) ∧
      ∀ r, r < dominantSystem.n → rowDot dominantSystem x r = dominantSystem.B r :=
  ⟨le_refl 1, dominantSystem_banded, dominantSystem_dominant,
    Solve_diagonally_dominant 1 1 (le_refl 1) dominantSystem dominantSystem_banded
      dominantSystem_dominant⟩

end BandedMatrix
end SolveSpace

namespace SolveSpace
namespace Sketch

theorem withAdded_owned (s : Sketch) (rs : List Request) (es : List Entity)
    (hown : s.EntitiesOwned) (hes : ∀ x ∈ es, ∃ r ∈ rs, x.h.request = r.h) :
    (withAdded s rs es).EntitiesOwned := by
  intro x hx
  have hx' : x ∈ s.entity ++ es := hx
  show x.h.request.v ≤ requestMaximumId (s.request ++ rs)
  rcases List.mem_append.mp hx' with h | h
  · exact le_trans (hown x h) (requestMaximumId_le_append _ _)
  · obtain ⟨r, hr, e⟩ := hes x h
    rw [e]
    exact le_requestMaximumId _ r (List.mem_append_right _ hr)

theorem replace_noop (o n : hEntity) (c : Constraint) (hA : c.ptA ≠ o) (hB : c.ptB ≠ o) :
    ({ c with ptA := if c.ptA = o then n else c.ptA,
              ptB := if c.ptB = o then n else c.ptB } : Constraint) = c := by
  rw [if_neg hA, if_neg hB]

theorem requestNo_fresh (s : Sketch) (k i : Nat) (t : RequestType) (hi : i < 65536) :
    requestMaximumId s.request < ((requestNo s k t).h.entity i).request.v := by
  rw [entity_request _ i hi]
  simp only [requestNo]
  omega

theorem SplitPre_of_shape (s : Sketch) (e : Entity) (pre : Sketch) (rs : List Request)
    (es : List Entity) (f : Constraint → Constraint) (a b : hEntity) (hown : s.EntitiesOwned)
    (hreq : pre.request = s.request ++ rs) (hent : pre.entity = s.entity ++ es)
    (hgrp : pre.activeGroup = s.activeGroup)
    (hcon : ∃ S : Sketch, pre.constraint = s.constraint.map f ++
      [S.newConstraint ConstraintType.POINTS_COINCIDENT a b NO_ENTITY NO_ENTITY false false])
    (hf : ∀ c : Constraint, (∀ h ∈ splitPoints e, c.ptA ≠ h ∧ c.ptB ≠ h) → f c = c)
    (hes : ∀ x ∈ es, ∃ r ∈ rs, x.h.request = r.h)
    (hfa : requestMaximumId s.request < a.request.v)
    (hfb : requestMaximumId s.request < b.request.v)
    (hoa : ∃ r ∈ rs, r.h = a.request) (hob : ∃ r ∈ rs, r.h = b.request) :
    ∃ j, SplitPre s e pre a j := by
  obtain ⟨S, hcon⟩ := hcon
  refine ⟨S.newConstraint ConstraintType.POINTS_COINCIDENT a b NO_ENTITY NO_ENTITY false false,
    ?_, ?_, rfl, rfl, rfl, rfl, hfa, hfb, ?_, ?_, ?_, ?_, ?_, hgrp⟩
  · intro c hc hn
    rw [hcon]
    apply List.mem_append_left
    rw [List.mem_map]
    exact ⟨c, hc, hf c hn⟩
  · rw [hcon]
    simp
  · obtain ⟨r, hr, h⟩ := hoa
    exact ⟨r, by rw [hreq]; exact List.mem_append_right _ hr, h⟩
  · obtain ⟨r, hr, h⟩ := hob
    exact ⟨r, by rw [hreq]; exact List.mem_append_right _ hr, h⟩
  · intro r hr
    rw [hreq]
    exact List.mem_append_left _ hr
  · intro h x hx
    unfold GetEntity
    rw [hent]
    exact find?_append_old s.entity es h x hx
  · have := withAdded_owned s rs es hown hes
    intro x hx
    rw [hent] at hx
    rw [hreq]
    exact this x hx

theorem SplitPre_shape2 (s : Sketch) (e : Entity) (rs : List Request) (es : List Entity)
    (o1 n1 o2 n2 a b : hEntity) (X : Option (hEntity × Sketch))
    (hX : X = some (a, (((withAdded s rs es).ReplacePointInConstraints o1 n1
      ).ReplacePointInConstraints o2 n2).ConstrainCoincident a b))
    (hown : s.EntitiesOwned) (ho1 : o1 ∈ splitPoints e) (ho2 : o2 ∈ splitPoints e)
    (hes : ∀ x ∈ es, ∃ r ∈ rs, x.h.request = r.h)
    (hfa : requestMaximumId s.request < a.request.v)
    (hfb : requestMaximumId s.request < b.request.v)
    (hoa : ∃ r ∈ rs, r.h = a.request) (hob : ∃ r ∈ rs, r.h = b.request) :
    ∃ (ret : hEntity) (pre : Sketch) (j : Constraint),
      X = some (ret, pre) ∧ SplitPre s e pre ret j := by
  obtain ⟨j, hj⟩ := SplitPre_of_shape s e
    ((((withAdded s rs es).ReplacePointInConstraints o1 n1).ReplacePointInConstraints o2 n2
      ).ConstrainCoincident a b) rs es
    (fun c => (fun c : Constraint =>
        ({ c with ptA := if c.ptA = o2 then n2 else c.ptA,
                  ptB := if c.ptB = o2 then n2 else c.ptB } : Constraint))
      ({ c with ptA := if c.ptA = o1 then n1 else c.ptA,
                ptB := if c.ptB = o1 then n1 else c.ptB } : Constraint))
    a b hown rfl rfl rfl
    ⟨_, by
      show (Sketch.ReplacePointInConstraints _ _ _).constraint ++ _ = _
      rw [ReplacePointInConstraints_constraint, ReplacePointInConstraints_constraint,
        List.map_map]
      rfl⟩
    (by
      intro c hc
      have h1 := hc o1 ho1
      have h2 := hc o2 ho2
      simp only [if_neg h1.1, if_neg h1.2, if_neg h2.1, if_neg h2.2])
    hes hfa hfb hoa hob
  exact ⟨_, _, j, hX, hj⟩

theorem SplitPre_shape0 (s : Sketch) (e : Entity) (rs : List Request) (es : List Entity)
    (a b : hEntity) (X : Option (hEntity × Sketch))
    (hX : X = some (a, (withAdded s rs es).ConstrainCoincident a b))
    (hown : s.EntitiesOwned)
    (hes : ∀ x ∈ es, ∃ r ∈ rs, x.h.request = r.h)
    (hfa : requestMaximumId s.request < a.request.v)
    (hfb : requestMaximumId s.request < b.request.v)
    (hoa : ∃ r ∈ rs, r.h = a.request) (hob : ∃ r ∈ rs, r.h = b.request) :
    ∃ (ret : hEntity) (pre : Sketch) (j : Constraint),
      X = some (ret, pre) ∧ SplitPre s e pre ret j := by
  obtain ⟨j, hj⟩ := SplitPre_of_shape s e ((withAdded s rs es).ConstrainCoincident a b) rs es
    (fun c => c) a b hown rfl rfl rfl
    ⟨_, by
      show (withAdded s rs es).constraint ++ _ = _
      rw [List.map_id']
      rfl⟩
    (fun c _ => rfl) hes hfa hfb hoa hob
  exact ⟨_, _, j, hX, hj⟩

theorem mem6 {α : Type} (P : α → Prop) (a b c d e f : α) (ha : P a) (hb : P b) (hc : P c)
    (hd : P d) (he : P e) (hf : P f) : ∀ x ∈ [a, b, c, d, e, f], P x := by
  intro x hx
  simp only [List.mem_cons, List.mem_singleton, List.not_mem_nil, or_false] at hx
  rcases hx with rfl | rfl | rfl | rfl | rfl | rfl <;> assumption

theorem SplitLine_pre (s : Sketch) (he : hEntity) (pinter : Vector) (e : Entity)
    (hown : s.EntitiesOwned) (hget : s.GetEntity he = some e)
    (hkind : e.type = EntityType.LINE_SEGMENT)
    (hpts : ∀ h ∈ splitPoints e, (s.GetEntity h).isSome = true) :
    ∃ (ret : hEntity) (pre : Sketch) (j : Constraint),
      s.SplitLine he pinter = some (ret, pre) ∧ SplitPre s e pre ret j := by
  have hp : splitPoints e = [e.pointAt 0, e.pointAt 1] := by
    unfold splitPoints; rw [if_pos hkind]
  obtain ⟨ep0, h0⟩ := Option.isSome_iff_exists.mp (hpts (e.pointAt 0) (by rw [hp]; simp))
  obtain ⟨ep1, h1⟩ := Option.isSome_iff_exists.mp (hpts (e.pointAt 1) (by rw [hp]; simp))
  have m0 : requestNo s 0 RequestType.LINE_SEGMENT ∈
      [requestNo s 0 RequestType.LINE_SEGMENT, requestNo s 1 RequestType.LINE_SEGMENT] :=
    List.mem_cons_self _ _
  have m1 : requestNo s 1 RequestType.LINE_SEGMENT ∈
      [requestNo s 0 RequestType.LINE_SEGMENT, requestNo s 1 RequestType.LINE_SEGMENT] :=
    List.mem_cons_of_mem _ (List.mem_cons_self _ _)
  exact SplitPre_shape2 s e _ _ _ _ _ _ _ _ _
    (SplitLine_eq s he pinter e ep0 ep1 hown hget h0 h1) hown
    (by rw [hp]; simp) (by rw [hp]; simp)
    (mem6 _ _ _ _ _ _ _
      ⟨_, m0, entity_request _ 0 (by norm_num)⟩ ⟨_, m0, entity_request _ 1 (by norm_num)⟩
      ⟨_, m0, entity_request _ 2 (by norm_num)⟩ ⟨_, m1, entity_request _ 0 (by norm_num)⟩
      ⟨_, m1, entity_request _ 1 (by norm_num)⟩ ⟨_, m1, entity_request _ 2 (by norm_num)⟩)
    (requestNo_fresh s 0 2 _ (by norm_num)) (requestNo_fresh s 1 1 _ (by norm_num))
    ⟨_, m0, (entity_request _ 2 (by norm_num)).symm⟩
    ⟨_, m1, (entity_request _ 1 (by norm_num)).symm⟩

theorem mem4 {α : Type} (P : α → Prop) (a b c d : α) (ha : P a) (hb : P b) (hc : P c)
    (hd : P d) : ∀ x ∈ [a, b, c, d], P x := by
  intro x hx
  simp only [List.mem_cons, List.mem_singleton, List.not_mem_nil, or_false] at hx
  rcases hx with rfl | rfl | rfl | rfl <;> assumption

theorem mem8 {α : Type} (P : α → Prop) (a b c d e f g h : α) (ha : P a) (hb : P b) (hc : P c)
    (hd : P d) (he : P e) (hf : P f) (hg : P g) (hh : P h) :
    ∀ x ∈ [a, b, c, d, e, f, g, h], P x := by
  intro x hx
  simp only [List.mem_cons, List.mem_singleton, List.not_mem_nil, or_false] at hx
  rcases hx with rfl | rfl | rfl | rfl | rfl | rfl | rfl | rfl <;> assumption

theorem SplitCircle_pre (s : Sketch) (he : hEntity) (pinter : Vector) (e : Entity)
    (hown : s.EntitiesOwned) (hget : s.GetEntity he = some e)
    (hkind : e.type = EntityType.CIRCLE ∨ e.type = EntityType.ARC_OF_CIRCLE)
    (hpts : ∀ h ∈ splitPoints e, (s.GetEntity h).isSome = true) :
    ∃ (ret : hEntity) (pre : Sketch) (j : Constraint),
      s.SplitCircle he pinter = some (ret, pre) ∧ SplitPre s e pre ret j := by
  rcases hkind with hk | hk
  · have hp : splitPoints e = [e.pointAt 0] := by
      unfold splitPoints; rw [if_neg (by rw [hk]; decide), if_pos hk]
    obtain ⟨ec, h0⟩ := Option.isSome_iff_exists.mp (hpts (e.pointAt 0) (by rw [hp]; simp))
    have m0 : requestNo s 0 RequestType.ARC_OF_CIRCLE ∈
        [requestNo s 0 RequestType.ARC_OF_CIRCLE] := List.mem_cons_self _ _
    exact SplitPre_shape0 s e _ _ _ _ _
      (SplitCircle_circle_eq s he pinter e ec hown hget hk h0) hown
      (mem4 _ _ _ _ _
        ⟨_, m0, entity_request _ 0 (by norm_num)⟩ ⟨_, m0, entity_request _ 1 (by norm_num)⟩
        ⟨_, m0, entity_request _ 2 (by norm_num)⟩ ⟨_, m0, entity_request _ 3 (by norm_num)⟩)
      (requestNo_fresh s 0 2 _ (by norm_num)) (requestNo_fresh s 0 3 _ (by norm_num))
      ⟨_, m0, (entity_request _ 2 (by norm_num)).symm⟩
      ⟨_, m0, (entity_request _ 3 (by norm_num)).symm⟩
  · have hp : splitPoints e = [e.pointAt 0, e.pointAt 1, e.pointAt 2] := by
      unfold splitPoints; rw [if_neg (by rw [hk]; decide), if_neg (by rw [hk]; decide)]
    obtain ⟨ec, h0⟩ := Option.isSome_iff_exists.mp (hpts (e.pointAt 0) (by rw [hp]; simp))
    obtain ⟨es, h1⟩ := Option.isSome_iff_exists.mp (hpts (e.pointAt 1) (by rw [hp]; simp))
    obtain ⟨ef, h2⟩ := Option.isSome_iff_exists.mp (hpts (e.pointAt 2) (by rw [hp]; simp))
    have m0 : requestNo s 0 RequestType.ARC_OF_CIRCLE ∈
        [requestNo s 0 RequestType.ARC_OF_CIRCLE, requestNo s 1 RequestType.ARC_OF_CIRCLE] :=
      List.mem_cons_self _ _
    have m1 : requestNo s 1 RequestType.ARC_OF_CIRCLE ∈
        [requestNo s 0 RequestType.ARC_OF_CIRCLE, requestNo s 1 RequestType.ARC_OF_CIRCLE] :=
      List.mem_cons_of_mem _ (List.mem_cons_self _ _)
    exact SplitPre_shape2 s e _ _ _ _ _ _ _ _ _
      (SplitCircle_arc_eq s he pinter e ec es ef hown hget (by rw [hk]; decide) h0 h1 h2) hown
      (by rw [hp]; simp) (by rw [hp]; simp)
      (mem8 _ _ _ _ _ _ _ _ _
        ⟨_, m0, entity_request _ 0 (by norm_num)⟩ ⟨_, m0, entity_request _ 1 (by norm_num)⟩
        ⟨_, m0, entity_request _ 2 (by norm_num)⟩ ⟨_, m0, entity_request _ 3 (by norm_num)⟩
        ⟨_, m1, entity_request _ 0 (by norm_num)⟩ ⟨_, m1, entity_request _ 1 (by norm_num)⟩
        ⟨_, m1, entity_request _ 2 (by norm_num)⟩ ⟨_, m1, entity_request _ 3 (by norm_num)⟩)
      (requestNo_fresh s 0 3 _ (by norm_num)) (requestNo_fresh s 1 2 _ (by norm_num))
      ⟨_, m0, (entity_request _ 3 (by norm_num)).symm⟩
      ⟨_, m1, (entity_request _ 2 (by norm_num)).symm⟩

theorem SplitEntity_pre (env : SplitEnv) (s : Sketch) (he : hEntity) (pinter : Vector)
    (e : Entity) (hown : s.EntitiesOwned) (hget : s.GetEntity he = some e)
    (hkind : e.type = EntityType.LINE_SEGMENT ∨ e.type = EntityType.CIRCLE ∨
      e.type = EntityType.ARC_OF_CIRCLE)
    (hpts : ∀ h ∈ splitPoints e, (s.GetEntity h).isSome = true) :
    ∃ (ret : hEntity) (pre : Sketch) (j : Constraint),
      SplitEntity env s he pinter
        = some (ret, env.DeleteTaggedRequests (handedOver env pre e he)) ∧
      SplitPre s e pre ret j := by
  have hk' : e.IsCircle = true ∨ e.type = EntityType.LINE_SEGMENT ∨
      e.type = EntityType.CUBIC ∨ e.type = EntityType.CUBIC_PERIODIC := by
    rcases hkind with h | h | h
    · exact Or.inr (Or.inl h)
    · left; simp [Entity.IsCircle, h]
    · left; simp [Entity.IsCircle, h]
  obtain ⟨inner, -, hc, hl, heq⟩ := SplitEntity_supported env s he pinter e hget hk'
  rcases hkind with h | h
  · obtain ⟨ret, pre, j, h1, h2⟩ := SplitLine_pre s he pinter e hown hget h hpts
    have hin := hl (by simp [Entity.IsCircle, h]) h
    rw [heq, hin, h1]
    exact ⟨ret, pre, j, rfl, h2⟩
  · obtain ⟨ret, pre, j, h1, h2⟩ := SplitCircle_pre s he pinter e hown hget h hpts
    have hin := hc (by rcases h with h | h <;> simp [Entity.IsCircle, h])
    rw [heq, hin, h1]
    exact ⟨ret, pre, j, rfl, h2⟩

theorem modifyFirst_mem {α : Type} (p : α → Bool) (f : α → α) (l : List α) (a : α)
    (ha : a ∈ l) : a ∈ modifyFirst p f l ∨ (p a = true ∧ f a ∈ modifyFirst p f l) := by
  induction l with
  | nil => cases ha
  | cons x l ih =>
    simp only [modifyFirst]
    by_cases hx : p x = true
    · rw [if_pos hx]
      rcases List.mem_cons.mp ha with rfl | h
      · exact Or.inr ⟨hx, List.mem_cons_self _ _⟩
      · exact Or.inl (List.mem_cons_of_mem _ h)
    · rw [if_neg hx]
      rcases List.mem_cons.mp ha with rfl | h
      · exact Or.inl (List.mem_cons_self _ _)
      · rcases ih h with h' | ⟨h1, h2⟩
        · exact Or.inl (List.mem_cons_of_mem _ h')
        · exact Or.inr ⟨h1, List.mem_cons_of_mem _ h2⟩

theorem taggedRequests_owner (g : hGroup) (t : RequestType) (he : hEntity) (l : List Request)
    (r : Request) (hr : r ∈ l) (hne : r.h ≠ he.request) :
    ∃ r' ∈ taggedRequests g t he l, r'.h = r.h ∧ r'.tag = 0 := by
  have hc : ({ r with tag := 0 } : Request) ∈ clearRequestTags l := by
    simp only [clearRequestTags, List.mem_map]
    exact ⟨r, hr, rfl⟩
  rcases modifyFirst_mem (isOriginal g t he) (fun r => { r with tag := 1 }) _ _ hc with h | ⟨h, -⟩
  · exact ⟨_, h, rfl, rfl⟩
  · exfalso
    simp only [isOriginal, Bool.and_eq_true, decide_eq_true_eq, Bool.not_eq_true'] at h
    apply hne
    have := h.1.2
    rw [this, entity_request _ 0 (by norm_num)]

theorem taggedRequests_map_h (g : hGroup) (t : RequestType) (he : hEntity) (l : List Request) :
    (taggedRequests g t he l).map (fun r => r.h) = l.map (fun r => r.h) := by
  unfold taggedRequests
  rw [modifyFirst_map (clearRequestTags l) (isOriginal g t he)
    (fun r => { r with tag := 1 }) (fun r => r.h) (fun _ => rfl)]
  simp [clearRequestTags]

theorem taggedRequests_noWorkplane (g : hGroup) (t : RequestType) (he : hEntity)
    (l : List Request) (ht : t ≠ RequestType.WORKPLANE) :
    ∀ r ∈ taggedRequests g t he l, r.tag ≠ 0 → r.type ≠ RequestType.WORKPLANE := by
  intro r hr htag
  obtain ⟨-, -, h3, -⟩ := taggedRequests_spec g t he l
  rw [(h3 r hr htag).2.2.1]
  exact ht

theorem request_v_pos (h : hEntity) (n : Nat) (hn : n < h.request.v) : h.v ≠ 0 := by
  intro h0
  simp only [hEntity.request, h0] at hn
  omega

theorem ne_of_request_lt (a b : hEntity) (h : a.request.v < b.request.v) : b ≠ a := by
  intro e
  rw [e] at h
  exact lt_irrefl _ h

/-- One call of `SplitEntity` on a line segment, circle or arc, with what is
left after its call of `DeleteTaggedRequests`. -/
theorem SplitEntity_kept (env : SplitEnv) (henv : KeepsUntagged env) (s : Sketch)
    (he : hEntity) (pinter : Vector) (e : Entity) (hown : s.EntitiesOwned)
    (hget : s.GetEntity he = some e)
    (hkind : e.type = EntityType.LINE_SEGMENT ∨ e.type = EntityType.CIRCLE ∨
      e.type = EntityType.ARC_OF_CIRCLE)
    (hpts : ∀ h ∈ splitPoints e, (s.GetEntity h).isSome = true)
    (ht : env.GetRequestForEntity e.type ≠ RequestType.WORKPLANE) :
    ∃ (ret : hEntity) (s' : Sketch) (j : Constraint),
      SplitEntity env s he pinter = some (ret, s') ∧ s'.EntitiesOwned ∧
      j ∈ s'.constraint ∧ j.type = ConstraintType.POINTS_COINCIDENT ∧ j.ptA = ret ∧
      j.entityA = NO_ENTITY ∧ j.entityB = NO_ENTITY ∧
      requestMaximumId s.request < j.ptA.request.v ∧
      requestMaximumId s.request < j.ptB.request.v ∧
      (∃ r ∈ s'.request, r.h = j.ptA.request) ∧ (∃ r ∈ s'.request, r.h = j.ptB.request) ∧
      (∀ r ∈ s.request, r.h ≠ he.request → ∃ r' ∈ s'.request, r'.h = r.h) ∧
      (∀ h x, s.GetEntity h = some x → (∃ r ∈ s.request, r.h = h.request) →
        h.request ≠ he.request →
        ∃ x', s'.GetEntity h = some x' ∧ x'.type = x.type ∧ x'.point = x.point) ∧
      (∀ c ∈ s.constraint, c.entityA = NO_ENTITY → c.entityB = NO_ENTITY →
        (∀ h ∈ splitPoints e, c.ptA ≠ h ∧ c.ptB ≠ h) →
        (∃ r ∈ s.request, r.h = c.ptA.request) → c.ptA.request ≠ he.request →
        (∃ r ∈ s.request, r.h = c.ptB.request) → c.ptB.request ≠ he.request →
        c ∈ s'.constraint) := by
  obtain ⟨ret, pre, j, hs, P⟩ := SplitEntity_pre env s he pinter e hown hget hkind hpts
  have hold : he.request.v ≤ requestMaximumId s.request := GetEntity_owned s hown he e hget
  have hnw : NoWorkplaneTagged (handedOver env pre e he) :=
    taggedRequests_noWorkplane _ _ _ _ ht
  have hown' : (handedOver env pre e he).EntitiesOwned :=
    EntitiesOwned_of_eq pre _ rfl (taggedRequests_map_h _ _ _ _) P.owned
  have howner : ∀ h : hEntity, (∃ r ∈ pre.request, r.h = h.request) → h.request ≠ he.request →
      OwnerUntagged (handedOver env pre e he) h := by
    intro h ⟨r, hr, hh⟩ hne
    obtain ⟨r', hr', e1, e2⟩ := taggedRequests_owner pre.activeGroup
      (env.GetRequestForEntity e.type) he pre.request r hr (by rw [hh]; exact hne)
    exact ⟨r', hr', e1.trans hh, e2⟩
  have hsurv : ∀ h : hEntity, (∃ r ∈ pre.request, r.h = h.request) → h.request ≠ he.request →
      ∃ r ∈ (env.DeleteTaggedRequests (handedOver env pre e he)).request,
        r.h = h.request := by
    intro h hex hne
    obtain ⟨r, hr, e1, e2⟩ := howner h hex hne
    exact ⟨r, henv.request _ r hnw hr e2, e1⟩
  have hfA : j.ptA.request ≠ he.request := by
    intro e1
    have := P.freshA
    rw [e1] at this
    omega
  have hfB : j.ptB.request ≠ he.request := by
    intro e1
    have := P.freshB
    rw [e1] at this
    omega
  refine ⟨ret, _, j, hs, henv.owned _ hnw hown', ?_, P.type, P.ptA, P.entityA, P.entityB,
    P.freshA, P.freshB, hsurv _ P.ownerA hfA, hsurv _ P.ownerB hfB, ?_, ?_, ?_⟩
  · exact henv.constraint _ j hnw P.join P.entityA P.entityB (howner _ P.ownerA hfA)
      (howner _ P.ownerB hfB)
  · intro r hr hne
    obtain ⟨r', hr', e1, e2⟩ := taggedRequests_owner pre.activeGroup
      (env.GetRequestForEntity e.type) he pre.request r (P.request r hr) hne
    exact ⟨r', henv.request _ r' hnw hr' e2, e1⟩
  · intro h x hx ⟨r, hr, hh⟩ hne
    exact henv.entity _ h x hnw (P.entity h x hx) (howner h ⟨r, P.request r hr, hh⟩ hne)
  · intro c hc hA hB hn ⟨ra, hra, ea⟩ hna ⟨rb, hrb, eb⟩ hnb
    exact henv.constraint _ c hnw (P.keeps c hc hn) hA hB
      (howner _ ⟨ra, P.request ra hra, ea⟩ hna) (howner _ ⟨rb, P.request rb hrb, eb⟩ hnb)

theorem SplitLinesOrCurves_two (env : SplitEnv) (sk : Sketch) (ha hb : hEntity)
    (ea eb : Entity) (hlock : sk.LockedInWorkplane = true)
    (hn : (env.GroupSelection sk).lineSegments + (env.GroupSelection sk).circlesOrArcs +
      (env.GroupSelection sk).cubics + (env.GroupSelection sk).periodicCubics = 2)
    (hpt : (env.GroupSelection sk).points = 0)
    (h0 : (env.GroupSelection sk).entity[0]? = some ha)
    (h1 : (env.GroupSelection sk).entity[1]? = some hb)
    (hea : sk.GetEntity ha = some ea) (heb : sk.GetEntity hb = some eb) :
    SplitLinesOrCurves env sk =
      (SplitEntity env (splitStart env sk) ha (splitPointOf env sk ea eb)).bind fun p1 =>
        (SplitEntity env p1.2 hb (splitPointOf env sk ea eb)).bind fun p2 =>
          some (if p1.1.v ≠ 0 ∧ p2.1.v ≠ 0 then p2.2.ConstrainCoincident p1.1 p2.1
            else p2.2).ClearSelection := by
  have hea' : Sketch.GetEntity { sk with gs := env.GroupSelection sk } ha = some ea := hea
  have heb' : Sketch.GetEntity { sk with gs := env.GroupSelection sk } hb = some eb := heb
  have hlock' : Sketch.LockedInWorkplane { sk with gs := env.GroupSelection sk } = true := hlock
  unfold SplitLinesOrCurves
  rw [hlock]
  simp only [Bool.not_true, Bool.false_eq_true, if_false, hn, hpt, true_and, and_self,
    decide_True, Bool.true_or, Bool.or_false, Bool.not_true, h0, h1, Option.bind_eq_bind,
    Option.some_bind, Option.pure_def, zero_ne_one, decide_False, and_false, Bool.or_self,
    OfNat.ofNat_ne_one, false_and]
  unfold findSplitPoint
  simp only [hea', heb', Option.bind_eq_bind, Option.some_bind, Option.pure_def,
    Bool.false_eq_true, if_false, if_true]
  unfold splitCommit
  simp only [Bool.false_eq_true, if_false, Option.bind_eq_bind, Option.pure_def]
  rfl

theorem splitPoints_congr (e e' : Entity) (ht : e'.type = e.type) (hp : e'.point = e.point) :
    splitPoints e' = splitPoints e := by
  unfold splitPoints Entity.pointAt
  rw [ht, hp]

/-- Claim C12.  Two entities are selected, each a line segment, a circle or an
arc whose points exist, the second one owned by a request of the list other than
the request of the first; `DeleteTaggedRequests`, which is defined in another
file, deletes nothing but what belongs to the tagged request (`KeepsUntagged`).
Then `SplitLinesOrCurves` splits both at the same point, and its constraint list
ends with a `POINTS_COINCIDENT` constraint between the point `hia` returned for
the first entity and the point `hib` returned for the second; the list also
holds the constraint `j1` that joins the halves of the first entity at `hia` and
the constraint `j2` that joins the halves of the second at `hib`, and the three
constraints are different. -/
theorem SplitLinesOrCurves_joins (env : SplitEnv) (henv : KeepsUntagged env) (sk : Sketch)
    (ha hb : hEntity) (ea eb : Entity) (hlock : sk.LockedInWorkplane = true)
    (hn : (env.GroupSelection sk).lineSegments + (env.GroupSelection sk).circlesOrArcs +
      (env.GroupSelection sk).cubics + (env.GroupSelection sk).periodicCubics = 2)
    (hpt : (env.GroupSelection sk).points = 0)
    (h0 : (env.GroupSelection sk).entity[0]? = some ha)
    (h1 : (env.GroupSelection sk).entity[1]? = some hb)
    (hown : sk.EntitiesOwned)
    (hea : sk.GetEntity ha = some ea)
    (hka : ea.type = EntityType.LINE_SEGMENT ∨ ea.type = EntityType.CIRCLE ∨
      ea.type = EntityType.ARC_OF_CIRCLE)
    (hpa : ∀ h ∈ splitPoints ea, (sk.GetEntity h).isSome = true)
    (hta : env.GetRequestForEntity ea.type ≠ RequestType.WORKPLANE)
    (heb : sk.GetEntity hb = some eb)
    (hkb : eb.type = EntityType.LINE_SEGMENT ∨ eb.type = EntityType.CIRCLE ∨
      eb.type = EntityType.ARC_OF_CIRCLE)
    (hpb : ∀ h ∈ splitPoints eb, (sk.GetEntity h).isSome = true ∧ h.request = hb.request)
    (htb : env.GetRequestForEntity eb.type ≠ RequestType.WORKPLANE)
    (hrb : ∃ r ∈ sk.request, r.h = hb.request) (hab : hb.request ≠ ha.request) :
    ∃ (sk' : Sketch) (hia hib : hEntity) (s1 s2 : Sketch) (j1 j2 c : Constraint),
      SplitLinesOrCurves env sk = some sk' ∧
      SplitEntity env (splitStart env sk) ha (splitPointOf env sk ea eb) = some (hia, s1) ∧
      SplitEntity env s1 hb (splitPointOf env sk ea eb) = some (hib, s2) ∧
      sk'.constraint = s2.constraint ++ [c] ∧
      c.type = ConstraintType.POINTS_COINCIDENT ∧ c.ptA = hia ∧ c.ptB = hib ∧
      j1 ∈ s2.constraint ∧ j1.type = ConstraintType.POINTS_COINCIDENT ∧ j1.ptA = hia ∧
      j2 ∈ s2.constraint ∧ j2.type = ConstraintType.POINTS_COINCIDENT ∧ j2.ptA = hib ∧
      hia ≠ hib ∧ j1.ptB ≠ hib := by
  have hown0 : (splitStart env sk).EntitiesOwned := EntitiesOwned_of_eq sk _ rfl rfl hown
  have hg0 : ∀ h, (splitStart env sk).GetEntity h = sk.GetEntity h := fun h => rfl
  have hr0 : (splitStart env sk).request = sk.request := rfl
  obtain ⟨hia, s1, j1, hs1, own1, j1mem, j1ty, j1A, j1eA, j1eB, f1A, f1B, o1A, o1B, -, ent1, -⟩ :=
    SplitEntity_kept env henv (splitStart env sk) ha (splitPointOf env sk ea eb) ea hown0 hea hka
      hpa hta
  rw [hr0] at f1A f1B
  have hbold : hb.request.v ≤ requestMaximumId sk.request := GetEntity_owned sk hown hb eb heb
  obtain ⟨eb', heb1, ty1, pt1⟩ := ent1 hb eb heb hrb hab
  have hsp : splitPoints eb' = splitPoints eb := splitPoints_congr eb eb' ty1 pt1
  have hpold : ∀ h ∈ splitPoints eb, h.request.v ≤ requestMaximumId sk.request := by
    intro h hh
    rw [(hpb h hh).2]
    exact hbold
  have hpb1 : ∀ h ∈ splitPoints eb', (s1.GetEntity h).isSome = true := by
    intro h hh
    rw [hsp] at hh
    obtain ⟨x, hx⟩ := Option.isSome_iff_exists.mp (hpb h hh).1
    obtain ⟨r, hr, hrh⟩ := hrb
    obtain ⟨x', hx', -, -⟩ := ent1 h x hx ⟨r, hr, by rw [(hpb h hh).2]; exact hrh⟩
      (by rw [(hpb h hh).2]; exact hab)
    rw [hx']
    rfl
  obtain ⟨hib, s2, j2, hs2, -, j2mem, j2ty, j2A, -, -, f2A, -, -, -, -, -, con2⟩ :=
    SplitEntity_kept env henv s1 hb (splitPointOf env sk ea eb) eb' own1 heb1
      (by rw [ty1]; exact hkb) hpb1 (by rw [ty1]; exact htb)
  have j1in : j1 ∈ s2.constraint := by
    refine con2 j1 j1mem j1eA j1eB ?_ o1A ?_ o1B ?_
    · intro h hh
      rw [hsp] at hh
      have := hpold h hh
      exact ⟨ne_of_request_lt h j1.ptA (by omega), ne_of_request_lt h j1.ptB (by omega)⟩
    · intro e
      rw [e] at f1A
      omega
    · intro e
      rw [e] at f1B
      omega
  have hne : hia ≠ hib := by
    obtain ⟨r, hr, hrh⟩ := o1A
    have := le_requestMaximumId _ r hr
    rw [hrh, j1A] at this
    rw [j2A] at f2A
    exact (ne_of_request_lt hia hib (by omega)).symm
  have hneB : j1.ptB ≠ hib := by
    obtain ⟨r, hr, hrh⟩ := o1B
    have := le_requestMaximumId _ r hr
    rw [hrh] at this
    rw [j2A] at f2A
    exact (ne_of_request_lt j1.ptB hib (by omega)).symm
  have hv1 : hia.v ≠ 0 := by
    rw [j1A] at f1A
    exact request_v_pos hia _ f1A
  have hv2 : hib.v ≠ 0 := by
    rw [j2A] at f2A
    exact request_v_pos hib _ f2A
  refine ⟨(s2.ConstrainCoincident hia hib).ClearSelection, hia, hib, s1, s2, j1, j2,
    s2.newConstraint ConstraintType.POINTS_COINCIDENT hia hib NO_ENTITY NO_ENTITY false false,
    ?_, hs1, hs2, rfl, rfl, rfl, rfl, j1in, j1ty, j1A, j2mem, j2ty, j2A, hne, hneB⟩
  rw [SplitLinesOrCurves_two env sk ha hb ea eb hlock hn hpt h0 h1 hea heb, hs1]
  simp only [Option.some_bind]
  rw [hs2]
  simp only [Option.some_bind]
  rw [if_pos ⟨hv1, hv2⟩]

theorem find?_congr_mem {α : Type} (l : List α) (p q : α → Bool)
    (h : ∀ a ∈ l, p a = q a) : l.find? p = l.find? q := by
  induction l with
  | nil => rfl
  | cons x l ih =>
    simp only [List.find?_cons, h x (List.mem_cons_self _ _)]
    rw [ih (fun a ha => h a (List.mem_cons_of_mem _ ha))]

theorem KeepsUntagged_of_eq (env : SplitEnv)
    (h : env.DeleteTaggedRequests = parallelEnv.DeleteTaggedRequests) : KeepsUntagged env := by
  have hreq : ∀ s : Sketch, (env.DeleteTaggedRequests s).request = removeTaggedRequests s.request := by
    intro s; rw [h]; rfl
  have hent : ∀ s : Sketch, (env.DeleteTaggedRequests s).entity = s.entity.filter fun e =>
      (removeTaggedRequests s.request).any fun r => decide (r.h = e.h.request) := by
    intro s; rw [h]; rfl
  have hcon : ∀ s : Sketch, (env.DeleteTaggedRequests s).constraint = s.constraint := by
    intro s; rw [h]; rfl
  refine ⟨?_, ?_, ?_, ?_⟩
  · intro s _ _ e he
    rw [hent] at he
    rw [hreq]
    obtain ⟨-, h2⟩ := List.mem_filter.mp he
    obtain ⟨r, hr, hrh⟩ := List.any_eq_true.mp h2
    have hrh' : r.h = e.h.request := by simpa using hrh
    rw [← hrh']
    exact le_requestMaximumId _ r hr
  · intro s r _ hr ht
    rw [hreq]
    exact List.mem_filter.mpr ⟨hr, by simp [ht]⟩
  · intro s hh e _ he ⟨r, hr, hrh, ht⟩
    refine ⟨e, ?_, rfl, rfl⟩
    unfold GetEntity at he ⊢
    rw [hent, List.find?_filter, ← he]
    apply find?_congr_mem
    intro a _
    by_cases ha : a.h = hh
    · have : ((removeTaggedRequests s.request).any fun r => decide (r.h = a.h.request)) = true := by
        rw [List.any_eq_true]
        exact ⟨r, List.mem_filter.mpr ⟨hr, by simp [ht]⟩, by simp [hrh, ha]⟩
      rw [this, decide_eq_true ha]
      rfl
    · rw [decide_eq_false ha]
      simp
  · intro s c _ hc _ _ _ _
    rw [hcon]
    exact hc

theorem crossSketch_owned : crossSketch.EntitiesOwned := by
  unfold EntitiesOwned
  decide

/-- Witness for C12: the two crossing segments of the example, split at their
intersection `(2, 0, 0)`. -/
theorem SplitLinesOrCurves_joins_witness :
    KeepsUntagged crossEnv ∧ crossSketch.EntitiesOwned ∧
    ∃ (sk' : Sketch) (hia hib : hEntity) (s1 s2 : Sketch) (j1 j2 c : Constraint),
      SplitLinesOrCurves crossEnv crossSketch = some sk' ∧
      SplitEntity crossEnv (splitStart crossEnv crossSketch) ((cornerLine 2).h.entity 0)
        (splitPointOf crossEnv crossSketch (generatedEntity (cornerLine 2))
          (generatedEntity (cornerLine 3))) = some (hia, s1) ∧
      SplitEntity crossEnv s1 ((cornerLine 3).h.entity 0)
        (splitPointOf crossEnv crossSketch (generatedEntity (cornerLine 2))
          (generatedEntity (cornerLine 3))) = some (hib, s2) ∧
      sk'.constraint = s2.constraint ++ [c] ∧
      c.type = ConstraintType.POINTS_COINCIDENT ∧ c.ptA = hia ∧ c.ptB = hib ∧
      j1 ∈ s2.constraint ∧ j1.type = ConstraintType.POINTS_COINCIDENT ∧ j1.ptA = hia ∧
      j2 ∈ s2.constraint ∧ j2.type = ConstraintType.POINTS_COINCIDENT ∧ j2.ptA = hib ∧
      hia ≠ hib ∧ j1.ptB ≠ hib :=
  ⟨KeepsUntagged_of_eq crossEnv rfl, crossSketch_owned,
    SplitLinesOrCurves_joins crossEnv (KeepsUntagged_of_eq crossEnv rfl) crossSketch
      ((cornerLine 2).h.entity 0) ((cornerLine 3).h.entity 0) (generatedEntity (cornerLine 2))
      (generatedEntity (cornerLine 3)) rfl rfl rfl rfl rfl crossSketch_owned rfl (Or.inl rfl)
      (by decide) (by decide) rfl (Or.inl rfl) (by decide) (by decide)
      ⟨cornerLine 3, by decide, rfl⟩ (by decide)⟩

theorem crossSketch_splitPoint :
    splitPointOf crossEnv crossSketch (generatedEntity (cornerLine 2))
      (generatedEntity (cornerLine 3)) = ⟨2, 0, 0⟩ := by
  simp only [splitPointOf, crossEnv, nearestToMouse, parallelEnv]
  norm_num

end Sketch
end SolveSpace

namespace SolveSpace
namespace Sketch

theorem removeLoop_spec (hpt : hEntity) (cs : List Constraint) :
    ∀ (dc dn : Nat), (∀ c ∈ cs, c.tag = 0) →
      removeTaggedConstraints (removeLoop hpt cs (dc, dn)).1
        = cs.filter (fun c => !onPoint hpt c) ∧
      (removeLoop hpt cs (dc, dn)).2.1 = dc + cs.countP (onPoint hpt) ∧
      (removeLoop hpt cs (dc, dn)).2.2
        = dn + cs.countP (fun c => onPoint hpt c && nonTrivial c) := by
  induction cs with
  | nil => intro dc dn _; simp [removeLoop, removeTaggedConstraints]
  | cons c cs ih =>
    intro dc dn htag
    have hc0 : c.tag = 0 := htag c (List.mem_cons_self _ _)
    have htl : ∀ c' ∈ cs, c'.tag = 0 := fun c' h => htag c' (List.mem_cons_of_mem _ h)
    by_cases hp : c.ptA = hpt ∨ c.ptB = hpt
    · have hon : onPoint hpt c = true := by
        simp only [onPoint, Bool.or_eq_true, decide_eq_true_eq]; exact hp
      by_cases hn : c.type ≠ ConstraintType.POINTS_COINCIDENT ∧
          c.type ≠ ConstraintType.HORIZONTAL ∧ c.type ≠ ConstraintType.VERTICAL
      · have hnt : nonTrivial c = true := by
          simp only [nonTrivial, Bool.and_eq_true, Bool.not_eq_true', decide_eq_false_iff_not]
          exact ⟨⟨hn.1, hn.2.1⟩, hn.2.2⟩
        obtain ⟨h1, h2, h3⟩ := ih (dc + 1) (dn + 1) htl
        simp only [removeLoop, if_pos hp, if_pos hn]
        refine ⟨?_, ?_, ?_⟩
        · simp only [removeTaggedConstraints] at h1 ⊢
          rw [List.filter_cons, List.filter_cons]
          simp [hon, h1]
        · rw [h2, List.countP_cons_of_pos _ _ hon]; omega
        · rw [h3, List.countP_cons_of_pos _ _ (by simp [hon, hnt])]; omega
      · have hnt : nonTrivial c = false := by
          simp only [nonTrivial, Bool.and_eq_false_iff, Bool.not_eq_false', decide_eq_true_eq]
          by_contra hcon
          push_neg at hcon
          exact hn ⟨hcon.1.1, hcon.1.2, hcon.2⟩
        obtain ⟨h1, h2, h3⟩ := ih (dc + 1) dn htl
        simp only [removeLoop, if_pos hp, if_neg hn]
        refine ⟨?_, ?_, ?_⟩
        · simp only [removeTaggedConstraints] at h1 ⊢
          rw [List.filter_cons, List.filter_cons]
          simp [hon, h1]
        · rw [h2, List.countP_cons_of_pos _ _ hon]; omega
        · rw [h3, List.countP_cons_of_neg _ _ (by simp [hon, hnt])]
    · have hon : onPoint hpt c = false := by
        simp only [onPoint, Bool.or_eq_false_iff, decide_eq_false_iff_not]
        exact ⟨fun h => hp (Or.inl h), fun h => hp (Or.inr h)⟩
      obtain ⟨h1, h2, h3⟩ := ih dc dn htl
      simp only [removeLoop, if_neg hp]
      refine ⟨?_, ?_, ?_⟩
      · simp only [removeTaggedConstraints] at h1 ⊢
        rw [List.filter_cons, List.filter_cons]
        simp [hon, hc0, h1]
      · rw [h2, List.countP_cons_of_neg _ _ (by simp [hon])]
      · rw [h3, List.countP_cons_of_neg _ _ (by simp [hon])]

theorem filter_onPoint_clear (hpt : hEntity) (cs : List Constraint) :
    (clearConstraintTags cs).filter (fun c => !onPoint hpt c)
      = clearConstraintTags (cs.filter (fun c => !onPoint hpt c)) := by
  induction cs with
  | nil => rfl
  | cons c cs ih =>
    have hc : onPoint hpt { c with tag := 0 } = onPoint hpt c := rfl
    simp only [clearConstraintTags, List.map_cons, List.filter_cons, hc] at ih ⊢
    split <;> simp [ih]

theorem countP_clear (p : Constraint → Bool) (hp : ∀ c, p { c with tag := 0 } = p c)
    (cs : List Constraint) : (clearConstraintTags cs).countP p = cs.countP p := by
  induction cs with
  | nil => rfl
  | cons c cs ih =>
    simp only [clearConstraintTags, List.map_cons, List.countP_cons, hp] at ih ⊢
    rw [ih]

/-- Claim C26. `RemoveConstraintsForPointBeingDeleted(hpt)` removes exactly the
constraints that have `hpt` as `ptA` or `ptB` and keeps the others in their
order (their tags cleared); `SS.deleted.constraints` grows by the number of
constraints removed and `SS.deleted.nonTrivialConstraints` by the number of
those that are no coincidence, horizontal or vertical constraint. Requests and
entities stay as they are. -/
theorem RemoveConstraintsForPointBeingDeleted_spec (sk : Sketch) (hpt : hEntity) :
    (sk.RemoveConstraintsForPointBeingDeleted hpt).constraint
      = clearConstraintTags
          (sk.constraint.filter fun c => !(decide (c.ptA = hpt) || decide (c.ptB = hpt))) ∧
    (sk.RemoveConstraintsForPointBeingDeleted hpt).deletedConstraints
      = sk.deletedConstraints
        + sk.constraint.countP (fun c => decide (c.ptA = hpt) || decide (c.ptB = hpt)) ∧
    (sk.RemoveConstraintsForPointBeingDeleted hpt).deletedNonTrivialConstraints
      = sk.deletedNonTrivialConstraints
        + sk.constraint.countP (fun c => (decide (c.ptA = hpt) || decide (c.ptB = hpt)) &&
            (!decide (c.type = ConstraintType.POINTS_COINCIDENT) &&
              !decide (c.type = ConstraintType.HORIZONTAL) &&
              !decide (c.type = ConstraintType.VERTICAL))) ∧
    (sk.RemoveConstraintsForPointBeingDeleted hpt).request = sk.request ∧
    (sk.RemoveConstraintsForPointBeingDeleted hpt).entity = sk.entity := by
  obtain ⟨h1, h2, h3⟩ := removeLoop_spec hpt (clearConstraintTags sk.constraint)
    sk.deletedConstraints sk.deletedNonTrivialConstraints (clearConstraintTags_tag sk.constraint)
  rw [filter_onPoint_clear] at h1
  rw [countP_clear (onPoint hpt) (fun _ => rfl)] at h2
  rw [countP_clear (fun c => onPoint hpt c && nonTrivial c) (fun _ => rfl)] at h3
  exact ⟨h1, h2, h3, rfl, rfl⟩

/-- Claim C27. `FixConstraintsForPointBeingDeleted(hpt)` keeps, in their order
and before the constraints it adds, every constraint that is no
`POINTS_COINCIDENT` of the active group, also when it names `hpt`, and every
coincidence constraint of the active group that has `hpt` neither as `ptA` nor
as `ptB`; a constraint that is none of these is removed. -/
theorem FixConstraintsForPointBeingDeleted_keeps (sk : Sketch) (hpt : hEntity) :
    ∃ added : List Constraint,
      (sk.FixConstraintsForPointBeingDeleted hpt).constraint =
        clearConstraintTags (sk.constraint.filter fun c =>
          decide (¬ (c.type = ConstraintType.POINTS_COINCIDENT ∧ c.group = sk.activeGroup)
            ∨ (c.ptA ≠ hpt ∧ c.ptB ≠ hpt))) ++ added ∧
      ∀ a ∈ added, a.type = ConstraintType.POINTS_COINCIDENT ∧ a.group = sk.activeGroup := by
  obtain ⟨added, h1, -, h3⟩ := FixConstraints_general sk hpt
  refine ⟨added, ?_, ?_⟩
  · rw [h1]
    congr 2
    apply List.filter_congr
    intro c _
    unfold isFixed
    by_cases ht : c.type = ConstraintType.POINTS_COINCIDENT <;>
      by_cases hg : c.group = sk.activeGroup <;>
      by_cases ha : c.ptA = hpt <;> by_cases hb : c.ptB = hpt <;> simp [ht, hg, ha, hb]
  · intro a ha
    have hmem : a.summary ∈ added.map Constraint.summary := List.mem_map_of_mem _ ha
    rw [h3, List.mem_map] at hmem
    obtain ⟨p, -, hp⟩ := hmem
    have h1 := congrArg (fun t => t.1) hp
    have h2 := congrArg (fun t => t.2.1) hp
    exact ⟨h1.symm, h2.symm⟩

theorem CoincidesWith_iff (M : Math) (hpt : hEntity) (pt e : Entity) (hh : pt.h = hpt) :
    (!decide (e.h = pt.h) && e.IsPoint && decide (e.group = pt.group) &&
        decide (e.workplane = pt.workplane) && e.PointGetNum.Equals pt.PointGetNum M.LENGTH_EPS)
      = true ↔ CoincidesWith M hpt pt e := by
  unfold CoincidesWith
  rw [hh]
  simp only [Bool.and_eq_true, Bool.not_eq_true', decide_eq_false_iff_not, decide_eq_true_eq]
  tauto

/-- Claim C28. `ConstrainPointIfCoincident(hpt)` adds at most one constraint.
When an entity of the list is a point other than `hpt`, of its group and
workplane and numerically equal to it, the call adds exactly one
`POINTS_COINCIDENT` constraint, between `hpt` and the first such entity in list
order; when there is none the sketch stays as it is. -/
theorem ConstrainPointIfCoincident_first (M : Math) (sk : Sketch) (hpt : hEntity) (pt : Entity)
    (hget : sk.GetEntity hpt = some pt) :
    (∀ pre e post, sk.entity = pre ++ e :: post → CoincidesWith M hpt pt e →
      (∀ e' ∈ pre, ¬ CoincidesWith M hpt pt e') →
      ∃ c, sk.ConstrainPointIfCoincident M hpt
          = some { sk with constraint := sk.constraint ++ [c] } ∧
        c.type = ConstraintType.POINTS_COINCIDENT ∧ c.ptA = hpt ∧ c.ptB = e.h ∧
        c.group = sk.activeGroup ∧ c.workplane = sk.activeWorkplane) ∧
    ((∀ e ∈ sk.entity, ¬ CoincidesWith M hpt pt e) →
      sk.ConstrainPointIfCoincident M hpt = some sk) ∧
    ∃ sk', sk.ConstrainPointIfCoincident M hpt = some sk' ∧
      sk'.request = sk.request ∧ sk'.entity = sk.entity ∧
      (sk'.constraint = sk.constraint ∨ ∃ c, sk'.constraint = sk.constraint ++ [c]) := by
  have hh : pt.h = hpt := (GetEntity_mem sk hpt pt hget).2
  refine ⟨?_, ?_, ?_⟩
  · intro pre e post hl he hpre
    refine ⟨sk.newConstraint ConstraintType.POINTS_COINCIDENT hpt e.h NO_ENTITY NO_ENTITY
      false false, ?_, rfl, rfl, rfl, rfl, rfl⟩
    unfold Sketch.ConstrainPointIfCoincident
    rw [hget]
    simp only [Option.bind_eq_bind, Option.some_bind, Option.pure_def]
    have hf : sk.entity.find? (fun e =>
        !decide (e.h = pt.h) && e.IsPoint && decide (e.group = pt.group) &&
          decide (e.workplane = pt.workplane) && e.PointGetNum.Equals pt.PointGetNum M.LENGTH_EPS)
        = some e := by
      rw [hl, List.find?_append, List.find?_eq_none.mpr, Option.none_or, List.find?_cons_of_pos]
      · exact (CoincidesWith_iff M hpt pt e hh).mpr he
      · intro x hx hx'
        exact hpre x hx ((CoincidesWith_iff M hpt pt x hh).mp hx')
    rw [hf]
    rfl
  · intro hnone
    unfold Sketch.ConstrainPointIfCoincident
    rw [hget]
    simp only [Option.bind_eq_bind, Option.some_bind, Option.pure_def]
    have hf : sk.entity.find? (fun e =>
        !decide (e.h = pt.h) && e.IsPoint && decide (e.group = pt.group) &&
          decide (e.workplane = pt.workplane) && e.PointGetNum.Equals pt.PointGetNum M.LENGTH_EPS)
        = none := by
      rw [List.find?_eq_none]
      intro x hx hx'
      exact hnone x hx ((CoincidesWith_iff M hpt pt x hh).mp hx')
    rw [hf]
  · unfold Sketch.ConstrainPointIfCoincident
    rw [hget]
    simp only [Option.bind_eq_bind, Option.some_bind, Option.pure_def]
    split
    · exact ⟨_, rfl, rfl, rfl, Or.inr ⟨_, rfl⟩⟩
    · exact ⟨_, rfl, rfl, rfl, Or.inl rfl⟩

end Sketch
end SolveSpace

namespace SolveSpace
namespace Sketch

theorem ConstrainPointIfCoincident_first_witness :
    (cornerSketch 1 false).GetEntity ((cornerLine 2).h.entity 1)
      = some (generatedPoint (cornerLine 2) 1 ⟨0, 0, 0⟩) ∧
    ∃ c, (cornerSketch 1 false).ConstrainPointIfCoincident cornerMath ((cornerLine 2).h.entity 1)
        = some { cornerSketch 1 false with constraint := (cornerSketch 1 false).constraint ++ [c] } ∧
      c.type = ConstraintType.POINTS_COINCIDENT ∧ c.ptA = (cornerLine 2).h.entity 1 ∧
      c.ptB = (generatedPoint (cornerLine 3) 1 ⟨0, 0, 0⟩).h ∧
      c.group = (cornerSketch 1 false).activeGroup ∧
      c.workplane = (cornerSketch 1 false).activeWorkplane :=
  ⟨by decide,
   (ConstrainPointIfCoincident_first cornerMath (cornerSketch 1 false) ((cornerLine 2).h.entity 1)
      (generatedPoint (cornerLine 2) 1 ⟨0, 0, 0⟩) (by decide)).1
      [cornerPlane, cornerNormal, generatedEntity (cornerLine 2),
        generatedPoint (cornerLine 2) 1 ⟨0, 0, 0⟩, generatedPoint (cornerLine 2) 2 ⟨4, 0, 0⟩,
        generatedEntity (cornerLine 3)]
      (generatedPoint (cornerLine 3) 1 ⟨0, 0, 0⟩) [generatedPoint (cornerLine 3) 2 ⟨0, 4, 0⟩] rfl
      (by unfold CoincidesWith; refine ⟨by decide, by decide, by decide, by decide, ?_⟩
          norm_num [Vector.Equals, Vector.Minus, Vector.MagSquared, Entity.PointGetNum, generatedPoint, cornerMath])
      (by
        intro e he
        simp only [List.mem_cons, List.mem_singleton, List.not_mem_nil, or_false] at he
        unfold CoincidesWith
        rcases he with rfl | rfl | rfl | rfl | rfl | rfl
        · exact fun h => absurd h.2.1 (by decide)
        · exact fun h => absurd h.2.1 (by decide)
        · exact fun h => absurd h.2.1 (by decide)
        · exact fun h => absurd rfl h.1
        · intro h
          have := h.2.2.2.2
          norm_num [Vector.Equals, Vector.Minus, Vector.MagSquared, Entity.PointGetNum, generatedPoint, cornerMath] at this
        · exact fun h => absurd h.2.1 (by decide))⟩

end Sketch
end SolveSpace

namespace SolveSpace
namespace Sketch

theorem ConstrainPointIfCoincident_frame (M : Math) (sk : Sketch) (h : hEntity)
    (he : (sk.GetEntity h).isSome = true) :
    ∃ sk', sk.ConstrainPointIfCoincident M h = some sk' ∧
      sk'.request = sk.request ∧ sk'.entity = sk.entity := by
  obtain ⟨e, he⟩ := Option.isSome_iff_exists.mp he
  unfold Sketch.ConstrainPointIfCoincident
  rw [he]
  simp only [Option.bind_eq_bind, Option.some_bind, Option.pure_def]
  split
  · exact ⟨_, rfl, rfl, rfl⟩
  · exact ⟨_, rfl, rfl, rfl⟩

theorem GetEntity_congr (sk sk' : Sketch) (h : sk'.entity = sk.entity) (x : hEntity) :
    sk'.GetEntity x = sk.GetEntity x := by
  unfold GetEntity
  rw [h]

/-- Claim C24. `CreateRequestTrimmedTo` on a line with `reuseOrig` set creates no
request and moves exactly one point of the original segment, `point[1]` when
`pointf` is set and `point[0]` otherwise, to `PointAt(t)`; every other entity,
the other end point among them, stays as it is.  In exact arithmetic,
`PointAt(t) = (1 − t)·p0 + t·p1`, which for `0 ≤ t ≤ 1` lies between `p0` and
`p1` in every coordinate. -/
theorem CreateRequestTrimmedTo_reuse_line (M : Math) (pc : ParametricCurve) (sk : Sketch) (t : ℚ)
    (orig arc : hEntity) (af pf : Bool) (e pe : Entity)
    (hline : pc.isLine = true) (he : sk.GetEntity orig = some e)
    (hpe : sk.GetEntity (e.pointAt (if pf then 1 else 0)) = some pe) :
    ∃ sk', sk.CreateRequestTrimmedTo M pc t true orig arc af pf = some sk' ∧
      sk'.request = sk.request ∧
      sk'.entity = modifyFirst (fun x => decide (x.h = e.pointAt (if pf then 1 else 0)))
        (fun x => { x with numPoint := pc.PointAt M t }) sk.entity ∧
      (∀ h', sk'.GetEntity h' =
        if h' = e.pointAt (if pf then 1 else 0) then some { pe with numPoint := pc.PointAt M t }
        else sk.GetEntity h') ∧
      pc.PointAt M t = (pc.p0.ScaledBy (1 - t)).Plus (pc.p1.ScaledBy t) ∧
      (0 ≤ t → t ≤ 1 →
        (min pc.p0.x pc.p1.x ≤ (pc.PointAt M t).x ∧ (pc.PointAt M t).x ≤ max pc.p0.x pc.p1.x) ∧
        (min pc.p0.y pc.p1.y ≤ (pc.PointAt M t).y ∧ (pc.PointAt M t).y ≤ max pc.p0.y pc.p1.y) ∧
        (min pc.p0.z pc.p1.z ≤ (pc.PointAt M t).z ∧ (pc.PointAt M t).z ≤ max pc.p0.z pc.p1.z)) := by
  have hpt : pc.PointAt M t = (pc.p0.ScaledBy (1 - t)).Plus (pc.p1.ScaledBy t) := by
    unfold ParametricCurve.PointAt
    rw [if_pos hline]
    simp only [Vector.Plus, Vector.Minus, Vector.ScaledBy, Vector.mk.injEq]
    refine ⟨by ring, by ring, by ring⟩
  have hconv : ∀ a b : ℚ, 0 ≤ t → t ≤ 1 →
      min a b ≤ a * (1 - t) + b * t ∧ a * (1 - t) + b * t ≤ max a b := by
    intro a b h0 h1
    rcases le_total a b with hab | hab
    · rw [min_eq_left hab, max_eq_right hab]
      constructor <;> nlinarith
    · rw [min_eq_right hab, max_eq_left hab]
      constructor <;> nlinarith
  obtain ⟨s1, hs1, hg1, -⟩ := GetEntity_PointForceTo sk _ (pc.PointAt M t) pe hpe
  have hent : s1.entity = modifyFirst (fun x => decide (x.h = e.pointAt (if pf then 1 else 0)))
      (fun x => { x with numPoint := pc.PointAt M t }) sk.entity ∧ s1.request = sk.request := by
    have h := hs1
    unfold PointForceTo at h
    rw [hpe] at h
    have h' := Option.some.inj h
    rw [← h']
    exact ⟨rfl, rfl⟩
  have hsome : (s1.GetEntity (e.pointAt (if pf then 1 else 0))).isSome = true := by
    rw [hg1, if_pos rfl]; rfl
  obtain ⟨s2, hs2, hr2, he2⟩ := ConstrainPointIfCoincident_frame M _ _ hsome
  refine ⟨s2.Constrain ConstraintType.ARC_LINE_TANGENT NO_ENTITY NO_ENTITY arc e.h af false,
    ?_, hr2.trans hent.2, he2.trans hent.1, ?_, hpt, ?_⟩
  · unfold Sketch.CreateRequestTrimmedTo
    rw [if_pos hline, if_pos rfl, he]
    simp only [Option.bind_eq_bind, Option.some_bind, Option.pure_def]
    rw [hs1, Option.some_bind, hs2, Option.some_bind]
  · intro h'
    rw [GetEntity_congr s1 (s2.Constrain ConstraintType.ARC_LINE_TANGENT NO_ENTITY NO_ENTITY arc e.h af false) he2, hg1]
  · intro h0 h1
    rw [hpt]
    exact ⟨hconv _ _ h0 h1, hconv _ _ h0 h1, hconv _ _ h0 h1⟩

theorem CreateRequestTrimmedTo_reuse_line_witness :
    cornerCurve0.isLine = true ∧
    (cornerSketch 1 true).GetEntity ((cornerLine 2).h.entity 0)
      = some (generatedEntity (cornerLine 2)) ∧
    (cornerSketch 1 true).GetEntity
        ((generatedEntity (cornerLine 2)).pointAt (if false then 1 else 0))
      = some (generatedPoint (cornerLine 2) 1 ⟨0, 0, 0⟩) ∧
    ∃ sk', (cornerSketch 1 true).CreateRequestTrimmedTo cornerMath cornerCurve0 (1 / 4) true
        ((cornerLine 2).h.entity 0) ((cornerLine 3).h.entity 0) false false = some sk' ∧
      sk'.request = (cornerSketch 1 true).request ∧
      sk'.GetEntity ((cornerLine 2).h.entity 1)
        = some (generatedPoint (cornerLine 2) 1 ⟨1, 0, 0⟩) ∧
      sk'.GetEntity ((cornerLine 2).h.entity 2)
        = some (generatedPoint (cornerLine 2) 2 ⟨4, 0, 0⟩) := by
  have h1 : cornerCurve0.isLine = true := rfl
  have h2 : (cornerSketch 1 true).GetEntity ((cornerLine 2).h.entity 0)
      = some (generatedEntity (cornerLine 2)) := by decide
  have h3 : (cornerSketch 1 true).GetEntity
        ((generatedEntity (cornerLine 2)).pointAt (if false then 1 else 0))
      = some (generatedPoint (cornerLine 2) 1 ⟨0, 0, 0⟩) := by decide
  obtain ⟨sk', hs, hr, -, hg, hp, -⟩ := CreateRequestTrimmedTo_reuse_line cornerMath cornerCurve0
    (cornerSketch 1 true) (1 / 4) ((cornerLine 2).h.entity 0) ((cornerLine 3).h.entity 0)
    false false _ _ h1 h2 h3
  refine ⟨h1, h2, h3, sk', hs, hr, ?_, ?_⟩
  · rw [hg, if_pos (by decide), hp]
    norm_num [generatedPoint, cornerCurve0, Vector.Plus, Vector.ScaledBy]
  · rw [hg, if_neg (by decide)]
    decide

end Sketch
end SolveSpace

namespace SolveSpace
namespace Sketch

theorem forUp_counted {σ : Type} (body : Nat → σ → σ) (N : Nat) (fuel : Nat) :
    ∀ (k : Nat) (s : σ) (c : Nat),
      forUp (fun i => decide (i < N)) (fun i (p : σ × Nat) => (body i p.1, p.2 + 1)) fuel k (s, c)
        = (forUp (fun i => decide (i < N)) body fuel k s, c + min fuel (N - k)) := by
  induction fuel with
  | zero => intro k s c; simp [forUp]
  | succ f ih =>
    intro k s c
    by_cases hk : k < N
    · simp only [forUp, hk, decide_True, if_true]
      rw [ih]
      congr 1
      omega
    · simp only [forUp, hk, decide_False]
      have : N - k = 0 := by omega
      simp [this]

theorem forUp_fuel {σ : Type} (body : Nat → σ → σ) (N : Nat) (fuel : Nat) :
    ∀ (k : Nat) (s : σ), N ≤ k + fuel →
      forUp (fun i => decide (i < N)) body fuel k s
        = forUp (fun i => decide (i < N)) body (N - k) k s := by
  induction fuel with
  | zero =>
    intro k s h
    have : N - k = 0 := by omega
    rw [this]
  | succ f ih =>
    intro k s h
    by_cases hk : k < N
    · have h2 : N - k = (N - (k + 1)) + 1 := by omega
      rw [h2]
      simp only [forUp, hk, decide_True, if_true]
      exact ih (k + 1) _ (by omega)
    · have : N - k = 0 := by omega
      rw [this]
      simp only [forUp, hk, decide_False]
      rfl

theorem arcFitStep_target (M : Math) (sk : Sketch) (pc0 pc1 : ParametricCurve) (wn : Vector)
    (s : ArcFit) : (arcFitStep M sk pc0 pc1 wn 0 0 s).r = targetRadius M sk pc0 pc1 s := by
  simp only [arcFitStep, rampRadius, Nat.lt_irrefl, if_false, targetRadius, fitAngle]

/-- Claim C21. The fitting loop of `MakeTangentArc` ends after exactly 1020
iterations on every input: with at least 1020 iterations allowed, it runs 1020
of them and gives the result of the loop. The first 1000 iterations scale the
target radius (the manual radius or the automatic one) by `0.1 + 0.9·i/1000`,
and each of the last 20 iterations uses the target radius as it is. -/
theorem arcFit_iterations (M : Math) (sk : Sketch) (pc0 pc1 : ParametricCurve) (wn : Vector) :
    (∀ fuel, 1020 ≤ fuel →
      arcFitCounted M sk pc0 pc1 wn fuel = (arcFit M sk pc0 pc1 wn, 1020)) ∧
    arcFit M sk pc0 pc1 wn = iterUp (arcFitStep M sk pc0 pc1 wn 1000) 1020 arcFitStart ∧
    (∀ i s, i < 1000 → (arcFitStep M sk pc0 pc1 wn 1000 i s).r
      = targetRadius M sk pc0 pc1 s * (0.1 + 0.9 * (i : ℚ) / 1000)) ∧
    (∀ i s, 1000 ≤ i → (arcFitStep M sk pc0 pc1 wn 1000 i s).r = targetRadius M sk pc0 pc1 s) := by
  refine ⟨?_, ?_, ?_, ?_⟩
  · intro fuel hf
    unfold arcFitCounted arcFit
    rw [forUp_counted, forUp_fuel _ _ fuel 0 _ (by omega)]
    have h : min fuel (1000 + 20 - 0) = 1020 := by omega
    rw [h]
    rfl
  · unfold arcFit
    rw [forUp_eq_iterUp]
    rfl
  · intro i s hi
    rw [arcFitStep_r, arcFitStep_target]
    unfold rampRadius
    rw [if_pos hi]
    norm_num
  · intro i s hi
    rw [arcFitStep_r, arcFitStep_target, rampRadius_after _ _ _ hi]

end Sketch
end SolveSpace

namespace SolveSpace

namespace Vector

theorem DivProjected_scaled_ne (T : Vector) (a b : ℚ) (hT : T.Dot T ≠ 0) :
    ((T.ScaledBy a).Minus (T.ScaledBy b)).DivProjected T = a - b := by
  rw [DivProjected_eq, Dot_Minus_left, Dot_ScaledBy_left, Dot_ScaledBy_left]
  field_simp
  ring

theorem Dot_self_ne_of_Cross (a b : Vector) (h : (a.Cross b).MagSquared ≠ 0) : a.Dot a ≠ 0 := by
  intro h0
  apply h
  have hx : a.x = 0 := by
    simp only [Dot] at h0
    nlinarith [mul_self_nonneg a.x, mul_self_nonneg a.y, mul_self_nonneg a.z]
  have hy : a.y = 0 := by
    simp only [Dot] at h0
    nlinarith [mul_self_nonneg a.x, mul_self_nonneg a.y, mul_self_nonneg a.z]
  have hz : a.z = 0 := by
    simp only [Dot] at h0
    nlinarith [mul_self_nonneg a.x, mul_self_nonneg a.y, mul_self_nonneg a.z]
  simp only [MagSquared, Cross, hx, hy, hz]
  ring

/-- Two lines through `C` whose directions are not parallel meet at `C`. -/
theorem AtIntersectionOfLines_shared (C T0 T1 : Vector) (a b : ℚ)
    (hx : (T0.Cross T1).MagSquared ≠ 0) :
    AtIntersectionOfLines (C.Plus (T0.ScaledBy a)) ((C.Plus (T0.ScaledBy a)).Plus T0)
      (C.Plus (T1.ScaledBy b)) ((C.Plus (T1.ScaledBy b)).Plus T1) = C := by
  unfold AtIntersectionOfLines
  simp only [Minus_Plus_self, Plus_Minus_Plus]
  have hden : T0.Dot ((T0.Cross T1).Cross T1) = -(T0.Cross T1).MagSquared := by
    simp only [Dot, Cross, MagSquared]; ring
  have hnum : ((T0.ScaledBy a).Minus (T1.ScaledBy b)).Dot ((T0.Cross T1).Cross T1)
      = -(a * (T0.Cross T1).MagSquared) := by
    simp only [Dot, Cross, MagSquared, Minus, ScaledBy]; ring
  rw [hden, hnum]
  have hpa : -(-(a * (T0.Cross T1).MagSquared)) / (-(T0.Cross T1).MagSquared) = -a := by
    rw [neg_neg, div_neg, mul_div_assoc, div_self hx, mul_one]
  rw [hpa]
  simp only [Plus, ScaledBy, ext_xyz]
  refine ⟨by ring, by ring, by ring⟩

end Vector

namespace Sketch

theorem fitAngle_lines (M : Math) (pc0 pc1 : ParametricCurve) (s : ArcFit)
    (hl0 : pc0.isLine = true) (hl1 : pc1.isLine = true) :
    fitAngle M pc0 pc1 s = M.acos (((pc0.p1.Minus pc0.p0).WithMagnitude M 1).Dot
      ((pc1.p1.Minus pc1.p0).WithMagnitude M 1)) := by
  simp only [fitAngle, ParametricCurve.TangentAt, hl0, hl1, if_true]

/-- One iteration of the Newton loop on two lines that leave the same point in
directions that are not parallel: the lines meet at that point, and the new
parameters are the distance `el = r / tan(theta/2)` over the lengths. -/
theorem arcFitStep_lines (M : Math) (sk : Sketch) (pc0 pc1 : ParametricCurve) (wn : Vector)
    (hl0 : pc0.isLine = true) (hl1 : pc1.isLine = true) (hsh : pc1.p0 = pc0.p0)
    (hx : ((pc0.p1.Minus pc0.p0).Cross (pc1.p1.Minus pc1.p0)).MagSquared ≠ 0)
    (hL0 : (pc0.p1.Minus pc0.p0).Magnitude M ≠ 0) (hL1 : (pc1.p1.Minus pc1.p0).Magnitude M ≠ 0)
    (iters i : Nat) (s : ArcFit) :
    (arcFitStep M sk pc0 pc1 wn iters i s).pinter = pc0.p0 ∧
    (arcFitStep M sk pc0 pc1 wn iters i s).t0
      = (arcFitStep M sk pc0 pc1 wn iters i s).r / M.tan (fitAngle M pc0 pc1 s / 2)
          / (pc0.p1.Minus pc0.p0).Magnitude M ∧
    (arcFitStep M sk pc0 pc1 wn iters i s).t1
      = (arcFitStep M sk pc0 pc1 wn iters i s).r / M.tan (fitAngle M pc0 pc1 s / 2)
          / (pc1.p1.Minus pc1.p0).Magnitude M := by
  rw [fitAngle_lines M pc0 pc1 s hl0 hl1]
  rw [hsh] at hx hL1 ⊢
  have hx' : ((pc1.p1.Minus pc0.p0).Cross (pc0.p1.Minus pc0.p0)).MagSquared ≠ 0 := by
    intro h
    apply hx
    rw [← h]
    simp only [Vector.MagSquared, Vector.Cross]; ring
  have hT0 := Vector.Dot_self_ne_of_Cross _ _ hx
  have hT1 := Vector.Dot_self_ne_of_Cross _ _ hx'
  have hint := fun a b => Vector.AtIntersectionOfLines_shared pc0.p0 (pc0.p1.Minus pc0.p0)
    (pc1.p1.Minus pc0.p0) a b hx
  have hW0 : ∀ v, (pc0.p1.Minus pc0.p0).WithMagnitude M v
      = (pc0.p1.Minus pc0.p0).ScaledBy (v / (pc0.p1.Minus pc0.p0).Magnitude M) := by
    intro v
    unfold Vector.WithMagnitude
    simp only [if_neg hL0]
  have hW1 : ∀ v, (pc1.p1.Minus pc0.p0).WithMagnitude M v
      = (pc1.p1.Minus pc0.p0).ScaledBy (v / (pc1.p1.Minus pc0.p0).Magnitude M) := by
    intro v
    unfold Vector.WithMagnitude
    simp only [if_neg hL1]
  unfold arcFitStep
  simp only [ParametricCurve.PointAt, ParametricCurve.TangentAt, hl0, hl1, if_true, hsh, hint]
  refine ⟨trivial, ?_, ?_⟩
  · rw [hW0 (_ / _), Vector.Plus_Minus_Plus, Vector.DivProjected_scaled_ne _ _ _ hT0]
    ring
  · rw [hW1 (_ / _), Vector.Plus_Minus_Plus, Vector.DivProjected_scaled_ne _ _ _ hT1]
    ring

end Sketch
end SolveSpace

namespace SolveSpace
namespace Sketch

theorem min3_div_le (a b c t : ℚ) (ht : 0 < t) :
    min (min a (b * t)) (c * t) / t ≤ b ∧ min (min a (b * t)) (c * t) / t ≤ c := by
  constructor
  · rw [div_le_iff₀ ht]
    exact le_trans (min_le_left _ _) (min_le_right _ _)
  · rw [div_le_iff₀ ht]
    exact min_le_right _ _

/-- Claim C22. In exact arithmetic: with the automatic radius, a polishing
iteration uses the radius
`min(200/scale, LengthForAuto0·tan(θ/2), LengthForAuto1·tan(θ/2))`, so that for
`tan(θ/2) > 0` the distance `r / tan(θ/2)` is at most `LengthForAuto` of either
curve: a third of the length of a line segment, and `|dtheta|·r/20` for an arc.
For two line segments that leave exactly the same point in directions that are
not parallel, the loop ends with this radius and with both curve parameters equal to
`r / tan(θ/2)` over the length, hence at most `1/3`. -/
theorem arcFit_auto_radius (M : Math) (sk : Sketch) (hauto : sk.tangentArcManual = false) :
    (∀ (pc0 pc1 : ParametricCurve) (wn : Vector) (i : Nat) (s : ArcFit), 1000 ≤ i →
      (arcFitStep M sk pc0 pc1 wn 1000 i s).r
        = min (min (200 / sk.scale) (pc0.LengthForAuto M * M.tan (fitAngle M pc0 pc1 s / 2)))
            (pc1.LengthForAuto M * M.tan (fitAngle M pc0 pc1 s / 2)) ∧
      (0 < M.tan (fitAngle M pc0 pc1 s / 2) →
        (arcFitStep M sk pc0 pc1 wn 1000 i s).r / M.tan (fitAngle M pc0 pc1 s / 2)
          ≤ pc0.LengthForAuto M ∧
        (arcFitStep M sk pc0 pc1 wn 1000 i s).r / M.tan (fitAngle M pc0 pc1 s / 2)
          ≤ pc1.LengthForAuto M)) ∧
    (∀ pc : ParametricCurve, pc.isLine = true →
      pc.LengthForAuto M = (pc.p1.Minus pc.p0).Magnitude M / 3) ∧
    (∀ pc : ParametricCurve, pc.isLine = false → pc.LengthForAuto M = |pc.dtheta| * pc.r / 20) ∧
    (∀ (pc0 pc1 : ParametricCurve) (wn : Vector) (tt : ℚ),
      pc0.isLine = true → pc1.isLine = true → pc1.p0 = pc0.p0 →
      ((pc0.p1.Minus pc0.p0).Cross (pc1.p1.Minus pc1.p0)).MagSquared ≠ 0 →
      0 < (pc0.p1.Minus pc0.p0).Magnitude M → 0 < (pc1.p1.Minus pc1.p0).Magnitude M →
      tt = M.tan (M.acos (((pc0.p1.Minus pc0.p0).WithMagnitude M 1).Dot
        ((pc1.p1.Minus pc1.p0).WithMagnitude M 1)) / 2) →
      0 < tt →
      (arcFit M sk pc0 pc1 wn).r
        = min (min (200 / sk.scale) ((pc0.p1.Minus pc0.p0).Magnitude M / 3 * tt))
            ((pc1.p1.Minus pc1.p0).Magnitude M / 3 * tt) ∧
      (arcFit M sk pc0 pc1 wn).r / tt ≤ (pc0.p1.Minus pc0.p0).Magnitude M / 3 ∧
      (arcFit M sk pc0 pc1 wn).r / tt ≤ (pc1.p1.Minus pc1.p0).Magnitude M / 3 ∧
      (arcFit M sk pc0 pc1 wn).t0
        = (arcFit M sk pc0 pc1 wn).r / tt / (pc0.p1.Minus pc0.p0).Magnitude M ∧
      (arcFit M sk pc0 pc1 wn).t1
        = (arcFit M sk pc0 pc1 wn).r / tt / (pc1.p1.Minus pc1.p0).Magnitude M ∧
      (arcFit M sk pc0 pc1 wn).t0 ≤ 1 / 3 ∧ (arcFit M sk pc0 pc1 wn).t1 ≤ 1 / 3) := by
  have hstep : ∀ (pc0 pc1 : ParametricCurve) (wn : Vector) (i : Nat) (s : ArcFit), 1000 ≤ i →
      (arcFitStep M sk pc0 pc1 wn 1000 i s).r
        = min (min (200 / sk.scale) (pc0.LengthForAuto M * M.tan (fitAngle M pc0 pc1 s / 2)))
            (pc1.LengthForAuto M * M.tan (fitAngle M pc0 pc1 s / 2)) := by
    intro pc0 pc1 wn i s hi
    rw [arcFitStep_r, arcFitStep_target, rampRadius_after _ _ _ hi]
    unfold targetRadius
    rw [hauto]
    rfl
  refine ⟨?_, ?_, ?_, ?_⟩
  · intro pc0 pc1 wn i s hi
    refine ⟨hstep pc0 pc1 wn i s hi, fun ht => ?_⟩
    rw [hstep pc0 pc1 wn i s hi]
    exact min3_div_le _ _ _ _ ht
  · intro pc hl
    unfold ParametricCurve.LengthForAuto
    rw [if_pos hl]
  · intro pc hl
    unfold ParametricCurve.LengthForAuto
    rw [if_neg (by rw [hl]; decide)]
  · intro pc0 pc1 wn tt hl0 hl1 hsh hx hL0 hL1 htt ht
    have hfit : arcFit M sk pc0 pc1 wn = arcFitStep M sk pc0 pc1 wn 1000 1019
        (iterUp (arcFitStep M sk pc0 pc1 wn 1000) 1019 arcFitStart) := by
      unfold arcFit
      rw [forUp_eq_iterUp]
      show iterUp _ (1019 + 1) _ = _
      rw [iterUp]
      rfl
    have hang := fitAngle_lines M pc0 pc1
      (iterUp (arcFitStep M sk pc0 pc1 wn 1000) 1019 arcFitStart) hl0 hl1
    obtain ⟨-, h0, h1⟩ := arcFitStep_lines M sk pc0 pc1 wn hl0 hl1 hsh hx hL0.ne' hL1.ne' 1000 1019
      (iterUp (arcFitStep M sk pc0 pc1 wn 1000) 1019 arcFitStart)
    have hr := hstep pc0 pc1 wn 1019
      (iterUp (arcFitStep M sk pc0 pc1 wn 1000) 1019 arcFitStart) (by omega)
    rw [hang, ← htt] at h0 h1 hr
    unfold ParametricCurve.LengthForAuto at hr
    rw [if_pos hl0, if_pos hl1] at hr
    rw [hfit]
    have hb := min3_div_le (200 / sk.scale) ((pc0.p1.Minus pc0.p0).Magnitude M / 3)
      ((pc1.p1.Minus pc1.p0).Magnitude M / 3) tt ht
    rw [← hr] at hb
    refine ⟨hr, hb.1, hb.2, h0, h1, ?_, ?_⟩
    · rw [h0, div_le_iff₀ hL0]
      linarith [hb.1]
    · rw [h1, div_le_iff₀ hL1]
      linarith [hb.2]

theorem arcFit_auto_radius_witness :
    cornerSketchAuto.tangentArcManual = false ∧
    (arcFit cornerMath cornerSketchAuto cornerCurve0 cornerCurve1 ⟨0, 0, 1⟩).r = 4 / 3 ∧
    (arcFit cornerMath cornerSketchAuto cornerCurve0 cornerCurve1 ⟨0, 0, 1⟩).t0 = 1 / 3 ∧
    (arcFit cornerMath cornerSketchAuto cornerCurve0 cornerCurve1 ⟨0, 0, 1⟩).t1 ≤ 1 / 3 := by
  have hm0 : (cornerCurve0.p1.Minus cornerCurve0.p0).Magnitude cornerMath = 4 := by
    norm_num [Vector.Magnitude, Vector.MagSquared, Vector.Minus, cornerCurve0, cornerMath,
      show (16 : ℚ) = 4 * 4 by norm_num, Rat.sqrt_eq]
  have hm1 : (cornerCurve1.p1.Minus cornerCurve1.p0).Magnitude cornerMath = 4 := by
    norm_num [Vector.Magnitude, Vector.MagSquared, Vector.Minus, cornerCurve1, cornerMath,
      show (16 : ℚ) = 4 * 4 by norm_num, Rat.sqrt_eq]
  obtain ⟨hr, -, -, h0, -, -, h1⟩ := (arcFit_auto_radius cornerMath cornerSketchAuto rfl).2.2.2
    cornerCurve0 cornerCurve1 ⟨0, 0, 1⟩ 1 rfl rfl rfl
    (by norm_num [Vector.MagSquared, Vector.Cross, Vector.Minus, cornerCurve0, cornerCurve1])
    (by rw [hm0]; norm_num) (by rw [hm1]; norm_num) rfl (by norm_num)
  rw [hm0, hm1] at hr
  rw [hm0] at h0
  have hs : cornerSketchAuto.scale = 1 := rfl
  rw [hs] at hr
  have hr' : (arcFit cornerMath cornerSketchAuto cornerCurve0 cornerCurve1 ⟨0, 0, 1⟩).r = 4 / 3 := by
    rw [hr]; norm_num
  refine ⟨rfl, hr', ?_, h1⟩
  rw [h0, hr']
  norm_num

end Sketch
end SolveSpace

namespace SolveSpace
namespace utf8_iterator

theorem and_pow_eq_zero (x k : Nat) : x &&& 2 ^ k = 0 ↔ x / 2 ^ k % 2 = 0 := by
  rw [Nat.and_two_pow, Nat.testBit_to_div_mod]
  by_cases h : x / 2 ^ k % 2 = 1
  · simp [h]
  · have h0 : x / 2 ^ k % 2 = 0 := by omega
    simp [h0]

theorem decodeLoop_step (fuel b : Nat) (bytes : List Nat) (result mask R : Nat) (k : Nat)
    (hf : 0 < fuel)
    (hR : (result * 64 % 4294967296 + (b % 256 + 4294967296 - 128) % 4294967296) % 4294967296 = R)
    (hK : mask * 32 % 4294967296 = 2 ^ k) :
    decodeLoop fuel (b :: bytes) result mask =
      if R / 2 ^ k % 2 = 0 then some (R, 2 ^ k, bytes)
      else decodeLoop (fuel - 1) bytes R (2 ^ k) := by
  obtain ⟨f, rfl⟩ : ∃ f, fuel = f + 1 := ⟨fuel - 1, by omega⟩
  have h1 : result <<< 6 = result * 64 := by rw [Nat.shiftLeft_eq]
  have h2 : mask <<< 5 = mask * 32 := by rw [Nat.shiftLeft_eq]
  simp only [decodeLoop, h1, h2, Nat.add_sub_cancel]
  norm_num only at hR hK ⊢
  rw [hR, hK]
  by_cases h : R / 2 ^ k % 2 = 0
  · rw [if_pos h, if_neg (by rw [not_not]; exact (and_pow_eq_zero R k).mpr h)]
  · rw [if_neg h, if_pos (fun h' => h ((and_pow_eq_zero R k).mp h'))]

end utf8_iterator
end SolveSpace

namespace SolveSpace
namespace utf8_iterator

theorem deref_lead (b : Nat) (bytes : List Nat) (hb : b < 256) (hhi : 128 ≤ b) (r k : Nat)
    (n : List Nat) (hk32 : k < 32)
    (h : decodeLoop 6 bytes b 0x40 = some (r, 2 ^ k, n)) :
    deref (b :: bytes) = some (r % 2 ^ k, n) := by
  have hb' : b % 256 = b := Nat.mod_eq_of_lt hb
  have hbit : ¬ (b &&& 0x80 = 0) := by
    rw [show (0x80 : Nat) = 2 ^ 7 by norm_num, and_pow_eq_zero]
    omega
  have hpow : 2 ^ k < 2 ^ 32 := Nat.pow_lt_pow_right (by norm_num) hk32
  have hpos : 0 < 2 ^ k := Nat.two_pow_pos k
  have hm : (2 ^ k + 2 ^ 32 - 1) % 2 ^ 32 = 2 ^ k - 1 := by
    have : 2 ^ k + 2 ^ 32 - 1 = (2 ^ k - 1) + 2 ^ 32 := by omega
    rw [this, Nat.add_mod_right, Nat.mod_eq_of_lt (by omega)]
  simp only [deref, hb', ne_eq, hbit, not_false_eq_true, if_true, h, hm,
    Nat.and_pow_two_sub_one_eq_mod]

theorem deref_one (b : Nat) (bytes : List Nat) (hb : b < 128) :
    deref (b :: bytes) = some (b, bytes) := by
  have hb' : b % 256 = b := Nat.mod_eq_of_lt (by omega)
  have hbit : b &&& 0x80 = 0 := by
    rw [show (0x80 : Nat) = 2 ^ 7 by norm_num, and_pow_eq_zero]
    omega
  simp only [deref, hb', ne_eq, hbit, not_true_eq_false, if_false]

theorem deref_two (h l : Nat) (rest : List Nat) (hh : h < 32) (hl : l < 64) :
    deref ([0xC0 + h, 0x80 + l] ++ rest) = some (h * 64 + l, rest) := by
  simp only [List.cons_append, List.nil_append]
  have hloop : decodeLoop 6 ([0x80 + l] ++ rest) (0xC0 + h) 0x40
      = some (0x3000 + h * 64 + l, 2 ^ 11, rest) := by
    simp only [List.cons_append, List.nil_append]
    rw [decodeLoop_step _ _ _ _ _ (0x3000 + h * 64 + l) 11 (by norm_num) (by omega) (by norm_num),
      if_pos (by norm_num; omega)]
  simp only [List.cons_append, List.nil_append] at hloop
  rw [deref_lead _ _ (by omega) (by omega) _ 11 _ (by norm_num) hloop]
  congr 2
  norm_num
  omega

theorem deref_three (h m l : Nat) (rest : List Nat) (hh : h < 16) (hm : m < 64) (hl : l < 64) :
    deref ([0xE0 + h, 0x80 + m, 0x80 + l] ++ rest) = some (h * 4096 + m * 64 + l, rest) := by
  simp only [List.cons_append, List.nil_append]
  have hloop : decodeLoop 6 ([0x80 + m, 0x80 + l] ++ rest) (0xE0 + h) 0x40
      = some (0xE0000 + h * 4096 + m * 64 + l, 2 ^ 16, rest) := by
    simp only [List.cons_append, List.nil_append]
    rw [decodeLoop_step _ _ _ _ _ (0x3800 + h * 64 + m) 11 (by norm_num) (by omega) (by norm_num),
      if_neg (by norm_num; omega),
      decodeLoop_step _ _ _ _ _ (0xE0000 + h * 4096 + m * 64 + l) 16 (by norm_num) (by omega) (by norm_num),
      if_pos (by norm_num; omega)]
  simp only [List.cons_append, List.nil_append] at hloop
  rw [deref_lead _ _ (by omega) (by omega) _ 16 _ (by norm_num) hloop]
  congr 2
  norm_num
  omega

theorem deref_four (h m1 m2 l : Nat) (rest : List Nat) (hh : h < 8) (hm1 : m1 < 64)
    (hm2 : m2 < 64) (hl : l < 64) :
    deref ([0xF0 + h, 0x80 + m1, 0x80 + m2, 0x80 + l] ++ rest)
      = some (h * 262144 + m1 * 4096 + m2 * 64 + l, rest) := by
  simp only [List.cons_append, List.nil_append]
  have hloop : decodeLoop 6 ([0x80 + m1, 0x80 + m2, 0x80 + l] ++ rest) (0xF0 + h) 0x40
      = some (0x3C00000 + h * 262144 + m1 * 4096 + m2 * 64 + l, 2 ^ 21, rest) := by
    simp only [List.cons_append, List.nil_append]
    rw [decodeLoop_step _ _ _ _ _ (0x3C00 + h * 64 + m1) 11 (by norm_num) (by omega) (by norm_num),
      if_neg (by norm_num; omega),
      decodeLoop_step _ _ _ _ _ (0xF0000 + h * 4096 + m1 * 64 + m2) 16 (by norm_num) (by omega) (by norm_num),
      if_neg (by norm_num; omega),
      decodeLoop_step _ _ _ _ _ (0x3C00000 + h * 262144 + m1 * 4096 + m2 * 64 + l) 21 (by norm_num) (by omega)
        (by norm_num),
      if_pos (by norm_num; omega)]
  simp only [List.cons_append, List.nil_append] at hloop
  rw [deref_lead _ _ (by omega) (by omega) _ 21 _ (by norm_num) hloop]
  congr 2
  norm_num
  omega

/-- Claim C30. `utf8_iterator::operator*` undoes the standard UTF-8 encoding:
for every code point `cp` from 0 to `0x10FFFF`, on the one to four bytes of its
encoding, followed by any bytes, it returns `cp` and sets `n` just past the last
byte of the encoding. -/
theorem deref_encode (cp : Nat) (rest : List Nat) (hcp : cp ≤ 0x10FFFF) :
    deref (encode cp ++ rest) = some (cp, rest) ∧
    1 ≤ (encode cp).length ∧ (encode cp).length ≤ 4 ∧ ∀ b ∈ encode cp, b < 256 := by
  unfold encode
  by_cases h1 : cp < 0x80
  · rw [if_pos h1]
    refine ⟨deref_one cp rest h1, by simp, by simp, ?_⟩
    intro b hb
    simp only [List.mem_singleton] at hb
    omega
  · rw [if_neg h1]
    by_cases h2 : cp < 0x800
    · rw [if_pos h2]
      refine ⟨?_, by simp, by simp, ?_⟩
      · have := deref_two (cp / 64) (cp % 64) rest (by omega) (by omega)
        rw [Nat.div_add_mod'] at this
        exact this
      · intro b hb
        simp only [List.mem_cons, List.mem_singleton, List.not_mem_nil, or_false] at hb
        omega
    · rw [if_neg h2]
      by_cases h3 : cp < 0x10000
      · rw [if_pos h3]
        refine ⟨?_, by simp, by simp, ?_⟩
        · have := deref_three (cp / 4096) (cp / 64 % 64) (cp % 64) rest (by omega) (by omega)
            (by omega)
          have hcp' : cp / 4096 * 4096 + cp / 64 % 64 * 64 + cp % 64 = cp := by omega
          rw [hcp'] at this
          exact this
        · intro b hb
          simp only [List.mem_cons, List.mem_singleton, List.not_mem_nil, or_false] at hb
          omega
      · rw [if_neg h3]
        refine ⟨?_, by simp, by simp, ?_⟩
        · have := deref_four (cp / 262144) (cp / 4096 % 64) (cp / 64 % 64) (cp % 64) rest
            (by omega) (by omega) (by omega) (by omega)
          have hcp' : cp / 262144 * 262144 + cp / 4096 % 64 * 4096 + cp / 64 % 64 * 64 + cp % 64
              = cp := by omega
          rw [hcp'] at this
          exact this
        · intro b hb
          simp only [List.mem_cons, List.mem_singleton, List.not_mem_nil, or_false] at hb
          omega

theorem deref_encode_witness :
    (0x20AC : Nat) ≤ 0x10FFFF ∧ encode 0x20AC = [0xE2, 0x82, 0xAC] ∧
    deref (encode 0x20AC ++ [0x41]) = some (0x20AC, [0x41]) :=
  ⟨by decide, by decide, (deref_encode 0x20AC [0x41] (by decide)).1⟩

end utf8_iterator
end SolveSpace

namespace SolveSpace
namespace Sketch

theorem endpointsOf_some (sk : Sketch) (r : Request) (ps pf : Vector) :
    endpointsOf sk r = some (ps, pf) ↔
      ∃ e, sk.GetEntity (r.h.entity 0) = some e ∧ sk.EndpointStart e = some ps ∧
        sk.EndpointFinish e = some pf := by
  unfold endpointsOf
  constructor
  · intro h
    split at h
    · cases h
    · rename_i e he
      split at h
      · rename_i ps' pf' h1 h2
        simp only [Option.some.injEq, Prod.mk.injEq] at h
        exact ⟨e, he, by rw [h1, h.1], by rw [h2, h.2]⟩
      · cases h
  · rintro ⟨e, he, h1, h2⟩
    simp only [he, h1, h2]

theorem findOperands_skip (M : Math) (sk : Sketch) (p : Vector) (r : Request)
    (rs : List Request) (acc : Nat × List Operand) (h : isCandidate sk r = false) :
    findOperands M sk p (r :: rs) acc = findOperands M sk p rs acc := by
  obtain ⟨c, ops⟩ := acc
  simp only [isCandidate, Bool.and_eq_false_iff, decide_eq_false_iff_not, Bool.not_eq_false',
    Bool.or_eq_false_iff] at h
  simp only [findOperands]
  by_cases h1 : r.group ≠ sk.activeGroup
  · rw [if_pos h1]
  rw [if_neg h1]
  by_cases h2 : r.workplane ≠ sk.activeWorkplane
  · rw [if_pos h2]
  rw [if_neg h2]
  by_cases h3 : r.construction = true
  · rw [if_pos h3]
  rw [if_neg h3]
  by_cases h4 : r.type ≠ RequestType.LINE_SEGMENT ∧ r.type ≠ RequestType.ARC_OF_CIRCLE
  · rw [if_pos h4]
  exfalso
  rw [not_not] at h1 h2
  rcases h with ((h | h) | h) | h
  · exact h h1
  · exact h h2
  · exact h3 h
  · exact h4 h

theorem findOperands_candidate (M : Math) (sk : Sketch) (p : Vector) (r : Request)
    (rs : List Request) (c : Nat) (ops : List Operand) (h : isCandidate sk r = true) :
    findOperands M sk p (r :: rs) (c, ops) =
      (sk.GetEntity (r.h.entity 0)).bind fun e =>
        (sk.EndpointStart e).bind fun ps =>
          (sk.EndpointFinish e).bind fun pf =>
            if ps.Equals p M.LENGTH_EPS || pf.Equals p M.LENGTH_EPS then
              findOperands M sk p rs
                (c + 1, if c < 2 then ops ++ [⟨e.h, r.h, pf.Equals p M.LENGTH_EPS⟩] else ops)
            else findOperands M sk p rs (c, ops) := by
  simp only [isCandidate, Bool.and_eq_true, decide_eq_true_eq, Bool.not_eq_true',
    Bool.or_eq_true] at h
  obtain ⟨⟨⟨h1, h2⟩, h3⟩, h4⟩ := h
  simp only [findOperands]
  rw [if_neg (by rw [not_not]; exact h1), if_neg (by rw [not_not]; exact h2),
    if_neg (by rw [h3]; decide), if_neg (by tauto)]
  rfl

/-- The loop of `MakeTangentArc` over the requests counts the requests that
join at the vertex. -/
theorem findOperands_count (M : Math) (sk : Sketch) (p : Vector) (rs : List Request) :
    ∀ (c : Nat) (ops : List Operand) (c' : Nat) (ops' : List Operand),
      findOperands M sk p rs (c, ops) = some (c', ops') →
      c' = c + rs.countP (joinsAt M sk p) := by
  induction rs with
  | nil =>
    intro c ops c' ops' h
    simp only [findOperands, Option.some.injEq, Prod.mk.injEq] at h
    simp [h.1]
  | cons r rs ih =>
    intro c ops c' ops' h
    cases hc : isCandidate sk r with
    | false =>
      rw [findOperands_skip M sk p r rs _ hc] at h
      rw [ih c ops c' ops' h, List.countP_cons_of_neg]
      simp [joinsAt, hc]
    | true =>
      rw [findOperands_candidate M sk p r rs c ops hc] at h
      simp only [Option.bind_eq_some] at h
      obtain ⟨e, he, ps, hps, pf, hpf, h⟩ := h
      have hend : endpointsOf sk r = some (ps, pf) := by
        simp only [endpointsOf, he, hps, hpf]
      by_cases hit : (ps.Equals p M.LENGTH_EPS || pf.Equals p M.LENGTH_EPS) = true
      · rw [if_pos hit] at h
        rw [ih _ _ c' ops' h, List.countP_cons_of_pos]
        · omega
        · simp only [joinsAt, hc, hend, Bool.true_and]
          exact hit
      · rw [if_neg hit] at h
        rw [ih _ _ c' ops' h, List.countP_cons_of_neg]
        simp only [joinsAt, hc, hend, Bool.true_and]
        exact hit

/-- The loop of `MakeTangentArc` over the requests returns when the entity and
the end points of every candidate request exist. -/
theorem findOperands_returns (M : Math) (sk : Sketch) (p : Vector) (rs : List Request)
    (hres : ∀ r ∈ rs, isCandidate sk r = true → (endpointsOf sk r).isSome = true) :
    ∀ (c : Nat) (ops : List Operand),
      ∃ ops', findOperands M sk p rs (c, ops) = some (c + rs.countP (joinsAt M sk p), ops') := by
  induction rs with
  | nil => intro c ops; exact ⟨ops, by simp [findOperands]⟩
  | cons r rs ih =>
    intro c ops
    have ih' := ih (fun r' hr' => hres r' (List.mem_cons_of_mem _ hr'))
    cases hc : isCandidate sk r with
    | false =>
      obtain ⟨ops', h⟩ := ih' c ops
      refine ⟨ops', ?_⟩
      rw [findOperands_skip M sk p r rs _ hc, h, List.countP_cons_of_neg]
      simp [joinsAt, hc]
    | true =>
      have hsome := hres r (List.mem_cons_self _ _) hc
      rw [findOperands_candidate M sk p r rs c ops hc]
      obtain ⟨⟨ps, pf⟩, hend⟩ := Option.isSome_iff_exists.mp hsome
      obtain ⟨e, he, hps, hpf⟩ := (endpointsOf_some sk r ps pf).mp hend
      rw [he, Option.some_bind, hps, Option.some_bind, hpf, Option.some_bind]
      by_cases hit : (ps.Equals p M.LENGTH_EPS || pf.Equals p M.LENGTH_EPS) = true
      · rw [if_pos hit]
        obtain ⟨ops', h⟩ := ih' (c + 1)
          (if c < 2 then ops ++ [⟨e.h, r.h, pf.Equals p M.LENGTH_EPS⟩] else ops)
        refine ⟨ops', ?_⟩
        rw [h, List.countP_cons_of_pos]
        · congr 2; omega
        · simp only [joinsAt, hc, hend, Bool.true_and]
          exact hit
      · rw [if_neg hit]
        obtain ⟨ops', h⟩ := ih' c ops
        refine ⟨ops', ?_⟩
        rw [h, List.countP_cons_of_neg]
        simp only [joinsAt, hc, hend, Bool.true_and]
        exact hit

end Sketch
end SolveSpace

namespace SolveSpace
namespace Sketch

theorem joinsAt_ClearSelection (M : Math) (sk : Sketch) (p : Vector) :
    joinsAt M sk.ClearSelection p = joinsAt M sk p := rfl

/-- Claim C25. `MakeTangentArc` goes on only when exactly two requests are
non-construction line segments or arcs of the active group and workplane with
an end point numerically equal to the selected point. With any other count it
reports the error and neither adds, deletes nor changes a request, an entity or
a constraint. -/
theorem MakeTangentArc_needs_two (M : Math) (sk : Sketch) (hp : hEntity) (ep : Entity)
    (hlock : sk.LockedInWorkplane = true)
    (hsel : sk.gs.point.head? = some hp) (hget : sk.GetEntity hp = some ep)
    (hres : ∀ r ∈ sk.request, isCandidate sk r = true → (endpointsOf sk r).isSome = true) :
    (sk.request.countP (joinsAt M sk ep.PointGetNum) ≠ 2 →
      ∃ sk', MakeTangentArc M sk = some sk' ∧
        sk'.errors = sk.errors ++ [msgTangentArcSelect] ∧
        sk'.request = sk.request ∧ sk'.entity = sk.entity ∧ sk'.constraint = sk.constraint) ∧
    (∀ sk', MakeTangentArc M sk = some sk' → sk'.errors = sk.errors →
      sk.request.countP (joinsAt M sk ep.PointGetNum) = 2) := by
  have hfirst : sk.request.countP (joinsAt M sk ep.PointGetNum) ≠ 2 →
      MakeTangentArc M sk = some (sk.ClearSelection.Error msgTangentArcSelect) := by
    intro hne
    obtain ⟨ops, hops⟩ := findOperands_returns M sk ep.PointGetNum sk.request hres 0 []
    rw [Nat.zero_add] at hops
    have hops' : findOperands M sk.ClearSelection ep.PointGetNum sk.ClearSelection.request (0, [])
        = some (sk.request.countP (joinsAt M sk ep.PointGetNum), ops) := by
      rw [findOperands_ClearSelection]; exact hops
    unfold MakeTangentArc
    rw [hlock, if_neg (show ¬ ((!true) = true) by decide), hsel]
    dsimp only [Option.pure_def, Option.bind_eq_bind, Option.some_bind, Option.bind]
    rw [hget]
    dsimp only
    rw [hops']
    dsimp only
    rw [if_pos hne]
  refine ⟨fun hne => ⟨_, hfirst hne, rfl, rfl, rfl, rfl⟩, ?_⟩
  intro sk' h herr
  by_contra hne
  rw [hfirst hne] at h
  have h' := Option.some.inj h
  rw [← h'] at herr
  exact Error_errors_ne sk.ClearSelection _ herr

end Sketch
end SolveSpace

namespace SolveSpace
namespace Sketch

theorem cornerSketchEnd_endpoints :
    endpointsOf cornerSketchEnd (cornerLine 2) = some (⟨0, 0, 0⟩, ⟨4, 0, 0⟩) ∧
    endpointsOf cornerSketchEnd (cornerLine 3) = some (⟨0, 0, 0⟩, ⟨0, 4, 0⟩) := by
  constructor
  · rw [endpointsOf_some]
    exact ⟨generatedEntity (cornerLine 2), by decide, by decide, by decide⟩
  · rw [endpointsOf_some]
    exact ⟨generatedEntity (cornerLine 3), by decide, by decide, by decide⟩

theorem cornerSketchEnd_count :
    cornerSketchEnd.request.countP (joinsAt cornerMath cornerSketchEnd ⟨4, 0, 0⟩) = 1 := by
  have h1 : joinsAt cornerMath cornerSketchEnd ⟨4, 0, 0⟩ cornerPlaneRequest = false := by
    have : isCandidate cornerSketchEnd cornerPlaneRequest = false := by decide
    simp [joinsAt, this]
  have h2 : joinsAt cornerMath cornerSketchEnd ⟨4, 0, 0⟩ (cornerLine 2) = true := by
    have : isCandidate cornerSketchEnd (cornerLine 2) = true := by decide
    simp only [joinsAt, this, cornerSketchEnd_endpoints.1, Bool.true_and]
    norm_num [Vector.Equals, cornerMath, Vector.Minus, Vector.MagSquared]
  have h3 : joinsAt cornerMath cornerSketchEnd ⟨4, 0, 0⟩ (cornerLine 3) = false := by
    have : isCandidate cornerSketchEnd (cornerLine 3) = true := by decide
    simp only [joinsAt, this, cornerSketchEnd_endpoints.2, Bool.true_and]
    norm_num [Vector.Equals, cornerMath, Vector.Minus, Vector.MagSquared]
  show List.countP _ [cornerPlaneRequest, cornerLine 2, cornerLine 3] = 1
  simp [List.countP_cons, h1, h2, h3]

theorem MakeTangentArc_needs_two_witness :
    cornerSketchEnd.LockedInWorkplane = true ∧
    cornerSketchEnd.gs.point.head? = some ((cornerLine 2).h.entity 2) ∧
    cornerSketchEnd.request.countP (joinsAt cornerMath cornerSketchEnd ⟨4, 0, 0⟩) = 1 ∧
    ∃ sk', MakeTangentArc cornerMath cornerSketchEnd = some sk' ∧
      sk'.errors = cornerSketchEnd.errors ++ [msgTangentArcSelect] ∧
      sk'.request = cornerSketchEnd.request ∧ sk'.entity = cornerSketchEnd.entity ∧
      sk'.constraint = cornerSketchEnd.constraint :=
  ⟨by decide, rfl, cornerSketchEnd_count,
    (MakeTangentArc_needs_two cornerMath cornerSketchEnd ((cornerLine 2).h.entity 2)
      (generatedPoint (cornerLine 2) 2 ⟨4, 0, 0⟩) (by decide) rfl (by decide)
      (by
        intro r hr hc
        have hr' : r ∈ [cornerPlaneRequest, cornerLine 2, cornerLine 3] := hr
        simp only [List.mem_cons, List.mem_singleton, List.not_mem_nil, or_false] at hr'
        rcases hr' with rfl | rfl | rfl
        · exact absurd hc (by decide)
        · rw [cornerSketchEnd_endpoints.1]; rfl
        · rw [cornerSketchEnd_endpoints.2]; rfl)).1
      (by
        rw [show (generatedPoint (cornerLine 2) 2 ⟨4, 0, 0⟩).PointGetNum = ⟨4, 0, 0⟩ from rfl,
          cornerSketchEnd_count]
        decide)⟩

end Sketch
end SolveSpace

namespace SolveSpace
namespace Sketch

/-- What the loop of `MakeTangentArc` records holds of every operand: a property
of the operands given at the start that holds of each record of a request whose
entity has an end point at the vertex holds of all operands at the end. -/
theorem findOperands_forall (M : Math) (sk : Sketch) (p : Vector) (Q : Operand → Prop)
    (rs : List Request)
    (hQ : ∀ r ∈ rs, ∀ e ps pf, sk.GetEntity (r.h.entity 0) = some e →
      sk.EndpointStart e = some ps → sk.EndpointFinish e = some pf →
      (ps.Equals p M.LENGTH_EPS || pf.Equals p M.LENGTH_EPS) = true →
      Q ⟨e.h, r.h, pf.Equals p M.LENGTH_EPS⟩) :
    ∀ (c : Nat) (ops : List Operand) (c' : Nat) (ops' : List Operand),
      findOperands M sk p rs (c, ops) = some (c', ops') → (∀ op ∈ ops, Q op) →
      ∀ op ∈ ops', Q op := by
  induction rs with
  | nil =>
    intro c ops c' ops' h hops
    simp only [findOperands, Option.some.injEq, Prod.mk.injEq] at h
    rw [← h.2]
    exact hops
  | cons r rs ih =>
    intro c ops c' ops' h hops
    have ih' := ih (fun r' hr' => hQ r' (List.mem_cons_of_mem _ hr'))
    cases hc : isCandidate sk r with
    | false =>
      rw [findOperands_skip M sk p r rs _ hc] at h
      exact ih' c ops c' ops' h hops
    | true =>
      rw [findOperands_candidate M sk p r rs c ops hc] at h
      simp only [Option.bind_eq_some] at h
      obtain ⟨e, he, ps, hps, pf, hpf, h⟩ := h
      by_cases hit : (ps.Equals p M.LENGTH_EPS || pf.Equals p M.LENGTH_EPS) = true
      · rw [if_pos hit] at h
        refine ih' _ _ c' ops' h ?_
        intro op hop
        split_ifs at hop
        · rcases List.mem_append.mp hop with hop | hop
          · exact hops op hop
          · rw [List.mem_singleton] at hop
            rw [hop]
            exact hQ r (List.mem_cons_self _ _) e ps pf he hps hpf hit
        · exact hops op hop
      · rw [if_neg hit] at h
        exact ih' c ops c' ops' h hops

theorem MakeFromEntity_line_eq (M : Math) (sk : Sketch) (he : hEntity) (rev : Bool)
    (e : Entity) (ps pf : Vector) (hget : sk.GetEntity he = some e)
    (ht : e.type = EntityType.LINE_SEGMENT)
    (hps : sk.EndpointStart e = some ps) (hpf : sk.EndpointFinish e = some pf) :
    ParametricCurve.MakeFromEntity M sk he rev
      = some { isLine := true, p0 := if rev then pf else ps, p1 := if rev then ps else pf,
               u := ⟨0, 0, 0⟩, v := ⟨0, 0, 0⟩, r := 0, theta0 := 0, theta1 := 0, dtheta := 0 } := by
  unfold ParametricCurve.MakeFromEntity
  rw [hget]
  simp only [Option.bind_eq_bind, Option.some_bind, if_pos ht, hps, hpf, Option.pure_def]
  cases rev <;> rfl

/-- Claim C23. In exact arithmetic: `MakeFromEntity(he, reverse)` on a line
segment takes the start and the finish point of the segment as `p0` and `p1` and
swaps them when `reverse` is set, so that the reversed curve at `t` is the
forward curve at `1 − t`; and for every line operand that `MakeTangentArc`
records, with `reverse` the recorded flag that the vertex is the finish point,
`PointAt(0)` is numerically equal to the selected point. -/
theorem MakeFromEntity_reverse (M : Math) (sk : Sketch) :
    (∀ (he : hEntity) (e q0 q1 : Entity), sk.GetEntity he = some e →
      e.type = EntityType.LINE_SEGMENT → sk.GetEntity (e.pointAt 0) = some q0 →
      sk.GetEntity (e.pointAt 1) = some q1 →
      ∃ fwd rev, ParametricCurve.MakeFromEntity M sk he false = some fwd ∧
        ParametricCurve.MakeFromEntity M sk he true = some rev ∧
        fwd.p0 = q0.PointGetNum ∧ fwd.p1 = q1.PointGetNum ∧
        rev.p0 = q1.PointGetNum ∧ rev.p1 = q0.PointGetNum ∧
        ∀ t, rev.PointAt M t = fwd.PointAt M (1 - t)) ∧
    (∀ (pshared : Vector) (c : Nat) (ops : List Operand) (op : Operand),
      findOperands M sk pshared sk.request (0, []) = some (c, ops) → op ∈ ops →
      ∀ e, sk.GetEntity op.hent = some e → e.type = EntityType.LINE_SEGMENT →
      ∃ pc, ParametricCurve.MakeFromEntity M sk op.hent op.pointf = some pc ∧
        (pc.PointAt M 0).Equals pshared M.LENGTH_EPS = true) := by
  constructor
  · intro he e q0 q1 hget ht h0 h1
    have hps : sk.EndpointStart e = some q0.PointGetNum := by
      unfold EndpointStart; rw [if_pos ht, h0]; rfl
    have hpf : sk.EndpointFinish e = some q1.PointGetNum := by
      unfold EndpointFinish; rw [if_pos ht, h1]; rfl
    refine ⟨_, _, MakeFromEntity_line_eq M sk he false e _ _ hget ht hps hpf,
      MakeFromEntity_line_eq M sk he true e _ _ hget ht hps hpf, rfl, rfl, rfl, rfl, ?_⟩
    intro t
    simp only [ParametricCurve.PointAt, if_true, Vector.Plus, Vector.Minus, Vector.ScaledBy,
      Vector.mk.injEq, Bool.false_eq_true, if_false]
    refine ⟨by ring, by ring, by ring⟩
  · intro pshared c ops op hops hop e hget ht
    have hQ := findOperands_forall M sk pshared
      (fun op => ∃ e ps pf, sk.GetEntity op.hent = some e ∧ sk.EndpointStart e = some ps ∧
        sk.EndpointFinish e = some pf ∧
        (ps.Equals pshared M.LENGTH_EPS || pf.Equals pshared M.LENGTH_EPS) = true ∧
        op.pointf = pf.Equals pshared M.LENGTH_EPS)
      sk.request
      (by
        intro r _ e ps pf he hps hpf hit
        have heh : e.h = r.h.entity 0 := (GetEntity_mem sk _ e he).2
        exact ⟨e, ps, pf, by rw [heh]; exact he, hps, hpf, hit, rfl⟩)
      0 [] c ops hops (by intro op h; cases h) op hop
    obtain ⟨e', ps, pf, hget', hps, hpf, hit, hpointf⟩ := hQ
    rw [hget] at hget'
    have hee := Option.some.inj hget'
    subst hee
    refine ⟨_, MakeFromEntity_line_eq M sk op.hent op.pointf e ps pf hget ht hps hpf, ?_⟩
    have h0 : ∀ a b : Vector, a.Plus ((b.Minus a).ScaledBy 0) = a := by
      intro a b
      simp only [Vector.Plus, Vector.Minus, Vector.ScaledBy, mul_zero, add_zero]
    simp only [ParametricCurve.PointAt, if_true, h0]
    rw [hpointf]
    cases hf : pf.Equals pshared M.LENGTH_EPS with
    | true => exact hf
    | false =>
      rw [hf, Bool.or_false] at hit
      simpa using hit

theorem MakeFromEntity_reverse_witness :
    ∃ fwd rev,
      ParametricCurve.MakeFromEntity cornerMath (cornerSketch 1 false) ((cornerLine 2).h.entity 0)
        false = some fwd ∧
      ParametricCurve.MakeFromEntity cornerMath (cornerSketch 1 false) ((cornerLine 2).h.entity 0)
        true = some rev ∧
      fwd.p0 = ⟨0, 0, 0⟩ ∧ fwd.p1 = ⟨4, 0, 0⟩ ∧ rev.p0 = ⟨4, 0, 0⟩ ∧ rev.p1 = ⟨0, 0, 0⟩ ∧
      ∀ t, rev.PointAt cornerMath t = fwd.PointAt cornerMath (1 - t) :=
  (MakeFromEntity_reverse cornerMath (cornerSketch 1 false)).1 ((cornerLine 2).h.entity 0)
    (generatedEntity (cornerLine 2)) (generatedPoint (cornerLine 2) 1 ⟨0, 0, 0⟩)
    (generatedPoint (cornerLine 2) 2 ⟨4, 0, 0⟩) (by decide) (by decide) (by decide) (by decide)

end Sketch
end SolveSpace

namespace SolveSpace
namespace Sketch

theorem findSplitConstraint_none (env : SplitEnv) (sk : Sketch) (ea : Entity) (ha hb : hEntity)
    (p0 p1 : Vector) (cs : List Constraint)
    (h : ∀ c ∈ cs, c.ptA.request = hb.request → c.entityA.request = ha.request →
      ∃ pe, sk.GetEntity c.ptA = some pe ∧ ea.type = EntityType.LINE_SEGMENT ∧
        env.OnLineSegment pe.PointGetNum p0 p1 = false) :
    ∀ pi, ∃ pi', findSplitConstraint env sk ea ha hb p0 p1 cs pi = some (false, pi', cs) := by
  induction cs with
  | nil => intro pi; exact ⟨pi, rfl⟩
  | cons c cs ih =>
    intro pi
    have ih' := ih (fun c' hc' => h c' (List.mem_cons_of_mem _ hc'))
    by_cases hm : c.ptA.request = hb.request ∧ c.entityA.request = ha.request
    · obtain ⟨pe, hpe, hl, hon⟩ := h c (List.mem_cons_self _ _) hm.1 hm.2
      obtain ⟨pi', hpi'⟩ := ih' pe.PointGetNum
      refine ⟨pi', ?_⟩
      simp only [findSplitConstraint, if_pos hm, hpe, Option.bind_eq_bind, Option.some_bind]
      rw [if_pos ⟨hl, by rw [hon]; rfl⟩, hpi']
      rfl
    · obtain ⟨pi', hpi'⟩ := ih' pi
      refine ⟨pi', ?_⟩
      simp only [findSplitConstraint, if_neg hm]
      rw [hpi']
      rfl

/-- Claim C29. With one entity and one point selected, `SplitLinesOrCurves`
splits only when some constraint has its `ptA` generated by the request of the
point and its `entityA` generated by the request of the entity and, for a line
segment, the point `ptA` lies on the segment. Without such a constraint it
reports "Can't split; no intersection found.", removes no constraint (the tags
of the constraints are cleared), and adds or deletes no request and no
entity. -/
theorem SplitLinesOrCurves_at_point (env : SplitEnv) (sk : Sketch) (ha hb : hEntity)
    (ents pts : List hEntity) (ea eb : Entity) (p0 p1 : Vector)
    (hlock : sk.LockedInWorkplane = true)
    (hn : (env.GroupSelection sk).lineSegments + (env.GroupSelection sk).circlesOrArcs
      + (env.GroupSelection sk).cubics + (env.GroupSelection sk).periodicCubics = 1)
    (hpts : (env.GroupSelection sk).points = 1)
    (hsel : (env.GroupSelection sk).entity = ha :: ents)
    (hselp : (env.GroupSelection sk).point = hb :: pts)
    (hea : sk.GetEntity ha = some ea) (heb : sk.GetEntity hb = some eb)
    (hends : ea.type = EntityType.LINE_SEGMENT →
      sk.EndpointStart ea = some p0 ∧ sk.EndpointFinish ea = some p1)
    (hptA : ∀ c ∈ sk.constraint, c.ptA.request = hb.request → c.entityA.request = ha.request →
      (sk.GetEntity c.ptA).isSome = true) :
    ((∀ c ∈ sk.constraint, ¬ SplitsAt env sk ea ha hb p0 p1 c) →
      ∃ sk', SplitLinesOrCurves env sk = some sk' ∧
        sk'.errors = sk.errors ++ [msgSplitNoIntersection] ∧
        sk'.constraint = clearConstraintTags sk.constraint ∧
        sk'.request = sk.request ∧ sk'.entity = sk.entity ∧ sk'.undoCount = sk.undoCount) ∧
    (∀ sk', SplitLinesOrCurves env sk = some sk' → sk'.errors = sk.errors →
      ∃ c ∈ sk.constraint, SplitsAt env sk ea ha hb p0 p1 c) := by
  have hfirst : (∀ c ∈ sk.constraint, ¬ SplitsAt env sk ea ha hb p0 p1 c) →
      SplitLinesOrCurves env sk = some (Sketch.Error
        { sk with gs := env.GroupSelection sk, constraint := clearConstraintTags sk.constraint }
        msgSplitNoIntersection) := by
    intro hno
    have hcs : ∀ q0 q1 : Vector, (ea.type = EntityType.LINE_SEGMENT → q0 = p0 ∧ q1 = p1) →
        ∀ c ∈ clearConstraintTags sk.constraint, c.ptA.request = hb.request →
        c.entityA.request = ha.request →
        ∃ pe, Sketch.GetEntity
            { sk with gs := env.GroupSelection sk,
                      constraint := clearConstraintTags sk.constraint } c.ptA = some pe ∧
          ea.type = EntityType.LINE_SEGMENT ∧ env.OnLineSegment pe.PointGetNum q0 q1 = false := by
      intro q0 q1 hq c hc h1 h2
      simp only [clearConstraintTags, List.mem_map] at hc
      obtain ⟨c0, hc0, rfl⟩ := hc
      obtain ⟨pe, hpe⟩ := Option.isSome_iff_exists.mp (hptA c0 hc0 h1 h2)
      have hns := hno c0 hc0
      have hl : ea.type = EntityType.LINE_SEGMENT := by
        by_contra hl
        exact hns ⟨h1, h2, fun h => absurd h hl⟩
      obtain ⟨rfl, rfl⟩ := hq hl
      refine ⟨pe, hpe, hl, ?_⟩
      cases hon : env.OnLineSegment pe.PointGetNum q0 q1 with
      | false => rfl
      | true => exact absurd ⟨h1, h2, fun _ => ⟨pe, hpe, hon⟩⟩ hns
    have hfind : ∃ pi', findSplitPoint env { sk with gs := env.GroupSelection sk } true ha hb
        = some (false, pi', { sk with gs := env.GroupSelection sk,
                                      constraint := clearConstraintTags sk.constraint }) := by
      have hea' : ({ sk with gs := env.GroupSelection sk } : Sketch).GetEntity ha = some ea := hea
      have heb' : ({ sk with gs := env.GroupSelection sk } : Sketch).GetEntity hb = some eb := heb
      unfold findSplitPoint
      rw [hea', heb']
      simp only [Option.bind_eq_bind, Option.some_bind, if_true]
      by_cases hl : ea.type = EntityType.LINE_SEGMENT
      · have hs : Sketch.EndpointStart
            { sk with gs := env.GroupSelection sk,
                      constraint := clearConstraintTags sk.constraint } ea = some p0 :=
          (hends hl).1
        have hf : Sketch.EndpointFinish
            { sk with gs := env.GroupSelection sk,
                      constraint := clearConstraintTags sk.constraint } ea = some p1 :=
          (hends hl).2
        obtain ⟨pi', hpi'⟩ := findSplitConstraint_none env _ ea ha hb p0 p1 _
          (hcs p0 p1 (fun _ => ⟨rfl, rfl⟩)) ⟨0, 0, 0⟩
        refine ⟨pi', ?_⟩
        rw [if_pos hl, hs, hf]
        simp only [Option.some_bind, Option.pure_def]
        rw [hpi']
        rfl
      · obtain ⟨pi', hpi'⟩ := findSplitConstraint_none env _ ea ha hb ⟨0, 0, 0⟩ ⟨0, 0, 0⟩ _
          (hcs ⟨0, 0, 0⟩ ⟨0, 0, 0⟩ (fun h => absurd h hl)) ⟨0, 0, 0⟩
        refine ⟨pi', ?_⟩
        rw [if_neg hl]
        simp only [Option.some_bind, Option.pure_def]
        rw [hpi']
        rfl
    obtain ⟨pi', hfind⟩ := hfind
    unfold SplitLinesOrCurves
    rw [hlock]
    simp only [Bool.not_true, Bool.false_eq_true, if_false, hn, hpts, hsel, hselp, and_self,
      decide_True, Bool.or_true, one_ne_zero, OfNat.one_ne_ofNat, decide_False, and_false,
      Bool.or_self, Bool.false_or, Bool.not_false, if_true,
      List.getElem?_cons_zero, Option.bind_eq_bind, Option.some_bind, Option.pure_def]
    rw [hfind]
    simp only [Option.some_bind, Bool.false_eq_true, if_false]
  refine ⟨fun hno => ⟨_, hfirst hno, rfl, rfl, rfl, rfl, rfl⟩, ?_⟩
  intro sk' h herr
  by_contra hne
  push_neg at hne
  rw [hfirst hne] at h
  have h' := Option.some.inj h
  rw [← h'] at herr
  exact Error_errors_ne
    { sk with gs := env.GroupSelection sk, constraint := clearConstraintTags sk.constraint } _ herr

end Sketch
end SolveSpace

namespace SolveSpace
namespace Sketch

theorem SplitLinesOrCurves_at_point_witness :
    offLineConstraint.ptA.request = ((cornerLine 3).h.entity 1).request ∧
    offLineConstraint.entityA.request = ((cornerLine 2).h.entity 0).request ∧
    ∃ sk', SplitLinesOrCurves parallelEnv offLineSketch = some sk' ∧
      sk'.errors = offLineSketch.errors ++ [msgSplitNoIntersection] ∧
      sk'.constraint = clearConstraintTags offLineSketch.constraint ∧
      sk'.request = offLineSketch.request ∧ sk'.entity = offLineSketch.entity ∧
      sk'.undoCount = offLineSketch.undoCount :=
  ⟨by decide, by decide,
    (SplitLinesOrCurves_at_point parallelEnv offLineSketch ((cornerLine 2).h.entity 0)
      ((cornerLine 3).h.entity 1) [] [] (generatedEntity (cornerLine 2))
      (generatedPoint (cornerLine 3) 1 ⟨0, 1, 0⟩) ⟨0, 0, 0⟩ ⟨4, 0, 0⟩
      (by decide) rfl rfl rfl rfl (by decide) (by decide)
      (fun _ => ⟨by decide, by decide⟩)
      (by
        intro c hc _ _
        have hc' : c ∈ [offLineConstraint] := hc
        rw [List.mem_singleton] at hc'
        rw [hc']
        decide)).1
      (by
        intro c hc hs
        obtain ⟨-, -, h⟩ := hs
        obtain ⟨pe, -, hon⟩ := h rfl
        cases hon)⟩

end Sketch
end SolveSpace

namespace SolveSpace
namespace utf8_iterator

theorem decodeLoop_nil (fuel result mask : Nat) : decodeLoop fuel [] result mask = none := by
  cases fuel <;> rfl

theorem decodeLoop_cons (fuel b : Nat) (bytes : List Nat) (result mask : Nat) :
    decodeLoop (fuel + 1) (b :: bytes) result mask =
      if ((result <<< 6) % 2 ^ 32 + (b % 256 + 2 ^ 32 - 0x80) % 2 ^ 32) % 2 ^ 32
          &&& (mask <<< 5) % 2 ^ 32 ≠ 0 then
        decodeLoop fuel bytes
          (((result <<< 6) % 2 ^ 32 + (b % 256 + 2 ^ 32 - 0x80) % 2 ^ 32) % 2 ^ 32)
          ((mask <<< 5) % 2 ^ 32)
      else some (((result <<< 6) % 2 ^ 32 + (b % 256 + 2 ^ 32 - 0x80) % 2 ^ 32) % 2 ^ 32,
        (mask <<< 5) % 2 ^ 32, bytes) := rfl

theorem mask_shift (mask k : Nat) (h : mask * 32 ^ (k + 1) % 2 ^ 32 = 0) :
    (mask <<< 5) % 2 ^ 32 * 32 ^ k % 2 ^ 32 = 0 := by
  rw [Nat.shiftLeft_eq, Nat.mod_mul_mod]
  rw [← h]
  congr 1
  rw [pow_succ]
  ring

/-- The loop of `operator*` from a mask that `k + 1` shifts by 5 bits turn into
zero: more than `k + 1` rounds of fuel change nothing, with `k + 1` bytes to
read the loop returns, and it reads between 1 and `k + 1` bytes. -/
theorem decodeLoop_bounded (k : Nat) :
    ∀ (mask : Nat), mask * 32 ^ (k + 1) % 2 ^ 32 = 0 →
      ∀ (bytes : List Nat) (result : Nat),
        (∀ fuel, k + 1 ≤ fuel →
          decodeLoop fuel bytes result mask = decodeLoop (k + 1) bytes result mask) ∧
        (k + 1 ≤ bytes.length → (decodeLoop (k + 1) bytes result mask).isSome = true) ∧
        (∀ r m n, decodeLoop (k + 1) bytes result mask = some (r, m, n) →
          ∃ taken, bytes = taken ++ n ∧ 1 ≤ taken.length ∧ taken.length ≤ k + 1) := by
  induction k with
  | zero =>
    intro mask hm bytes result
    have hz : (mask <<< 5) % 2 ^ 32 = 0 := by
      have := mask_shift mask 0 hm
      simpa using this
    cases bytes with
    | nil =>
      refine ⟨fun fuel _ => by rw [decodeLoop_nil, decodeLoop_nil], fun h => by simp at h, ?_⟩
      intro r m n h
      rw [decodeLoop_nil] at h
      cases h
    | cons b bs =>
      refine ⟨?_, fun _ => ?_, ?_⟩
      · intro fuel hf
        obtain ⟨f, rfl⟩ : ∃ f, fuel = f + 1 := ⟨fuel - 1, by omega⟩
        rw [decodeLoop_cons, decodeLoop_cons, hz, Nat.and_zero, if_neg (by simp),
          if_neg (by simp)]
      · rw [decodeLoop_cons, hz, Nat.and_zero, if_neg (by simp)]
        rfl
      · intro r m n h
        rw [decodeLoop_cons, hz, Nat.and_zero, if_neg (by simp)] at h
        simp only [Option.some.injEq, Prod.mk.injEq] at h
        exact ⟨[b], by rw [← h.2.2]; rfl, by simp, by simp⟩
  | succ k ih =>
    intro mask hm bytes result
    have ih' := ih ((mask <<< 5) % 2 ^ 32) (mask_shift mask (k + 1) hm)
    cases bytes with
    | nil =>
      refine ⟨fun fuel _ => by rw [decodeLoop_nil, decodeLoop_nil], fun h => by simp at h, ?_⟩
      intro r m n h
      rw [decodeLoop_nil] at h
      cases h
    | cons b bs =>
      obtain ⟨h1, h2, h3⟩ := ih' bs
        (((result <<< 6) % 2 ^ 32 + (b % 256 + 2 ^ 32 - 0x80) % 2 ^ 32) % 2 ^ 32)
      refine ⟨?_, fun hl => ?_, ?_⟩
      · intro fuel hf
        obtain ⟨f, rfl⟩ : ∃ f, fuel = f + 1 := ⟨fuel - 1, by omega⟩
        rw [decodeLoop_cons, decodeLoop_cons]
        split_ifs
        · exact h1 f (by omega)
        · rfl
      · rw [decodeLoop_cons]
        split_ifs
        · exact h2 (by simpa using hl)
        · rfl
      · intro r m n h
        rw [decodeLoop_cons] at h
        split_ifs at h
        · obtain ⟨taken, ht, hl1, hl2⟩ := h3 r m n h
          exact ⟨b :: taken, by rw [ht]; rfl, by simp, by simpa using hl2⟩
        · simp only [Option.some.injEq, Prod.mk.injEq] at h
          exact ⟨[b], by rw [← h.2.2]; rfl, by simp, by simp⟩

/-- Claim C31. `utf8_iterator::operator*` ends on every byte sequence, well
formed or not. With 32-bit unsigned arithmetic the mask is zero after six
shifts, so the loop stops by its own test after at most six rounds whatever the
bytes are: more than six rounds of fuel change nothing, and with six bytes
after the lead byte the call returns. Every round reads one byte, so a call
reads between one and seven bytes, and a lead byte below `0x80` is returned as
it is after one byte. -/
theorem deref_terminates (b : Nat) (bytes : List Nat) :
    (∀ fuel result, 6 ≤ fuel →
      decodeLoop fuel bytes result 0x40 = decodeLoop 6 bytes result 0x40) ∧
    (∀ result r m n, decodeLoop 6 bytes result 0x40 = some (r, m, n) →
      ∃ taken, bytes = taken ++ n ∧ 1 ≤ taken.length ∧ taken.length ≤ 6) ∧
    (6 ≤ bytes.length → (deref (b :: bytes)).isSome = true) ∧
    (∀ r n, deref (b :: bytes) = some (r, n) →
      ∃ taken, b :: bytes = taken ++ n ∧ 1 ≤ taken.length ∧ taken.length ≤ 7) ∧
    (b < 0x80 → deref (b :: bytes) = some (b, bytes)) := by
  have hb := fun result => decodeLoop_bounded 5 0x40 (by norm_num) bytes result
  refine ⟨fun fuel result hf => (hb result).1 fuel hf, fun result => (hb result).2.2, ?_, ?_, ?_⟩
  · intro hl
    unfold deref
    dsimp only
    split_ifs
    · obtain ⟨x, hx⟩ := Option.isSome_iff_exists.mp ((hb (b % 256)).2.1 hl)
      rw [hx]
      rfl
    · rfl
  · intro r n h
    unfold deref at h
    dsimp only at h
    split_ifs at h
    · cases hd : decodeLoop 6 bytes (b % 256) 0x40 with
      | none => rw [hd] at h; cases h
      | some x =>
        obtain ⟨r', m', n'⟩ := x
        rw [hd] at h
        simp only [Option.some.injEq, Prod.mk.injEq] at h
        obtain ⟨taken, ht, -, hl2⟩ := (hb (b % 256)).2.2 r' m' n' hd
        exact ⟨b :: taken, by rw [ht, ← h.2]; rfl, by simp, by simpa using hl2⟩
    · simp only [Option.some.injEq, Prod.mk.injEq] at h
      exact ⟨[b], by rw [← h.2]; rfl, by simp, by simp⟩
  · intro hlt
    have hb' : b % 256 = b := Nat.mod_eq_of_lt (by omega)
    have hbit : b &&& 0x80 = 0 := by
      rw [show (0x80 : Nat) = 2 ^ 7 by norm_num, and_pow_eq_zero]
      omega
    simp only [deref, hb', ne_eq, hbit, not_true_eq_false, if_false]

/-- The bound is reached: after the lead byte `0xFF` the loop runs six times and
the call reads seven bytes. -/
theorem deref_seven_bytes :
    deref [0xFF, 0x80, 0x80, 0x80, 0x80, 0x80, 0x80, 0x41] = some (0, [0x41]) := by
  decide

end utf8_iterator
end SolveSpace

/-! ## `Point2d::Equals` and the matrix product -/

namespace SolveSpace

namespace Point2d

theorem Equals_eq_spec (a b : Point2d ℚ) (tol : ℚ) (htol : 0 ≤ tol) :
    a.Equals b tol = EqualsSpec a b tol := by
  unfold Equals EqualsSpec
  dsimp only
  have hsq : (a.Minus b).MagSquared = (a.x - b.x) ^ 2 + (a.y - b.y) ^ 2 := by
    simp only [Minus, MagSquared]; ring
  have ht : tol * tol = tol ^ 2 := by ring
  by_cases hx : b.x - a.x < -tol ∨ b.x - a.x > tol
  · rw [if_pos hx]
    symm
    rw [decide_eq_false_iff_not, not_lt]
    have : tol ^ 2 ≤ (a.x - b.x) ^ 2 := by
      rcases hx with h | h <;> nlinarith
    nlinarith [sq_nonneg (a.y - b.y)]
  · rw [if_neg hx]
    by_cases hy : b.y - a.y < -tol ∨ b.y - a.y > tol
    · rw [if_pos hy]
      symm
      rw [decide_eq_false_iff_not, not_lt]
      have : tol ^ 2 ≤ (a.y - b.y) ^ 2 := by
        rcases hy with h | h <;> nlinarith
      nlinarith [sq_nonneg (a.x - b.x)]
    · rw [if_neg hy, hsq, ht]

/-- Claim C33.  In exact arithmetic, for every tolerance `tol ≥ 0` and all
points `a`, `b`, `Point2d::Equals(a, b, tol)` is true exactly when the squared
distance `(a.x-b.x)² + (a.y-b.y)²` is strictly below `tol²`: the tests of the
single coordinates never change the result.  Hence `Equals` is symmetric, true
of a point and itself for `tol > 0`, and false for every pair when `tol = 0`. -/
theorem Equals_squared_distance (a b : Point2d ℚ) (tol : ℚ) (htol : 0 ≤ tol) :
    a.Equals b tol = EqualsSpec a b tol ∧
    (a.Equals b tol = true ↔ (a.x - b.x) ^ 2 + (a.y - b.y) ^ 2 < tol ^ 2) ∧
    a.Equals b tol = b.Equals a tol ∧
    (0 < tol → a.Equals a tol = true) ∧
    (tol = 0 → a.Equals b tol = false) := by
  have hspec := Equals_eq_spec a b tol htol
  have hiff : ∀ p q : Point2d ℚ,
      (p.Equals q tol = true ↔ (p.x - q.x) ^ 2 + (p.y - q.y) ^ 2 < tol ^ 2) := by
    intro p q
    rw [Equals_eq_spec p q tol htol]
    unfold EqualsSpec
    rw [decide_eq_true_iff]
  refine ⟨hspec, hiff a b, ?_, ?_, ?_⟩
  · rw [Equals_eq_spec a b tol htol, Equals_eq_spec b a tol htol]
    unfold EqualsSpec
    congr 1
    rw [eq_iff_iff]
    constructor <;> intro h <;> nlinarith
  · intro hpos
    rw [hiff]
    simp only [sub_self]
    nlinarith [mul_pos hpos hpos]
  · intro h0
    rw [Equals_eq_spec a b tol htol]
    unfold EqualsSpec
    rw [decide_eq_false_iff_not, h0]
    nlinarith [sq_nonneg (a.x - b.x), sq_nonneg (a.y - b.y)]

/-- Witness for C33: with the tolerance 1, the point `(3/5, 3/5)` equals the
origin and the point `(4/5, 4/5)`, which passes both coordinate tests, does
not. -/
theorem Equals_squared_distance_witness :
    (0 : ℚ) ≤ 1 ∧
    Equals (⟨0, 0⟩ : Point2d ℚ) ⟨3 / 5, 3 / 5⟩ 1 = true ∧
    Equals (⟨0, 0⟩ : Point2d ℚ) ⟨4 / 5, 4 / 5⟩ 1 = false := by
  have h1 := (Equals_squared_distance ⟨0, 0⟩ ⟨3 / 5, 3 / 5⟩ 1 (by norm_num)).2.1
  have h2 := (Equals_squared_distance ⟨0, 0⟩ ⟨4 / 5, 4 / 5⟩ 1 (by norm_num)).2.1
  refine ⟨by norm_num, h1.mpr (by norm_num), ?_⟩
  cases h : Equals (⟨0, 0⟩ : Point2d ℚ) ⟨4 / 5, 4 / 5⟩ 1 with
  | false => rfl
  | true =>
    have := h2.mp h
    norm_num at this

end Point2d

theorem MultMatrix_entry_sum {α : Type} [Zero α] [Add α] [Mul α] (mata matb matr : Nat → α)
    (r c : Fin 4) :
    entry (MultMatrix mata matb matr) r c
      = 0 + entry mata r 0 * entry matb 0 c + entry mata r 1 * entry matb 1 c
        + entry mata r 2 * entry matb 2 c + entry mata r 3 * entry matb 3 c := by
  have h3 : ((3 : Fin 4) : ℕ) = 3 := rfl
  fin_cases r <;> fin_cases c <;>
    simp [entry, MultMatrix, forUp, setAt, h3]

theorem MultMatrix_entry (mata matb matr : Nat → ℚ) (r c : Fin 4) :
    entry (MultMatrix mata matb matr) r c
      = entry mata r 0 * entry matb 0 c + entry mata r 1 * entry matb 1 c
        + entry mata r 2 * entry matb 2 c + entry mata r 3 * entry matb 3 c := by
  rw [MultMatrix_entry_sum, zero_add]

theorem MakeMatrixOf_entry {α : Type} (mat : Nat → α) (A : Fin 4 → Fin 4 → α) (r c : Fin 4) :
    entry (MakeMatrixOf mat A) r c = A r c := by
  have h3 : ((3 : Fin 4) : ℕ) = 3 := rfl
  fin_cases r <;> fin_cases c <;>
    simp [entry, MakeMatrixOf, MakeMatrix, setAt, h3]

theorem MultMatrix_frame {α : Type} [Zero α] [Add α] [Mul α] (mata matb matr : Nat → α)
    (i : Nat) (hi : 16 ≤ i) :
    MultMatrix mata matb matr i = matr i := by
  have hs : ∀ (m : Nat → α) (k : Nat) (v : α), k < 16 → setAt m k v i = m i := by
    intro m k v hk
    unfold setAt
    rw [if_neg (by omega)]
  simp only [MultMatrix, forUp, Nat.reduceLT, decide_True, if_true, Nat.reduceAdd, Nat.reduceMul,
    Nat.lt_irrefl, decide_False, Bool.false_eq_true, if_false]
  repeat rw [hs _ _ _ (by norm_num)]

/-- Claim C32.  `MakeMatrix` stores the entry of row `r` and column `c` at index
`4·c + r` (by columns), and `MultMatrix(a, b, out)` writes into `out`, in the
same layout, the product of the two matrices: on doubles `out(r, c)` is the sum
`0 + a(r,0)·b(0,c) + a(r,1)·b(1,c) + a(r,2)·b(2,c) + a(r,3)·b(3,c)`, added in
this order, and in exact arithmetic it is the sum over `k` of `a(r, k)·b(k, c)`,
for arbitrary arrays `a`, `b` and so for those that `MakeMatrix` builds; the
entries of `out` from index 16 on stay as they are.  In exact arithmetic, with
the identity matrix as one operand the result is the other operand. -/
theorem MultMatrix_product (mata matb matr : Nat → ℚ) :
    (∀ (A : Fin 4 → Fin 4 → ℚ) (r c : Fin 4),
      MakeMatrixOf matr A (4 * c.val + r.val) = A r c) ∧
    (∀ (m : Nat → F64) (A : Fin 4 → Fin 4 → F64) (r c : Fin 4),
      MakeMatrixOf m A (4 * c.val + r.val) = A r c) ∧
    (∀ (a b out : Nat → F64) (r c : Fin 4), MultMatrix a b out (4 * c.val + r.val)
      = 0 + a (4 * 0 + r.val) * b (4 * c.val + 0) + a (4 * 1 + r.val) * b (4 * c.val + 1)
        + a (4 * 2 + r.val) * b (4 * c.val + 2) + a (4 * 3 + r.val) * b (4 * c.val + 3)) ∧
    (∀ r c : Fin 4, MultMatrix mata matb matr (4 * c.val + r.val)
      = ∑ k : Fin 4, mata (4 * k.val + r.val) * matb (4 * c.val + k.val)) ∧
    (∀ (A B : Fin 4 → Fin 4 → ℚ) (r c : Fin 4),
      entry (MultMatrix (MakeMatrixOf mata A) (MakeMatrixOf matb B) matr) r c
        = ∑ k : Fin 4, A r k * B k c) ∧
    (∀ i, 16 ≤ i → MultMatrix mata matb matr i = matr i) ∧
    (∀ (a b out : Nat → F64) (i : Nat), 16 ≤ i → MultMatrix a b out i = out i) ∧
    (∀ r c : Fin 4,
      entry (MultMatrix (MakeMatrix mata 1 0 0 0 0 1 0 0 0 0 1 0 0 0 0 1) matb matr) r c
        = entry matb r c) ∧
    (∀ r c : Fin 4,
      entry (MultMatrix mata (MakeMatrix matb 1 0 0 0 0 1 0 0 0 0 1 0 0 0 0 1) matr) r c
        = entry mata r c) := by
  have hid : ∀ (m : Nat → ℚ) (r c : Fin 4),
      entry (MakeMatrix m 1 0 0 0 0 1 0 0 0 0 1 0 0 0 0 1) r c = if r = c then 1 else 0 := by
    intro m r c
    have h := MakeMatrixOf_entry m (fun r c => if r = c then 1 else 0) r c
    simpa [MakeMatrixOf] using h
  refine ⟨fun A r c => MakeMatrixOf_entry matr A r c, fun m A r c => MakeMatrixOf_entry m A r c,
    ?_, ?_, ?_, MultMatrix_frame mata matb matr, fun a b out => MultMatrix_frame a b out, ?_, ?_⟩
  · intro a b out r c
    have h := MultMatrix_entry_sum a b out r c
    simpa only [entry, Fin.val_zero, Fin.val_one, Fin.val_two,
      show ((3 : Fin 4) : ℕ) = 3 from rfl] using h
  · intro r c
    have h := MultMatrix_entry mata matb matr r c
    simp only [entry] at h
    rw [h, Fin.sum_univ_four]
  · intro A B r c
    rw [MultMatrix_entry, Fin.sum_univ_four]
    simp only [MakeMatrixOf_entry]
  · intro r c
    rw [MultMatrix_entry]
    simp only [hid]
    fin_cases r <;> simp
  · intro r c
    rw [MultMatrix_entry]
    simp only [hid]
    fin_cases c <;> simp

end SolveSpace

/-! ## The split point nearest to the mouse -/

namespace SolveSpace
namespace Sketch

end Sketch
end SolveSpace

/-! ## `SplitEntity`: the request that is deleted -/

namespace SolveSpace
namespace Sketch

theorem removeTagged_modifyFirst (p : Request → Bool) (l : List Request)
    (h0 : ∀ a ∈ l, a.tag = 0) :
    removeTaggedRequests (modifyFirst p (fun r => { r with tag := 1 }) l) = l.eraseP p := by
  induction l with
  | nil => rfl
  | cons x l ih =>
    have hx : x.tag = 0 := h0 x (List.mem_cons_self _ _)
    have hl : ∀ a ∈ l, a.tag = 0 := fun a ha => h0 a (List.mem_cons_of_mem _ ha)
    by_cases hp : p x = true
    · simp only [modifyFirst, hp, if_true, List.eraseP_cons_of_pos]
      unfold removeTaggedRequests
      rw [List.filter_cons_of_neg (by simp), List.filter_eq_self.mpr]
      intro a ha
      simp [hl a ha]
    · simp only [modifyFirst, hp, if_false, Bool.false_eq_true]
      rw [List.eraseP_cons_of_neg hp, ← ih hl]
      unfold removeTaggedRequests
      rw [List.filter_cons_of_pos (by simp [hx])]

theorem eraseP_eq_filter (p : Request → Bool) (k : hRequest) (l : List Request)
    (hnd : (l.map (fun r => r.h)).Nodup) (hp : ∀ a ∈ l, (p a = true ↔ a.h = k)) :
    l.eraseP p = l.filter (fun a => decide (a.h ≠ k)) := by
  induction l with
  | nil => rfl
  | cons x l ih =>
    rw [List.map_cons, List.nodup_cons] at hnd
    have hl : ∀ a ∈ l, (p a = true ↔ a.h = k) := fun a ha => hp a (List.mem_cons_of_mem _ ha)
    by_cases hx : p x = true
    · have hk : x.h = k := (hp x (List.mem_cons_self _ _)).mp hx
      rw [List.eraseP_cons_of_pos hx, List.filter_cons_of_neg (by simp [hk])]
      symm
      rw [List.filter_eq_self]
      intro a ha
      have : a.h ≠ k := by
        intro e
        apply hnd.1
        rw [hk, ← e]
        exact List.mem_map_of_mem _ ha
      simp [this]
    · have hk : x.h ≠ k := fun e => hx ((hp x (List.mem_cons_self _ _)).mpr e)
      rw [List.eraseP_cons_of_neg hx, List.filter_cons_of_pos (by simp [hk]), ih hnd.2 hl]

/-- The requests after `SplitLine` or `SplitCircle` on a line segment, circle or
arc: the requests before, followed by the new requests of the parts, whose
identifiers are above every identifier in use. -/
theorem SplitInner_requests (s : Sketch) (he : hEntity) (pinter : Vector) (e : Entity)
    (hown : s.EntitiesOwned) (hget : s.GetEntity he = some e)
    (hkind : e.type = EntityType.LINE_SEGMENT ∨ e.type = EntityType.CIRCLE ∨
      e.type = EntityType.ARC_OF_CIRCLE)
    (hpts : ∀ h ∈ splitPoints e, (s.GetEntity h).isSome = true) :
    ∃ (ret : hEntity) (pre : Sketch) (rs : List Request),
      (e.type = EntityType.LINE_SEGMENT → s.SplitLine he pinter = some (ret, pre)) ∧
      (e.type ≠ EntityType.LINE_SEGMENT → s.SplitCircle he pinter = some (ret, pre)) ∧
      pre.request = s.request ++ rs ∧ pre.activeGroup = s.activeGroup ∧
      ∀ r ∈ rs, requestMaximumId s.request < r.h.v := by
  have hfresh : ∀ (k : Nat) (t : RequestType),
      requestMaximumId s.request < (requestNo s k t).h.v := by
    intro k t
    simp only [requestNo]
    omega
  rcases hkind with hk | hk | hk
  · have hp : splitPoints e = [e.pointAt 0, e.pointAt 1] := by
      unfold splitPoints; rw [if_pos hk]
    obtain ⟨ep0, h0⟩ := Option.isSome_iff_exists.mp (hpts (e.pointAt 0) (by rw [hp]; simp))
    obtain ⟨ep1, h1⟩ := Option.isSome_iff_exists.mp (hpts (e.pointAt 1) (by rw [hp]; simp))
    refine ⟨_, _, [requestNo s 0 RequestType.LINE_SEGMENT, requestNo s 1 RequestType.LINE_SEGMENT],
      fun _ => SplitLine_eq s he pinter e ep0 ep1 hown hget h0 h1,
      fun h => absurd hk h, rfl, rfl, ?_⟩
    intro r hr
    simp only [List.mem_cons, List.mem_singleton, List.not_mem_nil, or_false] at hr
    rcases hr with rfl | rfl <;> exact hfresh _ _
  · have hp : splitPoints e = [e.pointAt 0] := by
      unfold splitPoints; rw [if_neg (by rw [hk]; decide), if_pos hk]
    obtain ⟨ec, h0⟩ := Option.isSome_iff_exists.mp (hpts (e.pointAt 0) (by rw [hp]; simp))
    refine ⟨_, _, [requestNo s 0 RequestType.ARC_OF_CIRCLE],
      (fun h => by rw [hk] at h; cases h),
      fun _ => SplitCircle_circle_eq s he pinter e ec hown hget hk h0, rfl, rfl, ?_⟩
    intro r hr
    simp only [List.mem_cons, List.mem_singleton, List.not_mem_nil, or_false] at hr
    rcases hr with rfl
    exact hfresh _ _
  · have hp : splitPoints e = [e.pointAt 0, e.pointAt 1, e.pointAt 2] := by
      unfold splitPoints; rw [if_neg (by rw [hk]; decide), if_neg (by rw [hk]; decide)]
    obtain ⟨ec, h0⟩ := Option.isSome_iff_exists.mp (hpts (e.pointAt 0) (by rw [hp]; simp))
    obtain ⟨es, h1⟩ := Option.isSome_iff_exists.mp (hpts (e.pointAt 1) (by rw [hp]; simp))
    obtain ⟨ef, h2⟩ := Option.isSome_iff_exists.mp (hpts (e.pointAt 2) (by rw [hp]; simp))
    refine ⟨_, _, [requestNo s 0 RequestType.ARC_OF_CIRCLE, requestNo s 1 RequestType.ARC_OF_CIRCLE],
      (fun h => by rw [hk] at h; cases h),
      fun _ => SplitCircle_arc_eq s he pinter e ec es ef hown hget (by rw [hk]; decide) h0 h1 h2,
      rfl, rfl, ?_⟩
    intro r hr
    simp only [List.mem_cons, List.mem_singleton, List.not_mem_nil, or_false] at hr
    rcases hr with rfl | rfl <;> exact hfresh _ _

theorem SplitEntity_of_inner (env : SplitEnv) (s : Sketch) (he : hEntity) (pinter : Vector)
    (e : Entity) (ret : hEntity) (pre : Sketch) (hget : s.GetEntity he = some e)
    (hkind : e.type = EntityType.LINE_SEGMENT ∨ e.type = EntityType.CIRCLE ∨
      e.type = EntityType.ARC_OF_CIRCLE)
    (hl : e.type = EntityType.LINE_SEGMENT → s.SplitLine he pinter = some (ret, pre))
    (hc : e.type ≠ EntityType.LINE_SEGMENT → s.SplitCircle he pinter = some (ret, pre)) :
    SplitEntity env s he pinter
      = some (ret, env.DeleteTaggedRequests (handedOver env pre e he)) := by
  have hk' : e.IsCircle = true ∨ e.type = EntityType.LINE_SEGMENT ∨
      e.type = EntityType.CUBIC ∨ e.type = EntityType.CUBIC_PERIODIC := by
    rcases hkind with h | h | h
    · exact Or.inr (Or.inl h)
    · left; simp [Entity.IsCircle, h]
    · left; simp [Entity.IsCircle, h]
  obtain ⟨inner, -, hic, hil, heq⟩ := SplitEntity_supported env s he pinter e hget hk'
  rcases hkind with h | h
  · have hin := hil (by simp [Entity.IsCircle, h]) h
    rw [heq, hin, hl h]
    rfl
  · have hne : e.type ≠ EntityType.LINE_SEGMENT := by
      rcases h with h | h <;> rw [h] <;> decide
    have hin := hic (by rcases h with h | h <;> simp [Entity.IsCircle, h])
    rw [heq, hin, hc hne]
    rfl

/-- Claim C17.  `SplitEntity(he, p)` on a line segment, circle or arc whose
points exist succeeds.  The request list that it hands to
`DeleteTaggedRequests` is the list after the split of the entity (the requests
before, then the new requests of the parts) with all tags cleared and at most
one request tagged.  With a `DeleteTaggedRequests` that removes the tagged
requests, for the request `r0` of the active group that generated `he` (of the
request type of the entity, `he == r0.h.entity(0)`): if `r0` is not marked
construction, the request list afterwards is the list after the split without
the request of the handle of `r0`, so `r0` is deleted and every other request
stays; if `r0` is marked construction, the request list afterwards is the whole
list after the split, so `r0` is left in place and nothing is deleted. -/
theorem SplitEntity_deletes (env : SplitEnv) (hdel : DeletesTagged env) (s : Sketch)
    (he : hEntity) (pinter : Vector) (e : Entity) (r0 : Request) (hown : s.EntitiesOwned)
    (hget : s.GetEntity he = some e)
    (hkind : e.type = EntityType.LINE_SEGMENT ∨ e.type = EntityType.CIRCLE ∨
      e.type = EntityType.ARC_OF_CIRCLE)
    (hpts : ∀ h ∈ splitPoints e, (s.GetEntity h).isSome = true)
    (ht : env.GetRequestForEntity e.type ≠ RequestType.WORKPLANE)
    (hnd : (s.request.map (fun r => r.h)).Nodup) (hr0 : r0 ∈ s.request)
    (hg : r0.group = s.activeGroup) (hty : r0.type = env.GetRequestForEntity e.type)
    (hhe : he = r0.h.entity 0) :
    ∃ (ret : hEntity) (pre sk' : Sketch) (rs : List Request),
      SplitEntity env s he pinter = some (ret, sk') ∧
      (e.type = EntityType.LINE_SEGMENT → s.SplitLine he pinter = some (ret, pre)) ∧
      (e.type ≠ EntityType.LINE_SEGMENT → s.SplitCircle he pinter = some (ret, pre)) ∧
      pre.request = s.request ++ rs ∧
      (∀ r ∈ rs, requestMaximumId s.request < r.h.v) ∧
      sk' = env.DeleteTaggedRequests (handedOver env pre e he) ∧
      (handedOver env pre e he).request.map (fun r => { r with tag := 0 })
        = clearRequestTags (s.request ++ rs) ∧
      ((handedOver env pre e he).request.filter (fun r => decide (r.tag ≠ 0))).length ≤ 1 ∧
      (r0.construction = false →
        sk'.request
          = clearRequestTags (s.request.filter (fun r => decide (r.h ≠ r0.h)) ++ rs) ∧
        (∀ r ∈ sk'.request, r.h ≠ r0.h) ∧
        (∀ r ∈ s.request, r.h ≠ r0.h → { r with tag := 0 } ∈ sk'.request)) ∧
      (r0.construction = true →
        sk'.request = clearRequestTags (s.request ++ rs) ∧
        { r0 with tag := 0 } ∈ sk'.request) := by
  obtain ⟨ret, pre, rs, hl, hc, hreq, hgrp, hfresh⟩ :=
    SplitInner_requests s he pinter e hown hget hkind hpts
  have hs := SplitEntity_of_inner env s he pinter e ret pre hget hkind hl hc
  obtain ⟨t1, t2, -, -⟩ := taggedRequests_spec pre.activeGroup
    (env.GetRequestForEntity e.type) he pre.request
  have hnw : NoWorkplaneTagged (handedOver env pre e he) :=
    taggedRequests_noWorkplane _ _ _ _ ht
  have hclear : ∀ a ∈ clearRequestTags pre.request, a.tag = 0 := by
    intro a ha
    simp only [clearRequestTags, List.mem_map] at ha
    obtain ⟨r, -, rfl⟩ := ha
    rfl
  have hout : (env.DeleteTaggedRequests (handedOver env pre e he)).request
      = (clearRequestTags pre.request).eraseP
          (isOriginal pre.activeGroup (env.GetRequestForEntity e.type) he) := by
    rw [hdel _ hnw]
    exact removeTagged_modifyFirst _ _ hclear
  have hr0max : r0.h.v ≤ requestMaximumId s.request := le_requestMaximumId _ r0 hr0
  have hsplit : clearRequestTags pre.request
      = clearRequestTags s.request ++ clearRequestTags rs := by
    rw [hreq]
    simp [clearRequestTags]
  have hinj : ∀ r ∈ s.request, r.h = r0.h → r = r0 :=
    fun r hr h => List.inj_on_of_nodup_map hnd hr hr0 h
  have horig : ∀ r ∈ s.request ++ rs,
      isOriginal pre.activeGroup (env.GetRequestForEntity e.type) he { r with tag := 0 } = true →
      r = r0 ∧ r0.construction = false := by
    intro r hr hp
    simp only [isOriginal, Bool.and_eq_true, decide_eq_true_eq, Bool.not_eq_true'] at hp
    have hh : r.h = r0.h := by
      have h1 : r0.h.entity 0 = r.h.entity 0 := hhe.symm.trans hp.1.2
      exact ((entity_inj _ _ 0 0 (by omega) (by omega)).mp h1).1.symm
    rcases List.mem_append.mp hr with h | h
    · have := hinj r h hh
      subst this
      exact ⟨rfl, hp.2⟩
    · have := hfresh r h
      rw [hh] at this
      omega
  have hp0 : r0.construction = false →
      isOriginal pre.activeGroup (env.GetRequestForEntity e.type) he { r0 with tag := 0 }
        = true := by
    intro hc0
    simp [isOriginal, hgrp, hg, hty, hc0, ← hhe]
  have hcase1 : r0.construction = false →
      (env.DeleteTaggedRequests (handedOver env pre e he)).request
        = clearRequestTags (s.request.filter (fun r => decide (r.h ≠ r0.h)) ++ rs) := by
    intro hc0
    have hmem : ({ r0 with tag := 0 } : Request) ∈ clearRequestTags s.request := by
      simp only [clearRequestTags, List.mem_map]
      exact ⟨r0, hr0, rfl⟩
    rw [hout, hsplit, List.eraseP_append_left (hp0 hc0) _ hmem]
    rw [eraseP_eq_filter _ r0.h (clearRequestTags s.request)
      (by
        have : (clearRequestTags s.request).map (fun r => r.h) = s.request.map (fun r => r.h) := by
          simp [clearRequestTags]
        rw [this]
        exact hnd)
      (by
        intro a ha
        simp only [clearRequestTags, List.mem_map] at ha
        obtain ⟨r, hr, rfl⟩ := ha
        constructor
        · intro hp
          rw [(horig r (List.mem_append_left _ hr) hp).1]
        · intro hh
          have := hinj r hr hh
          subst this
          exact hp0 hc0)]
    simp [clearRequestTags, List.filter_map, Function.comp_def]
  have hcase2 : r0.construction = true →
      (env.DeleteTaggedRequests (handedOver env pre e he)).request
        = clearRequestTags (s.request ++ rs) := by
    intro hc1
    rw [hout, hreq]
    apply List.eraseP_of_forall_not
    intro a ha hp
    simp only [clearRequestTags, List.mem_map] at ha
    obtain ⟨r, hr, rfl⟩ := ha
    have := (horig r hr hp).2
    rw [hc1] at this
    cases this
  refine ⟨ret, pre, _, rs, hs, hl, hc, hreq, hfresh, rfl, ?_, t2, ?_, ?_⟩
  · rw [← hreq]
    exact t1
  · intro hc0
    rw [hcase1 hc0]
    refine ⟨rfl, ?_, ?_⟩
    · intro r hr
      simp only [clearRequestTags, List.mem_map, List.mem_append, List.mem_filter,
        decide_eq_true_eq] at hr
      obtain ⟨r', hr', rfl⟩ := hr
      rcases hr' with h | h
      · exact h.2
      · intro hh
        have := hfresh r' h
        have hh' : r'.h = r0.h := hh
        rw [hh'] at this
        omega
    · intro r hr hne
      simp only [clearRequestTags, List.mem_map]
      exact ⟨r, List.mem_append_left _ (List.mem_filter.mpr ⟨hr, by simp [hne]⟩), rfl⟩
  · intro hc1
    rw [hcase2 hc1]
    refine ⟨rfl, ?_⟩
    simp only [clearRequestTags, List.mem_map]
    exact ⟨r0, List.mem_append_left _ hr0, rfl⟩

theorem DeletesTagged_parallelEnv : DeletesTagged parallelEnv := fun _ _ => rfl

theorem parallelSketch_owned : parallelSketch.EntitiesOwned := by
  unfold EntitiesOwned
  decide

theorem constructionSketch_owned : constructionSketch.EntitiesOwned := by
  unfold EntitiesOwned
  decide

/-- Witness for C17: the first segment of the example with two parallel
segments, split at `(2, 0, 0)`.  Its request is deleted, and is left in place
when it is marked construction. -/
theorem SplitEntity_deletes_witness :
    DeletesTagged parallelEnv ∧ parallelSketch.EntitiesOwned ∧
    constructionSketch.EntitiesOwned ∧
    (∃ (ret : hEntity) (sk' : Sketch) (rs : List Request),
      SplitEntity parallelEnv parallelSketch ((cornerLine 2).h.entity 0) ⟨2, 0, 0⟩
        = some (ret, sk') ∧
      sk'.request = clearRequestTags ([cornerPlaneRequest, cornerLine 3] ++ rs)) ∧
    (∃ (ret : hEntity) (sk' : Sketch) (rs : List Request),
      SplitEntity parallelEnv constructionSketch ((cornerLine 2).h.entity 0) ⟨2, 0, 0⟩
        = some (ret, sk') ∧
      sk'.request = clearRequestTags
        ([cornerPlaneRequest, { cornerLine 2 with construction := true }, cornerLine 3]
          ++ rs)) := by
  refine ⟨DeletesTagged_parallelEnv, parallelSketch_owned, constructionSketch_owned, ?_, ?_⟩
  · obtain ⟨ret, pre, sk', rs, h1, -, -, -, -, -, -, -, h9, -⟩ :=
      SplitEntity_deletes parallelEnv DeletesTagged_parallelEnv parallelSketch
        ((cornerLine 2).h.entity 0) ⟨2, 0, 0⟩ (generatedEntity (cornerLine 2)) (cornerLine 2)
        parallelSketch_owned rfl (Or.inl rfl) (by decide) (by decide) (by decide) (by decide)
        rfl rfl rfl
    exact ⟨ret, sk', rs, h1, (h9 rfl).1⟩
  · obtain ⟨ret, pre, sk', rs, h1, -, -, -, -, -, -, -, -, h10⟩ :=
      SplitEntity_deletes parallelEnv DeletesTagged_parallelEnv constructionSketch
        ((cornerLine 2).h.entity 0) ⟨2, 0, 0⟩ (generatedEntity (cornerLine 2))
        { cornerLine 2 with construction := true }
        constructionSketch_owned rfl (Or.inl rfl) (by decide) (by decide) (by decide)
        (by decide) rfl rfl rfl
    exact ⟨ret, sk', rs, h1, (h10 rfl).1⟩

end Sketch
end SolveSpace

/-! ## The parametric arc in real arithmetic -/

namespace SolveSpace

namespace ParametricCurve

theorem PointAt_toNumeric (M : Math) (pc : ParametricCurve) (t : ℚ) :
    (pc.PointAt M t).toNumeric = pc.toNumeric.PointAt M.cos M.sin t ∧
    (pc.TangentAt M t).toNumeric = pc.toNumeric.TangentAt M.cos M.sin t := by
  constructor
  · unfold PointAt Numeric.ParametricCurve.PointAt
    cases h : pc.isLine <;> simp [toNumeric, Vector.toNumeric, h, Vector.Plus, Vector.Minus,
      Vector.ScaledBy, Numeric.Vector.Plus, Numeric.Vector.Minus, Numeric.Vector.ScaledBy]
  · unfold TangentAt Numeric.ParametricCurve.TangentAt
    cases h : pc.isLine <;> simp [toNumeric, Vector.toNumeric, h, Vector.Plus, Vector.Minus,
      Vector.ScaledBy, Numeric.Vector.Plus, Numeric.Vector.Minus, Numeric.Vector.ScaledBy]

end ParametricCurve

namespace Numeric
namespace ParametricCurve

theorem arc_deriv_real (pc : ParametricCurve ℝ) (hl : pc.isLine = false) (t : ℝ) :
    HasDerivAt (fun s => (pc.PointAt Real.cos Real.sin s).x)
      (pc.TangentAt Real.cos Real.sin t).x t ∧
    HasDerivAt (fun s => (pc.PointAt Real.cos Real.sin s).y)
      (pc.TangentAt Real.cos Real.sin t).y t ∧
    HasDerivAt (fun s => (pc.PointAt Real.cos Real.sin s).z)
      (pc.TangentAt Real.cos Real.sin t).z t := by
  have hθ : HasDerivAt (fun s : ℝ => pc.theta0 + pc.dtheta * s) pc.dtheta t := by
    simpa using ((hasDerivAt_id t).const_mul pc.dtheta).const_add pc.theta0
  have hc : HasDerivAt (fun s : ℝ => Real.cos (pc.theta0 + pc.dtheta * s))
      (-Real.sin (pc.theta0 + pc.dtheta * t) * pc.dtheta) t :=
    HasDerivAt.comp t (Real.hasDerivAt_cos _) hθ
  have hs : HasDerivAt (fun s : ℝ => Real.sin (pc.theta0 + pc.dtheta * s))
      (Real.cos (pc.theta0 + pc.dtheta * t) * pc.dtheta) t :=
    HasDerivAt.comp t (Real.hasDerivAt_sin _) hθ
  have key : ∀ a b c : ℝ, HasDerivAt
      (fun s : ℝ => a + (b * (pc.r * Real.cos (pc.theta0 + pc.dtheta * s))
        + c * (pc.r * Real.sin (pc.theta0 + pc.dtheta * s))))
      ((b * (-pc.r * Real.sin (pc.theta0 + pc.dtheta * t))
        + c * (pc.r * Real.cos (pc.theta0 + pc.dtheta * t))) * pc.dtheta) t := by
    intro a b c
    have h1 := ((hc.const_mul pc.r).const_mul b).add ((hs.const_mul pc.r).const_mul c)
    have h2 := h1.const_add a
    convert h2 using 1
    ring
  simp only [PointAt, TangentAt, hl, Bool.false_eq_true, if_false, Vector.Plus, Vector.ScaledBy]
  exact ⟨key _ _ _, key _ _ _, key _ _ _⟩

theorem arc_geometry_real (pc : ParametricCurve ℝ) (hl : pc.isLine = false)
    (hu : pc.u.Dot pc.u = 1) (hv : pc.v.Dot pc.v = 1) (huv : pc.u.Dot pc.v = 0) (t : ℝ) :
    (pc.TangentAt Real.cos Real.sin t).Dot ((pc.PointAt Real.cos Real.sin t).Minus pc.p0) = 0 ∧
    ((pc.PointAt Real.cos Real.sin t).Minus pc.p0).Dot
      ((pc.PointAt Real.cos Real.sin t).Minus pc.p0) = pc.r * pc.r ∧
    (pc.TangentAt Real.cos Real.sin t).Dot (pc.TangentAt Real.cos Real.sin t)
      = (pc.r * pc.dtheta) ^ 2 := by
  obtain ⟨isLine, p0, p1, u, v, r, theta0, theta1, dtheta⟩ := pc
  obtain ⟨u1, u2, u3⟩ := u
  obtain ⟨v1, v2, v3⟩ := v
  obtain ⟨c1, c2, c3⟩ := p0
  simp only at hl hu hv huv
  subst hl
  have htrig := Real.cos_sq_add_sin_sq (theta0 + dtheta * t)
  simp only [PointAt, TangentAt, Bool.false_eq_true, if_false, Vector.Plus, Vector.Minus,
    Vector.ScaledBy, Vector.Dot] at *
  generalize Real.cos (theta0 + dtheta * t) = c at *
  generalize Real.sin (theta0 + dtheta * t) = s at *
  refine ⟨?_, ?_, ?_⟩
  · linear_combination (-(dtheta * r ^ 2 * s * c)) * hu + (dtheta * r ^ 2 * s * c) * hv
      + (dtheta * r ^ 2 * (c ^ 2 - s ^ 2)) * huv
  · linear_combination (r ^ 2 * c ^ 2) * hu + (r ^ 2 * s ^ 2) * hv
      + (2 * r ^ 2 * c * s) * huv + r ^ 2 * htrig
  · linear_combination (r ^ 2 * dtheta ^ 2 * s ^ 2) * hu + (r ^ 2 * dtheta ^ 2 * c ^ 2) * hv
      - (2 * r ^ 2 * dtheta ^ 2 * c * s) * huv + r ^ 2 * dtheta ^ 2 * htrig

/-- Claim C16.  In exact real arithmetic, with the real cosine and sine: for an
arc curve with the centre `p0`, a radius `r ≥ 0`, the angles `theta0`, `dtheta`
and orthonormal axes `u`, `v`, and for every `t`, `PointAt(t)` is at distance `r`
from `p0`; `PointAt(0)` and `PointAt(1)` are the points at the angles `theta0`
and `theta0 + dtheta`; `TangentAt(t)` is perpendicular to `PointAt(t) - p0`, has
the length `r·|dtheta|`, and is the derivative of `PointAt` at `t`, coordinate by
coordinate. -/
theorem arc_PointAt_TangentAt (pc : ParametricCurve ℝ) (hl : pc.isLine = false)
    (hr : 0 ≤ pc.r) (hu : pc.u.Dot pc.u = 1) (hv : pc.v.Dot pc.v = 1)
    (huv : pc.u.Dot pc.v = 0) (t : ℝ) :
    Real.sqrt (((pc.PointAt Real.cos Real.sin t).Minus pc.p0).Dot
      ((pc.PointAt Real.cos Real.sin t).Minus pc.p0)) = pc.r ∧
    pc.PointAt Real.cos Real.sin 0
      = pc.p0.Plus ((pc.u.ScaledBy (pc.r * Real.cos pc.theta0)).Plus
        (pc.v.ScaledBy (pc.r * Real.sin pc.theta0))) ∧
    pc.PointAt Real.cos Real.sin 1
      = pc.p0.Plus ((pc.u.ScaledBy (pc.r * Real.cos (pc.theta0 + pc.dtheta))).Plus
        (pc.v.ScaledBy (pc.r * Real.sin (pc.theta0 + pc.dtheta)))) ∧
    (pc.TangentAt Real.cos Real.sin t).Dot ((pc.PointAt Real.cos Real.sin t).Minus pc.p0) = 0 ∧
    Real.sqrt ((pc.TangentAt Real.cos Real.sin t).Dot (pc.TangentAt Real.cos Real.sin t))
      = pc.r * |pc.dtheta| ∧
    HasDerivAt (fun s => (pc.PointAt Real.cos Real.sin s).x)
      (pc.TangentAt Real.cos Real.sin t).x t ∧
    HasDerivAt (fun s => (pc.PointAt Real.cos Real.sin s).y)
      (pc.TangentAt Real.cos Real.sin t).y t ∧
    HasDerivAt (fun s => (pc.PointAt Real.cos Real.sin s).z)
      (pc.TangentAt Real.cos Real.sin t).z t := by
  obtain ⟨g1, g2, g3⟩ := arc_geometry_real pc hl hu hv huv t
  refine ⟨?_, ?_, ?_, g1, ?_, arc_deriv_real pc hl t⟩
  · rw [g2]
    exact Real.sqrt_mul_self hr
  · simp only [PointAt, hl, Bool.false_eq_true, if_false, mul_zero, add_zero]
  · simp only [PointAt, hl, Bool.false_eq_true, if_false, mul_one]
  · rw [g3, Real.sqrt_sq_eq_abs, abs_mul, abs_of_nonneg hr]

/-- Witness for C16: the arc about `(1, 2, 3)` with radius 2, start angle 1 and
sweep 3, at `t = 1/2`. -/
theorem arc_PointAt_TangentAt_witness :
    (sampleArc ℝ).isLine = false ∧ 0 ≤ (sampleArc ℝ).r ∧
    (sampleArc ℝ).u.Dot (sampleArc ℝ).u = 1 ∧ (sampleArc ℝ).v.Dot (sampleArc ℝ).v = 1 ∧
    (sampleArc ℝ).u.Dot (sampleArc ℝ).v = 0 ∧
    Real.sqrt ((((sampleArc ℝ).PointAt Real.cos Real.sin (1 / 2)).Minus (sampleArc ℝ).p0).Dot
      (((sampleArc ℝ).PointAt Real.cos Real.sin (1 / 2)).Minus (sampleArc ℝ).p0))
      = (sampleArc ℝ).r ∧
    (sampleArc ℝ).PointAt Real.cos Real.sin 0
      = (sampleArc ℝ).p0.Plus
        (((sampleArc ℝ).u.ScaledBy ((sampleArc ℝ).r * Real.cos (sampleArc ℝ).theta0)).Plus
        ((sampleArc ℝ).v.ScaledBy ((sampleArc ℝ).r * Real.sin (sampleArc ℝ).theta0))) ∧
    (sampleArc ℝ).PointAt Real.cos Real.sin 1
      = (sampleArc ℝ).p0.Plus
        (((sampleArc ℝ).u.ScaledBy ((sampleArc ℝ).r
          * Real.cos ((sampleArc ℝ).theta0 + (sampleArc ℝ).dtheta))).Plus
        ((sampleArc ℝ).v.ScaledBy ((sampleArc ℝ).r
          * Real.sin ((sampleArc ℝ).theta0 + (sampleArc ℝ).dtheta)))) ∧
    ((sampleArc ℝ).TangentAt Real.cos Real.sin (1 / 2)).Dot
      (((sampleArc ℝ).PointAt Real.cos Real.sin (1 / 2)).Minus (sampleArc ℝ).p0) = 0 ∧
    Real.sqrt (((sampleArc ℝ).TangentAt Real.cos Real.sin (1 / 2)).Dot
      ((sampleArc ℝ).TangentAt Real.cos Real.sin (1 / 2)))
      = (sampleArc ℝ).r * |(sampleArc ℝ).dtheta| ∧
    HasDerivAt (fun s => ((sampleArc ℝ).PointAt Real.cos Real.sin s).x)
      ((sampleArc ℝ).TangentAt Real.cos Real.sin (1 / 2)).x (1 / 2) ∧
    HasDerivAt (fun s => ((sampleArc ℝ).PointAt Real.cos Real.sin s).y)
      ((sampleArc ℝ).TangentAt Real.cos Real.sin (1 / 2)).y (1 / 2) ∧
    HasDerivAt (fun s => ((sampleArc ℝ).PointAt Real.cos Real.sin s).z)
      ((sampleArc ℝ).TangentAt Real.cos Real.sin (1 / 2)).z (1 / 2) :=
  ⟨rfl, by norm_num [sampleArc], by norm_num [sampleArc, Vector.Dot],
    by norm_num [sampleArc, Vector.Dot], by norm_num [sampleArc, Vector.Dot],
    arc_PointAt_TangentAt (sampleArc ℝ) rfl (by norm_num [sampleArc])
      (by norm_num [sampleArc, Vector.Dot]) (by norm_num [sampleArc, Vector.Dot])
      (by norm_num [sampleArc, Vector.Dot]) (1 / 2)⟩

end ParametricCurve
end Numeric
end SolveSpace

/-! ## Examples on doubles -/

namespace SolveSpace

namespace Numeric

set_option maxRecDepth 100000 in
/-- On doubles the line from `0.3` to `0.9` has `PointAt(1).x =
0.9000000000000001`, which is not `p1.x = 0.9`, while `PointAt(0)` is `p0`. -/
theorem PointAt_one_counterexample :
    (tenthsLine false).p1.x = F64.fin false 8106479329266893 (-53) ∧
    ((tenthsLine false).PointAt unusedTrig unusedTrig 1).x
      = F64.fin false 8106479329266894 (-53) ∧
    F64.eq ((tenthsLine false).PointAt unusedTrig unusedTrig 1).x (tenthsLine false).p1.x = false ∧
    ((tenthsLine false).PointAt unusedTrig unusedTrig 0).x = (tenthsLine false).p0.x := by
  simp only [ParametricCurve.PointAt, tenthsLine, ParametricCurve.line, if_true,
    Bool.false_eq_true, if_false, Vector.Plus, Vector.Minus, Vector.ScaledBy]
  decide

set_option maxRecDepth 100000 in
/-- On doubles the reversed line from `0.3` to `0.9` has `PointAt(0).x = 0.9`
and the forward line has `PointAt(1 - 0).x = 0.9000000000000001`. -/
theorem PointAt_reverse_counterexample :
    ((tenthsLine true).PointAt unusedTrig unusedTrig 0).x
      = F64.fin false 8106479329266893 (-53) ∧
    ((tenthsLine false).PointAt unusedTrig unusedTrig (1 - 0)).x
      = F64.fin false 8106479329266894 (-53) ∧
    F64.eq ((tenthsLine true).PointAt unusedTrig unusedTrig 0).x
      ((tenthsLine false).PointAt unusedTrig unusedTrig (1 - 0)).x = false := by
  simp only [ParametricCurve.PointAt, tenthsLine, ParametricCurve.line, if_true,
    Bool.false_eq_true, if_false, Vector.Plus, Vector.Minus, Vector.ScaledBy]
  decide

set_option maxRecDepth 100000 in
/-- On doubles the point `PointAt(1)` of the line from `0.3` to `0.9` lies
beyond the end point `p1`: its `x` is above both `p0.x` and `p1.x`. -/
theorem PointAt_outside_counterexample :
    (tenthsLine false).p0.x < ((tenthsLine false).PointAt unusedTrig unusedTrig 1).x ∧
    (tenthsLine false).p1.x < ((tenthsLine false).PointAt unusedTrig unusedTrig 1).x := by
  simp only [ParametricCurve.PointAt, tenthsLine, ParametricCurve.line, if_true,
    Bool.false_eq_true, if_false, Vector.Plus, Vector.Minus, Vector.ScaledBy]
  decide

end Numeric

set_option maxRecDepth 100000 in
/-- On doubles, with the identity as the left operand the entry in row 1 and
column 0 of the result is `0·inf = NaN` where the other operand has 0, and
likewise in row 0 and column 1 with the identity as the right operand. -/
theorem MultMatrix_identity_counterexample :
    entry F64.infMatrix 1 0 = 0 ∧
    entry (MultMatrix F64.identityMatrix F64.infMatrix (fun _ => 0)) 1 0 = F64.nan ∧
    entry F64.infMatrix 0 1 = 0 ∧
    entry (MultMatrix F64.infMatrix F64.identityMatrix (fun _ => 0)) 0 1 = F64.nan := by
  decide

namespace Point2d

set_option maxRecDepth 100000 in
/-- On doubles, with the tolerance `1e-200 > 0` the product `tol*tol` is 0 and
`Equals` is false on the pair of the point `(1, 2)` with itself. -/
theorem Equals_reflexive_counterexample :
    (0 : F64) < F64.tinyTol ∧ F64.tinyTol * F64.tinyTol = 0 ∧
    Equals (⟨1, 2⟩ : Point2d F64) ⟨1, 2⟩ F64.tinyTol = false := by
  decide

end Point2d

end SolveSpace

namespace SolveSpace
namespace Numeric

set_option maxRecDepth 100000 in
/-- On doubles the arc of radius 1 about the origin, evaluated at `t = 1` where
the angle is `0.25`, with the values of the C library for `cos(0.25)` and
`sin(0.25)`: the squared distance of `PointAt(1)` from the centre is
`0.9999999999999999`, below `r*r = 1`. -/
theorem PointAt_radius_counterexample :
    quarterArc.theta0 + quarterArc.dtheta * 1 = F64.ofDecimal 25 2 ∧
    ((quarterArc.PointAt (fun _ => cosQuarter) (fun _ => sinQuarter) 1).Minus quarterArc.p0).Dot
      ((quarterArc.PointAt (fun _ => cosQuarter) (fun _ => sinQuarter) 1).Minus quarterArc.p0) =
      F64.fin false 9007199254740991 (-53) ∧
    ((quarterArc.PointAt (fun _ => cosQuarter) (fun _ => sinQuarter) 1).Minus quarterArc.p0).Dot
      ((quarterArc.PointAt (fun _ => cosQuarter) (fun _ => sinQuarter) 1).Minus quarterArc.p0) <
      quarterArc.r * quarterArc.r := by
  decide

end Numeric
end SolveSpace

namespace SolveSpace
namespace Sketch

theorem arcFitStep_offset (s : ArcFit) :
    (arcFitStep cornerMath cornerSketchAuto cornerCurve0 offsetCurve1 ⟨0, 0, 1⟩ 1000 1019 s).r
      = 4 / 3 ∧
    (arcFitStep cornerMath cornerSketchAuto cornerCurve0 offsetCurve1 ⟨0, 0, 1⟩ 1000 1019 s).t1
      = 8000003 / 24000003 := by
  have hm0 : cornerMath.sqrt (16 : ℚ) = 4 := by
    show Rat.sqrt 16 = 4
    rw [show (16 : ℚ) = 4 * 4 by norm_num, Rat.sqrt_eq]; norm_num
  have hm1 : cornerMath.sqrt ((8000001 / 2000000 : ℚ) * (8000001 / 2000000)) = 8000001 / 2000000 := by
    show Rat.sqrt _ = _
    rw [Rat.sqrt_eq]; norm_num
  have hs : cornerSketchAuto.scale = 1 := rfl
  have hman : cornerSketchAuto.tangentArcManual = false := rfl
  have htan : ∀ x, cornerMath.tan x = 1 := fun _ => rfl
  simp only [arcFitStep, rampRadius, ParametricCurve.PointAt, ParametricCurve.TangentAt,
    ParametricCurve.LengthForAuto, cornerCurve0, offsetCurve1, cornerCurve1, if_true,
    Vector.Minus, Vector.Plus, Vector.ScaledBy, Vector.Magnitude, Vector.MagSquared,
    Vector.WithMagnitude, Vector.AtIntersectionOfLines, Vector.Cross, Vector.Dot,
    Vector.DivProjected, hs, hman, htan, Bool.false_eq_true, if_false]
  have e0 : ((4 : ℚ) - 0) * (4 - 0) + (0 - 0) * (0 - 0) + (0 - 0) * (0 - 0) = 16 := by norm_num
  have e1 : ((0 : ℚ) - 0) * (0 - 0) + (4 - -(1 / 2000000)) * (4 - -(1 / 2000000))
      + (0 - 0) * (0 - 0) = 8000001 / 2000000 * (8000001 / 2000000) := by norm_num
  rw [e0, e1, hm0, hm1, if_neg (by decide)]
  constructor
  · norm_num
  · ring_nf
    rw [if_neg (by norm_num)]
    norm_num

/-- With the automatic radius, the corner example with the second segment
starting `5e-7` before the corner, which `Equals` accepts as the same point:
the loop ends with the radius `4/3` and the parameter `t1 = 8000003/24000003`,
above `1/3`.  On doubles, for two curves with `LengthForAuto = 5/3` and
`tan(theta/2) = tan(0.6)`, the distance `r / tan(theta/2)` is above
`LengthForAuto`. -/
theorem arcFit_auto_radius_counterexample :
    offsetCurve1.p0.Equals cornerCurve0.p0 cornerMath.LENGTH_EPS = true ∧
    (arcFit cornerMath cornerSketchAuto cornerCurve0 offsetCurve1 ⟨0, 0, 1⟩).r = 4 / 3 ∧
    (arcFit cornerMath cornerSketchAuto cornerCurve0 offsetCurve1 ⟨0, 0, 1⟩).t1
      = 8000003 / 24000003 ∧
    1 / 3 < (arcFit cornerMath cornerSketchAuto cornerCurve0 offsetCurve1 ⟨0, 0, 1⟩).t1 ∧
    (5 : F64) / 3 <
      Numeric.autoRadius 1 ((5 : F64) / 3) ((5 : F64) / 3) Numeric.tanSixTenths
        / Numeric.tanSixTenths := by
  have hfit : arcFit cornerMath cornerSketchAuto cornerCurve0 offsetCurve1 ⟨0, 0, 1⟩
      = arcFitStep cornerMath cornerSketchAuto cornerCurve0 offsetCurve1 ⟨0, 0, 1⟩ 1000 1019
        (iterUp (arcFitStep cornerMath cornerSketchAuto cornerCurve0 offsetCurve1 ⟨0, 0, 1⟩ 1000)
          1019 arcFitStart) := by
    unfold arcFit
    rw [forUp_eq_iterUp]
    show iterUp _ (1019 + 1) _ = _
    rw [iterUp]
    rfl
  obtain ⟨hr, ht⟩ := arcFitStep_offset
    (iterUp (arcFitStep cornerMath cornerSketchAuto cornerCurve0 offsetCurve1 ⟨0, 0, 1⟩ 1000)
      1019 arcFitStart)
  rw [hfit, hr, ht]
  refine ⟨?_, rfl, rfl, by norm_num, ?_⟩
  · norm_num [Vector.Equals, Vector.Minus, Vector.MagSquared, offsetCurve1, cornerCurve1,
      cornerCurve0, cornerMath]
  · set_option maxRecDepth 100000 in decide

end Sketch
end SolveSpace

